import Mathlib

/-!
# HFS+ read-only driver (GrubFS, grub-core/fs/hfsplus.c)

A shallow embedding of the B-tree engine, the extent resolver, the directory
iterator and the volume validation of `hfsplus.c`, followed by theorems about
them.

Conventions of the embedding.

* C unsigned integers are `Nat`; where the C code can wrap, the wrap is written
  out (`% 2 ^ 64`).  On-disk fields are kept *raw*, as the host reads them from
  memory, and decoded with `grub_be_to_cpu16/32`, which take the host byte
  order (`le = true` for a little-endian host) as an argument.
* Global state (`grub_errno`, the allocator, and a chronological trace of the
  externally visible actions) is passed explicitly as a `grub_env`.
* Loops whose termination is not structural carry a `fuel` argument and return
  `none` when it runs out; termination theorems show that enough fuel exists.
* Types and helpers declared in headers outside this file (`grub/hfsplus.h`,
  `grub/fshelp.h`, `grub/err.h`) are represented field by field: a record
  pointer into a node buffer is an abstract value `R` together with the reads
  the code performs through it.
-/

namespace Hfsplus

/-! ## Byte order -/

/-- Swap the two bytes of a 16-bit value (the argument is truncated to 16 bits). -/
def grub_swap_bytes16 (x : Nat) : Nat :=
  (x % 256) * 256 + x / 256 % 256

/-- Reverse the four bytes of a 32-bit value (the argument is truncated to 32 bits). -/
def grub_swap_bytes32 (x : Nat) : Nat :=
  (x % 256) * 16777216 + (x / 256 % 256) * 65536 + (x / 65536 % 256) * 256
    + x / 16777216 % 256

/-- Decode a big-endian 16-bit field read raw by the host: a byte swap on a
little-endian host, the identity on a big-endian one. -/
def grub_be_to_cpu16 (le : Bool) (x : Nat) : Nat :=
  if le then grub_swap_bytes16 x else x % 65536

/-- Decode a big-endian 32-bit field read raw by the host. -/
def grub_be_to_cpu32 (le : Bool) (x : Nat) : Nat :=
  if le then grub_swap_bytes32 x else x % 4294967296

/-- Decode a big-endian 64-bit field read raw by the host. -/
def grub_be_to_cpu64 (le : Bool) (x : Nat) : Nat :=
  if le then grub_swap_bytes32 (x % 4294967296) * 4294967296
    + grub_swap_bytes32 (x / 4294967296)
  else x % 18446744073709551616

/-! ## Errors, allocator and trace -/

/-- Error codes of `grub_err_t` that this file raises or inspects. -/
inductive grub_err_t
  | GRUB_ERR_NONE
  | GRUB_ERR_OUT_OF_MEMORY
  | GRUB_ERR_BAD_FILE_TYPE
  | GRUB_ERR_FILE_NOT_FOUND
  | GRUB_ERR_BAD_FS
  | GRUB_ERR_READ_ERROR
  | GRUB_ERR_OUT_OF_RANGE
  deriving DecidableEq, Repr

/-- The message strings passed to `grub_error` in `hfsplus.c`. -/
inductive grub_errmsg
  /-- no message recorded -/
  | no_message
  /-- "HFS+ btree loop" -/
  | btree_loop
  /-- "couldn't read i-node" -/
  | couldnt_read_inode
  /-- "not a HFS+ filesystem" -/
  | not_hfsplus
  /-- "extra extents found in an extend overflow file" -/
  | extra_extents
  /-- "no block found for the file id 0x%x and the block offset 0x%x" -/
  | no_block_found
  deriving DecidableEq, Repr

/-- One extent descriptor `struct grub_hfsplus_extent`: raw `start` and `count`. -/
structure grub_hfsplus_extent where
  start : Nat
  count : Nat
  deriving DecidableEq, Repr

/-- The fixed array of 8 extents of a fork or of an overflow record. -/
abbrev grub_hfsplus_extents := Mathlib.Vector grub_hfsplus_extent 8

/-- The fields of `struct grub_hfsplus_file` (alias `grub_fshelp_node`) that
`hfsplus.c` touches.  The back pointer `data` to the mounted volume is not a
field here: every node of one volume shares it, and the functions that need the
volume take it as an argument.  `mtime` is the 32-bit pattern stored in the
field; `cbuf`, `compress_index` and `file` are pointer values. -/
structure grub_hfsplus_file where
  fileid : Nat
  size : Nat
  resource_size : Nat
  mtime : Nat
  compressed : Bool
  extents : grub_hfsplus_extents
  resource_extents : grub_hfsplus_extents
  cbuf : Nat
  compress_index : Nat
  file : Nat
  deriving DecidableEq

/-- Search key for the catalog tree, `struct grub_hfsplus_catkey_internal`;
`name` is the pointed-to UTF-16 string (a null pointer is the empty list). -/
structure grub_hfsplus_catkey_internal where
  parent : Nat
  name : List Nat
  namelen : Nat
  deriving DecidableEq, Repr

/-- Search key for the extents-overflow tree, `struct grub_hfsplus_extkey_internal`. -/
structure grub_hfsplus_extkey_internal where
  fileid : Nat
  start : Nat
  type : Nat
  deriving DecidableEq, Repr

/-- The two uses of `struct grub_hfsplus_key_internal` (a C union), as recorded
in the trace. -/
inductive grub_hfsplus_key_internal
  | catkey (k : grub_hfsplus_catkey_internal)
  | extkey (k : grub_hfsplus_extkey_internal)
  deriving DecidableEq, Repr

/-- Externally visible actions, recorded in the order they happen. -/
inductive grub_event
  /-- a call of `grub_malloc` and whether it returned a buffer -/
  | malloc (ok : Bool)
  /-- a node-sized `grub_hfsplus_read_file` on the tree with the given file id -/
  | read_node (fileid : Nat) (node : Nat) (ok : Bool)
  /-- a call of `grub_hfsplus_btree_search` on the tree with the given file id -/
  | search (fileid : Nat) (key : grub_hfsplus_key_internal)
  /-- a call of the directory hook with `(filename, filetype, node)` -/
  | hook (filename : List Nat) (filetype : Nat) (node : grub_hfsplus_file)
  /-- a `grub_disk_read_z` of a volume header at the given sector -/
  | disk_read (sector : Nat)
  deriving DecidableEq

/-- The global state the code reads and writes: the pending error, the outcomes
of the allocation requests still to come (`[]` means every further request
succeeds), and the trace. -/
structure grub_env where
  grub_errno : grub_err_t
  grub_errmsg : grub_errmsg
  mm : List Bool
  trace : List grub_event
  deriving DecidableEq

/-- Append one action to the trace. -/
def trace_event (env : grub_env) (ev : grub_event) : grub_env :=
  { env with trace := env.trace ++ [ev] }

/-- A file read that returned `<= 0`, leaving error `e` (`GRUB_ERR_NONE`: it
raised none, `grub_errno` keeps its value). -/
def read_failed (env : grub_env) (e : grub_err_t) : grub_env :=
  { env with grub_errno := if e = grub_err_t.GRUB_ERR_NONE then env.grub_errno else e }

/-- The call `grub_error (n, msg)`: records the error and returns `n`. -/
def grub_error (env : grub_env) (n : grub_err_t) (msg : grub_errmsg) :
    grub_err_t × grub_env :=
  (n, { env with grub_errno := n, grub_errmsg := msg })

/-- Modelled from the spec: the allocator is not part of this file; per the
error taxonomy an allocation failure is `OutOfMemory`, so a failed
`grub_malloc` returns null and leaves `grub_errno = GRUB_ERR_OUT_OF_MEMORY`.
Returns whether a buffer was obtained. -/
def grub_malloc (env : grub_env) : Bool × grub_env :=
  match env.mm with
  | [] => (true, trace_event env (grub_event.malloc true))
  | true :: rest => (true, trace_event { env with mm := rest } (grub_event.malloc true))
  | false :: rest =>
    (false, trace_event
      { env with mm := rest, grub_errno := grub_err_t.GRUB_ERR_OUT_OF_MEMORY }
      (grub_event.malloc false))

/-! ## B-tree nodes and trees -/

/-- Node type `GRUB_HFSPLUS_BTNODE_TYPE_LEAF`. -/
def GRUB_HFSPLUS_BTNODE_TYPE_LEAF : Int := -1

/-- Node type `GRUB_HFSPLUS_BTNODE_TYPE_INDEX`. -/
def GRUB_HFSPLUS_BTNODE_TYPE_INDEX : Int := 0

/-- Node type `GRUB_HFSPLUS_BTNODE_TYPE_HEADER`. -/
def GRUB_HFSPLUS_BTNODE_TYPE_HEADER : Int := 1

/-- Node type `GRUB_HFSPLUS_BTNODE_TYPE_MAP`. -/
def GRUB_HFSPLUS_BTNODE_TYPE_MAP : Int := 2

/-- A node buffer as the code sees it: the descriptor fields `next` (raw
32-bit), `type` (signed byte) and `count` (raw 16-bit) of
`struct grub_hfsplus_btnode`, and `recptr i`, the record pointer that
`grub_hfsplus_btree_recptr (btree, node, i)` returns. -/
structure grub_hfsplus_btnode (R : Type) where
  next : Nat
  type : Int
  count : Nat
  recptr : Nat → R

/-- The reads `grub_hfsplus_btree_search` performs through a record pointer
`currkey`: the raw `keylen` field, and the raw 32-bit value
`grub_get_unaligned32 ((char *) currkey + off)`. -/
structure grub_hfsplus_key_mem (R : Type) where
  keylen : R → Nat
  unaligned32 : R → Nat → Nat

/-- A `struct grub_hfsplus_btree`: the underlying file, the root node id, the
node size, and the tree image.  `read_node id` is the outcome of
`grub_hfsplus_read_file (&btree->file, 0, 0, id * nodesize, nodesize, buf)`:
the node read into the buffer, or, when the call returns `<= 0`, the error the
reader left in `grub_errno` (`GRUB_ERR_NONE` if it left none). -/
structure grub_hfsplus_btree (R : Type) where
  file : grub_hfsplus_file
  root : Nat
  nodesize : Nat
  read_node : Nat → Except grub_err_t (grub_hfsplus_btnode R)

/-- What `grub_hfsplus_btree_search` hands back: the returned error code and
the values stored through `matchnode` and `keyoffset` (`none`: nothing stored;
`matchnode = some none`: a null pointer stored). -/
structure grub_hfsplus_search_result (R : Type) where
  err : grub_err_t
  matchnode : Option (Option (grub_hfsplus_btnode R))
  keyoffset : Option Nat

/-- Outcome of the record loop of `grub_hfsplus_btree_search` on one node. -/
inductive grub_hfsplus_scan (R : Type)
  /-- the `return 0` inside the loop: exact match at record `rec` -/
  | found (rec : Nat)
  /-- the loop ended (exhausted or `break`) with these `currnode`, `match` -/
  | done (currnode : Nat) (matched : Bool)

/-- The test `!(node_count & (node_count - 1))` on a 64-bit counter. -/
def checkpoint_due (node_count : Nat) : Bool :=
  node_count &&& ((node_count + (2 ^ 64 - 1)) % 2 ^ 64) = 0

/-- The loop `for (rec = 0; rec < count; rec++)` of
`grub_hfsplus_btree_search`, with `todo` iterations left, the next at index
`rec`. -/
def btree_search_records {R KI : Type} (le : Bool) (mem : grub_hfsplus_key_mem R)
    (nodedesc : grub_hfsplus_btnode R) (key : KI) (compare_keys : R → KI → Int) :
    Nat → Nat → Nat → Bool → grub_hfsplus_scan R
  | 0, _, currnode, matched => grub_hfsplus_scan.done currnode matched
  | todo + 1, rec, currnode, matched =>
    let currkey := nodedesc.recptr rec
    if nodedesc.type = GRUB_HFSPLUS_BTNODE_TYPE_LEAF ∧ compare_keys currkey key = 0 then
      grub_hfsplus_scan.found rec
    else if nodedesc.type = GRUB_HFSPLUS_BTNODE_TYPE_INDEX then
      if compare_keys currkey key > 0 then
        grub_hfsplus_scan.done currnode matched
      else
        let pointer := mem.unaligned32 currkey (grub_be_to_cpu16 le (mem.keylen currkey) + 2)
        btree_search_records le mem nodedesc key compare_keys todo (rec + 1)
          (grub_be_to_cpu32 le pointer) true
    else
      btree_search_records le mem nodedesc key compare_keys todo (rec + 1) currnode matched

/-- What one pass through the body of a C loop does: leave the function with a
value, or go round again with a new loop state. -/
inductive loop_ctl (A S : Type)
  | ret (a : A)
  | again (s : S)

/-- A C loop `while (1) { body }` run for at most `fuel` passes; `none` when
the fuel runs out before the body returns. -/
def while_loop {A S : Type} (body : S → loop_ctl A S) : Nat → S → Option A
  | 0, _ => none
  | fuel + 1, s =>
    match body s with
    | loop_ctl.ret a => some a
    | loop_ctl.again s1 => while_loop body fuel s1

/-- The loop state after `k` passes that all went round again (`none` if one of
them returned). -/
def loop_state {A S : Type} (body : S → loop_ctl A S) : Nat → S → Option S
  | 0, s => some s
  | k + 1, s =>
    match body s with
    | loop_ctl.ret _ => none
    | loop_ctl.again s1 => loop_state body k s1

/-- The variables live across the `while (1)` loop of
`grub_hfsplus_btree_search`, with the global state. -/
structure btree_search_state where
  currnode : Nat
  save_node : Nat
  node_count : Nat
  env : grub_env

/-- The body of the `while (1)` loop of `grub_hfsplus_btree_search`. -/
def btree_search_body {R KI : Type} (le : Bool) (mem : grub_hfsplus_key_mem R)
    (btree : grub_hfsplus_btree R) (key : KI) (compare_keys : R → KI → Int)
    (s : btree_search_state) :
    loop_ctl (grub_hfsplus_search_result R × grub_env) btree_search_state :=
  if s.save_node = s.currnode then
    let r := grub_error s.env grub_err_t.GRUB_ERR_BAD_FS grub_errmsg.btree_loop
    loop_ctl.ret (⟨r.1, none, none⟩, r.2)
  else
    let save_node := if checkpoint_due s.node_count then s.currnode else s.save_node
    let node_count := (s.node_count + 1) % 2 ^ 64
    match btree.read_node s.currnode with
    | Except.error e =>
      let env := read_failed
        (trace_event s.env (grub_event.read_node btree.file.fileid s.currnode false)) e
      let r := grub_error env grub_err_t.GRUB_ERR_BAD_FS grub_errmsg.couldnt_read_inode
      loop_ctl.ret (⟨r.1, none, none⟩, r.2)
    | Except.ok nodedesc =>
      let env := trace_event s.env (grub_event.read_node btree.file.fileid s.currnode true)
      match btree_search_records le mem nodedesc key compare_keys
          (grub_be_to_cpu16 le nodedesc.count) 0 s.currnode false with
      | grub_hfsplus_scan.found rec =>
        loop_ctl.ret (⟨grub_err_t.GRUB_ERR_NONE, some (some nodedesc), some rec⟩, env)
      | grub_hfsplus_scan.done currnode matched =>
        if matched then
          loop_ctl.again ⟨currnode, save_node, node_count, env⟩
        else
          loop_ctl.ret (⟨grub_err_t.GRUB_ERR_NONE, some none, none⟩, env)

/-- The loop state on entry to the `while (1)` loop of
`grub_hfsplus_btree_search`: `currnode = btree->root`,
`save_node = currnode - 1` (64-bit), `node_count = 0`. -/
def btree_search_init {R : Type} (btree : grub_hfsplus_btree R) (env : grub_env) :
    btree_search_state :=
  ⟨btree.root, (btree.root + (2 ^ 64 - 1)) % 2 ^ 64, 0, env⟩

/-- The function `grub_hfsplus_btree_search (btree, key, compare_keys, matchnode, keyoffset)`. -/
def grub_hfsplus_btree_search {R KI : Type} (le : Bool) (mem : grub_hfsplus_key_mem R)
    (fuel : Nat) (btree : grub_hfsplus_btree R) (key : KI)
    (compare_keys : R → KI → Int) (env : grub_env) :
    Option (grub_hfsplus_search_result R × grub_env) :=
  if btree.nodesize = 0 then
    some (⟨grub_err_t.GRUB_ERR_NONE, some none, none⟩, env)
  else
    let a := grub_malloc env
    if a.1 then
      while_loop (btree_search_body le mem btree key compare_keys) fuel
        (btree_search_init btree a.2)
    else
      some (⟨a.2.grub_errno, none, none⟩, a.2)

/-! ## B-tree iteration -/

/-- The loop `for (rec = first_rec; rec < count; rec++)` of
`grub_hfsplus_btree_iterate_node`, with `todo` iterations left: calls the hook
on each record until it returns non-zero.  Returns whether the hook stopped the
loop, with the hook argument and global state it left. -/
def btree_iterate_records {R σ : Type} (first_node : grub_hfsplus_btnode R)
    (hook : R → σ → grub_env → Int × σ × grub_env) :
    Nat → Nat → σ → grub_env → Bool × σ × grub_env
  | 0, _, hook_arg, env => (false, hook_arg, env)
  | todo + 1, rec, hook_arg, env =>
    let h := hook (first_node.recptr rec) hook_arg env
    if h.1 ≠ 0 then (true, h.2.1, h.2.2)
    else btree_iterate_records first_node hook todo (rec + 1) h.2.1 h.2.2

/-- The variables live across the `for (;;)` loop of
`grub_hfsplus_btree_iterate_node`: the node buffer, `first_rec`, `saved_node`,
`node_count`, the state behind `hook_arg`, and the global state. -/
structure btree_iterate_state (R σ : Type) where
  first_node : grub_hfsplus_btnode R
  first_rec : Nat
  saved_node : Nat
  node_count : Nat
  hook_arg : σ
  env : grub_env

/-- What `grub_hfsplus_btree_iterate_node` leaves: its return value, the state
behind `hook_arg`, and the global state. -/
structure btree_iterate_result (σ : Type) where
  ret : Int
  hook_arg : σ
  env : grub_env

/-- The record loop of one pass, on the node in the buffer: records
`first_rec`, ..., `count - 1`. -/
def btree_iterate_visit {R σ : Type} (le : Bool)
    (hook : R → σ → grub_env → Int × σ × grub_env) (s : btree_iterate_state R σ) :
    Bool × σ × grub_env :=
  btree_iterate_records s.first_node hook
    (grub_be_to_cpu16 le s.first_node.count - s.first_rec) s.first_rec s.hook_arg s.env

/-- The body of the `for (;;)` loop of `grub_hfsplus_btree_iterate_node`. -/
def btree_iterate_body {R σ : Type} (le : Bool) (btree : grub_hfsplus_btree R)
    (hook : R → σ → grub_env → Int × σ × grub_env) (s : btree_iterate_state R σ) :
    loop_ctl (btree_iterate_result σ) (btree_iterate_state R σ) :=
  let v := btree_iterate_visit le hook s
  if v.1 then
    loop_ctl.ret ⟨1, v.2.1, v.2.2⟩
  else if s.first_node.next = 0 then
    loop_ctl.ret ⟨0, v.2.1, v.2.2⟩
  else if s.node_count ≠ 0 ∧ s.first_node.next = s.saved_node then
    loop_ctl.ret ⟨0, v.2.1,
      (grub_error v.2.2 grub_err_t.GRUB_ERR_BAD_FS grub_errmsg.btree_loop).2⟩
  else
    let saved_node := if checkpoint_due s.node_count then s.first_node.next else s.saved_node
    let node_count := (s.node_count + 1) % 2 ^ 64
    let id := grub_be_to_cpu32 le s.first_node.next
    match btree.read_node id with
    | Except.error e =>
      loop_ctl.ret ⟨1, v.2.1,
        read_failed (trace_event v.2.2 (grub_event.read_node btree.file.fileid id false)) e⟩
    | Except.ok n =>
      loop_ctl.again ⟨n, 0, saved_node, node_count, v.2.1,
        trace_event v.2.2 (grub_event.read_node btree.file.fileid id true)⟩

/-- The function `grub_hfsplus_btree_iterate_node (btree, first_node, first_rec,
hook, hook_arg)`; `saved_node` starts as `-1` (64-bit), `node_count` as 0. -/
def grub_hfsplus_btree_iterate_node {R σ : Type} (le : Bool) (fuel : Nat)
    (btree : grub_hfsplus_btree R) (first_node : grub_hfsplus_btnode R) (first_rec : Nat)
    (hook : R → σ → grub_env → Int × σ × grub_env) (hook_arg : σ) (env : grub_env) :
    Option (btree_iterate_result σ) :=
  while_loop (btree_iterate_body le btree hook) fuel
    ⟨first_node, first_rec, 2 ^ 64 - 1, 0, hook_arg, env⟩

/-! ## Mounting -/

/-- Constant `GRUB_HFS_MAGIC` of `grub/hfs.h` ("BD"), the HFS wrapper magic. -/
def GRUB_HFS_MAGIC : Nat := 0x4244

/-- Constant `GRUB_HFSPLUS_MAGIC` of `grub/hfsplus.h` ("H+"). -/
def GRUB_HFSPLUS_MAGIC : Nat := 0x482B

/-- Constant `GRUB_HFSPLUSX_MAGIC` of `grub/hfsplus.h` ("HX"). -/
def GRUB_HFSPLUSX_MAGIC : Nat := 0x4858

/-- Constant `GRUB_HFSPLUS_SBLOCK` of `grub/hfsplus.h`: the sector of the volume header. -/
def GRUB_HFSPLUS_SBLOCK : Nat := 2

/-- Constant `GRUB_DISK_SECTOR_SIZE` of `grub/disk.h`. -/
def GRUB_DISK_SECTOR_SIZE : Nat := 512

/-- Constant `GRUB_DISK_SECTOR_BITS` of `grub/disk.h`. -/
def GRUB_DISK_SECTOR_BITS : Nat := 9

/-- Key-compare byte `GRUB_HFSPLUSX_BINARYCOMPARE`. -/
def GRUB_HFSPLUSX_BINARYCOMPARE : Nat := 0xBC

/-- Key-compare byte `GRUB_HFSPLUSX_CASEFOLDING`. -/
def GRUB_HFSPLUSX_CASEFOLDING : Nat := 0xCF

/-- File id `GRUB_HFSPLUS_FILEID_ROOTDIR`. -/
def GRUB_HFSPLUS_FILEID_ROOTDIR : Nat := 2

/-- File id `GRUB_HFSPLUS_FILEID_OVERFLOW`. -/
def GRUB_HFSPLUS_FILEID_OVERFLOW : Nat := 3

/-- File id `GRUB_HFSPLUS_FILEID_CATALOG`. -/
def GRUB_HFSPLUS_FILEID_CATALOG : Nat := 4

/-- File id `GRUB_HFSPLUS_FILEID_ATTR`. -/
def GRUB_HFSPLUS_FILEID_ATTR : Nat := 8

/-- The fields of the HFS wrapper superblock `struct grub_hfs_sblock` that the
mount reads, raw. -/
structure grub_hfs_sblock where
  magic : Nat
  first_block : Nat
  blksz : Nat
  embed_sig : Nat
  embed_extent_first_block : Nat

/-- A fork descriptor `struct grub_hfsplus_forkdata`: raw 64-bit size and the 8
extents. -/
structure grub_hfsplus_forkdata where
  size : Nat
  extents : grub_hfsplus_extents

/-- The fields of `struct grub_hfsplus_volheader` that `hfsplus.c` reads, raw. -/
structure grub_hfsplus_volheader where
  magic : Nat
  blksize : Nat
  utime : Nat
  num_serial : Nat
  extents_file : grub_hfsplus_forkdata
  catalog_file : grub_hfsplus_forkdata
  attr_file : grub_hfsplus_forkdata

/-- The two views of the boot-block buffer (the C union `volheader`). -/
structure grub_volheader_union where
  hfs : grub_hfs_sblock
  hfsplus : grub_hfsplus_volheader

/-- The B-tree header `struct grub_hfsplus_btheader`, raw. -/
structure grub_hfsplus_btheader where
  depth : Nat
  root : Nat
  leaf_records : Nat
  first_leaf_node : Nat
  last_leaf_node : Nat
  nodesize : Nat
  keysize : Nat
  total_nodes : Nat
  free_nodes : Nat
  reserved1 : Nat
  clump_size : Nat
  btree_type : Nat
  key_compare : Nat
  attributes : Nat

/-- The device as the mount sees it.  `read_volheader sector` is what
`grub_disk_read_z (disk, sector, 0, sizeof (volheader), &volheader)` does: the
error it raises (`GRUB_ERR_NONE` for none) and the buffer contents afterwards.
`read_btheader file embedded_offset log2blksize` and `read_btnode` are the
outcomes of the `grub_hfsplus_read_file` calls that fetch a tree header and the
first node descriptor of the file: the bytes decoded, or, when the call returns
`<= 0`, the error the reader left.  The three images are the node contents of
the three trees. -/
structure grub_disk (CatR ExtR AttrR : Type) where
  read_volheader : Nat → grub_err_t × grub_volheader_union
  read_btheader : grub_hfsplus_file → Nat → Nat → Except grub_err_t grub_hfsplus_btheader
  read_btnode : grub_hfsplus_file → Nat → Nat → Except grub_err_t Unit
  catalog_image : Nat → Except grub_err_t (grub_hfsplus_btnode CatR)
  extoverflow_image : Nat → Except grub_err_t (grub_hfsplus_btnode ExtR)
  attr_image : Nat → Except grub_err_t (grub_hfsplus_btnode AttrR)

/-- The mounted volume `struct grub_hfsplus_data`. -/
structure grub_hfsplus_data (CatR ExtR AttrR : Type) where
  volheader : grub_hfsplus_volheader
  catalog_tree : grub_hfsplus_btree CatR
  extoverflow_tree : grub_hfsplus_btree ExtR
  attr_tree : grub_hfsplus_btree AttrR
  dirroot : grub_hfsplus_file
  opened_file : grub_hfsplus_file
  embedded_offset : Nat
  log2blksize : Nat
  case_sensitive : Bool

/-- The label `fail:` of `grub_hfsplus_mount`: an out-of-range error becomes
`GRUB_ERR_BAD_FS`, the volume is freed and 0 returned. -/
def mount_fail {D : Type} (env : grub_env) : Option D × grub_env :=
  if env.grub_errno = grub_err_t.GRUB_ERR_OUT_OF_RANGE then
    (none, (grub_error env grub_err_t.GRUB_ERR_BAD_FS grub_errmsg.not_hfsplus).2)
  else (none, env)

/-- First stage of `grub_hfsplus_mount`: read the boot block and, behind an HFS
wrapper, the embedded volume header.  `Except.error env` is a `goto fail` with
that state; `Except.ok` carries `embedded_offset`, the header to validate and
the state. -/
def mount_read_volheader {CatR ExtR AttrR : Type} (le : Bool)
    (disk : grub_disk CatR ExtR AttrR) (env : grub_env) :
    Except grub_env (Nat × grub_hfsplus_volheader × grub_env) :=
  let r1 := disk.read_volheader GRUB_HFSPLUS_SBLOCK
  let env1 := read_failed (trace_event env (grub_event.disk_read GRUB_HFSPLUS_SBLOCK)) r1.1
  if env1.grub_errno ≠ grub_err_t.GRUB_ERR_NONE then Except.error env1
  else if grub_be_to_cpu16 le r1.2.hfs.magic = GRUB_HFS_MAGIC then
    if grub_be_to_cpu16 le r1.2.hfs.embed_sig ≠ GRUB_HFSPLUS_MAGIC then
      Except.error (grub_error env1 grub_err_t.GRUB_ERR_BAD_FS grub_errmsg.not_hfsplus).2
    else
      let extent_start := grub_be_to_cpu16 le r1.2.hfs.embed_extent_first_block
      let ablk_size := grub_be_to_cpu32 le r1.2.hfs.blksz
      let ablk_start := grub_be_to_cpu16 le r1.2.hfs.first_block
      let embedded_offset := ablk_start + extent_start * (ablk_size >>> GRUB_DISK_SECTOR_BITS)
      let r2 := disk.read_volheader (embedded_offset + GRUB_HFSPLUS_SBLOCK)
      let env2 := read_failed
        (trace_event env1 (grub_event.disk_read (embedded_offset + GRUB_HFSPLUS_SBLOCK))) r2.1
      if env2.grub_errno ≠ grub_err_t.GRUB_ERR_NONE then Except.error env2
      else Except.ok (embedded_offset, r2.2.hfsplus, env2)
  else Except.ok (0, r1.2.hfsplus, env1)

/-- The condition of the validation `if` of `grub_hfsplus_mount`: the decoded
magic is neither recognised value, or the raw `blksize` field is 0, or the raw
field has more than one bit set (`blksize & (blksize - 1)`, 32-bit), or the
decoded block size is below the sector size. -/
def mount_header_rejected (le : Bool) (vh : grub_hfsplus_volheader) : Bool :=
  (grub_be_to_cpu16 le vh.magic ≠ GRUB_HFSPLUS_MAGIC ∧
      grub_be_to_cpu16 le vh.magic ≠ GRUB_HFSPLUSX_MAGIC)
    ∨ vh.blksize = 0
    ∨ (vh.blksize &&& ((vh.blksize + (2 ^ 32 - 1)) % 2 ^ 32)) ≠ 0
    ∨ grub_be_to_cpu32 le vh.blksize < GRUB_DISK_SECTOR_SIZE

/-- The loop `for (log2blksize = 0; (1U << log2blksize) < blksize; log2blksize++);`
with `fuel` iterations left, from the current `log2blksize`. -/
def mount_log2blksize (blksize : Nat) : Nat → Nat → Nat
  | 0, log2blksize => log2blksize
  | fuel + 1, log2blksize =>
    if 2 ^ log2blksize % 2 ^ 32 < blksize then mount_log2blksize blksize fuel (log2blksize + 1)
    else log2blksize

/-- The shift counts at which the loop of `grub_hfsplus_mount` that computes
`log2blksize` evaluates `1U << data->log2blksize`, in order, with `fuel`
iterations left from the current `log2blksize`. -/
def mount_log2blksize_shifts (blksize : Nat) : Nat → Nat → List Nat
  | 0, _ => []
  | fuel + 1, log2blksize =>
    log2blksize ::
      (if 2 ^ log2blksize % 2 ^ 32 < blksize then
        mount_log2blksize_shifts blksize fuel (log2blksize + 1)
      else [])

/-- The file node the mount sets up for one of the three trees: file id,
`compressed = 0`, the fork's extents and decoded size; the other fields of the
freshly allocated volume are whatever the allocator returned (`uninit`). -/
def mount_tree_file (le : Bool) (uninit : grub_hfsplus_file) (fileid : Nat)
    (fork : grub_hfsplus_forkdata) : grub_hfsplus_file :=
  { uninit with
    fileid := fileid
    compressed := false
    extents := fork.extents
    size := grub_be_to_cpu64 le fork.size }

/-- Last stage of `grub_hfsplus_mount`, after the validation: set up the three
trees and read their headers. -/
def mount_trees {CatR ExtR AttrR : Type} (le : Bool) (disk : grub_disk CatR ExtR AttrR)
    (uninit : grub_hfsplus_file) (embedded_offset : Nat) (vh : grub_hfsplus_volheader)
    (env : grub_env) : Option (grub_hfsplus_data CatR ExtR AttrR) × grub_env :=
  let magic := grub_be_to_cpu16 le vh.magic
  let log2blksize := mount_log2blksize (grub_be_to_cpu32 le vh.blksize) 32 0
  let catalog_file := mount_tree_file le uninit GRUB_HFSPLUS_FILEID_CATALOG vh.catalog_file
  let attr_file := mount_tree_file le uninit GRUB_HFSPLUS_FILEID_ATTR vh.attr_file
  let extoverflow_file := mount_tree_file le uninit GRUB_HFSPLUS_FILEID_OVERFLOW vh.extents_file
  match disk.read_btheader catalog_file embedded_offset log2blksize with
  | Except.error e => mount_fail (read_failed env e)
  | Except.ok cat_header =>
    match disk.read_btheader extoverflow_file embedded_offset log2blksize with
    | Except.error e => mount_fail (read_failed env e)
    | Except.ok ext_header =>
      match disk.read_btnode extoverflow_file embedded_offset log2blksize with
      | Except.error e => mount_fail (read_failed env e)
      | Except.ok _ =>
        let attr := disk.read_btheader attr_file embedded_offset log2blksize
        let env1 := match attr with
          | Except.error e => { read_failed env e with grub_errno := grub_err_t.GRUB_ERR_NONE }
          | Except.ok _ => env
        let attr_root := match attr with
          | Except.error _ => 0
          | Except.ok h => grub_be_to_cpu32 le h.root
        let attr_nodesize := match attr with
          | Except.error _ => 0
          | Except.ok h => grub_be_to_cpu16 le h.nodesize
        (some
          { volheader := vh
            catalog_tree := ⟨catalog_file, grub_be_to_cpu32 le cat_header.root,
              grub_be_to_cpu16 le cat_header.nodesize, disk.catalog_image⟩
            extoverflow_tree := ⟨extoverflow_file, grub_be_to_cpu32 le ext_header.root,
              grub_be_to_cpu16 le ext_header.nodesize, disk.extoverflow_image⟩
            attr_tree := ⟨attr_file, attr_root, attr_nodesize, disk.attr_image⟩
            dirroot := { uninit with fileid := GRUB_HFSPLUS_FILEID_ROOTDIR }
            opened_file := uninit
            embedded_offset := embedded_offset
            log2blksize := log2blksize
            case_sensitive := decide (magic = GRUB_HFSPLUSX_MAGIC ∧
              cat_header.key_compare = GRUB_HFSPLUSX_BINARYCOMPARE) },
          env1)

/-- The function `grub_hfsplus_mount (disk)`.  `uninit` is the content of the
freshly allocated, uninitialised volume's file nodes. -/
def grub_hfsplus_mount {CatR ExtR AttrR : Type} (le : Bool)
    (disk : grub_disk CatR ExtR AttrR) (uninit : grub_hfsplus_file) (env : grub_env) :
    Option (grub_hfsplus_data CatR ExtR AttrR) × grub_env :=
  let a := grub_malloc env
  if a.1 then
    match mount_read_volheader le disk a.2 with
    | Except.error env1 => mount_fail env1
    | Except.ok (embedded_offset, vh, env1) =>
      if mount_header_rejected le vh then
        mount_fail (grub_error env1 grub_err_t.GRUB_ERR_BAD_FS grub_errmsg.not_hfsplus).2
      else
        mount_trees le disk uninit embedded_offset vh env1
  else (none, a.2)

/-! ## Extent resolution -/

/-- The on-disk key of the extents-overflow tree, `struct grub_hfsplus_extkey`,
raw. -/
structure grub_hfsplus_extkey where
  keylen : Nat
  type : Nat
  unused : Nat
  fileid : Nat
  start : Nat

/-- What the code reads through a record pointer of the extents-overflow
tree: the key, the array of 8 extents right after the key
(`(struct grub_hfsplus_extent *) (key + 1)`), and raw 32-bit words at byte
offsets (the child pointer of an index record). -/
structure grub_hfsplus_extrecord where
  extkey : grub_hfsplus_extkey
  extents : grub_hfsplus_extents
  unaligned32 : Nat → Nat

/-- The reads of the search through a record pointer of the extents-overflow tree. -/
def extrecord_mem : grub_hfsplus_key_mem grub_hfsplus_extrecord :=
  ⟨fun r => r.extkey.keylen, fun r off => r.unaligned32 off⟩

/-- The function `grub_hfsplus_cmp_extkey (keya, keyb)`. -/
def grub_hfsplus_cmp_extkey (le : Bool) (keya : grub_hfsplus_extrecord)
    (keyb : grub_hfsplus_extkey_internal) : Int :=
  let extkey_a := keya.extkey
  if grub_be_to_cpu32 le extkey_a.fileid > keyb.fileid then 1
  else if grub_be_to_cpu32 le extkey_a.fileid < keyb.fileid then -1
  else if extkey_a.type > keyb.type then 1
  else if extkey_a.type < keyb.type then -1
  else if extkey_a.type > keyb.type then 1
  else if extkey_a.type < keyb.type then -1
  else if grub_be_to_cpu32 le extkey_a.start > keyb.start then 1
  else if grub_be_to_cpu32 le extkey_a.start < keyb.start then -1
  else 0

/-- The loop of `grub_hfsplus_find_block` over the extents still to scan:
the block found, if any, and `blksleft` when the loop is left. -/
def find_block_loop (le : Bool) : List grub_hfsplus_extent → Nat → Option Nat × Nat
  | [], blksleft => (none, blksleft)
  | e :: rest, blksleft =>
    if blksleft < grub_be_to_cpu32 le e.count then
      (some ((grub_be_to_cpu32 le e.start + blksleft) % 2 ^ 64), blksleft)
    else find_block_loop le rest (blksleft - grub_be_to_cpu32 le e.count)

/-- The function `grub_hfsplus_find_block (extent, &fileblock)`: the return
value and the value of `*fileblock` afterwards (written only on a miss). -/
def grub_hfsplus_find_block (le : Bool) (extent : grub_hfsplus_extents) (fileblock : Nat) :
    Nat × Nat :=
  match find_block_loop le extent.toList fileblock with
  | (some blk, _) => (blk, fileblock)
  | (none, blksleft) => (0xffffffffffffffff, blksleft)

/-- The variables live across the `while (1)` loop of
`grub_hfsplus_read_block`: the current extent list, `blksleft`, and the global
state (`nnode` is freed and reset at the top of every pass). -/
structure read_block_state where
  extents : grub_hfsplus_extents
  blksleft : Nat
  env : grub_env

/-- The body of the `while (1)` loop of `grub_hfsplus_read_block`; a `break`
is the `return -1` that follows the loop.  `sfuel` is the fuel given to each
tree search; the pass returns `none` if a search runs out of it.  The key's
`start` is `fileblock - blksleft` stored in a 32-bit field (`blksleft` never
exceeds `fileblock`). -/
def read_block_body {CatR AttrR : Type} (le : Bool) (sfuel : Nat)
    (data : grub_hfsplus_data CatR grub_hfsplus_extrecord AttrR) (node : grub_hfsplus_file)
    (fileblock : Nat) (s : read_block_state) :
    loop_ctl (Option (Nat × grub_env)) read_block_state :=
  let f := grub_hfsplus_find_block le s.extents s.blksleft
  if f.1 ≠ 0xffffffffffffffff then
    loop_ctl.ret (some (f.1, s.env))
  else if node.fileid = GRUB_HFSPLUS_FILEID_OVERFLOW then
    loop_ctl.ret (some (0xffffffffffffffff,
      (grub_error s.env grub_err_t.GRUB_ERR_READ_ERROR grub_errmsg.extra_extents).2))
  else
    let extoverflow : grub_hfsplus_extkey_internal :=
      ⟨node.fileid, (fileblock - f.2) % 2 ^ 32, if node.compressed then 0xff else 0⟩
    let env1 := trace_event s.env (grub_event.search data.extoverflow_tree.file.fileid
      (grub_hfsplus_key_internal.extkey extoverflow))
    match grub_hfsplus_btree_search le extrecord_mem sfuel data.extoverflow_tree extoverflow
        (grub_hfsplus_cmp_extkey le) env1 with
    | none => loop_ctl.ret none
    | some (r, env2) =>
      match (if r.err ≠ grub_err_t.GRUB_ERR_NONE then none else r.matchnode.join) with
      | none =>
        loop_ctl.ret (some (0xffffffffffffffff,
          (grub_error env2 grub_err_t.GRUB_ERR_READ_ERROR grub_errmsg.no_block_found).2))
      | some nnode =>
        loop_ctl.again ⟨(nnode.recptr (r.keyoffset.getD 0)).extents, f.2, env2⟩

/-- The function `grub_hfsplus_read_block (node, fileblock)` on the volume
`data` (`node->data`). -/
def grub_hfsplus_read_block {CatR AttrR : Type} (le : Bool) (fuel sfuel : Nat)
    (data : grub_hfsplus_data CatR grub_hfsplus_extrecord AttrR) (node : grub_hfsplus_file)
    (fileblock : Nat) (env : grub_env) : Option (Nat × grub_env) :=
  (while_loop (read_block_body le sfuel data node fileblock) fuel
    ⟨if node.compressed then node.resource_extents else node.extents, fileblock, env⟩).join

/-! ## Catalog keys and directory iteration -/

/-- The on-disk catalog key `struct grub_hfsplus_catkey`, raw; `name i` is the
16-bit cell `name[i]` of the key's name array. -/
structure grub_hfsplus_catkey where
  keylen : Nat
  parent : Nat
  namelen : Nat
  name : Nat → Nat

/-- The fields of the catalog record body `struct grub_hfsplus_catfile` that
`hfsplus.c` reads, raw. -/
structure grub_hfsplus_catfile where
  type : Nat
  flags : Nat
  parentid : Nat
  fileid : Nat
  mtime : Nat
  mode : Nat
  data : grub_hfsplus_forkdata
  resource : grub_hfsplus_forkdata

/-- What the code reads through a record pointer of the catalog tree: the
key, the record body found at a byte offset from the record pointer, and raw
32-bit words at byte offsets (the child pointer of an index record).  Key and
body lie in the same node buffer and the body is located by `keylen` alone,
so it may overlap the cells `catkey->name` that `list_nodes` rewrites in
place: `fileinfo name off` is the body read at byte offset `off` when the name
cells of the buffer hold `name` (`catkey.name` is their on-disk content). -/
structure grub_hfsplus_catrecord where
  catkey : grub_hfsplus_catkey
  fileinfo : (Nat → Nat) → Nat → grub_hfsplus_catfile
  unaligned32 : Nat → Nat

/-- The reads of the search through a record pointer of the catalog tree. -/
def catrecord_mem : grub_hfsplus_key_mem grub_hfsplus_catrecord :=
  ⟨fun r => r.catkey.keylen, fun r off => r.unaligned32 off⟩

/-- Mode mask `GRUB_HFSPLUS_FILEMODE_MASK`. -/
def GRUB_HFSPLUS_FILEMODE_MASK : Nat := 0o170000

/-- Mode `GRUB_HFSPLUS_FILEMODE_REG`. -/
def GRUB_HFSPLUS_FILEMODE_REG : Nat := 0o100000

/-- Mode `GRUB_HFSPLUS_FILEMODE_DIRECTORY`. -/
def GRUB_HFSPLUS_FILEMODE_DIRECTORY : Nat := 0o040000

/-- Mode `GRUB_HFSPLUS_FILEMODE_SYMLINK`. -/
def GRUB_HFSPLUS_FILEMODE_SYMLINK : Nat := 0o120000

/-- Record type `GRUB_HFSPLUS_FILETYPE_DIR`. -/
def GRUB_HFSPLUS_FILETYPE_DIR : Nat := 1

/-- Record type `GRUB_HFSPLUS_FILETYPE_REG`. -/
def GRUB_HFSPLUS_FILETYPE_REG : Nat := 2

/-- Record type `GRUB_HFSPLUS_FILETYPE_DIR_THREAD`. -/
def GRUB_HFSPLUS_FILETYPE_DIR_THREAD : Nat := 3

/-- Record type `GRUB_HFSPLUS_FILETYPE_REG_THREAD`. -/
def GRUB_HFSPLUS_FILETYPE_REG_THREAD : Nat := 4

/-- Constant `GRUB_FSHELP_UNKNOWN` of `grub/fshelp.h`. -/
def GRUB_FSHELP_UNKNOWN : Nat := 0

/-- Constant `GRUB_FSHELP_REG` of `grub/fshelp.h`. -/
def GRUB_FSHELP_REG : Nat := 1

/-- Constant `GRUB_FSHELP_DIR` of `grub/fshelp.h`. -/
def GRUB_FSHELP_DIR : Nat := 2

/-- Constant `GRUB_FSHELP_SYMLINK` of `grub/fshelp.h`. -/
def GRUB_FSHELP_SYMLINK : Nat := 3

/-- Constant `GRUB_FSHELP_TYPE_MASK` of `grub/fshelp.h`. -/
def GRUB_FSHELP_TYPE_MASK : Nat := 0xff

/-- Constant `GRUB_FSHELP_CASE_INSENSITIVE` of `grub/fshelp.h`. -/
def GRUB_FSHELP_CASE_INSENSITIVE : Nat := 0x100

/-- The two bytes in memory of a 16-bit cell whose raw (host-read) value is
`x`: the big-endian value's high byte, then its low byte, on either host. -/
def unit_bytes (le : Bool) (x : Nat) : List Nat :=
  [grub_be_to_cpu16 le x / 256, grub_be_to_cpu16 le x % 256]

/-- Modelled from the spec: `grub_memcmp` is not part of this file; it is the
byte-wise comparison the spec names, returning the difference of the first
pair of bytes that differ (0 if none does within the compared length, which is
the length of the shorter list here). -/
def grub_memcmp : List Nat → List Nat → Int
  | a :: s1, b :: s2 => if a ≠ b then (a : Int) - (b : Int) else grub_memcmp s1 s2
  | _, _ => 0

/-- Conversion of an unsigned value to the C type `int` (two's complement, 32 bits). -/
def to_int32 (x : Nat) : Int :=
  if x % 2 ^ 32 < 2 ^ 31 then ((x % 2 ^ 32 : Nat) : Int)
  else ((x % 2 ^ 32 : Nat) : Int) - 2 ^ 32

/-- The function `grub_hfsplus_cmp_catkey (keya, keyb)`.  The names are
compared as bytes in memory over the common length `len`; the length
difference is computed in `grub_size_t` and converted to `int`. -/
def grub_hfsplus_cmp_catkey (le : Bool) (keya : grub_hfsplus_catrecord)
    (keyb : grub_hfsplus_catkey_internal) : Int :=
  let catkey_a := keya.catkey
  let aparent := grub_be_to_cpu32 le catkey_a.parent
  if aparent > keyb.parent then 1
  else if aparent < keyb.parent then -1
  else
    let len :=
      if grub_be_to_cpu16 le catkey_a.namelen > keyb.namelen then keyb.namelen
      else grub_be_to_cpu16 le catkey_a.namelen
    let diff := grub_memcmp
      (((List.range len).map catkey_a.name).flatMap (unit_bytes le))
      ((keyb.name.take len).flatMap (unit_bytes le))
    if diff = 0 then
      to_int32 ((grub_be_to_cpu16 le catkey_a.namelen + 2 ^ 64 - keyb.namelen % 2 ^ 64) % 2 ^ 64)
    else diff

/-- The function `grub_hfsplus_cmp_catkey_id (keya, keyb)`. -/
def grub_hfsplus_cmp_catkey_id (le : Bool) (keya : grub_hfsplus_catrecord)
    (keyb : grub_hfsplus_catkey_internal) : Int :=
  let aparent := grub_be_to_cpu32 le keya.catkey.parent
  if aparent > keyb.parent then 1
  else if aparent < keyb.parent then -1
  else 0

/-- The first name loop of `list_nodes` ("make sure the byte order of the UTF16
string is correct"), with `todo` units left from index `i`: each cell is
byte-swapped in place and `/` replaced by `:`; the loop returns early at a
cell that is then 0.  Returns the name array afterwards and whether it
returned early. -/
def list_nodes_swap_name (le : Bool) : (Nat → Nat) → Nat → Nat → (Nat → Nat) × Bool
  | name, 0, _ => (name, false)
  | name, todo + 1, i =>
    let c := grub_be_to_cpu16 le (name i)
    let c1 := if c = 47 then 58 else c
    let name1 := Function.update name i c1
    if c1 = 0 then (name1, true)
    else list_nodes_swap_name le name1 todo (i + 1)

/-- The second name loop of `list_nodes` ("restore the byte order"): `:` is
replaced by `/` and each cell byte-swapped back, in place. -/
def list_nodes_restore_name (le : Bool) : (Nat → Nat) → Nat → Nat → (Nat → Nat)
  | name, 0, _ => name
  | name, todo + 1, i =>
    let c := name i
    let c1 := if c = 58 then 47 else c
    list_nodes_restore_name le (Function.update name i (grub_be_to_cpu16 le c1)) todo (i + 1)

/-- The mutable part of `struct list_nodes_ctx`: `ret` and the state behind
`hook_data`. -/
structure list_nodes_ctx (τ : Type) where
  ret : Int
  hook_data : τ

/-- The `switch (fileinfo->type)` of `list_nodes` for the record types other
than the folder thread: the `grub_fshelp_filetype` the entry gets. -/
def list_nodes_filetype (le : Bool) (fileinfo : grub_hfsplus_catfile) : Nat :=
  if grub_be_to_cpu16 le fileinfo.type = GRUB_HFSPLUS_FILETYPE_REG then
    let mode := grub_be_to_cpu16 le fileinfo.mode &&& GRUB_HFSPLUS_FILEMODE_MASK
    if mode = GRUB_HFSPLUS_FILEMODE_REG then GRUB_FSHELP_REG
    else if mode = GRUB_HFSPLUS_FILEMODE_SYMLINK then GRUB_FSHELP_SYMLINK
    else GRUB_FSHELP_UNKNOWN
  else if grub_be_to_cpu16 le fileinfo.type = GRUB_HFSPLUS_FILETYPE_DIR then
    GRUB_FSHELP_DIR
  else GRUB_FSHELP_UNKNOWN

/-- The `case GRUB_HFSPLUS_FILETYPE_DIR_THREAD` of `list_nodes`. -/
def list_nodes_thread {τ : Type} (le : Bool) (uninit : grub_hfsplus_file)
    (dir : grub_hfsplus_file) (hook : List Nat → Nat → grub_hfsplus_file → τ → Int × τ)
    (fileinfo : grub_hfsplus_catfile) (ctx : list_nodes_ctx τ) (env : grub_env) :
    Int × list_nodes_ctx τ × grub_env :=
  if dir.fileid = 2 then (0, ctx, env)
  else
    let a := grub_malloc env
    if a.1 then
      let node := { uninit with
        mtime := 0
        size := 0
        fileid := grub_be_to_cpu32 le fileinfo.parentid }
      let h := hook [46, 46] GRUB_FSHELP_DIR node ctx.hook_data
      (h.1, ⟨h.1, h.2⟩, trace_event a.2 (grub_event.hook [46, 46] GRUB_FSHELP_DIR node))
    else (1, ctx, a.2)

/-- The node `list_nodes` fills in for a file or directory record. -/
def list_nodes_node (le : Bool) (uninit : grub_hfsplus_file)
    (fileinfo : grub_hfsplus_catfile) : grub_hfsplus_file :=
  { uninit with
    compressed := false
    cbuf := 0
    compress_index := 0
    extents := fileinfo.data.extents
    resource_extents := fileinfo.resource.extents
    mtime := (grub_be_to_cpu32 le fileinfo.mtime + (2 ^ 32 - 2082844800)) % 2 ^ 32
    size := grub_be_to_cpu64 le fileinfo.data.size
    resource_size := grub_be_to_cpu64 le fileinfo.resource.size
    fileid := grub_be_to_cpu32 le fileinfo.fileid }

/-- The part of `list_nodes` after `if (type == GRUB_FSHELP_UNKNOWN) return 0;`:
allocate the name, convert it in place, convert it back, allocate and fill the
node, call the hook.  `fileinfo name` is what `*fileinfo` reads when the name
cells of the buffer hold `name`; the node is filled after the second name
loop, from the buffer as that loop leaves it. -/
def list_nodes_entry {τ : Type} (le : Bool) (case_sensitive : Bool)
    (utf8 : List Nat → List Nat) (uninit : grub_hfsplus_file)
    (hook : List Nat → Nat → grub_hfsplus_file → τ → Int × τ)
    (catkey : grub_hfsplus_catkey) (fileinfo : (Nat → Nat) → grub_hfsplus_catfile)
    (type : Nat) (ctx : list_nodes_ctx τ) (env : grub_env) :
    Int × list_nodes_ctx τ × grub_env :=
  let a := grub_malloc env
  if a.1 then
    let namelen := grub_be_to_cpu16 le catkey.namelen
    let swapped := list_nodes_swap_name le catkey.name namelen 0
    if swapped.2 then (0, ctx, a.2)
    else
      let filename := utf8 ((List.range namelen).map swapped.1)
      let restored := list_nodes_restore_name le swapped.1 namelen 0
      let type1 := if case_sensitive then type else type ||| GRUB_FSHELP_CASE_INSENSITIVE
      let b := grub_malloc a.2
      if b.1 then
        let node := list_nodes_node le uninit (fileinfo restored)
        let h := hook filename type1 node ctx.hook_data
        (h.1, ⟨h.1, h.2⟩, trace_event b.2 (grub_event.hook filename type1 node))
      else (1, ctx, b.2)
  else (0, ctx, a.2)

/-- The function `list_nodes (record, hook_arg)`, the record hook of
`grub_hfsplus_iterate_dir`.  `case_sensitive` is `ctx->dir->data->case_sensitive`;
`utf8` is the conversion `grub_utf16_to_utf8` (not part of this file), giving
the bytes of the C string; `uninit` is the content of a freshly allocated node;
`dir` and `hook` are the constant fields of the context.  File names are C
strings, given as their bytes (".." is `[46, 46]`).  Returns the value
returned, the context and the global state. -/
def list_nodes {τ : Type} (le : Bool) (case_sensitive : Bool) (utf8 : List Nat → List Nat)
    (uninit : grub_hfsplus_file) (dir : grub_hfsplus_file)
    (hook : List Nat → Nat → grub_hfsplus_file → τ → Int × τ)
    (record : grub_hfsplus_catrecord) (ctx : list_nodes_ctx τ) (env : grub_env) :
    Int × list_nodes_ctx τ × grub_env :=
  let catkey := record.catkey
  let keylen := grub_be_to_cpu16 le catkey.keylen
  let fileinfo := fun name => record.fileinfo name (keylen + 2 + keylen % 2)
  if grub_be_to_cpu32 le catkey.parent ≠ dir.fileid then (1, ctx, env)
  else if grub_be_to_cpu16 le (fileinfo catkey.name).type
      = GRUB_HFSPLUS_FILETYPE_DIR_THREAD then
    list_nodes_thread le uninit dir hook (fileinfo catkey.name) ctx env
  else if list_nodes_filetype le (fileinfo catkey.name) = GRUB_FSHELP_UNKNOWN then
    (0, ctx, env)
  else
    list_nodes_entry le case_sensitive utf8 uninit hook catkey fileinfo
      (list_nodes_filetype le (fileinfo catkey.name)) ctx env

/-- The cells `catkey->name` of `record` in the node buffer after the call of
`list_nodes` on it: the function converts the name in place and converts it
back after the conversion to UTF-8, unless it returns before. -/
def list_nodes_name (le : Bool) (dir : grub_hfsplus_file) (record : grub_hfsplus_catrecord)
    (env : grub_env) : Nat → Nat :=
  let catkey := record.catkey
  let keylen := grub_be_to_cpu16 le catkey.keylen
  let fileinfo := record.fileinfo catkey.name (keylen + 2 + keylen % 2)
  if grub_be_to_cpu32 le catkey.parent ≠ dir.fileid then catkey.name
  else if grub_be_to_cpu16 le fileinfo.type = GRUB_HFSPLUS_FILETYPE_DIR_THREAD then catkey.name
  else if list_nodes_filetype le fileinfo = GRUB_FSHELP_UNKNOWN then catkey.name
  else if (grub_malloc env).1 then
    let namelen := grub_be_to_cpu16 le catkey.namelen
    let swapped := list_nodes_swap_name le catkey.name namelen 0
    if swapped.2 then swapped.1
    else list_nodes_restore_name le swapped.1 namelen 0
  else catkey.name

/-- The function `grub_hfsplus_iterate_dir (dir, hook, hook_data)` on the
volume `data` (`dir->data`).  `fuel` bounds the passes of the iteration loop,
`sfuel` those of the catalog search; the result is `none` if either runs out.
Returns the value returned, the state behind `hook_data` and the global state. -/
def grub_hfsplus_iterate_dir {ExtR AttrR τ : Type} (le : Bool) (fuel sfuel : Nat)
    (data : grub_hfsplus_data grub_hfsplus_catrecord ExtR AttrR)
    (utf8 : List Nat → List Nat) (uninit : grub_hfsplus_file) (dir : grub_hfsplus_file)
    (hook : List Nat → Nat → grub_hfsplus_file → τ → Int × τ) (hook_data : τ)
    (env : grub_env) : Option (Int × τ × grub_env) :=
  let a := grub_malloc env
  if a.1 then
    let fsnode := dir
    let h := hook [46] GRUB_FSHELP_DIR fsnode hook_data
    let env1 := trace_event a.2 (grub_event.hook [46] GRUB_FSHELP_DIR fsnode)
    if h.1 ≠ 0 then some (1, h.2, env1)
    else
      let intern : grub_hfsplus_catkey_internal := ⟨dir.fileid, [], 0⟩
      let env2 := trace_event env1 (grub_event.search data.catalog_tree.file.fileid
        (grub_hfsplus_key_internal.catkey intern))
      match grub_hfsplus_btree_search le catrecord_mem sfuel data.catalog_tree intern
          (grub_hfsplus_cmp_catkey le) env2 with
      | none => none
      | some (r, env3) =>
        match (if r.err ≠ grub_err_t.GRUB_ERR_NONE then none else r.matchnode.join) with
        | none => some (0, h.2, env3)
        | some node =>
          match grub_hfsplus_btree_iterate_node le fuel data.catalog_tree node
              (r.keyoffset.getD 0)
              (list_nodes le data.case_sensitive utf8 uninit dir hook) ⟨0, h.2⟩ env3 with
          | none => none
          | some res => some (res.hook_arg.ret, res.hook_arg.hook_data, res.env)
  else some (1, hook_data, a.2)

/-! ## Symbolic links -/

/-- What a call `grub_hfsplus_read_file (node, 0, 0, pos, len, buf)` leaves: its
return value of type `grub_ssize_t`, the cells of `buf`, and the global state.
The reader behind it, `grub_fshelp_read_file`, is outside this file and enters
`grub_hfsplus_read_symlink` as an argument. -/
structure grub_hfsplus_read_result where
  numread : Int
  buf : Nat → Nat
  env : grub_env

/-- Conversion of an unsigned value to the C type `grub_ssize_t` (two's
complement, 64 bits). -/
def to_ssize (x : Nat) : Int :=
  if x % 2 ^ 64 < 2 ^ 63 then ((x % 2 ^ 64 : Nat) : Int)
  else ((x % 2 ^ 64 : Nat) : Int) - 2 ^ 64

/-- The argument `node->size + 1` of the `grub_malloc` call of
`grub_hfsplus_read_symlink`, a `grub_size_t`. -/
def read_symlink_bufsize (node : grub_hfsplus_file) : Nat :=
  (node.size + 1) % 2 ^ 64

/-- The function `grub_hfsplus_read_symlink (node)`.  The argument
`read_file node pos len buf env` stands for
`grub_hfsplus_read_file (node, 0, 0, pos, len, buf)` and `uninit` for the cells
of the fresh buffer.  Returns the buffer `symlink` by its cells, or `none` for
the null pointer. -/
def grub_hfsplus_read_symlink
    (read_file : grub_hfsplus_file → Nat → Nat → (Nat → Nat) → grub_env →
      grub_hfsplus_read_result)
    (uninit : Nat → Nat) (node : grub_hfsplus_file) (env : grub_env) :
    Option (Nat → Nat) × grub_env :=
  let a := grub_malloc env
  if a.1 then
    let r := read_file node 0 node.size uninit a.2
    if r.numread ≠ to_ssize node.size then
      (none, r.env)
    else
      (some (fun i => if i = node.size then 0 else r.buf i), r.env)
  else
    (none, a.2)

/-! ## Specification-side notions for the B-tree descent -/

/-- The value held by the checkpoint variable (`save_node` / `saved_node`) when
step `k` of a walk is tested, the walk visiting `c 0, c 1, ...`: it starts as
`init` and is overwritten by `c k` whenever `checkpoint_due k`. -/
def brent_saved (c : Nat → Nat) (init : Nat) : Nat → Nat
  | 0 => init
  | k + 1 => if checkpoint_due k then c k else brent_saved c init k

/-- The child node that the search descends into from node `id` for `key`, if
it descends at all: the node is read, its record loop ends with `match` set. -/
def descent_next {R KI : Type} (le : Bool) (mem : grub_hfsplus_key_mem R)
    (btree : grub_hfsplus_btree R) (key : KI) (compare_keys : R → KI → Int)
    (id : Nat) : Option Nat :=
  match btree.read_node id with
  | Except.error _ => none
  | Except.ok nodedesc =>
    match btree_search_records le mem nodedesc key compare_keys
        (grub_be_to_cpu16 le nodedesc.count) 0 id false with
    | grub_hfsplus_scan.found _ => none
    | grub_hfsplus_scan.done currnode matched => if matched then some currnode else none

/-- Iterate a partial step function: `opt_iterate f x k` is the `k`-th value
reached from `x`, `none` once a step was not defined. -/
def opt_iterate {α : Type} (f : α → Option α) (x : α) : Nat → Option α
  | 0 => some x
  | k + 1 => (opt_iterate f x k).bind f

/-- The sequence of child pointers followed for `key` from the root:
`descent_path k` is the `k`-th node id on it, `none` once the descent has ended. -/
def descent_path {R KI : Type} (le : Bool) (mem : grub_hfsplus_key_mem R)
    (btree : grub_hfsplus_btree R) (key : KI) (compare_keys : R → KI → Int) (k : Nat) :
    Option Nat :=
  opt_iterate (descent_next le mem btree key compare_keys) btree.root k

/-- The descent path made total (0 after its end), for counting arguments. -/
def descent_seq {R KI : Type} (le : Bool) (mem : grub_hfsplus_key_mem R)
    (btree : grub_hfsplus_btree R) (key : KI) (compare_keys : R → KI → Int) :
    Nat → Nat
  | 0 => btree.root
  | k + 1 => (descent_next le mem btree key compare_keys
      (descent_seq le mem btree key compare_keys k)).getD 0

/-- The node that follows `n` in the chain of `next` pointers, if `n` has a
successor and its read succeeds. -/
def chain_step {R : Type} (le : Bool) (btree : grub_hfsplus_btree R)
    (n : grub_hfsplus_btnode R) : Option (grub_hfsplus_btnode R) :=
  if n.next = 0 then none
  else
    match btree.read_node (grub_be_to_cpu32 le n.next) with
    | Except.error _ => none
    | Except.ok m => some m

/-- The `k`-th node of the chain that starts at `first_node`. -/
def chain_node {R : Type} (le : Bool) (btree : grub_hfsplus_btree R)
    (first_node : grub_hfsplus_btnode R) (k : Nat) : Option (grub_hfsplus_btnode R) :=
  opt_iterate (chain_step le btree) first_node k

/-- The node id that the `k`-th node of the chain points to with `next`. -/
def chain_id {R : Type} (le : Bool) (btree : grub_hfsplus_btree R)
    (first_node : grub_hfsplus_btnode R) (k : Nat) : Option Nat :=
  (chain_node le btree first_node k).bind
    (fun n => if n.next = 0 then none else some (grub_be_to_cpu32 le n.next))

/-- The raw `next` field met at step `k` of the chain walk, made total (0 when
a read fails), for counting arguments. -/
def next_seq {R : Type} (le : Bool) (btree : grub_hfsplus_btree R)
    (first_node : grub_hfsplus_btnode R) : Nat → Nat
  | 0 => first_node.next
  | k + 1 =>
    match btree.read_node (grub_be_to_cpu32 le (next_seq le btree first_node k)) with
    | Except.error _ => 0
    | Except.ok m => m.next

/-- The records of node `n` from index `first_rec` up to its record count, in
index order. -/
def records_from {R : Type} (le : Bool) (n : grub_hfsplus_btnode R) (first_rec : Nat) :
    List R :=
  (List.range' first_rec (grub_be_to_cpu16 le n.count - first_rec)).map n.recptr

/-- The nodes `nodes` are the chain that follows `first`: each `next` is
non-zero and reads as the following node, and the last node has `next == 0`. -/
def chain_linked {R : Type} (le : Bool) (btree : grub_hfsplus_btree R) :
    grub_hfsplus_btnode R → List (grub_hfsplus_btnode R) → Prop
  | first, [] => first.next = 0
  | first, m :: rest =>
    first.next ≠ 0 ∧ btree.read_node (grub_be_to_cpu32 le first.next) = Except.ok m ∧
      chain_linked le btree m rest

/-- The node ids read along a chain: the decoded `next` of every node but the last. -/
def chain_ids {R : Type} (le : Bool) :
    grub_hfsplus_btnode R → List (grub_hfsplus_btnode R) → List Nat
  | _, [] => []
  | first, m :: rest => grub_be_to_cpu32 le first.next :: chain_ids le m rest

/-- All records of a chain in visiting order: those of the start node from
`first_rec` on, then every record of each following node. -/
def chain_records {R : Type} (le : Bool) (first : grub_hfsplus_btnode R) (first_rec : Nat)
    (nodes : List (grub_hfsplus_btnode R)) : List R :=
  records_from le first first_rec ++ (nodes.map (fun m => records_from le m 0)).flatten

/-- The record lists of a chain, one per node: the start node from
`first_rec` on, then each following node from record 0. -/
def chain_segments {R : Type} (le : Bool) (first : grub_hfsplus_btnode R) (first_rec : Nat)
    (nodes : List (grub_hfsplus_btnode R)) : List (List R) :=
  records_from le first first_rec :: nodes.map (fun m => records_from le m 0)

/-- A record hook made from a visitor `v` that only reads the record and its
own state: it calls `v`, appends the record to a log of the records it was
handed, and leaves the global state alone. -/
def log_hook {R σ : Type} (v : R → σ → Int × σ) :
    R → σ × List R → grub_env → Int × (σ × List R) × grub_env :=
  fun r a env => ((v r a.1).1, ((v r a.1).2, a.2 ++ [r]), env)

/-- Hand the records of a list to the visitor in order until it returns
non-zero: whether it stopped, its final state, and the log of records handed
over (the stopping record last). -/
def visit_until {R σ : Type} (v : R → σ → Int × σ) :
    List R → σ → List R → Bool × σ × List R
  | [], s, log => (false, s, log)
  | r :: rs, s, log =>
    if (v r s).1 ≠ 0 then (true, (v r s).2, log ++ [r])
    else visit_until v rs (v r s).2 (log ++ [r])

/-- Reference walk of a chain, node by node: visit the records of the node;
if the visitor stopped, end there; otherwise read the next node of the chain
and go on.  Returns whether the visitor stopped, its final state, the log of
records visited, and the ids of the nodes read, in order. -/
def chain_walk {R σ : Type} (le : Bool) (v : R → σ → Int × σ) :
    List (grub_hfsplus_btnode R) → grub_hfsplus_btnode R → Nat → σ → List R →
      Bool × σ × List R × List Nat
  | [], first, first_rec, s, log =>
    let w := visit_until v (records_from le first first_rec) s log
    (w.1, w.2.1, w.2.2, [])
  | m :: rest, first, first_rec, s, log =>
    let w := visit_until v (records_from le first first_rec) s log
    if w.1 then (true, w.2.1, w.2.2, [])
    else
      let t := chain_walk le v rest m 0 w.2.1 w.2.2
      (t.1, t.2.1, t.2.2.1, grub_be_to_cpu32 le first.next :: t.2.2.2)

/-- Total block count of a list of extents (decoded counts). -/
def extent_list_total (le : Bool) (l : List grub_hfsplus_extent) : Nat :=
  (l.map (fun e => grub_be_to_cpu32 le e.count)).sum

/-- A list of extents expanded into physical blocks: `start, start + 1, ...,
start + count - 1` for each extent in turn. -/
def extent_list_blocks (le : Bool) (l : List grub_hfsplus_extent) : List Nat :=
  l.flatMap (fun e => List.range' (grub_be_to_cpu32 le e.start) (grub_be_to_cpu32 le e.count))

/-- Total block count of an array of 8 extents. -/
def extents_total (le : Bool) (e : grub_hfsplus_extents) : Nat :=
  extent_list_total le e.toList

/-- An array of 8 extents expanded into physical blocks. -/
def extents_blocks (le : Bool) (e : grub_hfsplus_extents) : List Nat :=
  extent_list_blocks le e.toList

/-- The extent list `grub_hfsplus_read_block` starts from: the resource fork's
if the node is compressed, the data fork's otherwise. -/
def read_block_inline (node : grub_hfsplus_file) : grub_hfsplus_extents :=
  if node.compressed then node.resource_extents else node.extents

/-- The block sequence of a file: its inline extents expanded, then the extents
of each overflow record in turn. -/
def file_blocks (le : Bool) (inline : grub_hfsplus_extents)
    (recs : List grub_hfsplus_extents) : List Nat :=
  extents_blocks le inline ++ (recs.map (extents_blocks le)).flatten

/-- The start block at which overflow record `i` is keyed: the total of the
inline extents and of the records before it. -/
def overflow_start (le : Bool) (inline : grub_hfsplus_extents)
    (recs : List grub_hfsplus_extents) (i : Nat) : Nat :=
  extents_total le inline + ((recs.take i).map (extents_total le)).sum

/-- Whether an event is a call of the directory hook. -/
def grub_event.is_hook : grub_event → Bool
  | grub_event.hook _ _ _ => true
  | _ => false

/-- The trace of `e1` extends that of `e` by events that all satisfy `P`. -/
def trace_ext (P : grub_event → Prop) (e e1 : grub_env) : Prop :=
  ∃ evs, e1.trace = e.trace ++ evs ∧ ∀ ev, ev ∈ evs → P ev

/-- Event `ev` is among those that some call of `list_nodes` on `record`
appends to the trace. -/
def dispatched_for {τ : Type} (le : Bool) (case_sensitive : Bool)
    (utf8 : List Nat → List Nat) (uninit : grub_hfsplus_file) (dir : grub_hfsplus_file)
    (hook : List Nat → Nat → grub_hfsplus_file → τ → Int × τ)
    (record : grub_hfsplus_catrecord) (ev : grub_event) : Prop :=
  ∃ (ctx : list_nodes_ctx τ) (e0 : grub_env) (evs : List grub_event),
    (list_nodes le case_sensitive utf8 uninit dir hook record ctx e0).2.2.trace
      = e0.trace ++ evs ∧ ev ∈ evs

/-- The record loop of the search finds nothing to return or to follow in
node `n`: `n` is an index node that has no record or whose first record
compares greater than the key, or a leaf with no record comparing equal, or
a node that is neither an index node nor a leaf. -/
def no_matching_record {R KI : Type} (le : Bool) (n : grub_hfsplus_btnode R) (key : KI)
    (compare_keys : R → KI → Int) : Prop :=
  (n.type = GRUB_HFSPLUS_BTNODE_TYPE_INDEX ∧
    (grub_be_to_cpu16 le n.count = 0 ∨ compare_keys (n.recptr 0) key > 0)) ∨
  (n.type = GRUB_HFSPLUS_BTNODE_TYPE_LEAF ∧
    ∀ i, i < grub_be_to_cpu16 le n.count → compare_keys (n.recptr i) key ≠ 0) ∨
  (n.type ≠ GRUB_HFSPLUS_BTNODE_TYPE_INDEX ∧ n.type ≠ GRUB_HFSPLUS_BTNODE_TYPE_LEAF)

/-- The reading of "no matching record" in the claim as stated: an index node
with no record comparing `<=` the key, or a leaf or other node with no record
comparing equal. -/
def no_matching_record_as_stated {R KI : Type} (le : Bool) (n : grub_hfsplus_btnode R)
    (key : KI) (compare_keys : R → KI → Int) : Prop :=
  (n.type = GRUB_HFSPLUS_BTNODE_TYPE_INDEX ∧
    ∀ i, i < grub_be_to_cpu16 le n.count → ¬ compare_keys (n.recptr i) key ≤ 0) ∨
  (n.type ≠ GRUB_HFSPLUS_BTNODE_TYPE_INDEX ∧
    ∀ i, i < grub_be_to_cpu16 le n.count → compare_keys (n.recptr i) key ≠ 0)

/-! ## Small concrete trees used to instantiate the theorems -/

/-- Eight empty extents. -/
def ex_no_extents : grub_hfsplus_extents :=
  ⟨[⟨0, 0⟩, ⟨0, 0⟩, ⟨0, 0⟩, ⟨0, 0⟩, ⟨0, 0⟩, ⟨0, 0⟩, ⟨0, 0⟩, ⟨0, 0⟩], rfl⟩

/-- An empty file with the given file id. -/
def ex_file (fileid : Nat) : grub_hfsplus_file :=
  ⟨fileid, 0, 0, 0, false, ex_no_extents, ex_no_extents, 0, 0, 0⟩

/-- Records that are plain numbers: the number is both the key and the raw
child pointer stored after it; `keylen` is 0. -/
def ex_mem : grub_hfsplus_key_mem Nat :=
  ⟨fun _ => 0, fun r _ => r⟩

/-- Comparator on number records: the sign of `record - key`. -/
def ex_cmp (r : Nat) (key : Nat) : Int :=
  (r : Int) - (key : Int)

/-- An environment with no pending error, an allocator that never fails and an
empty trace. -/
def ex_env : grub_env :=
  ⟨grub_err_t.GRUB_ERR_NONE, grub_errmsg.no_message, [], []⟩

/-- An index node with the single record 1, whose child pointer is node 1. -/
def ex_self_index : grub_hfsplus_btnode Nat :=
  ⟨0, GRUB_HFSPLUS_BTNODE_TYPE_INDEX, 1, fun _ => 1⟩

/-- A corrupt tree (big-endian host): every node id reads as `ex_self_index`,
so the root 1 is its own child. -/
def ex_cyclic_tree : grub_hfsplus_btree Nat :=
  ⟨ex_file 4, 1, 512, fun _ => Except.ok ex_self_index⟩

/-- An index node with one record 2 pointing at node 2. -/
def ex_index_node : grub_hfsplus_btnode Nat :=
  ⟨0, GRUB_HFSPLUS_BTNODE_TYPE_INDEX, 1, fun _ => 2⟩

/-- A leaf with the three records 3, 5, 5. -/
def ex_leaf_node : grub_hfsplus_btnode Nat :=
  ⟨0, GRUB_HFSPLUS_BTNODE_TYPE_LEAF, 3, fun i => if i = 0 then 3 else 5⟩

/-- A two-level tree (big-endian host): root 1 is `ex_index_node`, every other
node id reads as `ex_leaf_node`. -/
def ex_tree : grub_hfsplus_btree Nat :=
  ⟨ex_file 4, 1, 512, fun id => if id = 1 then Except.ok ex_index_node else Except.ok ex_leaf_node⟩

/-- An absent tree: node size 0 (as the optional attributes tree); reads fail. -/
def ex_absent_tree : grub_hfsplus_btree Nat :=
  ⟨ex_file 8, 0, 0, fun _ => Except.error grub_err_t.GRUB_ERR_OUT_OF_RANGE⟩

/-- An index node whose two records are out of order: 9, then 1. -/
def ex_unsorted_index : grub_hfsplus_btnode Nat :=
  ⟨0, GRUB_HFSPLUS_BTNODE_TYPE_INDEX, 2, fun i => if i = 0 then 9 else 1⟩

/-- A tree (big-endian host) every node of which reads as `ex_unsorted_index`. -/
def ex_unsorted_tree : grub_hfsplus_btree Nat :=
  ⟨ex_file 4, 1, 512, fun _ => Except.ok ex_unsorted_index⟩

/-- A node with one record whose `next` is 1. -/
def ex_loop_node : grub_hfsplus_btnode Nat :=
  ⟨1, GRUB_HFSPLUS_BTNODE_TYPE_LEAF, 1, fun _ => 7⟩

/-- A corrupt leaf chain (big-endian host): every node id, 1 included, reads as
`ex_loop_node`, so node 1 is its own successor. -/
def ex_loop_tree : grub_hfsplus_btree Nat :=
  ⟨ex_file 4, 1, 512, fun _ => Except.ok ex_loop_node⟩

/-- A hook that counts the records it sees and never stops. -/
def ex_count_hook : Nat → Nat → grub_env → Int × Nat × grub_env :=
  fun _ s env => (0, s + 1, env)

/-- Start node of a three-node chain: records 10, 11, `next` = 2. -/
def ex_chain_a : grub_hfsplus_btnode Nat :=
  ⟨2, GRUB_HFSPLUS_BTNODE_TYPE_LEAF, 2, fun i => 10 + i⟩

/-- Second node of the chain: record 20, `next` = 3. -/
def ex_chain_b : grub_hfsplus_btnode Nat :=
  ⟨3, GRUB_HFSPLUS_BTNODE_TYPE_LEAF, 1, fun i => 20 + i⟩

/-- Last node of the chain: records 30, 31, `next` = 0. -/
def ex_chain_c : grub_hfsplus_btnode Nat :=
  ⟨0, GRUB_HFSPLUS_BTNODE_TYPE_LEAF, 2, fun i => 30 + i⟩

/-- A leaf chain (big-endian host): node 2 is `ex_chain_b`, node 3 is
`ex_chain_c`, every other id reads as `ex_chain_a`. -/
def ex_chain_tree : grub_hfsplus_btree Nat :=
  ⟨ex_file 4, 1, 512, fun id =>
    if id = 2 then Except.ok ex_chain_b
    else if id = 3 then Except.ok ex_chain_c
    else Except.ok ex_chain_a⟩

/-- A visitor that counts the records it sees and stops on record 20. -/
def ex_stop_visitor : Nat → Nat → Int × Nat :=
  fun r s => (if r = 20 then 1 else 0, s + 1)

/-- A valid HFS+ volume header as a little-endian host reads it: magic "H+"
(raw 0x2B48), block size 4096 (raw 0x00100000), empty forks. -/
def ex_volheader : grub_hfsplus_volheader :=
  ⟨0x2B48, 0x00100000, 0, 0, ⟨0, ex_no_extents⟩, ⟨0, ex_no_extents⟩, ⟨0, ex_no_extents⟩⟩

/-- Eight extents of which only the first is non-empty. -/
def ex_one_extent (start count : Nat) : grub_hfsplus_extents :=
  ⟨[⟨start, count⟩, ⟨0, 0⟩, ⟨0, 0⟩, ⟨0, 0⟩, ⟨0, 0⟩, ⟨0, 0⟩, ⟨0, 0⟩, ⟨0, 0⟩], rfl⟩

/-- A fragmented file (big-endian host), id 100: its inline extents cover
logical blocks 0..9 (physical 200..209). -/
def ex_fragmented_file : grub_hfsplus_file :=
  ⟨100, 0, 0, 0, false, ex_one_extent 200 10, ex_no_extents, 0, 0, 0⟩

/-- The leaf of the overflow tree: record 0 is keyed (file 100, data fork,
start 10) and holds physical blocks 500..504; every other record is keyed
(file 100, data fork, start 15) and holds physical blocks 700..702. -/
def ex_overflow_leaf : grub_hfsplus_btnode grub_hfsplus_extrecord :=
  ⟨0, GRUB_HFSPLUS_BTNODE_TYPE_LEAF, 2, fun i =>
    if i = 0 then ⟨⟨10, 0, 0, 100, 10⟩, ex_one_extent 500 5, fun _ => 0⟩
    else ⟨⟨10, 0, 0, 100, 15⟩, ex_one_extent 700 3, fun _ => 0⟩⟩

/-- A mounted volume whose extents-overflow tree is the single leaf
`ex_overflow_leaf`; its catalog and attributes trees are absent. -/
def ex_data : grub_hfsplus_data Nat grub_hfsplus_extrecord Nat :=
  { volheader := ex_volheader
    catalog_tree := ex_absent_tree
    extoverflow_tree := ⟨ex_file 3, 1, 512, fun _ => Except.ok ex_overflow_leaf⟩
    attr_tree := ex_absent_tree
    dirroot := ex_file 2
    opened_file := ex_file 0
    embedded_offset := 0
    log2blksize := 12
    case_sensitive := false }

/-- A catalog record body of the given record type (big-endian host), a
regular file by its mode, with file id 20 and empty forks. -/
def ex_catfile (type : Nat) : grub_hfsplus_catfile :=
  ⟨type, 0, 1, 20, 0, 0o100644, ⟨0, ex_no_extents⟩, ⟨0, ex_no_extents⟩⟩

/-- A catalog record with the given parent id, name and record type. -/
def ex_catrecord (parent : Nat) (name : List Nat) (type : Nat) : grub_hfsplus_catrecord :=
  ⟨⟨6 + 2 * name.length, parent, name.length, fun i => name.getD i 0⟩,
    fun _ _ => ex_catfile type, fun _ => 0⟩

/-- The leaf of a small catalog: the thread record of the root folder (parent
2, empty name), the file "A" in the root folder, and then records of
folder 5. -/
def ex_catalog_leaf : grub_hfsplus_btnode grub_hfsplus_catrecord :=
  ⟨0, GRUB_HFSPLUS_BTNODE_TYPE_LEAF, 3, fun i =>
    if i = 0 then ex_catrecord 2 [] GRUB_HFSPLUS_FILETYPE_DIR_THREAD
    else if i = 1 then ex_catrecord 2 [65] GRUB_HFSPLUS_FILETYPE_REG
    else ex_catrecord 5 [66] GRUB_HFSPLUS_FILETYPE_REG⟩

/-- A mounted volume (big-endian host) whose catalog tree is the single leaf
`ex_catalog_leaf`. -/
def ex_catalog_data : grub_hfsplus_data grub_hfsplus_catrecord Nat Nat :=
  { volheader := ex_volheader
    catalog_tree := ⟨ex_file 4, 1, 512, fun _ => Except.ok ex_catalog_leaf⟩
    extoverflow_tree := ex_absent_tree
    attr_tree := ex_absent_tree
    dirroot := ex_file 2
    opened_file := ex_file 0
    embedded_offset := 0
    log2blksize := 12
    case_sensitive := true }

/-- A directory hook that counts its calls and never stops. -/
def ex_dir_hook : List Nat → Nat → grub_hfsplus_file → Nat → Int × Nat :=
  fun _ _ _ s => (0, s + 1)

/-- The child pointer of record `i` of an index node: the 32-bit big-endian
value stored right after the record's key, at key address + key length + 2. -/
def index_child {R : Type} (le : Bool) (mem : grub_hfsplus_key_mem R)
    (n : grub_hfsplus_btnode R) (i : Nat) : Nat :=
  grub_be_to_cpu32 le
    (mem.unaligned32 (n.recptr i) (grub_be_to_cpu16 le (mem.keylen (n.recptr i)) + 2))

/-! ## Specification-side notions for the key comparators -/

/-- The integer that stands for the outcome of a three-way comparison:
-1 for less, 0 for equal, 1 for greater. -/
def ordering_sign : Ordering → Int
  | Ordering.lt => -1
  | Ordering.eq => 0
  | Ordering.gt => 1

/-- An on-disk extent key decoded from big-endian: its file id and start block
as host integers, its fork type (one byte) as it is. -/
def extkey_decoded (le : Bool) (k : grub_hfsplus_extkey) : grub_hfsplus_extkey_internal :=
  ⟨grub_be_to_cpu32 le k.fileid, grub_be_to_cpu32 le k.start, k.type⟩

/-- Lexicographic comparison of two extent keys as triples (file id, fork type,
start block) of unsigned integers. -/
def extkey_order (a b : grub_hfsplus_extkey_internal) : Ordering :=
  (compare a.fileid b.fileid).then ((compare a.type b.type).then (compare a.start b.start))

/-- An extents-overflow record as a little-endian host reads it, for the given
fork type and raw (byte-swapped) file id and start block; no extents. -/
def ex_extrecord (type fileid start : Nat) : grub_hfsplus_extrecord :=
  ⟨⟨10, type, 0, fileid, start⟩, ex_no_extents, fun _ => 0⟩

/-- Lexicographic comparison of two sequences of code-unit values: the first
pair of units that differ decides; if there is none, a proper prefix sorts
before its extensions. -/
def lex_units : List Nat → List Nat → Ordering
  | [], [] => Ordering.eq
  | [], _ :: _ => Ordering.lt
  | _ :: _, [] => Ordering.gt
  | x :: s, y :: t => (compare x y).then (lex_units s t)

/-- The name of an on-disk catalog key as a sequence of code-unit values: its
`namelen` (decoded) first cells, each decoded from big-endian. -/
def catkey_units (le : Bool) (k : grub_hfsplus_catkey) : List Nat :=
  (List.range (grub_be_to_cpu16 le k.namelen)).map (fun i => grub_be_to_cpu16 le (k.name i))

/-- Lexicographic comparison of two catalog keys given as (parent id, name as
code-unit values). -/
def catkey_order (a b : Nat × List Nat) : Ordering :=
  (compare a.1 b.1).then (lex_units a.2 b.2)

/-- A catalog record as a little-endian host reads it: parent id 2 (raw
`0x02000000`), a name of one unit, `0x0100` (raw `0x0001`, name length raw
`0x0100`). -/
def ex_swapped_catrecord : grub_hfsplus_catrecord :=
  ⟨⟨0x0800, 0x02000000, 0x0100, fun i => if i = 0 then 0x0001 else 0⟩,
    fun _ _ => ex_catfile 0x0200, fun _ => 0⟩

/-! ## Specification-side notions for the directory entries -/

/-- The record body that `list_nodes` reads behind the key of `record`: at
byte offset `keylen + 2 + keylen % 2` from the record pointer, the buffer
being as read from disk. -/
def catrecord_fileinfo (le : Bool) (record : grub_hfsplus_catrecord) : grub_hfsplus_catfile :=
  record.fileinfo record.catkey.name (grub_be_to_cpu16 le record.catkey.keylen + 2
    + grub_be_to_cpu16 le record.catkey.keylen % 2)

/-- The name cells of the key in the node buffer after the two name loops of
`list_nodes` ran to their end: each of the first `namelen` cells decoded, `/`
replaced by `:`, then `:` replaced by `/` and encoded again. -/
def catkey_name_restored (le : Bool) (k : grub_hfsplus_catkey) : Nat → Nat :=
  list_nodes_restore_name le
    (list_nodes_swap_name le k.name (grub_be_to_cpu16 le k.namelen) 0).1
    (grub_be_to_cpu16 le k.namelen) 0

/-- The record body behind the key of `record`, at byte offset
`keylen + 2 + keylen % 2` from the record pointer, as a function of what the
name cells of the buffer hold. -/
def catrecord_body (le : Bool) (record : grub_hfsplus_catrecord) :
    (Nat → Nat) → grub_hfsplus_catfile :=
  fun name => record.fileinfo name (grub_be_to_cpu16 le record.catkey.keylen + 2
    + grub_be_to_cpu16 le record.catkey.keylen % 2)

/-- The record body behind the key of `record` as `list_nodes` reads it when
it fills the node: at the same offset, from the buffer as the two name loops
leave it. -/
def catrecord_fileinfo_restored (le : Bool) (record : grub_hfsplus_catrecord) :
    grub_hfsplus_catfile :=
  catrecord_body le record (catkey_name_restored le record.catkey)

/-- The name of the key holds at least one NUL code unit. -/
def catkey_has_nul (le : Bool) (k : grub_hfsplus_catkey) : Prop :=
  ∃ j, j < grub_be_to_cpu16 le k.namelen ∧ grub_be_to_cpu16 le (k.name j) = 0

/-- The name of the key as it is surfaced: its code units decoded from
big-endian, each `/` replaced by `:`. -/
def catkey_display_units (le : Bool) (k : grub_hfsplus_catkey) : List Nat :=
  (catkey_units le k).map (fun c => if c = 47 then 58 else c)


/-- The call of `list_nodes` on `record` emits the record as an entry of kind
`kind`: having allocated the name buffer and the node, it calls the visitor
once, with the display name converted by `utf8`, the kind (with the
case-insensitive marker added on a volume that is not case sensitive) and the
node filled from the record's body as the buffer holds it by then (after the
name was converted in place and back), stores the visitor's result in the
context and returns it. -/
def list_nodes_emits {τ : Type} (le : Bool) (case_sensitive : Bool)
    (utf8 : List Nat → List Nat) (uninit dir : grub_hfsplus_file)
    (hook : List Nat → Nat → grub_hfsplus_file → τ → Int × τ)
    (record : grub_hfsplus_catrecord) (ctx : list_nodes_ctx τ) (env : grub_env)
    (kind : Nat) : Prop :=
  list_nodes le case_sensitive utf8 uninit dir hook record ctx env =
    ((hook (utf8 (catkey_display_units le record.catkey))
        (if case_sensitive then kind else kind ||| GRUB_FSHELP_CASE_INSENSITIVE)
        (list_nodes_node le uninit (catrecord_fileinfo_restored le record)) ctx.hook_data).1,
      ⟨(hook (utf8 (catkey_display_units le record.catkey))
        (if case_sensitive then kind else kind ||| GRUB_FSHELP_CASE_INSENSITIVE)
        (list_nodes_node le uninit (catrecord_fileinfo_restored le record)) ctx.hook_data).1,
       (hook (utf8 (catkey_display_units le record.catkey))
        (if case_sensitive then kind else kind ||| GRUB_FSHELP_CASE_INSENSITIVE)
        (list_nodes_node le uninit (catrecord_fileinfo_restored le record)) ctx.hook_data).2⟩,
      trace_event (grub_malloc (grub_malloc env).2).2
        (grub_event.hook (utf8 (catkey_display_units le record.catkey))
          (if case_sensitive then kind else kind ||| GRUB_FSHELP_CASE_INSENSITIVE)
          (list_nodes_node le uninit (catrecord_fileinfo_restored le record))))

/-- The node `node` carries the record body `fileinfo` as a directory entry:
file id, data-fork size and resource-fork size decoded from big-endian, the
two lists of 8 extents as they are, the compressed flag cleared, and mtime =
(decoded on-disk mtime - 2082844800) modulo `2 ^ 32`, the exact difference
whenever the on-disk mtime is at least 2082844800. -/
def node_of_fileinfo (le : Bool) (node : grub_hfsplus_file)
    (fileinfo : grub_hfsplus_catfile) : Prop :=
  node.fileid = grub_be_to_cpu32 le fileinfo.fileid ∧
  node.size = grub_be_to_cpu64 le fileinfo.data.size ∧
  node.resource_size = grub_be_to_cpu64 le fileinfo.resource.size ∧
  node.extents = fileinfo.data.extents ∧
  node.resource_extents = fileinfo.resource.extents ∧
  node.compressed = false ∧
  ((node.mtime : Nat) : Int)
    = ((grub_be_to_cpu32 le fileinfo.mtime : Int) - 2082844800) % 2 ^ 32 ∧
  (2082844800 ≤ grub_be_to_cpu32 le fileinfo.mtime →
    node.mtime = grub_be_to_cpu32 le fileinfo.mtime - 2082844800)

/-- A catalog record of the root folder (big-endian host) whose key length, 6,
does not cover its name of 6 units: the body, found at byte offset
`6 + 2 + 0 = 8` from the record pointer, starts at name cell 0 (the key
length and the parent id take bytes 0 to 5, the name length bytes 6 and 7),
so that of `struct grub_hfsplus_catfile` the type (body bytes 0-1) is name
cell 0, the flags (2-3) cell 1, the parent id (4-7) cells 2 and 3 and the
file id (8-11) cells 4 and 5; the other fields lie behind the name.  On disk
the cells are 1, 1, 1, 1, 1, 0x3A: a folder record of file id 0x0001003A. -/
def ex_overlap_catrecord : grub_hfsplus_catrecord :=
  ⟨⟨6, 2, 6, fun i => if i < 5 then 1 else if i = 5 then 0x3A else 0⟩,
    fun name off =>
      if off = 8 then
        ⟨name 0, name 1, name 2 * 65536 + name 3, name 4 * 65536 + name 5, 3000000000,
          0o040755, ⟨0, ex_no_extents⟩, ⟨0, ex_no_extents⟩⟩
      else ex_catfile 0,
    fun _ => 0⟩

/-- A catalog record (big-endian host) with the given parent id, name, record
type and mode, file id 21 and empty forks. -/
def ex_catrecord_mode (parent : Nat) (name : List Nat) (type mode : Nat) :
    grub_hfsplus_catrecord :=
  ⟨⟨6 + 2 * name.length, parent, name.length, fun i => name.getD i 0⟩,
    fun _ _ => ⟨type, 0, 1, 21, 0, mode, ⟨0, ex_no_extents⟩, ⟨0, ex_no_extents⟩⟩, fun _ => 0⟩

/-- A catalog file record (big-endian host) of the root folder, named "A":
file id 20, on-disk mtime 3000000000, data fork of 4096 bytes in one block at
50, empty resource fork. -/
def ex_dated_catrecord : grub_hfsplus_catrecord :=
  ⟨⟨8, 2, 1, fun _ => 65⟩,
    fun _ _ => ⟨GRUB_HFSPLUS_FILETYPE_REG, 0, 0, 20, 3000000000, 0o100644,
      ⟨4096, ex_one_extent 50 1⟩, ⟨0, ex_no_extents⟩⟩,
    fun _ => 0⟩

/-- A B-tree header as a little-endian host reads it: root node 1 (raw
`0x01000000`), node size 512 (raw `0x0002`), case-folding key comparison. -/
def ex_btheader : grub_hfsplus_btheader :=
  ⟨0, 0x01000000, 0, 0, 0, 0x0002, 0, 0, 0, 0, 0, 0, GRUB_HFSPLUSX_CASEFOLDING, 0⟩

/-- A bare HFS+ device (little-endian host) whose every header read returns
`ex_volheader`, raising `boot_err` (`GRUB_ERR_NONE`: no error); the header of
the attributes file cannot be read unless `attr_ok`, the headers of the other
trees can; the trees hold no readable node. -/
def ex_disk (boot_err : grub_err_t) (attr_ok : Bool) : grub_disk Nat Nat Nat :=
  { read_volheader := fun _ => (boot_err, ⟨⟨0x2B48, 0, 0, 0, 0⟩, ex_volheader⟩)
    read_btheader := fun f _ _ =>
      if f.fileid = GRUB_HFSPLUS_FILEID_ATTR ∧ attr_ok = false then
        Except.error grub_err_t.GRUB_ERR_READ_ERROR
      else Except.ok ex_btheader
    read_btnode := fun _ _ _ => Except.ok ()
    catalog_image := fun _ => Except.error grub_err_t.GRUB_ERR_READ_ERROR
    extoverflow_image := fun _ => Except.error grub_err_t.GRUB_ERR_READ_ERROR
    attr_image := fun _ => Except.error grub_err_t.GRUB_ERR_READ_ERROR }

/-- An HFS wrapper device (little-endian host): the boot block at sector 2 is
an HFS superblock (magic "BD", raw `0x4442`) with first block 16, allocation
blocks of 4096 bytes and an embedded HFS+ volume (signature "H+") starting at
allocation block 3; every other sector reads as `ex_volheader`.  Tree headers
read as `ex_btheader`. -/
def ex_wrapped_disk : grub_disk Nat Nat Nat :=
  { read_volheader := fun sector =>
      if sector = 2 then
        (grub_err_t.GRUB_ERR_NONE,
          ⟨⟨0x4442, 0x1000, 0x00100000, 0x2B48, 0x0300⟩,
            ⟨0x4442, 0, 0, 0, ⟨0, ex_no_extents⟩, ⟨0, ex_no_extents⟩, ⟨0, ex_no_extents⟩⟩⟩)
      else (grub_err_t.GRUB_ERR_NONE, ⟨⟨0x2B48, 0, 0, 0, 0⟩, ex_volheader⟩)
    read_btheader := fun _ _ _ => Except.ok ex_btheader
    read_btnode := fun _ _ _ => Except.ok ()
    catalog_image := fun _ => Except.error grub_err_t.GRUB_ERR_READ_ERROR
    extoverflow_image := fun _ => Except.error grub_err_t.GRUB_ERR_READ_ERROR
    attr_image := fun _ => Except.error grub_err_t.GRUB_ERR_READ_ERROR }

/-! ## Specification-side notions for the overflow searches -/

/-- The first `n` cells of a buffer and the cell after them. -/
def symlink_cells (s : Nat → Nat) (n : Nat) : List Nat :=
  (List.range (n + 1)).map s

/-- A reader that stores the given bytes at the start of the buffer and
returns their number. -/
def ex_reader (bytes : List Nat) :
    grub_hfsplus_file → Nat → Nat → (Nat → Nat) → grub_env → grub_hfsplus_read_result :=
  fun _ _ _ buf env => ⟨(bytes.length : Int), fun i => bytes.getD i (buf i), env⟩

/-- A reader whose read fails: it returns -1 and stores nothing. -/
def ex_failing_reader :
    grub_hfsplus_file → Nat → Nat → (Nat → Nat) → grub_env → grub_hfsplus_read_result :=
  fun _ _ _ buf env => ⟨-1, buf, env⟩

/-- The node of a symbolic link of 5 bytes. -/
def ex_symlink : grub_hfsplus_file :=
  ⟨30, 5, 0, 0, false, ex_one_extent 7 1, ex_no_extents, 0, 0, 0⟩

/-- The node of a symbolic link whose catalog record holds the size
`0xffffffffffffffff`. -/
def ex_huge_symlink : grub_hfsplus_file :=
  ⟨31, 0xffffffffffffffff, 0, 0, false, ex_no_extents, ex_no_extents, 0, 0, 0⟩

/-- An HFSX device (little-endian host): every header read returns
`ex_volheader` with the magic "HX" (raw `0x5848`), and every tree header reads
as `ex_btheader` with the given key-compare byte. -/
def ex_hfsx_disk (key_compare : Nat) : grub_disk Nat Nat Nat :=
  { read_volheader := fun _ =>
      (grub_err_t.GRUB_ERR_NONE,
        ⟨⟨0x5848, 0, 0, 0, 0⟩, { ex_volheader with magic := 0x5848 }⟩)
    read_btheader := fun _ _ _ => Except.ok { ex_btheader with key_compare := key_compare }
    read_btnode := fun _ _ _ => Except.ok ()
    catalog_image := fun _ => Except.error grub_err_t.GRUB_ERR_READ_ERROR
    extoverflow_image := fun _ => Except.error grub_err_t.GRUB_ERR_READ_ERROR
    attr_image := fun _ => Except.error grub_err_t.GRUB_ERR_READ_ERROR }

/-- An HFS wrapper device (little-endian host) with no embedded HFS+ volume:
the boot block is an HFS superblock (magic "BD") whose embedded signature is
0, and whose bytes read as an HFS+ header would pass for `ex_volheader`. -/
def ex_plain_hfs_disk : grub_disk Nat Nat Nat :=
  { read_volheader := fun _ =>
      (grub_err_t.GRUB_ERR_NONE, ⟨⟨0x4442, 0x1000, 0x00100000, 0, 0x0300⟩, ex_volheader⟩)
    read_btheader := fun _ _ _ => Except.ok ex_btheader
    read_btnode := fun _ _ _ => Except.ok ()
    catalog_image := fun _ => Except.error grub_err_t.GRUB_ERR_READ_ERROR
    extoverflow_image := fun _ => Except.error grub_err_t.GRUB_ERR_READ_ERROR
    attr_image := fun _ => Except.error grub_err_t.GRUB_ERR_READ_ERROR }

/-- The volume that the mount makes of `ex_hfsx_disk 0xBC`. -/
def ex_hfsx_data : grub_hfsplus_data Nat Nat Nat :=
  { volheader := { ex_volheader with magic := 0x5848 }
    catalog_tree := ⟨mount_tree_file true (ex_file 0) GRUB_HFSPLUS_FILEID_CATALOG
      ⟨0, ex_no_extents⟩, 1, 512, (ex_hfsx_disk 0xBC).catalog_image⟩
    extoverflow_tree := ⟨mount_tree_file true (ex_file 0) GRUB_HFSPLUS_FILEID_OVERFLOW
      ⟨0, ex_no_extents⟩, 1, 512, (ex_hfsx_disk 0xBC).extoverflow_image⟩
    attr_tree := ⟨mount_tree_file true (ex_file 0) GRUB_HFSPLUS_FILEID_ATTR
      ⟨0, ex_no_extents⟩, 1, 512, (ex_hfsx_disk 0xBC).attr_image⟩
    dirroot := ex_file 2
    opened_file := ex_file 0
    embedded_offset := 0
    log2blksize := 12
    case_sensitive := true }

/-- Eight extents of which the first two are non-empty: 4 blocks from 100
and 3 blocks from 200. -/
def ex_two_extents : grub_hfsplus_extents :=
  ⟨[⟨100, 4⟩, ⟨200, 3⟩, ⟨0, 0⟩, ⟨0, 0⟩, ⟨0, 0⟩, ⟨0, 0⟩, ⟨0, 0⟩, ⟨0, 0⟩], rfl⟩

/-- A catalog file record as a little-endian host reads it: parent id 2, a
name of two units, "A" (raw cell `0x4100`) and NUL. -/
def ex_nul_catrecord : grub_hfsplus_catrecord :=
  ⟨⟨0x0A00, 0x02000000, 0x0200, fun i => if i = 0 then 0x4100 else 0⟩,
    fun _ _ => ex_catfile 0x0200, fun _ => 0⟩

/-- A two-level tree (big-endian host) whose root is node 0: node 0 is
`ex_index_node`, every other node id reads as `ex_leaf_node`. -/
def ex_root_zero_tree : grub_hfsplus_btree Nat :=
  ⟨ex_file 4, 0, 512, fun id => if id = 0 then Except.ok ex_index_node else Except.ok ex_leaf_node⟩

/-- The value `fileblock - blksleft` that a pass of the loop of
`grub_hfsplus_read_block` assigns to the start block of its search key, the
pass starting in state `s` and missing in the list in hand (`blksleft` is by
then less that list's total). -/
def read_block_search_start (le : Bool) (fileblock : Nat) (s : read_block_state) : Nat :=
  fileblock - (s.blksleft - extents_total le s.extents)

/-! ## Specification-side notions for well-formed trees -/

/-- Record `r` is a leaf record of the subtree of node `id`, found at most `d`
levels below it: the node reads as a leaf that holds `r`, or as an index node
one of whose children has `r` in its subtree. -/
def subtree_record {R : Type} (le : Bool) (mem : grub_hfsplus_key_mem R)
    (btree : grub_hfsplus_btree R) : Nat → Nat → R → Prop
  | 0, _, _ => False
  | d + 1, id, r =>
    ∃ n, btree.read_node id = Except.ok n ∧
      ((n.type = GRUB_HFSPLUS_BTNODE_TYPE_LEAF ∧
          ∃ i, i < grub_be_to_cpu16 le n.count ∧ n.recptr i = r) ∨
        (n.type = GRUB_HFSPLUS_BTNODE_TYPE_INDEX ∧
          ∃ i, i < grub_be_to_cpu16 le n.count ∧
            subtree_record le mem btree d (index_child le mem n i) r))

/-- The subtree of node `id` is well formed for the key order `kr`, with no
path longer than `d` nodes (so it holds no cycle): every node reads as a leaf
or an index node whose records are in non-decreasing key order; the key of
each index record is the smallest key of the subtree of the child it points
to; and the keys of the subtree of an index record are not above those of
the subtree of the next record. -/
def subtree_wf {R K : Type} [LinearOrder K] (le : Bool) (mem : grub_hfsplus_key_mem R)
    (btree : grub_hfsplus_btree R) (kr : R → K) : Nat → Nat → Prop
  | 0, _ => False
  | d + 1, id =>
    ∃ n, btree.read_node id = Except.ok n ∧
      (n.type = GRUB_HFSPLUS_BTNODE_TYPE_LEAF ∨ n.type = GRUB_HFSPLUS_BTNODE_TYPE_INDEX) ∧
      (∀ i j, i ≤ j → j < grub_be_to_cpu16 le n.count → kr (n.recptr i) ≤ kr (n.recptr j)) ∧
      (n.type = GRUB_HFSPLUS_BTNODE_TYPE_INDEX →
        (∀ i, i < grub_be_to_cpu16 le n.count →
          subtree_wf le mem btree kr d (index_child le mem n i) ∧
          (∀ r, subtree_record le mem btree d (index_child le mem n i) r →
            kr (n.recptr i) ≤ kr r) ∧
          (∃ r, subtree_record le mem btree d (index_child le mem n i) r ∧
            kr r = kr (n.recptr i))) ∧
        (∀ i, i + 1 < grub_be_to_cpu16 le n.count →
          ∀ r r1, subtree_record le mem btree d (index_child le mem n i) r →
            subtree_record le mem btree d (index_child le mem n (i + 1)) r1 →
            kr r ≤ kr r1))

/-- Node `L` is a leaf of the subtree of node `id`, found at most `d` levels
below it: the node reads as the leaf `L`, or as an index node one of whose
children has `L` in its subtree. -/
def subtree_leaf {R : Type} (le : Bool) (mem : grub_hfsplus_key_mem R)
    (btree : grub_hfsplus_btree R) : Nat → Nat → grub_hfsplus_btnode R → Prop
  | 0, _, _ => False
  | d + 1, id, L =>
    ∃ n, btree.read_node id = Except.ok n ∧
      ((n.type = GRUB_HFSPLUS_BTNODE_TYPE_LEAF ∧ n = L) ∨
        (n.type = GRUB_HFSPLUS_BTNODE_TYPE_INDEX ∧
          ∃ i, i < grub_be_to_cpu16 le n.count ∧
            subtree_leaf le mem btree d (index_child le mem n i) L))

/-- The position that follows record `i` of node `n` in the order in which
`grub_hfsplus_btree_iterate_node` visits the records: the next record of the
node, or, behind its last record, record 0 of the node that `next` points to
(`none` if there is no such node, its read fails, or it holds no record). -/
def chain_next_pos {R : Type} (le : Bool) (btree : grub_hfsplus_btree R)
    (n : grub_hfsplus_btnode R) (i : Nat) : Option (grub_hfsplus_btnode R × Nat) :=
  if i + 1 < grub_be_to_cpu16 le n.count then some (n, i + 1)
  else if n.next = 0 then none
  else
    match btree.read_node (grub_be_to_cpu32 le n.next) with
    | Except.error _ => none
    | Except.ok m => if 0 < grub_be_to_cpu16 le m.count then some (m, 0) else none

/-- An index node with the one record 3, pointing at node 3. -/
def ex_index_three : grub_hfsplus_btnode Nat :=
  ⟨0, GRUB_HFSPLUS_BTNODE_TYPE_INDEX, 1, fun _ => 3⟩

/-- A well-formed two-level tree (big-endian host): root 1 is
`ex_index_three`, every other node id reads as `ex_leaf_node`, whose smallest
record is 3. -/
def ex_sorted_tree : grub_hfsplus_btree Nat :=
  ⟨ex_file 4, 1, 512,
    fun id => if id = 1 then Except.ok ex_index_three else Except.ok ex_leaf_node⟩

/-- The index root of a two-level catalog (big-endian host): the record keyed
(1, "V") points at node 2 and the record keyed (2, "A") at node 3. -/
def ex_catalog_index : grub_hfsplus_btnode grub_hfsplus_catrecord :=
  ⟨0, GRUB_HFSPLUS_BTNODE_TYPE_INDEX, 2, fun i =>
    if i = 0 then ⟨⟨8, 1, 1, fun _ => 86⟩, fun _ _ => ex_catfile 0, fun _ => 2⟩
    else ⟨⟨8, 2, 1, fun _ => 65⟩, fun _ _ => ex_catfile 0, fun _ => 3⟩⟩

/-- The first leaf of the two-level catalog: the record of the root folder,
keyed (1, "V"), and the thread record of the root folder, keyed (2, ""); its
`next` is node 3. -/
def ex_catalog_leaf_a : grub_hfsplus_btnode grub_hfsplus_catrecord :=
  ⟨3, GRUB_HFSPLUS_BTNODE_TYPE_LEAF, 2, fun i =>
    if i = 0 then ex_catrecord 1 [86] GRUB_HFSPLUS_FILETYPE_DIR
    else ex_catrecord 2 [] GRUB_HFSPLUS_FILETYPE_DIR_THREAD⟩

/-- The second and last leaf of the two-level catalog: the record of the file
"A" of the root folder, keyed (2, "A"), and the thread record of that file,
keyed (20, ""). -/
def ex_catalog_leaf_b : grub_hfsplus_btnode grub_hfsplus_catrecord :=
  ⟨0, GRUB_HFSPLUS_BTNODE_TYPE_LEAF, 2, fun i =>
    if i = 0 then ex_catrecord 2 [65] GRUB_HFSPLUS_FILETYPE_REG
    else ex_catrecord 20 [] GRUB_HFSPLUS_FILETYPE_REG_THREAD⟩

/-- A two-level catalog tree (big-endian host): root 1 is `ex_catalog_index`,
node 2 is `ex_catalog_leaf_a`, every other node id reads as
`ex_catalog_leaf_b`. -/
def ex_catalog_tree : grub_hfsplus_btree grub_hfsplus_catrecord :=
  ⟨ex_file 4, 1, 512, fun id =>
    if id = 1 then Except.ok ex_catalog_index
    else if id = 2 then Except.ok ex_catalog_leaf_a
    else Except.ok ex_catalog_leaf_b⟩

/-- The catalog keys of the examples as numbers: parent id, then name length. -/
def ex_catalog_order (r : grub_hfsplus_catrecord) : Nat :=
  grub_be_to_cpu32 false r.catkey.parent * 65536 + grub_be_to_cpu16 false r.catkey.namelen

/-- The key of an extents-overflow record in the order of the tree: file id,
then fork type, then start block, decoded and compared lexicographically. -/
def extrecord_key (le : Bool) (r : grub_hfsplus_extrecord) : Lex (Nat × Lex (Nat × Nat)) :=
  toLex (grub_be_to_cpu32 le r.extkey.fileid,
    toLex (r.extkey.type, grub_be_to_cpu32 le r.extkey.start))

/-- An index node of an extents-overflow tree whose one record is keyed
(file 200, data fork, start 0) and points at node 2. -/
def ex_misfiled_index : grub_hfsplus_btnode grub_hfsplus_extrecord :=
  ⟨0, GRUB_HFSPLUS_BTNODE_TYPE_INDEX, 1, fun _ =>
    ⟨⟨10, 0, 0, 200, 0⟩, ex_no_extents, fun _ => 2⟩⟩

/-- A mounted volume (big-endian host) whose extents-overflow tree holds the
records of `ex_overflow_leaf` in node 2, below an index root (node 1) whose
record for that leaf carries the key (file 200, data fork, start 0), which is
not the smallest key of the leaf. -/
def ex_misfiled_data : grub_hfsplus_data Nat grub_hfsplus_extrecord Nat :=
  { volheader := ex_volheader
    catalog_tree := ex_absent_tree
    extoverflow_tree := ⟨ex_file 3, 1, 512, fun id =>
      if id = 1 then Except.ok ex_misfiled_index else Except.ok ex_overflow_leaf⟩
    attr_tree := ex_absent_tree
    dirroot := ex_file 2
    opened_file := ex_file 0
    embedded_offset := 0
    log2blksize := 12
    case_sensitive := false }

/-! # Theorems -/

/-! ## Loops with fuel -/

theorem while_loop_succ {A S : Type} (body : S → loop_ctl A S) (fuel : Nat) (s : S) :
    while_loop body (fuel + 1) s =
      match body s with
      | loop_ctl.ret a => some a
      | loop_ctl.again s1 => while_loop body fuel s1 := rfl

theorem loop_state_succ {A S : Type} (body : S → loop_ctl A S) (k : Nat) (s : S) :
    loop_state body (k + 1) s =
      match body s with
      | loop_ctl.ret _ => none
      | loop_ctl.again s1 => loop_state body k s1 := rfl

/-- More fuel does not change a result already obtained. -/
theorem while_loop_mono {A S : Type} (body : S → loop_ctl A S) :
    ∀ (fuel d : Nat) (s : S) (a : A),
      while_loop body fuel s = some a → while_loop body (fuel + d) s = some a := by
  intro fuel
  induction fuel with
  | zero => intro d s a h; simp [while_loop] at h
  | succ n ih =>
    intro d s a h
    have e : n + 1 + d = (n + d) + 1 := by omega
    rw [e, while_loop_succ]
    rw [while_loop_succ] at h
    cases hb : body s with
    | ret a1 => simpa [hb] using h
    | again s1 =>
      simp only [hb] at h ⊢
      exact ih d s1 a h

theorem while_loop_mono_le {A S : Type} (body : S → loop_ctl A S)
    (fuel fuel2 : Nat) (s : S) (a : A) (hle : fuel ≤ fuel2)
    (h : while_loop body fuel s = some a) : while_loop body fuel2 s = some a := by
  obtain ⟨d, rfl⟩ := Nat.exists_eq_add_of_le hle
  exact while_loop_mono body fuel d s a h

/-- A loop returns `a` within `fuel` passes exactly when some pass `k < fuel`
is reached and returns `a`. -/
theorem while_loop_eq_some_iff {A S : Type} (body : S → loop_ctl A S) :
    ∀ (fuel : Nat) (s : S) (a : A),
      while_loop body fuel s = some a ↔
        ∃ k, k < fuel ∧ ∃ s1, loop_state body k s = some s1 ∧ body s1 = loop_ctl.ret a := by
  intro fuel
  induction fuel with
  | zero => intro s a; simp [while_loop]
  | succ n ih =>
    intro s a
    rw [while_loop_succ]
    cases hb : body s with
    | ret a1 =>
      simp only []
      constructor
      · intro h
        refine ⟨0, by omega, s, rfl, ?_⟩
        rw [hb]; simpa using h
      · rintro ⟨k, _, s1, hk, hr⟩
        cases k with
        | zero =>
          simp only [loop_state, Option.some.injEq] at hk
          subst hk
          rw [hb] at hr
          simpa using hr
        | succ k => rw [loop_state_succ, hb] at hk; simp at hk
    | again s2 =>
      simp only []
      rw [ih]
      constructor
      · rintro ⟨k, hk, s1, hs, hr⟩
        exact ⟨k + 1, by omega, s1, by rw [loop_state_succ, hb]; exact hs, hr⟩
      · rintro ⟨k, hk, s1, hs, hr⟩
        cases k with
        | zero =>
          simp only [loop_state, Option.some.injEq] at hs
          subst hs
          rw [hb] at hr
          cases hr
        | succ k =>
          rw [loop_state_succ, hb] at hs
          exact ⟨k, by omega, s1, hs, hr⟩

/-- If no loop state exists after `K` passes, the loop has returned within `K` passes. -/
theorem while_loop_of_loop_state_none {A S : Type} (body : S → loop_ctl A S) :
    ∀ (K : Nat) (s : S), loop_state body K s = none → ∃ a, while_loop body K s = some a := by
  intro K
  induction K with
  | zero => intro s h; simp [loop_state] at h
  | succ n ih =>
    intro s h
    rw [loop_state_succ] at h
    rw [while_loop_succ]
    cases hb : body s with
    | ret a => exact ⟨a, rfl⟩
    | again s1 =>
      simp only [hb] at h
      exact ih s1 h

/-- The state after `k + 1` passes is one pass on from the state after `k`. -/
theorem loop_state_succ_right {A S : Type} (body : S → loop_ctl A S) :
    ∀ (k : Nat) (s s1 : S), loop_state body k s = some s1 →
      loop_state body (k + 1) s =
        match body s1 with
        | loop_ctl.ret _ => none
        | loop_ctl.again s2 => some s2 := by
  intro k
  induction k with
  | zero =>
    intro s s1 h
    simp only [loop_state, Option.some.injEq] at h
    subst h
    rw [loop_state_succ]
    cases body s <;> rfl
  | succ n ih =>
    intro s s1 h
    rw [loop_state_succ] at h
    rw [loop_state_succ]
    cases hb : body s with
    | ret a => simp [hb] at h
    | again s2 =>
      simp only [hb] at h ⊢
      exact ih s2 s1 h

/-- A state reached after `k + 1` passes has a predecessor reached after `k`. -/
theorem loop_state_pred {A S : Type} (body : S → loop_ctl A S) :
    ∀ (k : Nat) (s s2 : S), loop_state body (k + 1) s = some s2 →
      ∃ s1, loop_state body k s = some s1 ∧ body s1 = loop_ctl.again s2 := by
  intro k
  induction k with
  | zero =>
    intro s s2 h
    rw [loop_state_succ] at h
    cases hb : body s with
    | ret a => simp [hb] at h
    | again s3 =>
      simp only [hb, loop_state, Option.some.injEq] at h
      subst h
      exact ⟨s, rfl, hb⟩
  | succ n ih =>
    intro s s2 h
    rw [loop_state_succ] at h
    cases hb : body s with
    | ret a => simp [hb] at h
    | again s3 =>
      simp only [hb] at h
      obtain ⟨s1, h1, h2⟩ := ih s3 s2 h
      exact ⟨s1, by rw [loop_state_succ, hb]; exact h1, h2⟩

/-! ## Power-of-two checkpoints -/

theorem checkpoint_due_eq (k : Nat) (h1 : 1 ≤ k) (h2 : k < 2 ^ 64) :
    checkpoint_due k = decide (k &&& (k - 1) = 0) := by
  unfold checkpoint_due
  have : (k + (2 ^ 64 - 1)) % 2 ^ 64 = k - 1 := by omega
  rw [this]

theorem checkpoint_due_zero : checkpoint_due 0 = true := by
  simp [checkpoint_due]

theorem checkpoint_due_two_pow (j : Nat) (h : j < 64) : checkpoint_due (2 ^ j) = true := by
  have h2 : 2 ^ j < 2 ^ 64 := Nat.pow_lt_pow_right (by omega) h
  rw [checkpoint_due_eq _ (Nat.one_le_two_pow) h2]
  simp [Nat.and_pow_two_sub_one_eq_mod]

theorem testBit_of_range (x j : Nat) (h1 : 2 ^ j ≤ x) (h2 : x < 2 ^ (j + 1)) :
    x.testBit j = true := by
  rw [Nat.testBit_to_div_mod]
  have : x / 2 ^ j = 1 := by
    apply Nat.div_eq_of_lt_le
    · simpa using h1
    · rw [pow_succ] at h2; omega
  simp [this]

theorem checkpoint_due_between (j k : Nat) (h1 : 2 ^ j < k) (h2 : k < 2 ^ (j + 1))
    (h3 : k < 2 ^ 64) : checkpoint_due k = false := by
  rw [checkpoint_due_eq _ (by omega) h3]
  simp only [decide_eq_false_iff_not]
  intro h0
  have hb : (k &&& (k - 1)).testBit j = true := by
    rw [Nat.testBit_and, testBit_of_range k j (by omega) h2,
      testBit_of_range (k - 1) j (by omega) (by omega)]
    rfl
  rw [h0] at hb
  simp at hb

theorem brent_saved_between (c : Nat → Nat) (init j : Nat) (hj : j < 64) :
    ∀ k, 2 ^ j ≤ k → k < 2 ^ (j + 1) → k < 2 ^ 64 → brent_saved c init (k + 1) = c (2 ^ j) := by
  intro k
  induction k with
  | zero => intro h; exact absurd h (by have := Nat.one_le_two_pow (n := j); omega)
  | succ n ih =>
    intro h1 h2 h3
    rcases Nat.eq_or_lt_of_le h1 with h | h
    · rw [← h]
      show (if checkpoint_due (2 ^ j) then c (2 ^ j) else _) = _
      rw [checkpoint_due_two_pow j hj]; rfl
    · show (if checkpoint_due (n + 1) then c (n + 1) else brent_saved c init (n + 1)) = _
      rw [checkpoint_due_between j (n + 1) h h2 h3]
      simp only [Bool.false_eq_true, if_false]
      exact ih (by omega) (by omega) (by omega)

theorem periodic_of_step (c : Nat → Nat) (g : Nat → Nat) (hstep : ∀ k, c (k + 1) = g (c k))
    (a b : Nat) (hab : c a = c b) : ∀ i, c (a + i) = c (b + i) := by
  intro i
  induction i with
  | zero => simpa using hab
  | succ n ih =>
    have e1 : a + (n + 1) = (a + n) + 1 := by omega
    have e2 : b + (n + 1) = (b + n) + 1 := by omega
    rw [e1, e2, hstep, hstep, ih]

/-- Cycle detection with power-of-two checkpoints (Brent): on a walk `c`
generated by a step function, once two positions `a < b` hold the same value the checkpoint equals the visited
value at some step `K >= 1`. -/
theorem brent_detects (c : Nat → Nat) (g : Nat → Nat) (hstep : ∀ k, c (k + 1) = g (c k))
    (a b : Nat) (hlt : a < b) (hb : b ≤ 2 ^ 33) (hab : c a = c b) (init : Nat) :
    ∃ K, 1 ≤ K ∧ K ≤ 2 ^ 34 ∧ brent_saved c init K = c K := by
  refine ⟨2 ^ 33 + (b - a), by omega, by omega, ?_⟩
  have hs := brent_saved_between c init 33 (by omega) (2 ^ 33 + (b - a) - 1)
    (by omega) (by omega) (by omega)
  have e : 2 ^ 33 + (b - a) - 1 + 1 = 2 ^ 33 + (b - a) := by omega
  rw [e] at hs
  rw [hs]
  have hp := periodic_of_step c g hstep a b hab (2 ^ 33 - a)
  have e1 : a + (2 ^ 33 - a) = 2 ^ 33 := by omega
  have e2 : b + (2 ^ 33 - a) = 2 ^ 33 + (b - a) := by omega
  rw [e1, e2] at hp
  exact hp

theorem pigeon (f : Nat → Nat) (N : Nat) (h : ∀ k, f k < N) :
    ∃ a b, a < b ∧ b ≤ N ∧ f a = f b := by
  have := Fintype.exists_ne_map_eq_of_card_lt (fun i : Fin (N + 1) => (⟨f i, h i⟩ : Fin N))
    (by simp)
  obtain ⟨x, y, hne, he⟩ := this
  have he2 : f x = f y := by simpa using congrArg Fin.val he
  rcases Nat.lt_or_gt_of_ne (fun h => hne (Fin.ext h)) with h1 | h1
  · exact ⟨x, y, h1, by omega, he2⟩
  · exact ⟨y, x, h1, by omega, he2.symm⟩

/-! ## The record loop and the body of the search loop -/

theorem grub_be_to_cpu32_lt (le : Bool) (x : Nat) : grub_be_to_cpu32 le x < 4294967296 := by
  unfold grub_be_to_cpu32 grub_swap_bytes32
  split <;> omega

theorem grub_be_to_cpu16_lt (le : Bool) (x : Nat) : grub_be_to_cpu16 le x < 65536 := by
  unfold grub_be_to_cpu16 grub_swap_bytes16
  split <;> omega

theorem btree_search_records_succ {R KI : Type} (le : Bool) (mem : grub_hfsplus_key_mem R)
    (nodedesc : grub_hfsplus_btnode R) (key : KI) (compare_keys : R → KI → Int)
    (todo rec currnode : Nat) (matched : Bool) :
    btree_search_records le mem nodedesc key compare_keys (todo + 1) rec currnode matched =
      if nodedesc.type = GRUB_HFSPLUS_BTNODE_TYPE_LEAF ∧
          compare_keys (nodedesc.recptr rec) key = 0 then
        grub_hfsplus_scan.found rec
      else if nodedesc.type = GRUB_HFSPLUS_BTNODE_TYPE_INDEX then
        if compare_keys (nodedesc.recptr rec) key > 0 then
          grub_hfsplus_scan.done currnode matched
        else
          btree_search_records le mem nodedesc key compare_keys todo (rec + 1)
            (grub_be_to_cpu32 le (mem.unaligned32 (nodedesc.recptr rec)
              (grub_be_to_cpu16 le (mem.keylen (nodedesc.recptr rec)) + 2))) true
      else
        btree_search_records le mem nodedesc key compare_keys todo (rec + 1) currnode
          matched := rfl

/-- A hit of the record loop is in a leaf, at the first record from `rec` on
that compares equal. -/
theorem btree_search_records_found {R KI : Type} (le : Bool) (mem : grub_hfsplus_key_mem R)
    (nodedesc : grub_hfsplus_btnode R) (key : KI) (compare_keys : R → KI → Int) :
    ∀ (todo rec currnode : Nat) (matched : Bool) (i : Nat),
      btree_search_records le mem nodedesc key compare_keys todo rec currnode matched
        = grub_hfsplus_scan.found i →
      nodedesc.type = GRUB_HFSPLUS_BTNODE_TYPE_LEAF ∧ rec ≤ i ∧ i < rec + todo ∧
        compare_keys (nodedesc.recptr i) key = 0 ∧
        ∀ j, rec ≤ j → j < i → compare_keys (nodedesc.recptr j) key ≠ 0 := by
  intro todo
  induction todo with
  | zero => intro rec c m i h; simp [btree_search_records] at h
  | succ n ih =>
    intro rec c m i h
    rw [btree_search_records_succ] at h
    split at h
    next hc =>
      cases h
      exact ⟨hc.1, le_refl _, by omega, hc.2, fun j h1 h2 => by omega⟩
    next hc =>
      split at h
      next hi =>
        split at h
        · cases h
        · obtain ⟨h1, h2, h3, h4, h5⟩ := ih _ _ _ _ h
          refine ⟨h1, by omega, by omega, h4, ?_⟩
          intro j hj1 hj2
          rcases Nat.eq_or_lt_of_le hj1 with e | e
          · subst e
            intro h0
            exact hc ⟨h1, h0⟩
          · exact h5 j (by omega) hj2
      next hi =>
        obtain ⟨h1, h2, h3, h4, h5⟩ := ih _ _ _ _ h
        refine ⟨h1, by omega, by omega, h4, ?_⟩
        intro j hj1 hj2
        rcases Nat.eq_or_lt_of_le hj1 with e | e
        · subst e
          intro h0
          exact hc ⟨h1, h0⟩
        · exact h5 j (by omega) hj2

/-- When the record loop ends, either nothing was marked and `currnode` is
unchanged, or `match` is set and `currnode` is a decoded 32-bit child pointer. -/
theorem btree_search_records_done {R KI : Type} (le : Bool) (mem : grub_hfsplus_key_mem R)
    (nodedesc : grub_hfsplus_btnode R) (key : KI) (compare_keys : R → KI → Int) :
    ∀ (todo rec currnode : Nat) (matched : Bool) (c : Nat) (m : Bool),
      btree_search_records le mem nodedesc key compare_keys todo rec currnode matched
        = grub_hfsplus_scan.done c m →
      (c = currnode ∧ m = matched) ∨ (m = true ∧ c < 4294967296) := by
  intro todo
  induction todo with
  | zero =>
    intro rec c0 m0 c m h
    simp only [btree_search_records, grub_hfsplus_scan.done.injEq] at h
    exact Or.inl ⟨h.1.symm, h.2.symm⟩
  | succ n ih =>
    intro rec c0 m0 c m h
    rw [btree_search_records_succ] at h
    split at h
    · cases h
    · split at h
      · split at h
        · simp only [grub_hfsplus_scan.done.injEq] at h
          exact Or.inl ⟨h.1.symm, h.2.symm⟩
        · rcases ih _ _ _ _ _ h with ⟨h1, h2⟩ | h1
          · exact Or.inr ⟨h2, by rw [h1]; exact grub_be_to_cpu32_lt _ _⟩
          · exact Or.inr h1
      · exact ih _ _ _ _ _ h

/-- The five ways through the body of the search loop. -/
theorem btree_search_body_cases {R KI : Type} (le : Bool) (mem : grub_hfsplus_key_mem R)
    (btree : grub_hfsplus_btree R) (key : KI) (compare_keys : R → KI → Int)
    (s : btree_search_state) :
    (s.save_node = s.currnode ∧
      btree_search_body le mem btree key compare_keys s =
        loop_ctl.ret (⟨grub_err_t.GRUB_ERR_BAD_FS, none, none⟩,
          (grub_error s.env grub_err_t.GRUB_ERR_BAD_FS grub_errmsg.btree_loop).2))
    ∨ (s.save_node ≠ s.currnode ∧ ∃ e, btree.read_node s.currnode = Except.error e ∧
      descent_next le mem btree key compare_keys s.currnode = none ∧
      btree_search_body le mem btree key compare_keys s =
        loop_ctl.ret (⟨grub_err_t.GRUB_ERR_BAD_FS, none, none⟩,
          (grub_error (read_failed
            (trace_event s.env (grub_event.read_node btree.file.fileid s.currnode false)) e)
            grub_err_t.GRUB_ERR_BAD_FS grub_errmsg.couldnt_read_inode).2))
    ∨ (s.save_node ≠ s.currnode ∧ ∃ n rec, btree.read_node s.currnode = Except.ok n ∧
      btree_search_records le mem n key compare_keys (grub_be_to_cpu16 le n.count) 0
        s.currnode false = grub_hfsplus_scan.found rec ∧
      descent_next le mem btree key compare_keys s.currnode = none ∧
      btree_search_body le mem btree key compare_keys s =
        loop_ctl.ret (⟨grub_err_t.GRUB_ERR_NONE, some (some n), some rec⟩,
          trace_event s.env (grub_event.read_node btree.file.fileid s.currnode true)))
    ∨ (s.save_node ≠ s.currnode ∧ ∃ n c, btree.read_node s.currnode = Except.ok n ∧
      btree_search_records le mem n key compare_keys (grub_be_to_cpu16 le n.count) 0
        s.currnode false = grub_hfsplus_scan.done c false ∧
      descent_next le mem btree key compare_keys s.currnode = none ∧
      btree_search_body le mem btree key compare_keys s =
        loop_ctl.ret (⟨grub_err_t.GRUB_ERR_NONE, some none, none⟩,
          trace_event s.env (grub_event.read_node btree.file.fileid s.currnode true)))
    ∨ (s.save_node ≠ s.currnode ∧ ∃ n c, btree.read_node s.currnode = Except.ok n ∧
      btree_search_records le mem n key compare_keys (grub_be_to_cpu16 le n.count) 0
        s.currnode false = grub_hfsplus_scan.done c true ∧
      descent_next le mem btree key compare_keys s.currnode = some c ∧
      c < 4294967296 ∧
      btree_search_body le mem btree key compare_keys s =
        loop_ctl.again ⟨c, if checkpoint_due s.node_count then s.currnode else s.save_node,
          (s.node_count + 1) % 2 ^ 64,
          trace_event s.env (grub_event.read_node btree.file.fileid s.currnode true)⟩) := by
  by_cases hg : s.save_node = s.currnode
  · left
    exact ⟨hg, by simp [btree_search_body, hg, grub_error]⟩
  · right
    cases hr : btree.read_node s.currnode with
    | error e =>
      left
      refine ⟨hg, e, rfl, by simp [descent_next, hr], ?_⟩
      simp [btree_search_body, hg, hr, grub_error]
    | ok n =>
      right
      cases hs : btree_search_records le mem n key compare_keys (grub_be_to_cpu16 le n.count) 0
          s.currnode false with
      | found rec =>
        left
        refine ⟨hg, n, rec, rfl, hs, by simp [descent_next, hr, hs], ?_⟩
        simp [btree_search_body, hg, hr, hs]
      | done c m =>
        right
        cases m with
        | false =>
          left
          refine ⟨hg, n, c, rfl, hs, by simp [descent_next, hr, hs], ?_⟩
          simp [btree_search_body, hg, hr, hs]
        | true =>
          right
          have hlt : c < 4294967296 := by
            rcases btree_search_records_done le mem n key compare_keys _ _ _ _ _ _ hs with h | h
            · exact absurd h.2 (by simp)
            · exact h.2
          refine ⟨hg, n, c, rfl, hs, by simp [descent_next, hr, hs], hlt, ?_⟩
          simp [btree_search_body, hg, hr, hs]

/-- A pass of the search loop that goes round again descended to a child. -/
theorem btree_search_body_again {R KI : Type} (le : Bool) (mem : grub_hfsplus_key_mem R)
    (btree : grub_hfsplus_btree R) (key : KI) (compare_keys : R → KI → Int)
    (s s1 : btree_search_state)
    (h : btree_search_body le mem btree key compare_keys s = loop_ctl.again s1) :
    s.save_node ≠ s.currnode ∧
      descent_next le mem btree key compare_keys s.currnode = some s1.currnode ∧
      s1.currnode < 4294967296 ∧
      s1.save_node = (if checkpoint_due s.node_count then s.currnode else s.save_node) ∧
      s1.node_count = (s.node_count + 1) % 2 ^ 64 := by
  rcases btree_search_body_cases le mem btree key compare_keys s with
    ⟨_, hb⟩ | ⟨_, _, _, _, hb⟩ | ⟨_, _, _, _, _, _, hb⟩ | ⟨_, _, _, _, _, _, hb⟩ |
    ⟨hg, n, c, _, _, hn, hlt, hb⟩
  · rw [hb] at h; cases h
  · rw [hb] at h; cases h
  · rw [hb] at h; cases h
  · rw [hb] at h; cases h
  · rw [hb] at h
    cases h
    exact ⟨hg, hn, hlt, rfl, rfl⟩

/-- The loop state after `k` passes of the search loop, in terms of the descent
path and the checkpoint sequence. -/
theorem btree_search_state_inv {R KI : Type} (le : Bool) (mem : grub_hfsplus_key_mem R)
    (btree : grub_hfsplus_btree R) (key : KI) (compare_keys : R → KI → Int)
    (env : grub_env) :
    ∀ (k : Nat) (st : btree_search_state), k < 2 ^ 64 →
      loop_state (btree_search_body le mem btree key compare_keys) k
        (btree_search_init btree env) = some st →
      st.currnode = descent_seq le mem btree key compare_keys k ∧
      descent_path le mem btree key compare_keys k = some st.currnode ∧
      st.node_count = k ∧
      st.save_node = brent_saved (descent_seq le mem btree key compare_keys)
        ((btree.root + (2 ^ 64 - 1)) % 2 ^ 64) k := by
  intro k
  induction k with
  | zero =>
    intro st _ h
    simp only [loop_state, Option.some.injEq] at h
    subst h
    exact ⟨rfl, rfl, rfl, rfl⟩
  | succ n ih =>
    intro st hk h
    obtain ⟨s1, h1, h2⟩ := loop_state_pred _ n _ st h
    obtain ⟨i1, i2, i3, i4⟩ := ih s1 (by omega) h1
    obtain ⟨_, b2, _, b4, b5⟩ := btree_search_body_again le mem btree key compare_keys s1 st h2
    refine ⟨?_, ?_, ?_, ?_⟩
    · show st.currnode = (descent_next le mem btree key compare_keys
        (descent_seq le mem btree key compare_keys n)).getD 0
      rw [← i1, b2]; rfl
    · show (opt_iterate (descent_next le mem btree key compare_keys) btree.root n).bind
        (descent_next le mem btree key compare_keys) = some st.currnode
      have i2b : opt_iterate (descent_next le mem btree key compare_keys) btree.root n
          = some s1.currnode := i2
      rw [i2b]; exact b2
    · rw [b5, i3]; omega
    · rw [b4, i3, i4, i1]; rfl

theorem descent_seq_lt {R KI : Type} (le : Bool) (mem : grub_hfsplus_key_mem R)
    (btree : grub_hfsplus_btree R) (key : KI) (compare_keys : R → KI → Int) (k : Nat) :
    descent_seq le mem btree key compare_keys (k + 1) < 4294967296 := by
  show (descent_next le mem btree key compare_keys
    (descent_seq le mem btree key compare_keys k)).getD 0 < 4294967296
  cases hn : descent_next le mem btree key compare_keys
      (descent_seq le mem btree key compare_keys k) with
  | none => simp
  | some c =>
    simp only [Option.getD_some]
    unfold descent_next at hn
    split at hn
    · cases hn
    · next nodedesc _ =>
      split at hn
      · cases hn
      · next c1 m hs =>
        cases m with
        | false => simp at hn
        | true =>
          simp only [if_true, Option.some.injEq] at hn
          rcases btree_search_records_done le mem nodedesc key compare_keys _ _ _ _ _ _ hs
            with h | h
          · exact absurd h.2 (by simp)
          · rw [← hn]; exact h.2

theorem loop_state_none_succ {A S : Type} (body : S → loop_ctl A S) (k : Nat) (s : S)
    (h : loop_state body k s = none) : loop_state body (k + 1) s = none := by
  cases h1 : loop_state body (k + 1) s with
  | none => rfl
  | some s2 =>
    obtain ⟨s1, h2, _⟩ := loop_state_pred body k s s2 h1
    rw [h] at h2
    cases h2

/-- The search loop returns within `2 ^ 34 + 1` passes, whatever the tree image. -/
theorem btree_search_loop_terminates {R KI : Type} (le : Bool)
    (mem : grub_hfsplus_key_mem R) (btree : grub_hfsplus_btree R) (key : KI)
    (compare_keys : R → KI → Int) (env : grub_env) :
    ∃ a, while_loop (btree_search_body le mem btree key compare_keys) (2 ^ 34 + 1)
      (btree_search_init btree env) = some a := by
  obtain ⟨a, b, hab, hb, he⟩ := pigeon
    (fun k => descent_seq le mem btree key compare_keys (k + 1)) 4294967296
    (fun k => descent_seq_lt le mem btree key compare_keys k)
  obtain ⟨K, hK1, hK2, hK⟩ := brent_detects (descent_seq le mem btree key compare_keys)
    (fun x => (descent_next le mem btree key compare_keys x).getD 0) (fun _ => rfl)
    (a + 1) (b + 1) (by omega) (by omega) he ((btree.root + (2 ^ 64 - 1)) % 2 ^ 64)
  have hnone : loop_state (btree_search_body le mem btree key compare_keys) (K + 1)
      (btree_search_init btree env) = none := by
    cases hs : loop_state (btree_search_body le mem btree key compare_keys) K
        (btree_search_init btree env) with
    | none => exact loop_state_none_succ _ _ _ hs
    | some st =>
      obtain ⟨i1, _, _, i4⟩ := btree_search_state_inv le mem btree key compare_keys env K st
        (by omega) hs
      rw [loop_state_succ_right _ K _ st hs]
      rcases btree_search_body_cases le mem btree key compare_keys st with
        ⟨_, hb⟩ | ⟨hg, _⟩ | ⟨hg, _⟩ | ⟨hg, _⟩ | ⟨hg, _⟩
      · rw [hb]
      · exact absurd (by rw [i4, i1, hK]) hg
      · exact absurd (by rw [i4, i1, hK]) hg
      · exact absurd (by rw [i4, i1, hK]) hg
      · exact absurd (by rw [i4, i1, hK]) hg
  obtain ⟨r, hr⟩ := while_loop_of_loop_state_none _ (K + 1) _ hnone
  exact ⟨r, while_loop_mono_le _ (K + 1) (2 ^ 34 + 1) _ r (by omega) hr⟩

theorem opt_iterate_none_add {α : Type} (f : α → Option α) (x : α) (k d : Nat)
    (h : opt_iterate f x k = none) : opt_iterate f x (k + d) = none := by
  induction d with
  | zero => exact h
  | succ n ih =>
    show (opt_iterate f x (k + n)).bind f = none
    rw [ih]; rfl

theorem opt_iterate_periodic {α : Type} (f : α → Option α) (x : α) (a b : Nat)
    (h : opt_iterate f x a = opt_iterate f x b) (i : Nat) :
    opt_iterate f x (a + i) = opt_iterate f x (b + i) := by
  induction i with
  | zero => exact h
  | succ n ih =>
    show (opt_iterate f x (a + n)).bind f = (opt_iterate f x (b + n)).bind f
    rw [ih]

/-- A partial iteration that comes back to a value it has visited never ends. -/
theorem opt_iterate_cycle_forever {α : Type} (f : α → Option α) (x : α) (a b : Nat) (y : α)
    (hab : a < b) (ha : opt_iterate f x a = some y) (hb : opt_iterate f x b = some y) :
    ∀ k, opt_iterate f x k ≠ none := by
  intro k
  induction k using Nat.strong_induction_on with
  | _ k ih =>
    by_cases hk : k ≤ b
    · intro h0
      have := opt_iterate_none_add f x k (b - k) h0
      rw [show k + (b - k) = b by omega, hb] at this
      cases this
    · have hp := opt_iterate_periodic f x a b (by rw [ha, hb]) (k - b)
      rw [show b + (k - b) = k by omega] at hp
      rw [← hp]
      exact ih (a + (k - b)) (by omega)

/-- The search returns on every tree: with at least `2 ^ 34 + 1` passes of
fuel its result does not depend on the fuel. -/
theorem btree_search_returns {R KI : Type} (le : Bool) (mem : grub_hfsplus_key_mem R)
    (btree : grub_hfsplus_btree R) (key : KI) (compare_keys : R → KI → Int)
    (env : grub_env) :
    ∃ r, ∀ fuel, 2 ^ 34 + 1 ≤ fuel →
      grub_hfsplus_btree_search le mem fuel btree key compare_keys env = some r := by
  unfold grub_hfsplus_btree_search
  by_cases hz : btree.nodesize = 0
  · exact ⟨(⟨grub_err_t.GRUB_ERR_NONE, some none, none⟩, env), fun fuel _ => by simp [hz]⟩
  · cases hm : (grub_malloc env).1 with
    | false =>
      exact ⟨(⟨(grub_malloc env).2.grub_errno, none, none⟩, (grub_malloc env).2),
        fun fuel _ => by simp [hz, hm]⟩
    | true =>
      obtain ⟨r, hr⟩ := btree_search_loop_terminates le mem btree key compare_keys
        (grub_malloc env).2
      refine ⟨r, fun fuel hf => ?_⟩
      simp only [hz, hm, if_false, if_true]
      exact while_loop_mono_le _ _ fuel _ r hf hr

/-- **C3.** `grub_hfsplus_btree_search` terminates on every tree image, key and
comparator: it returns within `2 ^ 34 + 1` passes of its loop (and more fuel
does not change the result).  When the sequence of child pointers followed for
the key comes back to a node id already visited, the search (on a present
tree, its buffer allocated) returns `GRUB_ERR_BAD_FS` raised with the message
"HFS+ btree loop", storing no match. -/
theorem btree_search_terminates {R KI : Type} (le : Bool) (mem : grub_hfsplus_key_mem R)
    (btree : grub_hfsplus_btree R) (key : KI) (compare_keys : R → KI → Int)
    (env : grub_env) :
    (∃ r, ∀ fuel, 2 ^ 34 + 1 ≤ fuel →
      grub_hfsplus_btree_search le mem fuel btree key compare_keys env = some r) ∧
    (∀ a b x, a < b →
      descent_path le mem btree key compare_keys a = some x →
      descent_path le mem btree key compare_keys b = some x →
      btree.nodesize ≠ 0 → (grub_malloc env).1 = true →
      ∃ env1, (∀ fuel, 2 ^ 34 + 1 ≤ fuel →
          grub_hfsplus_btree_search le mem fuel btree key compare_keys env
            = some (⟨grub_err_t.GRUB_ERR_BAD_FS, none, none⟩, env1)) ∧
        env1.grub_errno = grub_err_t.GRUB_ERR_BAD_FS ∧
        env1.grub_errmsg = grub_errmsg.btree_loop) := by
  constructor
  · unfold grub_hfsplus_btree_search
    by_cases hz : btree.nodesize = 0
    · exact ⟨(⟨grub_err_t.GRUB_ERR_NONE, some none, none⟩, env), fun fuel _ => by simp [hz]⟩
    · cases hm : (grub_malloc env).1 with
      | false =>
        exact ⟨(⟨(grub_malloc env).2.grub_errno, none, none⟩, (grub_malloc env).2),
          fun fuel _ => by simp [hz, hm]⟩
      | true =>
        obtain ⟨r, hr⟩ := btree_search_loop_terminates le mem btree key compare_keys
          (grub_malloc env).2
        refine ⟨r, fun fuel hf => ?_⟩
        simp only [hz, hm, if_false, if_true]
        exact while_loop_mono_le _ _ fuel _ r hf hr
  · intro a b x hab ha hb hz hm
    obtain ⟨r, hr⟩ := btree_search_loop_terminates le mem btree key compare_keys
      (grub_malloc env).2
    obtain ⟨k, hk, st, hst, hbody⟩ := (while_loop_eq_some_iff _ _ _ _).1 hr
    obtain ⟨_, i2, _, _⟩ := btree_search_state_inv le mem btree key compare_keys
      (grub_malloc env).2 k st (by omega) hst
    have hnext : descent_next le mem btree key compare_keys st.currnode ≠ none := by
      have h1 := opt_iterate_cycle_forever (descent_next le mem btree key compare_keys)
        btree.root a b x hab ha hb (k + 1)
      have h2 : opt_iterate (descent_next le mem btree key compare_keys) btree.root (k + 1)
          = (descent_path le mem btree key compare_keys k).bind
            (descent_next le mem btree key compare_keys) := rfl
      rw [h2, i2] at h1
      exact h1
    have hres : r = (⟨grub_err_t.GRUB_ERR_BAD_FS, none, none⟩,
        (grub_error st.env grub_err_t.GRUB_ERR_BAD_FS grub_errmsg.btree_loop).2) := by
      rcases btree_search_body_cases le mem btree key compare_keys st with
        ⟨_, h⟩ | ⟨_, _, _, hn, _⟩ | ⟨_, _, _, _, _, hn, _⟩ | ⟨_, _, _, _, _, hn, _⟩ |
        ⟨_, _, _, _, _, _, _, h⟩
      · rw [h] at hbody
        cases hbody
        rfl
      · exact absurd hn hnext
      · exact absurd hn hnext
      · exact absurd hn hnext
      · rw [h] at hbody
        cases hbody
    refine ⟨(grub_error st.env grub_err_t.GRUB_ERR_BAD_FS grub_errmsg.btree_loop).2,
      fun fuel hf => ?_, rfl, rfl⟩
    unfold grub_hfsplus_btree_search
    simp only [hz, hm, if_false, if_true]
    rw [← hres]
    exact while_loop_mono_le _ _ fuel _ r hf hr

/-- Instance of C3 on `ex_cyclic_tree`, whose root is its own child. -/
theorem btree_search_terminates_witness :
    descent_path false ex_mem ex_cyclic_tree (5 : Nat) ex_cmp 0 = some 1 ∧
    descent_path false ex_mem ex_cyclic_tree (5 : Nat) ex_cmp 1 = some 1 ∧
    ∃ env1, (∀ fuel, 2 ^ 34 + 1 ≤ fuel →
        grub_hfsplus_btree_search false ex_mem fuel ex_cyclic_tree (5 : Nat) ex_cmp ex_env
          = some (⟨grub_err_t.GRUB_ERR_BAD_FS, none, none⟩, env1)) ∧
      env1.grub_errno = grub_err_t.GRUB_ERR_BAD_FS ∧
      env1.grub_errmsg = grub_errmsg.btree_loop :=
  ⟨rfl, rfl,
    (btree_search_terminates false ex_mem ex_cyclic_tree (5 : Nat) ex_cmp ex_env).2 0 1 1
      (by decide) rfl rfl (by decide) rfl⟩

/-- **C9.** On a tree whose node size is 0, `grub_hfsplus_btree_search` returns
`GRUB_ERR_NONE` with a null match at once, for every key and comparator: with
any fuel (even none), and with the global state untouched, so that no buffer
is allocated and no node is read (the trace gains no `malloc` and no
`read_node` event). -/
theorem btree_search_absent_tree {R KI : Type} (le : Bool) (mem : grub_hfsplus_key_mem R)
    (btree : grub_hfsplus_btree R) (key : KI) (compare_keys : R → KI → Int)
    (env : grub_env) (fuel : Nat) (hz : btree.nodesize = 0) :
    grub_hfsplus_btree_search le mem fuel btree key compare_keys env
      = some (⟨grub_err_t.GRUB_ERR_NONE, some none, none⟩, env) := by
  simp [grub_hfsplus_btree_search, hz]

/-- Instance of C9 on `ex_absent_tree`, with no fuel at all. -/
theorem btree_search_absent_tree_witness :
    ex_absent_tree.nodesize = 0 ∧
    grub_hfsplus_btree_search true ex_mem 0 ex_absent_tree (5 : Nat) ex_cmp ex_env
      = some (⟨grub_err_t.GRUB_ERR_NONE, some none, none⟩, ex_env) :=
  ⟨rfl, btree_search_absent_tree true ex_mem ex_absent_tree (5 : Nat) ex_cmp ex_env 0 rfl⟩

/-- In a leaf none of whose remaining records compares equal, the record loop
runs to the end and changes nothing. -/
theorem btree_search_records_leaf_none {R KI : Type} (le : Bool)
    (mem : grub_hfsplus_key_mem R) (nodedesc : grub_hfsplus_btnode R) (key : KI)
    (compare_keys : R → KI → Int)
    (hleaf : nodedesc.type = GRUB_HFSPLUS_BTNODE_TYPE_LEAF) :
    ∀ (todo rec currnode : Nat) (matched : Bool),
      (∀ j, rec ≤ j → j < rec + todo → compare_keys (nodedesc.recptr j) key ≠ 0) →
      btree_search_records le mem nodedesc key compare_keys todo rec currnode matched
        = grub_hfsplus_scan.done currnode matched := by
  intro todo
  induction todo with
  | zero => intro rec c m _; rfl
  | succ n ih =>
    intro rec c m h
    rw [btree_search_records_succ]
    have h0 := h rec (le_refl _) (by omega)
    have hne : ¬ nodedesc.type = GRUB_HFSPLUS_BTNODE_TYPE_INDEX := by
      rw [hleaf]; decide
    simp only [h0, and_false, if_false, hne]
    exact ih (rec + 1) c m (fun j h1 h2 => h j (by omega) (by omega))

/-- A match stored by the search is a node of the tree image, a leaf, and the
record index is that of its first record comparing equal to the key. -/
theorem btree_search_match_spec {R KI : Type} (le : Bool)
    (mem : grub_hfsplus_key_mem R) (btree : grub_hfsplus_btree R) (key : KI)
    (compare_keys : R → KI → Int) (fuel : Nat) (env env1 : grub_env)
    (r : grub_hfsplus_search_result R) (n : grub_hfsplus_btnode R)
    (h : grub_hfsplus_btree_search le mem fuel btree key compare_keys env = some (r, env1))
    (hm : r.matchnode = some (some n)) :
    r.err = grub_err_t.GRUB_ERR_NONE ∧
      (∃ id, btree.read_node id = Except.ok n) ∧
      n.type = GRUB_HFSPLUS_BTNODE_TYPE_LEAF ∧
      ∃ i, r.keyoffset = some i ∧ i < grub_be_to_cpu16 le n.count ∧
        compare_keys (n.recptr i) key = 0 ∧
        ∀ j, j < i → compare_keys (n.recptr j) key ≠ 0 := by
  unfold grub_hfsplus_btree_search at h
  split at h
  · cases h
    cases hm
  · dsimp only at h
    split at h
    · obtain ⟨k, _, st, _, hbody⟩ := (while_loop_eq_some_iff _ _ _ _).1 h
      rcases btree_search_body_cases le mem btree key compare_keys st with
        ⟨_, hb⟩ | ⟨_, _, _, _, hb⟩ | ⟨_, n1, rec, hr, hs, _, hb⟩ | ⟨_, _, _, _, _, _, hb⟩ |
        ⟨_, _, _, _, _, _, _, hb⟩
      · rw [hb] at hbody; cases hbody; cases hm
      · rw [hb] at hbody; cases hbody; cases hm
      · rw [hb] at hbody
        cases hbody
        cases hm
        obtain ⟨h1, _, h3, h4, h5⟩ :=
          btree_search_records_found le mem n key compare_keys _ _ _ _ _ hs
        exact ⟨rfl, ⟨st.currnode, hr⟩, h1, rec, rfl, by omega, h4,
          fun j hj => h5 j (Nat.zero_le _) hj⟩
      · rw [hb] at hbody; cases hbody; cases hm
      · rw [hb] at hbody; cases hbody
    · cases h
      cases hm

/-- **C2.** Whenever `grub_hfsplus_btree_search` returns a match `(n, i)`: the
error code is 0, `n` is a node of the tree image and is a leaf, `i` is below
its record count, the comparator reports 0 for record `i` against the key and
non-zero for every record of `n` with a smaller index.  And a pass of the
search loop that reads a leaf with no record comparing equal returns
"not found" (error code 0, null match).  The search itself returns on every
tree, given `2 ^ 34 + 1` passes of fuel. -/
theorem btree_search_match_first_exact {R KI : Type} (le : Bool)
    (mem : grub_hfsplus_key_mem R) (btree : grub_hfsplus_btree R) (key : KI)
    (compare_keys : R → KI → Int) :
    (∀ (fuel : Nat) (env env1 : grub_env) (r : grub_hfsplus_search_result R)
        (n : grub_hfsplus_btnode R),
      grub_hfsplus_btree_search le mem fuel btree key compare_keys env = some (r, env1) →
      r.matchnode = some (some n) →
      r.err = grub_err_t.GRUB_ERR_NONE ∧
      (∃ id, btree.read_node id = Except.ok n) ∧
      n.type = GRUB_HFSPLUS_BTNODE_TYPE_LEAF ∧
      ∃ i, r.keyoffset = some i ∧ i < grub_be_to_cpu16 le n.count ∧
        compare_keys (n.recptr i) key = 0 ∧
        ∀ j, j < i → compare_keys (n.recptr j) key ≠ 0) ∧
    (∀ (fuel : Nat) (s : btree_search_state) (n : grub_hfsplus_btnode R),
      s.save_node ≠ s.currnode →
      btree.read_node s.currnode = Except.ok n →
      n.type = GRUB_HFSPLUS_BTNODE_TYPE_LEAF →
      (∀ i, i < grub_be_to_cpu16 le n.count → compare_keys (n.recptr i) key ≠ 0) →
      while_loop (btree_search_body le mem btree key compare_keys) (fuel + 1) s
        = some (⟨grub_err_t.GRUB_ERR_NONE, some none, none⟩,
            trace_event s.env (grub_event.read_node btree.file.fileid s.currnode true))) ∧
    (∀ env : grub_env, ∃ r, ∀ fuel, 2 ^ 34 + 1 ≤ fuel →
      grub_hfsplus_btree_search le mem fuel btree key compare_keys env = some r) := by
  refine ⟨?_, ?_, fun env => btree_search_returns le mem btree key compare_keys env⟩
  · intro fuel env env1 r n h hm
    exact btree_search_match_spec le mem btree key compare_keys fuel env env1 r n h hm
  · intro fuel s n hg hr hleaf hne
    have hs := btree_search_records_leaf_none le mem n key compare_keys hleaf
      (grub_be_to_cpu16 le n.count) 0 s.currnode false
      (fun j _ h2 => hne j (by omega))
    rw [while_loop_succ]
    simp [btree_search_body, hg, hr, hs]

/-- Instance of C2 on `ex_tree`: key 5 is found at record 1 of the leaf (record
0 is 3, records 1 and 2 are both 5), and key 4, which no record of the leaf
equals, is reported as not found by the pass that reads the leaf. -/
theorem btree_search_match_first_exact_witness :
    (grub_hfsplus_btree_search false ex_mem 2 ex_tree (5 : Nat) ex_cmp ex_env
        = some (⟨grub_err_t.GRUB_ERR_NONE, some (some ex_leaf_node), some 1⟩,
            ⟨grub_err_t.GRUB_ERR_NONE, grub_errmsg.no_message, [],
              [grub_event.malloc true, grub_event.read_node 4 1 true,
                grub_event.read_node 4 2 true]⟩) ∧
      ∃ i, some 1 = some i ∧ i < grub_be_to_cpu16 false ex_leaf_node.count ∧
        ex_cmp (ex_leaf_node.recptr i) 5 = 0 ∧
        ∀ j, j < i → ex_cmp (ex_leaf_node.recptr j) 5 ≠ 0) ∧
    while_loop (btree_search_body false ex_mem ex_tree (4 : Nat) ex_cmp) (0 + 1)
        ⟨2, 1, 1, ex_env⟩
      = some (⟨grub_err_t.GRUB_ERR_NONE, some none, none⟩,
          trace_event ex_env (grub_event.read_node 4 2 true)) :=
  ⟨⟨rfl, ((btree_search_match_first_exact false ex_mem ex_tree (5 : Nat) ex_cmp).1 2 ex_env
      _ ⟨grub_err_t.GRUB_ERR_NONE, some (some ex_leaf_node), some 1⟩ ex_leaf_node
      rfl rfl).2.2.2⟩,
    (btree_search_match_first_exact false ex_mem ex_tree (4 : Nat) ex_cmp).2.1 0
      ⟨2, 1, 1, ex_env⟩ ex_leaf_node (by decide) rfl rfl
      (by
        intro i hi
        have h3 : i < 3 := hi
        interval_cases i <;> decide)⟩

/-! ## How the search ends -/

/-- Once the flag `match` is set the record loop does not end with it clear. -/
theorem btree_search_records_matched {R KI : Type} (le : Bool)
    (mem : grub_hfsplus_key_mem R) (nodedesc : grub_hfsplus_btnode R) (key : KI)
    (compare_keys : R → KI → Int) :
    ∀ (todo rec currnode c : Nat),
      btree_search_records le mem nodedesc key compare_keys todo rec currnode true
        ≠ grub_hfsplus_scan.done c false := by
  intro todo rec currnode c h
  rcases btree_search_records_done le mem nodedesc key compare_keys _ _ _ _ _ _ h with h1 | h1
  · exact absurd h1.2 (by simp)
  · exact absurd h1.1 (by simp)

/-- In a node that is neither a leaf nor an index node the record loop runs to
the end and changes nothing. -/
theorem btree_search_records_other {R KI : Type} (le : Bool)
    (mem : grub_hfsplus_key_mem R) (nodedesc : grub_hfsplus_btnode R) (key : KI)
    (compare_keys : R → KI → Int)
    (h1 : nodedesc.type ≠ GRUB_HFSPLUS_BTNODE_TYPE_INDEX)
    (h2 : nodedesc.type ≠ GRUB_HFSPLUS_BTNODE_TYPE_LEAF) :
    ∀ (todo rec currnode : Nat) (matched : Bool),
      btree_search_records le mem nodedesc key compare_keys todo rec currnode matched
        = grub_hfsplus_scan.done currnode matched := by
  intro todo
  induction todo with
  | zero => intro rec c m; rfl
  | succ n ih =>
    intro rec c m
    rw [btree_search_records_succ]
    simp only [h1, h2, false_and, if_false]
    exact ih (rec + 1) c m

/-- In a leaf, a record loop that runs to the end met no record comparing equal. -/
theorem btree_search_records_leaf_done {R KI : Type} (le : Bool)
    (mem : grub_hfsplus_key_mem R) (nodedesc : grub_hfsplus_btnode R) (key : KI)
    (compare_keys : R → KI → Int)
    (hleaf : nodedesc.type = GRUB_HFSPLUS_BTNODE_TYPE_LEAF) :
    ∀ (todo rec currnode : Nat) (matched : Bool) (c : Nat) (m : Bool),
      btree_search_records le mem nodedesc key compare_keys todo rec currnode matched
        = grub_hfsplus_scan.done c m →
      ∀ j, rec ≤ j → j < rec + todo → compare_keys (nodedesc.recptr j) key ≠ 0 := by
  intro todo
  induction todo with
  | zero => intro rec c0 m0 c m _ j h1 h2; omega
  | succ n ih =>
    intro rec c0 m0 c m h j h1 h2
    rw [btree_search_records_succ] at h
    have hne : ¬ nodedesc.type = GRUB_HFSPLUS_BTNODE_TYPE_INDEX := by
      rw [hleaf]; decide
    by_cases h0 : compare_keys (nodedesc.recptr rec) key = 0
    · simp [hleaf, h0] at h
    · simp only [h0, and_false, if_false, hne] at h
      rcases Nat.eq_or_lt_of_le h1 with e | e
      · rw [← e]; exact h0
      · exact ih _ _ _ _ _ h j (by omega) (by omega)

/-- The record loop over a whole node ends with `match` clear exactly when the
node has no matching record in the sense of `no_matching_record`. -/
theorem btree_search_records_no_match_iff {R KI : Type} (le : Bool)
    (mem : grub_hfsplus_key_mem R) (n : grub_hfsplus_btnode R) (key : KI)
    (compare_keys : R → KI → Int) (currnode : Nat) :
    (∃ c, btree_search_records le mem n key compare_keys (grub_be_to_cpu16 le n.count) 0
        currnode false = grub_hfsplus_scan.done c false) ↔
      no_matching_record le n key compare_keys := by
  constructor
  · rintro ⟨c, h⟩
    by_cases hi : n.type = GRUB_HFSPLUS_BTNODE_TYPE_INDEX
    · left
      refine ⟨hi, ?_⟩
      cases hc : grub_be_to_cpu16 le n.count with
      | zero => exact Or.inl rfl
      | succ t =>
        right
        rw [hc, btree_search_records_succ] at h
        have hl : ¬ n.type = GRUB_HFSPLUS_BTNODE_TYPE_LEAF := by rw [hi]; decide
        simp only [hl, false_and, if_false, hi, if_true] at h
        by_contra hgt
        simp only [hgt, if_false] at h
        exact btree_search_records_matched le mem n key compare_keys _ _ _ _ h
    · by_cases hl : n.type = GRUB_HFSPLUS_BTNODE_TYPE_LEAF
      · right; left
        refine ⟨hl, fun i hlt => ?_⟩
        exact btree_search_records_leaf_done le mem n key compare_keys hl _ _ _ _ _ _ h i
          (Nat.zero_le _) (by omega)
      · right; right
        exact ⟨hi, hl⟩
  · rintro (⟨hi, h⟩ | ⟨hl, h⟩ | ⟨hi, hl⟩)
    · have hl : ¬ n.type = GRUB_HFSPLUS_BTNODE_TYPE_LEAF := by rw [hi]; decide
      cases hc : grub_be_to_cpu16 le n.count with
      | zero => exact ⟨currnode, rfl⟩
      | succ t =>
        rcases h with h | h
        · rw [hc] at h; cases h
        · refine ⟨currnode, ?_⟩
          rw [btree_search_records_succ, if_neg (fun h0 => hl h0.1), if_pos hi, if_pos h]
    · exact ⟨currnode, btree_search_records_leaf_none le mem n key compare_keys hl _ _ _ _
        (fun j _ h2 => h j (by omega))⟩
    · exact ⟨currnode, btree_search_records_other le mem n key compare_keys hi hl _ _ _ _⟩

/-- Only one pass of a loop can return: the pass count, the state and the value
are determined. -/
theorem loop_state_ret_unique {A S : Type} (body : S → loop_ctl A S) (s : S)
    (k1 k2 : Nat) (s1 s2 : S) (a1 a2 : A)
    (h1 : loop_state body k1 s = some s1) (b1 : body s1 = loop_ctl.ret a1)
    (h2 : loop_state body k2 s = some s2) (b2 : body s2 = loop_ctl.ret a2) :
    k1 = k2 ∧ s1 = s2 ∧ a1 = a2 := by
  have key : ∀ (k k0 : Nat) (t t0 : S) (a : A), loop_state body k s = some t →
      body t = loop_ctl.ret a → loop_state body k0 s = some t0 → ¬ k < k0 := by
    intro k k0 t t0 a ht hb ht0 hlt
    have hn : loop_state body (k + 1) s = none := by
      rw [loop_state_succ_right body k s t ht, hb]
    have hn2 : ∀ d, loop_state body (k + 1 + d) s = none := by
      intro d
      induction d with
      | zero => exact hn
      | succ d ih => exact loop_state_none_succ body _ s ih
    have := hn2 (k0 - (k + 1))
    rw [show k + 1 + (k0 - (k + 1)) = k0 by omega, ht0] at this
    cases this
  have e : k1 = k2 := by
    have := key k1 k2 s1 s2 a1 h1 b1 h2
    have := key k2 k1 s2 s1 a2 h2 b2 h1
    omega
  subst e
  rw [h1] at h2
  cases h2
  rw [b1] at b2
  cases b2
  exact ⟨rfl, rfl, rfl⟩

theorem grub_malloc_false (env : grub_env) (h : (grub_malloc env).1 = false) :
    (grub_malloc env).2.grub_errno = grub_err_t.GRUB_ERR_OUT_OF_MEMORY := by
  unfold grub_malloc at h ⊢
  split
  · simp_all
  · simp_all
  · rfl

theorem btree_search_body_guard {R KI : Type} (le : Bool)
    (mem : grub_hfsplus_key_mem R) (btree : grub_hfsplus_btree R) (key : KI)
    (compare_keys : R → KI → Int) (s : btree_search_state)
    (hg : s.save_node = s.currnode) :
    btree_search_body le mem btree key compare_keys s =
      loop_ctl.ret (⟨grub_err_t.GRUB_ERR_BAD_FS, none, none⟩,
        (grub_error s.env grub_err_t.GRUB_ERR_BAD_FS grub_errmsg.btree_loop).2) := by
  simp [btree_search_body, hg, grub_error]

theorem btree_search_body_read_error {R KI : Type} (le : Bool)
    (mem : grub_hfsplus_key_mem R) (btree : grub_hfsplus_btree R) (key : KI)
    (compare_keys : R → KI → Int) (s : btree_search_state) (e : grub_err_t)
    (hr : btree.read_node s.currnode = Except.error e) :
    ∃ env1, btree_search_body le mem btree key compare_keys s =
      loop_ctl.ret (⟨grub_err_t.GRUB_ERR_BAD_FS, none, none⟩, env1) := by
  by_cases hg : s.save_node = s.currnode
  · exact ⟨_, btree_search_body_guard le mem btree key compare_keys s hg⟩
  · rcases btree_search_body_cases le mem btree key compare_keys s with
      ⟨h1, _⟩ | ⟨_, _, _, _, hb⟩ | ⟨_, _, _, h1, _⟩ | ⟨_, _, _, h1, _⟩ | ⟨_, _, _, h1, _⟩
    · exact absurd h1 hg
    · exact ⟨_, hb⟩
    · rw [hr] at h1; cases h1
    · rw [hr] at h1; cases h1
    · rw [hr] at h1; cases h1

theorem btree_search_body_no_match {R KI : Type} (le : Bool)
    (mem : grub_hfsplus_key_mem R) (btree : grub_hfsplus_btree R) (key : KI)
    (compare_keys : R → KI → Int) (s : btree_search_state) (n : grub_hfsplus_btnode R)
    (hg : s.save_node ≠ s.currnode) (hr : btree.read_node s.currnode = Except.ok n)
    (hn : no_matching_record le n key compare_keys) :
    btree_search_body le mem btree key compare_keys s =
      loop_ctl.ret (⟨grub_err_t.GRUB_ERR_NONE, some none, none⟩,
        trace_event s.env (grub_event.read_node btree.file.fileid s.currnode true)) := by
  obtain ⟨c, hs⟩ := (btree_search_records_no_match_iff le mem n key compare_keys s.currnode).2 hn
  simp [btree_search_body, hg, hr, hs]

/-- How a returning search ends: with error 0 and a null match, with a
non-zero error, and what it has stored in the latter case. -/
theorem btree_search_ends_spec {R KI : Type} (le : Bool)
    (mem : grub_hfsplus_key_mem R) (btree : grub_hfsplus_btree R) (key : KI)
    (compare_keys : R → KI → Int) (fuel : Nat) (env env1 : grub_env)
    (r : grub_hfsplus_search_result R)
    (h : grub_hfsplus_btree_search le mem fuel btree key compare_keys env = some (r, env1)) :
    ((r.err = grub_err_t.GRUB_ERR_NONE ∧ r.matchnode = some none) ↔
      (btree.nodesize = 0 ∨
        (btree.nodesize ≠ 0 ∧ (grub_malloc env).1 = true ∧
          ∃ k st n,
            loop_state (btree_search_body le mem btree key compare_keys) k
              (btree_search_init btree (grub_malloc env).2) = some st ∧
            st.save_node ≠ st.currnode ∧
            btree.read_node st.currnode = Except.ok n ∧
            no_matching_record le n key compare_keys))) ∧
    (r.err ≠ grub_err_t.GRUB_ERR_NONE ↔
      (btree.nodesize ≠ 0 ∧
        ((grub_malloc env).1 = false ∨
          ∃ k st,
            loop_state (btree_search_body le mem btree key compare_keys) k
              (btree_search_init btree (grub_malloc env).2) = some st ∧
            (st.save_node = st.currnode ∨
              ∃ e, btree.read_node st.currnode = Except.error e)))) ∧
    (r.err ≠ grub_err_t.GRUB_ERR_NONE → r.matchnode = none ∧ r.keyoffset = none) := by
  unfold grub_hfsplus_btree_search at h
  by_cases hz : btree.nodesize = 0
  · simp only [hz, if_true, Option.some.injEq, Prod.mk.injEq] at h
    obtain ⟨rfl, rfl⟩ := h
    simp [hz]
  · simp only [hz, if_false] at h
    cases hm : (grub_malloc env).1 with
    | false =>
      simp only [hm, Bool.false_eq_true, if_false, Option.some.injEq, Prod.mk.injEq] at h
      obtain ⟨rfl, rfl⟩ := h
      simp [hz, grub_malloc_false env hm]
    | true =>
      simp only [hm, if_true] at h
      obtain ⟨k, _, st, hst, hbody⟩ := (while_loop_eq_some_iff _ _ _ _).1 h
      have huniq : ∀ (k2 : Nat) (st2 : btree_search_state)
          (a2 : grub_hfsplus_search_result R × grub_env),
          loop_state (btree_search_body le mem btree key compare_keys) k2
            (btree_search_init btree (grub_malloc env).2) = some st2 →
          btree_search_body le mem btree key compare_keys st2 = loop_ctl.ret a2 →
          a2 = (r, env1) := by
        intro k2 st2 a2 h2 b2
        exact (loop_state_ret_unique _ _ k2 k st2 st a2 (r, env1) h2 b2 hst hbody).2.2
      refine ⟨⟨fun h0 => ?_, fun h0 => ?_⟩, ⟨fun h0 => ?_, fun h0 => ?_⟩, fun h0 => ?_⟩
      · rcases btree_search_body_cases le mem btree key compare_keys st with
          ⟨_, hb⟩ | ⟨_, _, _, _, hb⟩ | ⟨_, _, _, _, _, _, hb⟩ | ⟨hg, n, c, hr, hs, _, hb⟩ |
          ⟨_, _, _, _, _, _, _, hb⟩
        · rw [hb] at hbody; cases hbody; cases h0.1
        · rw [hb] at hbody; cases hbody; cases h0.1
        · rw [hb] at hbody; cases hbody; cases h0.2
        · exact Or.inr ⟨hz, rfl, k, st, n, hst, hg, hr,
            (btree_search_records_no_match_iff le mem n key compare_keys st.currnode).1 ⟨c, hs⟩⟩
        · rw [hb] at hbody; cases hbody
      · rcases h0 with h0 | ⟨_, _, k2, st2, n2, h2, hg2, hr2, hn2⟩
        · exact absurd h0 hz
        · have e := huniq k2 st2 _ h2
            (btree_search_body_no_match le mem btree key compare_keys st2 n2 hg2 hr2 hn2)
          cases e
          exact ⟨rfl, rfl⟩
      · rcases btree_search_body_cases le mem btree key compare_keys st with
          ⟨hg, _⟩ | ⟨_, e, hr, _, _⟩ | ⟨_, _, _, _, _, _, hb⟩ | ⟨_, _, _, _, _, _, hb⟩ |
          ⟨_, _, _, _, _, _, _, hb⟩
        · exact ⟨hz, Or.inr ⟨k, st, hst, Or.inl hg⟩⟩
        · exact ⟨hz, Or.inr ⟨k, st, hst, Or.inr ⟨e, hr⟩⟩⟩
        · rw [hb] at hbody; cases hbody; exact absurd rfl h0
        · rw [hb] at hbody; cases hbody; exact absurd rfl h0
        · rw [hb] at hbody; cases hbody
      · rcases h0 with ⟨_, hmf | ⟨k2, st2, h2, hg2 | ⟨e, hr2⟩⟩⟩
        · cases hmf
        · have e := huniq k2 st2 _ h2
            (btree_search_body_guard le mem btree key compare_keys st2 hg2)
          cases e
          intro h1; cases h1
        · obtain ⟨env2, hb2⟩ :=
            btree_search_body_read_error le mem btree key compare_keys st2 e hr2
          have e := huniq k2 st2 _ h2 hb2
          cases e
          intro h1; cases h1
      · rcases btree_search_body_cases le mem btree key compare_keys st with
          ⟨_, hb⟩ | ⟨_, _, _, _, hb⟩ | ⟨_, _, _, _, _, _, hb⟩ | ⟨_, _, _, _, _, _, hb⟩ |
          ⟨_, _, _, _, _, _, _, hb⟩
        · rw [hb] at hbody; cases hbody; exact ⟨rfl, rfl⟩
        · rw [hb] at hbody; cases hbody; exact ⟨rfl, rfl⟩
        · rw [hb] at hbody; cases hbody; exact absurd rfl h0
        · rw [hb] at hbody; cases hbody; exact absurd rfl h0
        · rw [hb] at hbody; cases hbody

/-- **C10 (as amended).** `grub_hfsplus_btree_search` keeps "not found" apart
from failure.  The search returns on every tree (given `2 ^ 34 + 1` passes
of fuel), and for every run that returns:
* it returns error code 0 with a null match stored exactly when the tree is
  absent (node size 0) or the descent reached a node, read successfully, that
  has no matching record: an index node with no record or whose first record
  compares greater than the key, a leaf with no record comparing equal, or a
  node that is neither index nor leaf;
* it returns a non-zero error code exactly when the buffer allocation failed,
  or the descent reached a node at which the loop test fired, or reached a node
  whose read failed;
* with a non-zero error code nothing is stored through `matchnode` or
  `keyoffset`, so a non-null match is never returned with an error. -/
theorem btree_search_not_found_vs_failure {R KI : Type} (le : Bool)
    (mem : grub_hfsplus_key_mem R) (btree : grub_hfsplus_btree R) (key : KI)
    (compare_keys : R → KI → Int) (env : grub_env) :
    (∃ r0, ∀ fuel, 2 ^ 34 + 1 ≤ fuel →
      grub_hfsplus_btree_search le mem fuel btree key compare_keys env = some r0) ∧
    ∀ (fuel : Nat) (env1 : grub_env) (r : grub_hfsplus_search_result R),
      grub_hfsplus_btree_search le mem fuel btree key compare_keys env = some (r, env1) →
      ((r.err = grub_err_t.GRUB_ERR_NONE ∧ r.matchnode = some none) ↔
        (btree.nodesize = 0 ∨
          (btree.nodesize ≠ 0 ∧ (grub_malloc env).1 = true ∧
            ∃ k st n,
              loop_state (btree_search_body le mem btree key compare_keys) k
                (btree_search_init btree (grub_malloc env).2) = some st ∧
              st.save_node ≠ st.currnode ∧
              btree.read_node st.currnode = Except.ok n ∧
              no_matching_record le n key compare_keys))) ∧
      (r.err ≠ grub_err_t.GRUB_ERR_NONE ↔
        (btree.nodesize ≠ 0 ∧
          ((grub_malloc env).1 = false ∨
            ∃ k st,
              loop_state (btree_search_body le mem btree key compare_keys) k
                (btree_search_init btree (grub_malloc env).2) = some st ∧
              (st.save_node = st.currnode ∨
                ∃ e, btree.read_node st.currnode = Except.error e)))) ∧
      (r.err ≠ grub_err_t.GRUB_ERR_NONE → r.matchnode = none ∧ r.keyoffset = none) :=
  ⟨btree_search_returns le mem btree key compare_keys env,
    fun fuel env1 r h =>
      btree_search_ends_spec le mem btree key compare_keys fuel env env1 r h⟩

/-- Instance of C10 on `ex_tree` with key 4, which the leaf does not hold: the
search returns error 0 with a null match, and the theorem yields the node of
the descent that has no matching record. -/
theorem btree_search_not_found_vs_failure_witness :
    grub_hfsplus_btree_search false ex_mem 2 ex_tree (4 : Nat) ex_cmp ex_env
      = some (⟨grub_err_t.GRUB_ERR_NONE, some none, none⟩,
          ⟨grub_err_t.GRUB_ERR_NONE, grub_errmsg.no_message, [],
            [grub_event.malloc true, grub_event.read_node 4 1 true,
              grub_event.read_node 4 2 true]⟩) ∧
    (ex_tree.nodesize = 0 ∨
      (ex_tree.nodesize ≠ 0 ∧ (grub_malloc ex_env).1 = true ∧
        ∃ k st n,
          loop_state (btree_search_body false ex_mem ex_tree (4 : Nat) ex_cmp) k
            (btree_search_init ex_tree (grub_malloc ex_env).2) = some st ∧
          st.save_node ≠ st.currnode ∧
          ex_tree.read_node st.currnode = Except.ok n ∧
          no_matching_record false n (4 : Nat) ex_cmp)) :=
  ⟨rfl, ((btree_search_not_found_vs_failure false ex_mem ex_tree (4 : Nat) ex_cmp ex_env).2 2
    _ ⟨grub_err_t.GRUB_ERR_NONE, some none, none⟩ rfl).1.1 ⟨rfl, rfl⟩⟩

/-- **C10, counterexample to the claim as stated.** On `ex_unsorted_tree`, a
present tree all of whose nodes are the index node with records 9, 1, the
search for key 5 returns error 0 with a null match (record 0 compares greater,
so the record loop breaks at once), although record 1 compares below the key:
no node of the tree is "an index node with no record comparing `<=` the key"
nor a leaf or other node. -/
theorem btree_search_not_found_unsorted_index :
    grub_hfsplus_btree_search false ex_mem 1 ex_unsorted_tree (5 : Nat) ex_cmp ex_env
      = some (⟨grub_err_t.GRUB_ERR_NONE, some none, none⟩,
          ⟨grub_err_t.GRUB_ERR_NONE, grub_errmsg.no_message, [],
            [grub_event.malloc true, grub_event.read_node 4 1 true]⟩) ∧
    ex_unsorted_tree.nodesize ≠ 0 ∧
    ∀ id n, ex_unsorted_tree.read_node id = Except.ok n →
      ¬ no_matching_record_as_stated false n (5 : Nat) ex_cmp := by
  refine ⟨rfl, by decide, ?_⟩
  intro id n hn
  have e : n = ex_unsorted_index := by
    simp only [ex_unsorted_tree, Except.ok.injEq] at hn
    exact hn.symm
  subst e
  rintro (⟨_, h⟩ | ⟨h, _⟩)
  · exact h 1 (by decide) (by decide)
  · exact h rfl

/-! ## The iteration loop -/

/-- The five ways through the body of the iteration loop. -/
theorem btree_iterate_body_cases {R σ : Type} (le : Bool) (btree : grub_hfsplus_btree R)
    (hook : R → σ → grub_env → Int × σ × grub_env) (s : btree_iterate_state R σ) :
    ((btree_iterate_visit le hook s).1 = true ∧
      btree_iterate_body le btree hook s = loop_ctl.ret
        ⟨1, (btree_iterate_visit le hook s).2.1, (btree_iterate_visit le hook s).2.2⟩)
    ∨ ((btree_iterate_visit le hook s).1 = false ∧ s.first_node.next = 0 ∧
      btree_iterate_body le btree hook s = loop_ctl.ret
        ⟨0, (btree_iterate_visit le hook s).2.1, (btree_iterate_visit le hook s).2.2⟩)
    ∨ ((btree_iterate_visit le hook s).1 = false ∧ s.first_node.next ≠ 0 ∧
      (s.node_count ≠ 0 ∧ s.first_node.next = s.saved_node) ∧
      btree_iterate_body le btree hook s = loop_ctl.ret
        ⟨0, (btree_iterate_visit le hook s).2.1,
          (grub_error (btree_iterate_visit le hook s).2.2 grub_err_t.GRUB_ERR_BAD_FS
            grub_errmsg.btree_loop).2⟩)
    ∨ ((btree_iterate_visit le hook s).1 = false ∧ s.first_node.next ≠ 0 ∧
      ¬ (s.node_count ≠ 0 ∧ s.first_node.next = s.saved_node) ∧
      ∃ e, btree.read_node (grub_be_to_cpu32 le s.first_node.next) = Except.error e ∧
      btree_iterate_body le btree hook s = loop_ctl.ret
        ⟨1, (btree_iterate_visit le hook s).2.1,
          read_failed (trace_event (btree_iterate_visit le hook s).2.2
            (grub_event.read_node btree.file.fileid (grub_be_to_cpu32 le s.first_node.next) false))
            e⟩)
    ∨ ((btree_iterate_visit le hook s).1 = false ∧ s.first_node.next ≠ 0 ∧
      ¬ (s.node_count ≠ 0 ∧ s.first_node.next = s.saved_node) ∧
      ∃ n, btree.read_node (grub_be_to_cpu32 le s.first_node.next) = Except.ok n ∧
      btree_iterate_body le btree hook s = loop_ctl.again
        ⟨n, 0, if checkpoint_due s.node_count then s.first_node.next else s.saved_node,
          (s.node_count + 1) % 2 ^ 64, (btree_iterate_visit le hook s).2.1,
          trace_event (btree_iterate_visit le hook s).2.2
            (grub_event.read_node btree.file.fileid (grub_be_to_cpu32 le s.first_node.next)
              true)⟩) := by
  cases hv : (btree_iterate_visit le hook s).1 with
  | true =>
    left
    exact ⟨rfl, by simp [btree_iterate_body, hv]⟩
  | false =>
    right
    by_cases hz : s.first_node.next = 0
    · left
      exact ⟨rfl, hz, by simp [btree_iterate_body, hv, hz]⟩
    · right
      by_cases hg : s.node_count ≠ 0 ∧ s.first_node.next = s.saved_node
      · left
        refine ⟨rfl, hz, hg, ?_⟩
        simp only [btree_iterate_body, hv, hz, if_false, Bool.false_eq_true]
        rw [if_pos hg]
      · right
        cases hr : btree.read_node (grub_be_to_cpu32 le s.first_node.next) with
        | error e =>
          left
          refine ⟨rfl, hz, hg, e, rfl, ?_⟩
          simp only [btree_iterate_body, hv, hz, hr, if_false, Bool.false_eq_true]
          rw [if_neg hg]
        | ok n =>
          right
          refine ⟨rfl, hz, hg, n, rfl, ?_⟩
          simp only [btree_iterate_body, hv, hz, hr, if_false, Bool.false_eq_true]
          rw [if_neg hg]

theorem btree_iterate_records_succ {R σ : Type} (first_node : grub_hfsplus_btnode R)
    (hook : R → σ → grub_env → Int × σ × grub_env) (todo rec : Nat) (hook_arg : σ)
    (env : grub_env) :
    btree_iterate_records first_node hook (todo + 1) rec hook_arg env =
      if (hook (first_node.recptr rec) hook_arg env).1 ≠ 0 then
        (true, (hook (first_node.recptr rec) hook_arg env).2.1,
          (hook (first_node.recptr rec) hook_arg env).2.2)
      else
        btree_iterate_records first_node hook todo (rec + 1)
          (hook (first_node.recptr rec) hook_arg env).2.1
          (hook (first_node.recptr rec) hook_arg env).2.2 := rfl

/-- A hook that never returns non-zero never stops the record loop. -/
theorem btree_iterate_records_never_stop {R σ : Type} (first_node : grub_hfsplus_btnode R)
    (hook : R → σ → grub_env → Int × σ × grub_env)
    (hnever : ∀ r a e, (hook r a e).1 = 0) :
    ∀ (todo rec : Nat) (hook_arg : σ) (env : grub_env),
      (btree_iterate_records first_node hook todo rec hook_arg env).1 = false := by
  intro todo
  induction todo with
  | zero => intro rec a e; rfl
  | succ n ih =>
    intro rec a e
    rw [btree_iterate_records_succ]
    simp only [hnever, ne_eq, not_true_eq_false, if_false]
    exact ih _ _ _

/-- A pass of the iteration loop that goes round again has read the successor
of the node in the buffer. -/
theorem btree_iterate_body_again {R σ : Type} (le : Bool) (btree : grub_hfsplus_btree R)
    (hook : R → σ → grub_env → Int × σ × grub_env) (s s1 : btree_iterate_state R σ)
    (h : btree_iterate_body le btree hook s = loop_ctl.again s1) :
    s.first_node.next ≠ 0 ∧
      btree.read_node (grub_be_to_cpu32 le s.first_node.next) = Except.ok s1.first_node ∧
      chain_step le btree s.first_node = some s1.first_node ∧
      s1.first_rec = 0 ∧
      s1.saved_node = (if checkpoint_due s.node_count then s.first_node.next
        else s.saved_node) ∧
      s1.node_count = (s.node_count + 1) % 2 ^ 64 := by
  rcases btree_iterate_body_cases le btree hook s with
    ⟨_, hb⟩ | ⟨_, _, hb⟩ | ⟨_, _, _, hb⟩ | ⟨_, _, _, _, _, hb⟩ | ⟨_, hz, _, n, hr, hb⟩
  · rw [hb] at h; cases h
  · rw [hb] at h; cases h
  · rw [hb] at h; cases h
  · rw [hb] at h; cases h
  · rw [hb] at h
    cases h
    exact ⟨hz, hr, by simp [chain_step, hz, hr], rfl, rfl, rfl⟩

/-- The loop state after `k` passes of the iteration loop, in terms of the
chain and the checkpoint sequence. -/
theorem btree_iterate_state_inv {R σ : Type} (le : Bool) (btree : grub_hfsplus_btree R)
    (hook : R → σ → grub_env → Int × σ × grub_env) (first_node : grub_hfsplus_btnode R)
    (first_rec : Nat) (hook_arg : σ) (env : grub_env) :
    ∀ (k : Nat) (st : btree_iterate_state R σ), k < 2 ^ 64 →
      loop_state (btree_iterate_body le btree hook) k
        ⟨first_node, first_rec, 2 ^ 64 - 1, 0, hook_arg, env⟩ = some st →
      st.first_node.next = next_seq le btree first_node k ∧
      chain_node le btree first_node k = some st.first_node ∧
      st.node_count = k ∧
      st.saved_node = brent_saved (next_seq le btree first_node) (2 ^ 64 - 1) k := by
  intro k
  induction k with
  | zero =>
    intro st _ h
    simp only [loop_state, Option.some.injEq] at h
    subst h
    exact ⟨rfl, rfl, rfl, rfl⟩
  | succ n ih =>
    intro st hk h
    obtain ⟨s1, h1, h2⟩ := loop_state_pred _ n _ st h
    obtain ⟨i1, i2, i3, i4⟩ := ih s1 (by omega) h1
    obtain ⟨_, b2, b3, _, b5, b6⟩ := btree_iterate_body_again le btree hook s1 st h2
    refine ⟨?_, ?_, ?_, ?_⟩
    · show st.first_node.next =
        match btree.read_node (grub_be_to_cpu32 le (next_seq le btree first_node n)) with
        | Except.error _ => 0
        | Except.ok m => m.next
      rw [← i1, b2]
    · show (opt_iterate (chain_step le btree) first_node n).bind (chain_step le btree)
        = some st.first_node
      have i2b : opt_iterate (chain_step le btree) first_node n = some s1.first_node := i2
      rw [i2b]; exact b3
    · rw [b6, i3]; omega
    · rw [b5, i3, i4, i1]; rfl

/-- The iteration loop returns within `2 ^ 34 + 1` passes, whatever the tree
image and the hook. -/
theorem btree_iterate_loop_terminates {R σ : Type} (le : Bool)
    (btree : grub_hfsplus_btree R) (hook : R → σ → grub_env → Int × σ × grub_env)
    (first_node : grub_hfsplus_btnode R) (first_rec : Nat) (hook_arg : σ) (env : grub_env) :
    ∃ a, while_loop (btree_iterate_body le btree hook) (2 ^ 34 + 1)
      ⟨first_node, first_rec, 2 ^ 64 - 1, 0, hook_arg, env⟩ = some a := by
  obtain ⟨a, b, hab, hb, he⟩ := pigeon
    (fun k => grub_be_to_cpu32 le (next_seq le btree first_node k)) 4294967296
    (fun k => grub_be_to_cpu32_lt le _)
  have he2 : next_seq le btree first_node (a + 1) = next_seq le btree first_node (b + 1) := by
    show (match btree.read_node (grub_be_to_cpu32 le (next_seq le btree first_node a)) with
        | Except.error _ => 0
        | Except.ok m => m.next) =
      (match btree.read_node (grub_be_to_cpu32 le (next_seq le btree first_node b)) with
        | Except.error _ => 0
        | Except.ok m => m.next)
    rw [he]
  obtain ⟨K, hK1, hK2, hK⟩ := brent_detects (next_seq le btree first_node)
    (fun r => match btree.read_node (grub_be_to_cpu32 le r) with
      | Except.error _ => 0
      | Except.ok m => m.next) (fun _ => rfl)
    (a + 1) (b + 1) (by omega) (by omega) he2 (2 ^ 64 - 1)
  have hnone : loop_state (btree_iterate_body le btree hook) (K + 1)
      ⟨first_node, first_rec, 2 ^ 64 - 1, 0, hook_arg, env⟩ = none := by
    cases hs : loop_state (btree_iterate_body le btree hook) K
        ⟨first_node, first_rec, 2 ^ 64 - 1, 0, hook_arg, env⟩ with
    | none => exact loop_state_none_succ _ _ _ hs
    | some st =>
      obtain ⟨i1, _, i3, i4⟩ := btree_iterate_state_inv le btree hook first_node first_rec
        hook_arg env K st (by omega) hs
      rw [loop_state_succ_right _ K _ st hs]
      rcases btree_iterate_body_cases le btree hook st with
        ⟨_, hb⟩ | ⟨_, _, hb⟩ | ⟨_, _, _, hb⟩ | ⟨_, _, _, _, _, hb⟩ | ⟨_, _, hg, _⟩
      · rw [hb]
      · rw [hb]
      · rw [hb]
      · rw [hb]
      · exact absurd ⟨by omega, by rw [i4, i1, hK]⟩ hg
  obtain ⟨r, hr⟩ := while_loop_of_loop_state_none _ (K + 1) _ hnone
  exact ⟨r, while_loop_mono_le _ (K + 1) (2 ^ 34 + 1) _ r (by omega) hr⟩

/-- **C4.** `grub_hfsplus_btree_iterate_node` terminates for every tree image,
start node and visitor: it returns within `2 ^ 34 + 1` passes of its loop (and
more fuel does not change the result).  When node reads succeed, the visitor
never signals stop and the chain of `next` pointers from the start node comes
back to a node id already visited (the nodes `a + 1` and `b + 1` of the chain
have the same id `x`; `a = 0`, `b = 1` is a node whose `next` is itself), the
iteration ends by raising `GRUB_ERR_BAD_FS` with the message "HFS+ btree loop"
and returns 0. -/
theorem btree_iterate_terminates {R σ : Type} (le : Bool) (btree : grub_hfsplus_btree R)
    (hook : R → σ → grub_env → Int × σ × grub_env) (first_node : grub_hfsplus_btnode R)
    (first_rec : Nat) (hook_arg : σ) (env : grub_env) :
    (∃ r, ∀ fuel, 2 ^ 34 + 1 ≤ fuel →
      grub_hfsplus_btree_iterate_node le fuel btree first_node first_rec hook hook_arg env
        = some r) ∧
    (∀ a b x, a < b →
      (∀ id, ∃ n, btree.read_node id = Except.ok n) →
      (∀ r s e, (hook r s e).1 = 0) →
      chain_id le btree first_node a = some x →
      chain_id le btree first_node b = some x →
      ∃ r, (∀ fuel, 2 ^ 34 + 1 ≤ fuel →
          grub_hfsplus_btree_iterate_node le fuel btree first_node first_rec hook hook_arg
            env = some r) ∧
        r.ret = 0 ∧
        r.env.grub_errno = grub_err_t.GRUB_ERR_BAD_FS ∧
        r.env.grub_errmsg = grub_errmsg.btree_loop) := by
  obtain ⟨r, hr⟩ := btree_iterate_loop_terminates le btree hook first_node first_rec
    hook_arg env
  have hall : ∀ fuel, 2 ^ 34 + 1 ≤ fuel →
      grub_hfsplus_btree_iterate_node le fuel btree first_node first_rec hook hook_arg env
        = some r := fun fuel hf => while_loop_mono_le _ _ fuel _ r hf hr
  refine ⟨⟨r, hall⟩, ?_⟩
  intro a b x hab hreads hnever ha hb
  refine ⟨r, hall, ?_⟩
  -- the chain never ends
  have hnode : ∀ c, chain_id le btree first_node c = some x →
      ∃ m, chain_node le btree first_node (c + 1) = some m ∧
        btree.read_node x = Except.ok m := by
    intro c hc
    obtain ⟨m, hm⟩ := hreads x
    refine ⟨m, ?_, hm⟩
    unfold chain_id at hc
    cases hn : chain_node le btree first_node c with
    | none => rw [hn] at hc; cases hc
    | some n =>
      rw [hn] at hc
      simp only [Option.some_bind] at hc
      split at hc
      · cases hc
      · next hz =>
        simp only [Option.some.injEq] at hc
        show (opt_iterate (chain_step le btree) first_node c).bind (chain_step le btree)
          = some m
        have hn2 : opt_iterate (chain_step le btree) first_node c = some n := hn
        rw [hn2]
        simp [chain_step, hz, hc, hm]
  obtain ⟨m1, hm1, hr1⟩ := hnode a ha
  obtain ⟨m2, hm2, hr2⟩ := hnode b hb
  have hmm : m2 = m1 := by
    rw [hr1] at hr2
    cases hr2
    rfl
  subst hmm
  have hforever := opt_iterate_cycle_forever (chain_step le btree) first_node (a + 1) (b + 1)
    m2 (by omega) hm1 hm2
  obtain ⟨k, hk, st, hst, hbody⟩ := (while_loop_eq_some_iff _ _ _ _).1 hr
  obtain ⟨_, i2, _, _⟩ := btree_iterate_state_inv le btree hook first_node first_rec
    hook_arg env k st (by omega) hst
  have hstep : chain_step le btree st.first_node ≠ none := by
    have h1 := hforever (k + 1)
    have h2 : opt_iterate (chain_step le btree) first_node (k + 1)
        = (chain_node le btree first_node k).bind (chain_step le btree) := rfl
    rw [h2, i2] at h1
    exact h1
  have hvis : (btree_iterate_visit le hook st).1 = false :=
    btree_iterate_records_never_stop st.first_node hook hnever _ _ _ _
  rcases btree_iterate_body_cases le btree hook st with
    ⟨hv, _⟩ | ⟨_, hz, _⟩ | ⟨_, _, _, h⟩ | ⟨_, hz, _, e, he, _⟩ | ⟨_, _, _, _, _, h⟩
  · rw [hvis] at hv; cases hv
  · exact absurd (by simp [chain_step, hz]) hstep
  · rw [h] at hbody
    cases hbody
    exact ⟨rfl, rfl, rfl⟩
  · exact absurd (by simp [chain_step, hz, he]) hstep
  · rw [h] at hbody
    cases hbody

/-- Instance of C4 on `ex_loop_tree`, starting in a node whose `next` is itself. -/
theorem btree_iterate_terminates_witness :
    chain_id false ex_loop_tree ex_loop_node 0 = some 1 ∧
    chain_id false ex_loop_tree ex_loop_node 1 = some 1 ∧
    ∃ r, (∀ fuel, 2 ^ 34 + 1 ≤ fuel →
        grub_hfsplus_btree_iterate_node false fuel ex_loop_tree ex_loop_node 0
          ex_count_hook 0 ex_env = some r) ∧
      r.ret = 0 ∧
      r.env.grub_errno = grub_err_t.GRUB_ERR_BAD_FS ∧
      r.env.grub_errmsg = grub_errmsg.btree_loop :=
  ⟨rfl, rfl,
    (btree_iterate_terminates false ex_loop_tree ex_count_hook ex_loop_node 0 0 ex_env).2
      0 1 1 (by decide) (fun _ => ⟨ex_loop_node, rfl⟩) (fun _ _ _ => rfl) rfl rfl⟩

/-! ## Iteration over an acyclic chain -/

/-- With a logging hook the record loop is `visit_until` on the records it ranges over. -/
theorem btree_iterate_records_log {R σ : Type} (n : grub_hfsplus_btnode R)
    (v : R → σ → Int × σ) :
    ∀ (todo rec : Nat) (s : σ) (log : List R) (env : grub_env),
      btree_iterate_records n (log_hook v) todo rec (s, log) env =
        ((visit_until v ((List.range' rec todo).map n.recptr) s log).1,
          ((visit_until v ((List.range' rec todo).map n.recptr) s log).2.1,
            (visit_until v ((List.range' rec todo).map n.recptr) s log).2.2), env) := by
  intro todo
  induction todo with
  | zero => intro rec s log env; rfl
  | succ t ih =>
    intro rec s log env
    rw [btree_iterate_records_succ, List.range'_succ, List.map_cons]
    simp only [visit_until, log_hook]
    by_cases hv : (v (n.recptr rec) s).1 = 0
    · simp only [hv, ne_eq, not_true_eq_false, if_false]
      exact ih _ _ _ _
    · simp only [hv, ne_eq, not_false_eq_true, if_true]

theorem btree_iterate_visit_log {R σ : Type} (le : Bool) (v : R → σ → Int × σ)
    (first : grub_hfsplus_btnode R) (first_rec saved_node node_count : Nat) (s : σ)
    (log : List R) (env : grub_env) :
    btree_iterate_visit le (log_hook v)
        ⟨first, first_rec, saved_node, node_count, (s, log), env⟩ =
      ((visit_until v (records_from le first first_rec) s log).1,
        ((visit_until v (records_from le first first_rec) s log).2.1,
          (visit_until v (records_from le first first_rec) s log).2.2), env) :=
  btree_iterate_records_log first v _ _ _ _ _

/-- Two chains whose start nodes hold the same `next` have the same length. -/
theorem chain_linked_length_unique {R : Type} (le : Bool) (btree : grub_hfsplus_btree R) :
    ∀ (l1 l2 : List (grub_hfsplus_btnode R)) (a b : grub_hfsplus_btnode R),
      chain_linked le btree a l1 → chain_linked le btree b l2 → a.next = b.next →
      l1.length = l2.length := by
  intro l1
  induction l1 with
  | nil =>
    intro l2 a b h1 h2 e
    cases l2 with
    | nil => rfl
    | cons m2 r2 =>
      have ha : a.next = 0 := h1
      exact absurd (e ▸ ha) h2.1
  | cons m1 r1 ih =>
    intro l2 a b h1 h2 e
    cases l2 with
    | nil =>
      have hb : b.next = 0 := h2
      exact absurd (e.symm ▸ hb) h1.1
    | cons m2 r2 =>
      obtain ⟨_, hr1, hc1⟩ := h1
      obtain ⟨_, hr2, hc2⟩ := h2
      rw [e, hr2] at hr1
      cases hr1
      simp only [List.length_cons, Nat.add_right_cancel_iff]
      exact ih r2 m1 m1 hc1 hc2 rfl

/-- Every node of a chain starts a strictly shorter chain. -/
theorem chain_linked_suffix {R : Type} (le : Bool) (btree : grub_hfsplus_btree R) :
    ∀ (nodes : List (grub_hfsplus_btnode R)) (first : grub_hfsplus_btnode R),
      chain_linked le btree first nodes → ∀ m, m ∈ nodes →
      ∃ suffix, chain_linked le btree m suffix ∧ suffix.length < nodes.length := by
  intro nodes
  induction nodes with
  | nil => intro first _ m hm; cases hm
  | cons m1 rest ih =>
    intro first h m hm
    obtain ⟨_, _, hc⟩ := h
    rcases List.mem_cons.1 hm with e | hm2
    · subst e
      exact ⟨rest, hc, by simp⟩
    · obtain ⟨suffix, h1, h2⟩ := ih m1 hc m hm2
      exact ⟨suffix, h1, by simp only [List.length_cons]; omega⟩

/-- In a chain that ends, no later node holds the `next` of the start node. -/
theorem chain_linked_next_ne {R : Type} (le : Bool) (btree : grub_hfsplus_btree R)
    (nodes : List (grub_hfsplus_btnode R)) (first : grub_hfsplus_btnode R)
    (h : chain_linked le btree first nodes) (m : grub_hfsplus_btnode R) (hm : m ∈ nodes) :
    m.next ≠ first.next := by
  intro e
  obtain ⟨suffix, h1, h2⟩ := chain_linked_suffix le btree nodes first h m hm
  have := chain_linked_length_unique le btree suffix nodes m first h1 h e
  omega

/-- The iteration loop on an acyclic chain, started in any loop state whose
checkpoint is not a `next` of the chain (or whose counter is 0), does what the
reference walk does. -/
theorem btree_iterate_chain {R σ : Type} (le : Bool) (btree : grub_hfsplus_btree R)
    (v : R → σ → Int × σ) :
    ∀ (nodes : List (grub_hfsplus_btnode R)) (first : grub_hfsplus_btnode R)
      (first_rec saved_node node_count : Nat) (s : σ) (log : List R) (env : grub_env),
      chain_linked le btree first nodes →
      (node_count = 0 ∨ ∀ m, m ∈ first :: nodes → m.next ≠ saved_node) →
      while_loop (btree_iterate_body le btree (log_hook v)) (nodes.length + 1)
          ⟨first, first_rec, saved_node, node_count, (s, log), env⟩ =
        some ⟨if (chain_walk le v nodes first first_rec s log).1 then 1 else 0,
          ((chain_walk le v nodes first first_rec s log).2.1,
            (chain_walk le v nodes first first_rec s log).2.2.1),
          { env with
            trace := env.trace ++
              List.map (fun id => grub_event.read_node btree.file.fileid id true)
                (chain_walk le v nodes first first_rec s log).2.2.2 }⟩ := by
  intro nodes
  induction nodes with
  | nil =>
    intro first first_rec saved_node node_count s log env hc _
    have hz : first.next = 0 := hc
    rw [while_loop_succ]
    rcases btree_iterate_body_cases le btree (log_hook v)
        ⟨first, first_rec, saved_node, node_count, (s, log), env⟩ with
      ⟨hv, hb⟩ | ⟨hv, _, hb⟩ | ⟨_, hnz, _⟩ | ⟨_, hnz, _⟩ | ⟨_, hnz, _⟩
    · rw [hb]
      rw [btree_iterate_visit_log] at hv ⊢
      simp only at hv
      simp [chain_walk, hv]
    · rw [hb]
      rw [btree_iterate_visit_log] at hv ⊢
      simp only at hv
      simp [chain_walk, hv]
    · exact absurd hz hnz
    · exact absurd hz hnz
    · exact absurd hz hnz
  | cons m rest ih =>
    intro first first_rec saved_node node_count s log env hc hinv
    obtain ⟨hnz, hr, hc2⟩ := hc
    rw [while_loop_succ]
    rcases btree_iterate_body_cases le btree (log_hook v)
        ⟨first, first_rec, saved_node, node_count, (s, log), env⟩ with
      ⟨hv, hb⟩ | ⟨_, hz, _⟩ | ⟨_, _, hg, _⟩ | ⟨_, _, _, e, he, _⟩ | ⟨hv, _, hg, n, hn, hb⟩
    · rw [hb]
      rw [btree_iterate_visit_log] at hv ⊢
      simp only at hv
      simp [chain_walk, hv]
    · exact absurd hz hnz
    · rcases hinv with h0 | h0
      · exact absurd h0 hg.1
      · exact absurd hg.2 (h0 first (List.mem_cons_self _ _))
    · simp only at he
      rw [hr] at he
      cases he
    · simp only at hn
      rw [hr] at hn
      cases hn
      rw [hb]
      rw [btree_iterate_visit_log] at hv ⊢
      simp only at hv
      simp only [List.length_cons]
      rw [ih m 0 _ _ _ _ _ hc2 ?_]
      · simp [chain_walk, hv, trace_event]
      · by_cases hd : checkpoint_due node_count = true
        · right
          intro m2 hm2
          simp only [hd, if_true]
          exact chain_linked_next_ne le btree (m :: rest) first ⟨hnz, hr, hc2⟩ m2 hm2
        · rcases hinv with h0 | h0
          · rw [h0, checkpoint_due_zero] at hd
            exact absurd rfl hd
          · right
            intro m2 hm2
            simp only [hd, if_false]
            exact h0 m2 (List.mem_cons_of_mem _ hm2)

/-! ## The reference walk in terms of the flattened record sequence -/

theorem visit_until_cons {R σ : Type} (v : R → σ → Int × σ) (r : R) (rs : List R) (s : σ)
    (log : List R) :
    visit_until v (r :: rs) s log =
      if (v r s).1 ≠ 0 then (true, (v r s).2, log ++ [r])
      else visit_until v rs (v r s).2 (log ++ [r]) := rfl

/-- Visiting a concatenation: stop in the first part, or carry on into the second. -/
theorem visit_until_append {R σ : Type} (v : R → σ → Int × σ) :
    ∀ (l1 l2 : List R) (s : σ) (log : List R),
      visit_until v (l1 ++ l2) s log =
        if (visit_until v l1 s log).1 then visit_until v l1 s log
        else visit_until v l2 (visit_until v l1 s log).2.1 (visit_until v l1 s log).2.2 := by
  intro l1
  induction l1 with
  | nil => intro l2 s log; simp [visit_until]
  | cons r rs ih =>
    intro l2 s log
    rw [List.cons_append, visit_until_cons, visit_until_cons]
    by_cases hv : (v r s).1 = 0
    · simp only [hv, ne_eq, not_true_eq_false, if_false]
      exact ih l2 _ _
    · simp only [hv, ne_eq, not_false_eq_true, if_true]

/-- What `visit_until` leaves in the log: everything when the visitor never
stops; otherwise the accepted records `pre` and then the record `r` on which
the visitor returned non-zero, and nothing after it. -/
theorem visit_until_spec {R σ : Type} (v : R → σ → Int × σ) :
    ∀ (l : List R) (s : σ) (log : List R),
      ((visit_until v l s log).1 = false → (visit_until v l s log).2.2 = log ++ l) ∧
      ((visit_until v l s log).1 = true →
        ∃ pre r post, l = pre ++ r :: post ∧
          (visit_until v l s log).2.2 = log ++ (pre ++ [r]) ∧
          (visit_until v pre s log).1 = false ∧
          (v r (visit_until v pre s log).2.1).1 ≠ 0 ∧
          (visit_until v l s log).2.1 = (v r (visit_until v pre s log).2.1).2) := by
  intro l
  induction l with
  | nil => intro s log; simp [visit_until]
  | cons r rs ih =>
    intro s log
    rw [visit_until_cons]
    by_cases hv : (v r s).1 = 0
    · simp only [hv, ne_eq, not_true_eq_false, if_false]
      obtain ⟨h1, h2⟩ := ih (v r s).2 (log ++ [r])
      constructor
      · intro h
        rw [h1 h]
        simp
      · intro h
        obtain ⟨pre, r1, post, e1, e2, e3, e4, e5⟩ := h2 h
        refine ⟨r :: pre, r1, post, by rw [e1]; rfl, by rw [e2]; simp, ?_, ?_, ?_⟩
        · rw [visit_until_cons]
          simp only [hv, ne_eq, not_true_eq_false, if_false]
          exact e3
        · rw [visit_until_cons]
          simp only [hv, ne_eq, not_true_eq_false, if_false]
          exact e4
        · rw [e5, visit_until_cons]
          simp only [hv, ne_eq, not_true_eq_false, if_false]
    · simp only [hv, ne_eq, not_false_eq_true, if_true]
      constructor
      · intro h; cases h
      · intro _
        exact ⟨[], r, rs, rfl, rfl, rfl, hv, rfl⟩

theorem visit_until_length {R σ : Type} (v : R → σ → Int × σ) (l : List R) (s : σ)
    (log : List R) :
    ((visit_until v l s log).1 = false →
      (visit_until v l s log).2.2.length = log.length + l.length) ∧
    ((visit_until v l s log).1 = true →
      log.length < (visit_until v l s log).2.2.length ∧
      (visit_until v l s log).2.2.length ≤ log.length + l.length) := by
  obtain ⟨h1, h2⟩ := visit_until_spec v l s log
  constructor
  · intro h
    rw [h1 h]
    simp
  · intro h
    obtain ⟨pre, r, post, e1, e2, _, _, _⟩ := h2 h
    rw [e2, e1]
    simp only [List.length_append, List.length_cons, List.length_nil]
    omega

/-- The reference walk visits the flattened record sequence of the chain. -/
theorem chain_walk_flat {R σ : Type} (le : Bool) (v : R → σ → Int × σ) :
    ∀ (nodes : List (grub_hfsplus_btnode R)) (first : grub_hfsplus_btnode R)
      (first_rec : Nat) (s : σ) (log : List R),
      ((chain_walk le v nodes first first_rec s log).1,
        (chain_walk le v nodes first first_rec s log).2.1,
        (chain_walk le v nodes first first_rec s log).2.2.1) =
      visit_until v (chain_records le first first_rec nodes) s log := by
  intro nodes
  induction nodes with
  | nil =>
    intro first first_rec s log
    simp [chain_walk, chain_records]
  | cons m rest ih =>
    intro first first_rec s log
    have e : chain_records le first first_rec (m :: rest) =
        records_from le first first_rec ++ chain_records le m 0 rest := by
      simp [chain_records]
    rw [e, visit_until_append]
    cases hw : (visit_until v (records_from le first first_rec) s log).1 with
    | true =>
      simp only [chain_walk, hw, if_true]
      exact Prod.ext hw.symm rfl
    | false =>
      simp only [chain_walk, hw, Bool.false_eq_true, if_false]
      exact ih m 0 _ _

/-- The reference walk reads a prefix of the chain ids (all of them when the
visitor never stops), and when the visitor stops the last record visited lies
in the last node read (the start node if none was read). -/
theorem chain_walk_reads {R σ : Type} (le : Bool) (v : R → σ → Int × σ) :
    ∀ (nodes : List (grub_hfsplus_btnode R)) (first : grub_hfsplus_btnode R)
      (first_rec : Nat) (s : σ) (log : List R),
      (chain_walk le v nodes first first_rec s log).2.2.2 =
        (chain_ids le first nodes).take
          (chain_walk le v nodes first first_rec s log).2.2.2.length ∧
      (chain_walk le v nodes first first_rec s log).2.2.2.length ≤ nodes.length ∧
      ((chain_walk le v nodes first first_rec s log).1 = false →
        (chain_walk le v nodes first first_rec s log).2.2.2.length = nodes.length) ∧
      ((chain_walk le v nodes first first_rec s log).1 = true →
        log.length + ((chain_segments le first first_rec nodes).take
            (chain_walk le v nodes first first_rec s log).2.2.2.length).flatten.length
          < (chain_walk le v nodes first first_rec s log).2.2.1.length ∧
        (chain_walk le v nodes first first_rec s log).2.2.1.length ≤
          log.length + ((chain_segments le first first_rec nodes).take
            ((chain_walk le v nodes first first_rec s log).2.2.2.length + 1)).flatten.length)
      := by
  intro nodes
  induction nodes with
  | nil =>
    intro first first_rec s log
    obtain ⟨_, h2⟩ := visit_until_length v (records_from le first first_rec) s log
    refine ⟨by simp [chain_walk, chain_ids], by simp [chain_walk], by simp [chain_walk], ?_⟩
    intro h
    have := h2 h
    simp only [chain_walk, chain_segments, List.length_nil, List.take_zero, List.flatten_nil,
      List.map_nil, Nat.zero_add, List.take_succ_cons, List.take_nil, List.flatten_cons,
      List.append_nil]
    omega
  | cons m rest ih =>
    intro first first_rec s log
    obtain ⟨h1, h2⟩ := visit_until_length v (records_from le first first_rec) s log
    cases hw : (visit_until v (records_from le first first_rec) s log).1 with
    | true =>
      have := h2 hw
      refine ⟨by simp [chain_walk, hw], by simp [chain_walk, hw], by simp [chain_walk, hw], ?_⟩
      intro _
      simp only [chain_walk, hw, if_true, chain_segments, List.length_nil, List.take_zero,
        List.flatten_nil, Nat.zero_add, List.take_succ_cons, List.flatten_cons, List.map_cons,
        List.length_append]
      omega
    | false =>
      have hl := h1 hw
      obtain ⟨i1, i2, i3, i4⟩ := ih m 0 (visit_until v (records_from le first first_rec) s log).2.1
        (visit_until v (records_from le first first_rec) s log).2.2
      simp only [chain_walk, hw, Bool.false_eq_true, if_false, List.length_cons, chain_ids,
        List.take_succ_cons, List.cons.injEq, true_and, chain_segments, List.map_cons,
        List.flatten_cons, List.length_append]
      refine ⟨i1, by omega, fun h => by rw [i3 h], fun h => ?_⟩
      have := i4 h
      simp only [chain_segments, List.take_succ_cons, List.flatten_cons,
        List.length_append] at this
      omega

/-- **C5.** On an acyclic chain on which reads succeed (`nodes` follow `first`
by `next`, the last with `next == 0`), for every visitor `v`, start index and
fuel of at least one pass per node, `grub_hfsplus_btree_iterate_node`:
* hands the visitor exactly the records of `chain_records` (those of the start
  node from `first_rec` up to its count, then all records of each following
  node in chain order) up to and including the first record on which the
  visitor returns non-zero, or all of them if there is none;
* if the visitor stopped on a record, that record is the last one visited, the
  function returns 1, and the nodes read are exactly the `j` first ids of the
  chain, where node `j` is the one holding that record: no further node is
  read;
* otherwise it returns 0 having read every node of the chain;
* in both cases `grub_errno` is left as it was: only the trace grows, by the
  node reads. -/
theorem btree_iterate_acyclic_chain {R σ : Type} (le : Bool) (btree : grub_hfsplus_btree R)
    (v : R → σ → Int × σ) (first : grub_hfsplus_btnode R) (first_rec : Nat)
    (nodes : List (grub_hfsplus_btnode R)) (s0 : σ) (env : grub_env)
    (hchain : chain_linked le btree first nodes) :
    ∃ (stopped : Bool) (s1 : σ) (visited : List R) (j : Nat),
      (∀ fuel, nodes.length + 1 ≤ fuel →
        grub_hfsplus_btree_iterate_node le fuel btree first first_rec (log_hook v) (s0, [])
            env =
          some ⟨if stopped then 1 else 0, (s1, visited),
            { env with
              trace := env.trace ++
                List.map (fun id => grub_event.read_node btree.file.fileid id true)
                  ((chain_ids le first nodes).take j) }⟩) ∧
      (stopped, s1, visited) = visit_until v (chain_records le first first_rec nodes) s0 [] ∧
      (stopped = false →
        visited = chain_records le first first_rec nodes ∧ j = nodes.length) ∧
      (stopped = true →
        (∃ pre r post, chain_records le first first_rec nodes = pre ++ r :: post ∧
          visited = pre ++ [r] ∧
          (visit_until v pre s0 []).1 = false ∧
          (v r (visit_until v pre s0 []).2.1).1 ≠ 0) ∧
        ((chain_segments le first first_rec nodes).take j).flatten.length < visited.length ∧
        visited.length ≤
          ((chain_segments le first first_rec nodes).take (j + 1)).flatten.length) := by
  obtain ⟨r1, r2, r3, r4⟩ := chain_walk_reads le v nodes first first_rec s0 []
  have hflat := chain_walk_flat le v nodes first first_rec s0 []
  obtain ⟨sp1, sp2⟩ := visit_until_spec v (chain_records le first first_rec nodes) s0 []
  rw [← hflat] at sp1 sp2
  refine ⟨(chain_walk le v nodes first first_rec s0 []).1,
    (chain_walk le v nodes first first_rec s0 []).2.1,
    (chain_walk le v nodes first first_rec s0 []).2.2.1,
    (chain_walk le v nodes first first_rec s0 []).2.2.2.length, ?_, hflat, ?_, ?_⟩
  · intro fuel hf
    have h := btree_iterate_chain le btree v nodes first first_rec (2 ^ 64 - 1) 0 s0 [] env
      hchain (Or.inl rfl)
    rw [r1] at h
    exact while_loop_mono_le _ _ fuel _ _ hf h
  · intro h
    have := sp1 h
    simp only [List.nil_append] at this
    exact ⟨this, r3 h⟩
  · intro h
    obtain ⟨pre, r, post, e1, e2, e3, e4, _⟩ := sp2 h
    have b := r4 h
    simp only [List.length_nil, Nat.zero_add] at b
    exact ⟨⟨pre, r, post, e1, by simpa using e2, e3, e4⟩, b⟩

/-- Instance of C5 on the chain `ex_chain_a`, `ex_chain_b`, `ex_chain_c`,
started at record 1 with a visitor that stops on record 20: the run itself
(records 11 and 20 visited, node 2 read and node 3 not, return value 1, no
error), and the theorem applied to it. -/
theorem btree_iterate_acyclic_chain_witness :
    chain_linked false ex_chain_tree ex_chain_a [ex_chain_b, ex_chain_c] ∧
    grub_hfsplus_btree_iterate_node false 3 ex_chain_tree ex_chain_a 1
        (log_hook ex_stop_visitor) (0, []) ex_env =
      some ⟨1, (2, [11, 20]),
        ⟨grub_err_t.GRUB_ERR_NONE, grub_errmsg.no_message, [],
          [grub_event.read_node 4 2 true]⟩⟩ ∧
    ∃ (stopped : Bool) (s1 : Nat) (visited : List Nat) (j : Nat),
      (∀ fuel, [ex_chain_b, ex_chain_c].length + 1 ≤ fuel →
        grub_hfsplus_btree_iterate_node false fuel ex_chain_tree ex_chain_a 1
            (log_hook ex_stop_visitor) (0, []) ex_env =
          some ⟨if stopped then 1 else 0, (s1, visited),
            { ex_env with
              trace := ex_env.trace ++
                List.map (fun id => grub_event.read_node ex_chain_tree.file.fileid id true)
                  ((chain_ids false ex_chain_a [ex_chain_b, ex_chain_c]).take j) }⟩) ∧
      (stopped, s1, visited) =
        visit_until ex_stop_visitor
          (chain_records false ex_chain_a 1 [ex_chain_b, ex_chain_c]) 0 [] ∧
      (stopped = false →
        visited = chain_records false ex_chain_a 1 [ex_chain_b, ex_chain_c] ∧
        j = [ex_chain_b, ex_chain_c].length) ∧
      (stopped = true →
        (∃ pre r post,
          chain_records false ex_chain_a 1 [ex_chain_b, ex_chain_c] = pre ++ r :: post ∧
          visited = pre ++ [r] ∧
          (visit_until ex_stop_visitor pre 0 []).1 = false ∧
          (ex_stop_visitor r (visit_until ex_stop_visitor pre 0 []).2.1).1 ≠ 0) ∧
        ((chain_segments false ex_chain_a 1 [ex_chain_b, ex_chain_c]).take j).flatten.length
          < visited.length ∧
        visited.length ≤
          ((chain_segments false ex_chain_a 1 [ex_chain_b, ex_chain_c]).take
            (j + 1)).flatten.length) :=
  ⟨⟨by decide, rfl, by decide, rfl, rfl⟩, rfl,
    btree_iterate_acyclic_chain false ex_chain_tree ex_stop_visitor ex_chain_a 1
      [ex_chain_b, ex_chain_c] 0 ex_env ⟨by decide, rfl, by decide, rfl, rfl⟩⟩

/-! ## Volume header validation -/

theorem grub_swap_bytes32_lt (x : Nat) : grub_swap_bytes32 x < 4294967296 := by
  unfold grub_swap_bytes32; omega

theorem grub_swap_bytes32_bytes (b0 b1 b2 b3 : Nat) (h0 : b0 < 256) (h1 : b1 < 256)
    (h2 : b2 < 256) (h3 : b3 < 256) :
    grub_swap_bytes32 (b0 + 256 * b1 + 65536 * b2 + 16777216 * b3)
      = b3 + 256 * b2 + 65536 * b1 + 16777216 * b0 := by
  unfold grub_swap_bytes32; omega

theorem grub_swap_bytes32_involutive (x : Nat) (h : x < 4294967296) :
    grub_swap_bytes32 (grub_swap_bytes32 x) = x := by
  have hx : x = x % 256 + 256 * (x / 256 % 256) + 65536 * (x / 65536 % 256)
      + 16777216 * (x / 16777216) := by omega
  rw [hx, grub_swap_bytes32_bytes _ _ _ _ (by omega) (by omega) (by omega) (by omega),
    grub_swap_bytes32_bytes _ _ _ _ (by omega) (by omega) (by omega) (by omega)]

theorem grub_swap_bytes32_eq_zero (x : Nat) (h : x < 4294967296) :
    grub_swap_bytes32 x = 0 ↔ x = 0 := by
  unfold grub_swap_bytes32; omega

/-- A positive number shares no bit with its predecessor exactly when it is a
power of two. -/
theorem and_pred_eq_zero_iff (x : Nat) (hx : 0 < x) :
    x &&& (x - 1) = 0 ↔ ∃ k, x = 2 ^ k := by
  constructor
  · intro h
    refine ⟨Nat.log2 x, ?_⟩
    have h1 : 2 ^ Nat.log2 x ≤ x := Nat.log2_self_le (by omega)
    have h2 : x < 2 ^ (Nat.log2 x + 1) := Nat.lt_log2_self
    by_contra hne
    have hb : (x &&& (x - 1)).testBit (Nat.log2 x) = true := by
      rw [Nat.testBit_and, testBit_of_range x _ h1 h2,
        testBit_of_range (x - 1) _ (by omega) (by omega)]
      rfl
    rw [h] at hb
    simp at hb
  · rintro ⟨k, rfl⟩
    simp [Nat.and_pow_two_sub_one_eq_mod]

theorem grub_swap_bytes32_two_pow (k : Nat) (hk : k < 32) :
    grub_swap_bytes32 (2 ^ k) = 2 ^ ((3 - k / 8) * 8 + k % 8) := by
  interval_cases k <;> rfl

theorem two_pow_lt_iff (k : Nat) : 2 ^ k < 4294967296 ↔ k < 32 := by
  have : (4294967296 : Nat) = 2 ^ 32 := by norm_num
  rw [this]
  exact Nat.pow_lt_pow_iff_right (by norm_num)

theorem is_pow2_swap (x : Nat) (h : x < 4294967296) :
    (∃ k, grub_swap_bytes32 x = 2 ^ k) ↔ ∃ k, x = 2 ^ k := by
  constructor
  · rintro ⟨k, hk⟩
    have hlt : k < 32 := by
      rw [← two_pow_lt_iff, ← hk]; exact grub_swap_bytes32_lt x
    refine ⟨(3 - k / 8) * 8 + k % 8, ?_⟩
    rw [← grub_swap_bytes32_two_pow k hlt, ← hk, grub_swap_bytes32_involutive x h]
  · rintro ⟨k, hk⟩
    have hlt : k < 32 := by
      rw [← two_pow_lt_iff, ← hk]; exact h
    exact ⟨_, by rw [hk]; exact grub_swap_bytes32_two_pow k hlt⟩

/-- The 32-bit test `x & (x - 1)` is non-zero exactly when `x` is neither 0 nor
a power of two. -/
theorem land_pred_ne_zero_iff (x : Nat) (hx : x < 4294967296) :
    (x &&& ((x + (2 ^ 32 - 1)) % 2 ^ 32)) ≠ 0 ↔ (x ≠ 0 ∧ ¬ ∃ k, x = 2 ^ k) := by
  by_cases h0 : x = 0
  · subst h0
    simp
  · have e : (x + (2 ^ 32 - 1)) % 2 ^ 32 = x - 1 := by omega
    rw [e, ne_eq, and_pred_eq_zero_iff x (by omega)]
    simp [h0]

/-- The zero test and the power-of-two test give the same answer on the raw
field and on the decoded value, on either host byte order. -/
theorem raw_tests_agree (le : Bool) (x : Nat) (hx : x < 4294967296) :
    (x = 0 ↔ grub_be_to_cpu32 le x = 0) ∧
    ((∃ k, x = 2 ^ k) ↔ ∃ k, grub_be_to_cpu32 le x = 2 ^ k) := by
  cases le with
  | false =>
    have e : grub_be_to_cpu32 false x = x := by
      simp only [grub_be_to_cpu32, Bool.false_eq_true, if_false]
      omega
    rw [e]
    exact ⟨Iff.rfl, Iff.rfl⟩
  | true =>
    have e : grub_be_to_cpu32 true x = grub_swap_bytes32 x := by
      simp [grub_be_to_cpu32]
    rw [e]
    exact ⟨(grub_swap_bytes32_eq_zero x hx).symm, (is_pow2_swap x hx).symm⟩

/-- **C8.** For a volume header `vh` whose `blksize` field is a 32-bit value:
* the validation condition of `grub_hfsplus_mount` holds if and only if the
  decoded magic is neither `GRUB_HFSPLUS_MAGIC` nor `GRUB_HFSPLUSX_MAGIC`, or
  the decoded block size is zero, is not a power of two, or is below the
  512-byte sector size;
* the zero test and the `x & (x - 1)` test, which the code applies to the raw
  field, agree with the same tests on the decoded value, on both host byte
  orders;
* whenever the header reads succeed and `vh` is the header validated, the mount
  returns no volume with `GRUB_ERR_BAD_FS` ("not a HFS+ filesystem") if the
  condition holds, and goes on to set up the trees if it does not;
* a header whose magic bytes are 0 is rejected. -/
theorem mount_validation {CatR ExtR AttrR : Type} (le : Bool) (vh : grub_hfsplus_volheader)
    (hb : vh.blksize < 4294967296) :
    (mount_header_rejected le vh = true ↔
      ((grub_be_to_cpu16 le vh.magic ≠ GRUB_HFSPLUS_MAGIC ∧
          grub_be_to_cpu16 le vh.magic ≠ GRUB_HFSPLUSX_MAGIC) ∨
        grub_be_to_cpu32 le vh.blksize = 0 ∨
        (¬ ∃ k, grub_be_to_cpu32 le vh.blksize = 2 ^ k) ∨
        grub_be_to_cpu32 le vh.blksize < 512)) ∧
    (vh.blksize = 0 ↔ grub_be_to_cpu32 le vh.blksize = 0) ∧
    ((vh.blksize &&& ((vh.blksize + (2 ^ 32 - 1)) % 2 ^ 32)) ≠ 0 ↔
      (grub_be_to_cpu32 le vh.blksize &&&
        ((grub_be_to_cpu32 le vh.blksize + (2 ^ 32 - 1)) % 2 ^ 32)) ≠ 0) ∧
    (∀ (disk : grub_disk CatR ExtR AttrR) (uninit : grub_hfsplus_file) (env env1 : grub_env)
        (embedded_offset : Nat),
      (grub_malloc env).1 = true →
      mount_read_volheader le disk (grub_malloc env).2 = Except.ok (embedded_offset, vh, env1) →
      (mount_header_rejected le vh = true →
        ∃ env2, grub_hfsplus_mount le disk uninit env = (none, env2) ∧
          env2.grub_errno = grub_err_t.GRUB_ERR_BAD_FS ∧
          env2.grub_errmsg = grub_errmsg.not_hfsplus) ∧
      (mount_header_rejected le vh = false →
        grub_hfsplus_mount le disk uninit env
          = mount_trees le disk uninit embedded_offset vh env1)) ∧
    (vh.magic = 0 → mount_header_rejected le vh = true) := by
  obtain ⟨hz, hp⟩ := raw_tests_agree le vh.blksize hb
  have hdec := grub_be_to_cpu32_lt le vh.blksize
  have hraw := land_pred_ne_zero_iff vh.blksize hb
  have hdecl := land_pred_ne_zero_iff (grub_be_to_cpu32 le vh.blksize) hdec
  have hcond : mount_header_rejected le vh = true ↔
      ((grub_be_to_cpu16 le vh.magic ≠ GRUB_HFSPLUS_MAGIC ∧
          grub_be_to_cpu16 le vh.magic ≠ GRUB_HFSPLUSX_MAGIC)
        ∨ vh.blksize = 0
        ∨ (vh.blksize &&& ((vh.blksize + (2 ^ 32 - 1)) % 2 ^ 32)) ≠ 0
        ∨ grub_be_to_cpu32 le vh.blksize < GRUB_DISK_SECTOR_SIZE) := by
    unfold mount_header_rejected
    exact decide_eq_true_iff
  refine ⟨?_, hz, ?_, ?_, ?_⟩
  · rw [hcond]
    constructor
    · rintro (h | h | h | h)
      · exact Or.inl h
      · exact Or.inr (Or.inl (hz.1 h))
      · exact Or.inr (Or.inr (Or.inl (fun hk => (hraw.1 h).2 (hp.2 hk))))
      · exact Or.inr (Or.inr (Or.inr h))
    · rintro (h | h | h | h)
      · exact Or.inl h
      · exact Or.inr (Or.inl (hz.2 h))
      · by_cases h0 : vh.blksize = 0
        · exact Or.inr (Or.inl h0)
        · exact Or.inr (Or.inr (Or.inl (hraw.2 ⟨h0, fun hk => h (hp.1 hk)⟩)))
      · exact Or.inr (Or.inr (Or.inr h))
  · rw [hraw, hdecl]
    exact and_congr (not_congr hz) (not_congr hp)
  · intro disk uninit env env1 embedded_offset hm hread
    constructor
    · intro hrej
      refine ⟨(grub_error env1 grub_err_t.GRUB_ERR_BAD_FS grub_errmsg.not_hfsplus).2, ?_,
        rfl, rfl⟩
      simp [grub_hfsplus_mount, hm, hread, hrej, mount_fail, grub_error]
    · intro hrej
      simp [grub_hfsplus_mount, hm, hread, hrej]
  · intro hm
    have e : grub_be_to_cpu16 le vh.magic = 0 := by
      rw [hm]
      cases le <;> rfl
    rw [hcond]
    left
    rw [e]
    exact ⟨by decide, by decide⟩

/-- Instance of C8 on `ex_volheader` (little-endian host): magic "H+" and block
size 4096 are accepted. -/
theorem mount_validation_witness :
    ex_volheader.blksize < 4294967296 ∧
    mount_header_rejected true ex_volheader = false ∧
    (mount_header_rejected true ex_volheader = true ↔
      ((grub_be_to_cpu16 true ex_volheader.magic ≠ GRUB_HFSPLUS_MAGIC ∧
          grub_be_to_cpu16 true ex_volheader.magic ≠ GRUB_HFSPLUSX_MAGIC) ∨
        grub_be_to_cpu32 true ex_volheader.blksize = 0 ∨
        (¬ ∃ k, grub_be_to_cpu32 true ex_volheader.blksize = 2 ^ k) ∨
        grub_be_to_cpu32 true ex_volheader.blksize < 512)) :=
  ⟨by decide, by decide, (@mount_validation Nat Nat Nat true ex_volheader (by decide)).1⟩

/-! ## Extent resolution -/

theorem extent_list_total_cons (le : Bool) (e : grub_hfsplus_extent)
    (l : List grub_hfsplus_extent) :
    extent_list_total le (e :: l) = grub_be_to_cpu32 le e.count + extent_list_total le l := by
  simp [extent_list_total]

theorem extent_list_blocks_cons (le : Bool) (e : grub_hfsplus_extent)
    (l : List grub_hfsplus_extent) :
    extent_list_blocks le (e :: l) =
      List.range' (grub_be_to_cpu32 le e.start) (grub_be_to_cpu32 le e.count)
        ++ extent_list_blocks le l := by
  simp [extent_list_blocks]

/-- The scan of an extent list: a block below the total is found at its place
in the expanded block sequence; otherwise the scan misses and leaves the block
number less the total. -/
theorem find_block_loop_spec (le : Bool) :
    ∀ (l : List grub_hfsplus_extent) (b : Nat),
      (b < extent_list_total le l →
        ∃ blk, (find_block_loop le l b).1 = some blk ∧
          (extent_list_blocks le l)[b]? = some blk ∧ blk < 2 ^ 33) ∧
      (extent_list_total le l ≤ b →
        find_block_loop le l b = (none, b - extent_list_total le l)) := by
  intro l
  induction l with
  | nil =>
    intro b
    constructor
    · intro h
      simp [extent_list_total] at h
    · intro _
      simp [find_block_loop, extent_list_total]
  | cons e rest ih =>
    intro b
    have hc := grub_be_to_cpu32_lt le e.count
    have hs := grub_be_to_cpu32_lt le e.start
    rw [extent_list_total_cons, extent_list_blocks_cons]
    by_cases hb : b < grub_be_to_cpu32 le e.count
    · constructor
      · intro _
        refine ⟨grub_be_to_cpu32 le e.start + b, ?_, ?_, by omega⟩
        · simp only [find_block_loop, hb, if_true]
          congr 1
          omega
        · rw [List.getElem?_append_left (by simpa using hb), List.getElem?_range' _ _ hb]
          simp
      · intro h
        omega
    · obtain ⟨ih1, ih2⟩ := ih (b - grub_be_to_cpu32 le e.count)
      constructor
      · intro h
        obtain ⟨blk, h1, h2, h3⟩ := ih1 (by omega)
        refine ⟨blk, ?_, ?_, h3⟩
        · simp only [find_block_loop, hb, if_false]
          exact h1
        · rw [List.getElem?_append_right (by simp; omega)]
          simpa using h2
      · intro h
        simp only [find_block_loop, hb, if_false]
        rw [ih2 (by omega)]
        congr 1
        omega

/-- The function `grub_hfsplus_find_block` on a hit and on a miss. -/
theorem grub_hfsplus_find_block_spec (le : Bool) (extent : grub_hfsplus_extents) (b : Nat) :
    (b < extents_total le extent →
      ∃ blk, grub_hfsplus_find_block le extent b = (blk, b) ∧
        (extents_blocks le extent)[b]? = some blk ∧ blk ≠ 0xffffffffffffffff) ∧
    (extents_total le extent ≤ b →
      grub_hfsplus_find_block le extent b
        = (0xffffffffffffffff, b - extents_total le extent)) := by
  obtain ⟨h1, h2⟩ := find_block_loop_spec le extent.toList b
  constructor
  · intro h
    obtain ⟨blk, e1, e2, e3⟩ := h1 h
    refine ⟨blk, ?_, e2, by omega⟩
    unfold grub_hfsplus_find_block
    have : find_block_loop le extent.toList b
        = (some blk, (find_block_loop le extent.toList b).2) := Prod.ext e1 rfl
    rw [this]
  · intro h
    unfold grub_hfsplus_find_block
    rw [h2 h]
    rfl

theorem extent_list_blocks_length (le : Bool) (l : List grub_hfsplus_extent) :
    (extent_list_blocks le l).length = extent_list_total le l := by
  induction l with
  | nil => rfl
  | cons e rest ih =>
    rw [extent_list_blocks_cons, extent_list_total_cons, List.length_append, ih]
    simp

theorem extents_blocks_length (le : Bool) (e : grub_hfsplus_extents) :
    (extents_blocks le e).length = extents_total le e :=
  extent_list_blocks_length le e.toList

/-- The loop of `grub_hfsplus_read_block`, started on extent list `e` with
`base` blocks already passed and `blksleft` to go, when the overflow tree
answers the successive searches with the extent lists `recs`. -/
theorem read_block_loop_spec {CatR AttrR : Type} (le : Bool) (sfuel : Nat)
    (data : grub_hfsplus_data CatR grub_hfsplus_extrecord AttrR) (node : grub_hfsplus_file)
    (fileblock : Nat) (hid : node.fileid ≠ GRUB_HFSPLUS_FILEID_OVERFLOW) :
    ∀ (recs : List grub_hfsplus_extents) (e : grub_hfsplus_extents) (base blksleft : Nat)
      (env : grub_env),
      env.mm = [] → base + blksleft = fileblock →
      (∀ i e1, recs[i]? = some e1 →
        base + extents_total le e + ((recs.take i).map (extents_total le)).sum < 2 ^ 32 ∧
        ∀ env0 : grub_env, env0.mm = [] →
          ∃ nd off env1,
            grub_hfsplus_btree_search le extrecord_mem sfuel data.extoverflow_tree
              (⟨node.fileid,
                base + extents_total le e + ((recs.take i).map (extents_total le)).sum,
                if node.compressed then 0xff else 0⟩ : grub_hfsplus_extkey_internal)
              (grub_hfsplus_cmp_extkey le) env0
              = some (⟨grub_err_t.GRUB_ERR_NONE, some (some nd), some off⟩, env1) ∧
            env1.mm = [] ∧ (nd.recptr off).extents = e1) →
      blksleft < extents_total le e + (recs.map (extents_total le)).sum →
      ∃ blk env1,
        while_loop (read_block_body le sfuel data node fileblock) (recs.length + 1)
          ⟨e, blksleft, env⟩ = some (some (blk, env1)) ∧
        env1.mm = [] ∧ (file_blocks le e recs)[blksleft]? = some blk := by
  intro recs
  induction recs with
  | nil =>
    intro e base blksleft env hmm _ _ hlt
    simp only [List.map_nil, List.sum_nil, Nat.add_zero] at hlt
    obtain ⟨blk, h1, h2, h3⟩ := (grub_hfsplus_find_block_spec le e blksleft).1 hlt
    refine ⟨blk, env, ?_, hmm, ?_⟩
    · rw [while_loop_succ]
      simp [read_block_body, h1, h3]
    · simp only [file_blocks, List.map_nil, List.flatten_nil, List.append_nil]
      exact h2
  | cons r1 rest ih =>
    intro e base blksleft env hmm hbase hfind hlt
    by_cases hhit : blksleft < extents_total le e
    · obtain ⟨blk, h1, h2, h3⟩ := (grub_hfsplus_find_block_spec le e blksleft).1 hhit
      refine ⟨blk, env, ?_, hmm, ?_⟩
      · rw [while_loop_succ]
        simp [read_block_body, h1, h3]
      · simp only [file_blocks]
        rw [List.getElem?_append_left (by rw [extents_blocks_length]; exact hhit)]
        exact h2
    · have hmiss := (grub_hfsplus_find_block_spec le e blksleft).2 (by omega)
      obtain ⟨hs0, hsearch⟩ := hfind 0 r1 (by simp)
      simp only [List.take_zero, List.map_nil, List.sum_nil, Nat.add_zero] at hs0 hsearch
      have hstart : (fileblock - (blksleft - extents_total le e)) % 2 ^ 32
          = base + extents_total le e := by omega
      obtain ⟨nd, off, env1, hs1, hmm1, hext⟩ := hsearch
        (trace_event env (grub_event.search data.extoverflow_tree.file.fileid
          (grub_hfsplus_key_internal.extkey
            ⟨node.fileid, base + extents_total le e, if node.compressed then 0xff else 0⟩)))
        (by simpa [trace_event] using hmm)
      obtain ⟨blk, env2, hw, hmm2, hblk⟩ := ih r1 (base + extents_total le e)
        (blksleft - extents_total le e) env1 hmm1 (by omega)
        (by
          intro i e1 hi
          obtain ⟨a1, a2⟩ := hfind (i + 1) e1 (by simpa using hi)
          simp only [List.take_succ_cons, List.map_cons, List.sum_cons] at a1 a2
          refine ⟨by omega, ?_⟩
          intro env0 h0
          obtain ⟨nd1, off1, env3, b1, b2, b3⟩ := a2 env0 h0
          refine ⟨nd1, off1, env3, ?_, b2, b3⟩
          rw [← b1]
          congr 2
          omega)
        (by
          simp only [List.map_cons, List.sum_cons] at hlt
          omega)
      refine ⟨blk, env2, ?_, hmm2, ?_⟩
      · rw [while_loop_succ]
        have hbody : read_block_body le sfuel data node fileblock ⟨e, blksleft, env⟩
            = loop_ctl.again ⟨r1, blksleft - extents_total le e, env1⟩ := by
          simp only [read_block_body, hmiss, hstart, hs1, hid]
          simp [hext]
        rw [hbody]
        exact hw
      · simp only [file_blocks, List.map_cons, List.flatten_cons] at hblk ⊢
        rw [List.getElem?_append_right (by rw [extents_blocks_length]; omega),
          extents_blocks_length]
        exact hblk

/-! ## Traces -/

theorem trace_ext_refl (P : grub_event → Prop) (e : grub_env) : trace_ext P e e :=
  ⟨[], by simp, fun _ h => by cases h⟩

theorem trace_ext_of_eq (P : grub_event → Prop) (e e1 : grub_env) (h : e1.trace = e.trace) :
    trace_ext P e e1 :=
  ⟨[], by simp [h], fun _ h => by cases h⟩

theorem trace_ext_trans (P : grub_event → Prop) (e e1 e2 : grub_env)
    (h1 : trace_ext P e e1) (h2 : trace_ext P e1 e2) : trace_ext P e e2 := by
  obtain ⟨l1, a1, b1⟩ := h1
  obtain ⟨l2, a2, b2⟩ := h2
  refine ⟨l1 ++ l2, by rw [a2, a1, List.append_assoc], ?_⟩
  intro ev hev
  rcases List.mem_append.1 hev with h | h
  · exact b1 ev h
  · exact b2 ev h

theorem trace_ext_event (P : grub_event → Prop) (e : grub_env) (ev : grub_event)
    (h : P ev) : trace_ext P e (trace_event e ev) :=
  ⟨[ev], rfl, fun ev1 h1 => by
    rw [List.mem_singleton] at h1
    rw [h1]
    exact h⟩

theorem trace_ext_mono (P Q : grub_event → Prop) (e e1 : grub_env)
    (hpq : ∀ ev, P ev → Q ev) (h : trace_ext P e e1) : trace_ext Q e e1 := by
  obtain ⟨l, a, b⟩ := h
  exact ⟨l, a, fun ev hev => hpq ev (b ev hev)⟩

theorem grub_malloc_trace (env : grub_env) :
    (grub_malloc env).2.trace = env.trace ++ [grub_event.malloc (grub_malloc env).1] := by
  unfold grub_malloc
  split <;> rfl

theorem trace_ext_malloc (P : grub_event → Prop) (e : grub_env)
    (h : ∀ ok, P (grub_event.malloc ok)) : trace_ext P e (grub_malloc e).2 :=
  ⟨[grub_event.malloc (grub_malloc e).1], grub_malloc_trace e, fun ev1 h1 => by
    rw [List.mem_singleton] at h1
    rw [h1]
    exact h _⟩

/-- A loop whose passes only extend the trace by events satisfying `P`, from
states satisfying an invariant, returns with the trace so extended. -/
theorem while_loop_trace {A S : Type} (body : S → loop_ctl A S) (inv : S → Prop)
    (envS : S → grub_env) (envA : A → grub_env) (P : grub_event → Prop)
    (hret : ∀ s a, inv s → body s = loop_ctl.ret a → trace_ext P (envS s) (envA a))
    (hagain : ∀ s s1, inv s → body s = loop_ctl.again s1 →
      inv s1 ∧ trace_ext P (envS s) (envS s1)) :
    ∀ (fuel : Nat) (s : S) (a : A), inv s → while_loop body fuel s = some a →
      trace_ext P (envS s) (envA a) := by
  intro fuel
  induction fuel with
  | zero => intro s a _ h; simp [while_loop] at h
  | succ n ih =>
    intro s a hinv h
    rw [while_loop_succ] at h
    cases hb : body s with
    | ret a1 =>
      simp only [hb, Option.some.injEq] at h
      subst h
      exact hret s a1 hinv hb
    | again s1 =>
      simp only [hb] at h
      obtain ⟨hi1, ht1⟩ := hagain s s1 hinv hb
      exact trace_ext_trans P _ _ _ ht1 (ih s1 a hi1 h)

/-- The search extends the trace by `malloc` and `read_node` events only. -/
theorem btree_search_trace {R KI : Type} (le : Bool) (mem : grub_hfsplus_key_mem R)
    (btree : grub_hfsplus_btree R) (key : KI) (compare_keys : R → KI → Int) (fuel : Nat)
    (env env1 : grub_env) (r : grub_hfsplus_search_result R)
    (h : grub_hfsplus_btree_search le mem fuel btree key compare_keys env = some (r, env1)) :
    trace_ext (fun ev => ev.is_hook = false) env env1 := by
  unfold grub_hfsplus_btree_search at h
  split at h
  · cases h
    exact trace_ext_refl _ _
  · dsimp only at h
    have hmal := trace_ext_malloc (fun ev => ev.is_hook = false) env (fun _ => rfl)
    split at h
    · refine trace_ext_trans _ _ _ _ hmal ?_
      refine while_loop_trace (btree_search_body le mem btree key compare_keys)
        (fun _ => True) (fun s => s.env) (fun a => a.2) _ ?_ ?_ fuel _ (r, env1) trivial h
      · intro s a _ hb
        rcases btree_search_body_cases le mem btree key compare_keys s with
          ⟨_, hc⟩ | ⟨_, _, _, _, hc⟩ | ⟨_, _, _, _, _, _, hc⟩ | ⟨_, _, _, _, _, _, hc⟩ |
          ⟨_, _, _, _, _, _, _, hc⟩
        · rw [hc] at hb; cases hb
          exact trace_ext_of_eq _ _ _ rfl
        · rw [hc] at hb; cases hb
          exact trace_ext_trans _ _ _ _
            (trace_ext_event _ s.env
              (grub_event.read_node btree.file.fileid s.currnode false) rfl)
            (trace_ext_of_eq _ _ _ rfl)
        · rw [hc] at hb; cases hb
          exact trace_ext_event _ s.env
            (grub_event.read_node btree.file.fileid s.currnode true) rfl
        · rw [hc] at hb; cases hb
          exact trace_ext_event _ s.env
            (grub_event.read_node btree.file.fileid s.currnode true) rfl
        · rw [hc] at hb; cases hb
      · intro s s1 _ hb
        rcases btree_search_body_cases le mem btree key compare_keys s with
          ⟨_, hc⟩ | ⟨_, _, _, _, hc⟩ | ⟨_, _, _, _, _, _, hc⟩ | ⟨_, _, _, _, _, _, hc⟩ |
          ⟨_, _, _, _, _, _, _, hc⟩
        · rw [hc] at hb; cases hb
        · rw [hc] at hb; cases hb
        · rw [hc] at hb; cases hb
        · rw [hc] at hb; cases hb
        · rw [hc] at hb; cases hb
          exact ⟨trivial, trace_ext_event _ s.env
            (grub_event.read_node btree.file.fileid s.currnode true) rfl⟩
    · cases h
      exact hmal

/-- The record loop of the iteration extends the trace by what the hook calls add. -/
theorem btree_iterate_records_trace {R σ : Type} (n : grub_hfsplus_btnode R)
    (hook : R → σ → grub_env → Int × σ × grub_env) (P : grub_event → Prop)
    (hH : ∀ i c e, trace_ext P e (hook (n.recptr i) c e).2.2) :
    ∀ (todo rec : Nat) (c : σ) (e : grub_env),
      trace_ext P e (btree_iterate_records n hook todo rec c e).2.2 := by
  intro todo
  induction todo with
  | zero => intro rec c e; exact trace_ext_refl _ _
  | succ t ih =>
    intro rec c e
    rw [btree_iterate_records_succ]
    split
    · exact hH rec c e
    · exact trace_ext_trans _ _ _ _ (hH rec c e) (ih _ _ _)

/-- The iteration extends the trace by `read_node` events and by what the hook
adds on records of nodes of the tree image. -/
theorem btree_iterate_trace {R σ : Type} (le : Bool) (btree : grub_hfsplus_btree R)
    (hook : R → σ → grub_env → Int × σ × grub_env) (Q : R → grub_event → Prop)
    (P : grub_event → Prop)
    (hH : ∀ r c e, trace_ext (Q r) e (hook r c e).2.2)
    (hQ : ∀ id n i ev, btree.read_node id = Except.ok n → Q (n.recptr i) ev → P ev)
    (hread : ∀ f id ok, P (grub_event.read_node f id ok))
    (fuel : Nat) (first_node : grub_hfsplus_btnode R) (first_rec : Nat) (hook_arg : σ)
    (env : grub_env) (res : btree_iterate_result σ)
    (hfirst : ∃ id, btree.read_node id = Except.ok first_node)
    (h : grub_hfsplus_btree_iterate_node le fuel btree first_node first_rec hook hook_arg env
      = some res) :
    trace_ext P env res.env := by
  have hvis : ∀ s : btree_iterate_state R σ,
      (∃ id, btree.read_node id = Except.ok s.first_node) →
      trace_ext P s.env (btree_iterate_visit le hook s).2.2 := by
    intro s ⟨id, hid⟩
    exact btree_iterate_records_trace s.first_node hook P
      (fun i c e => trace_ext_mono _ _ _ _ (fun ev hq => hQ id s.first_node i ev hid hq)
        (hH _ c e)) _ _ _ _
  refine while_loop_trace (btree_iterate_body le btree hook)
    (fun s => ∃ id, btree.read_node id = Except.ok s.first_node)
    (fun s => s.env) (fun a => a.env) P ?_ ?_ fuel _ res hfirst h
  · intro s a hinv hb
    have hv := hvis s hinv
    rcases btree_iterate_body_cases le btree hook s with
      ⟨_, hc⟩ | ⟨_, _, hc⟩ | ⟨_, _, _, hc⟩ | ⟨_, _, _, _, _, hc⟩ | ⟨_, _, _, _, _, hc⟩
    · rw [hc] at hb; cases hb; exact hv
    · rw [hc] at hb; cases hb; exact hv
    · rw [hc] at hb; cases hb
      exact trace_ext_trans _ _ _ _ hv (trace_ext_of_eq _ _ _ rfl)
    · rw [hc] at hb; cases hb
      exact trace_ext_trans _ _ _ _ hv
        (trace_ext_trans _ _ _ _ (trace_ext_event _ _ _ (hread _ _ _))
          (trace_ext_of_eq _ _ _ rfl))
    · rw [hc] at hb; cases hb
  · intro s s1 hinv hb
    have hv := hvis s hinv
    rcases btree_iterate_body_cases le btree hook s with
      ⟨_, hc⟩ | ⟨_, _, hc⟩ | ⟨_, _, _, hc⟩ | ⟨_, _, _, _, _, hc⟩ | ⟨_, _, _, n, hn, hc⟩
    · rw [hc] at hb; cases hb
    · rw [hc] at hb; cases hb
    · rw [hc] at hb; cases hb
    · rw [hc] at hb; cases hb
    · rw [hc] at hb; cases hb
      exact ⟨⟨_, hn⟩, trace_ext_trans _ _ _ _ hv (trace_ext_event _ _ _ (hread _ _ _))⟩

/-! ## Directory iteration -/

/-- At a record whose parent id is not the directory's file id, `list_nodes`
returns 1 and changes nothing. -/
theorem list_nodes_other_parent {τ : Type} (le : Bool) (case_sensitive : Bool)
    (utf8 : List Nat → List Nat) (uninit dir : grub_hfsplus_file)
    (hook : List Nat → Nat → grub_hfsplus_file → τ → Int × τ)
    (record : grub_hfsplus_catrecord) (ctx : list_nodes_ctx τ) (env : grub_env)
    (h : grub_be_to_cpu32 le record.catkey.parent ≠ dir.fileid) :
    list_nodes le case_sensitive utf8 uninit dir hook record ctx env = (1, ctx, env) := by
  unfold list_nodes
  exact if_pos h

/-- A call of `list_nodes` only extends the trace. -/
theorem list_nodes_trace_basic {τ : Type} (le : Bool) (case_sensitive : Bool)
    (utf8 : List Nat → List Nat) (uninit dir : grub_hfsplus_file)
    (hook : List Nat → Nat → grub_hfsplus_file → τ → Int × τ)
    (record : grub_hfsplus_catrecord) (ctx : list_nodes_ctx τ) (env : grub_env) :
    trace_ext (fun _ => True) env
      (list_nodes le case_sensitive utf8 uninit dir hook record ctx env).2.2 := by
  have m1 := trace_ext_malloc (fun _ => True) env (fun _ => trivial)
  have m2 := trace_ext_malloc (fun _ => True) (grub_malloc env).2 (fun _ => trivial)
  unfold list_nodes
  dsimp only
  split
  · exact trace_ext_refl _ _
  · split
    · unfold list_nodes_thread
      dsimp only
      split
      · exact trace_ext_refl _ _
      · split
        · exact trace_ext_trans _ _ _ _ m1 (trace_ext_event _ _ _ trivial)
        · exact m1
    · split
      · exact trace_ext_refl _ _
      · unfold list_nodes_entry
        dsimp only
        split
        · split
          · exact m1
          · split
            · exact trace_ext_trans _ _ _ _ m1
                (trace_ext_trans _ _ _ _ m2 (trace_ext_event _ _ _ trivial))
            · exact trace_ext_trans _ _ _ _ m1 m2
        · exact m1

/-- Whatever `list_nodes` dispatches for a record, the record's parent id is
the directory's file id. -/
theorem list_nodes_trace {τ : Type} (le : Bool) (case_sensitive : Bool)
    (utf8 : List Nat → List Nat) (uninit dir : grub_hfsplus_file)
    (hook : List Nat → Nat → grub_hfsplus_file → τ → Int × τ)
    (record : grub_hfsplus_catrecord) (ctx : list_nodes_ctx τ) (env : grub_env) :
    trace_ext
      (fun ev => ev.is_hook = true →
        grub_be_to_cpu32 le record.catkey.parent = dir.fileid ∧
        dispatched_for le case_sensitive utf8 uninit dir hook record ev)
      env (list_nodes le case_sensitive utf8 uninit dir hook record ctx env).2.2 := by
  obtain ⟨evs, h1, _⟩ :=
    list_nodes_trace_basic le case_sensitive utf8 uninit dir hook record ctx env
  refine ⟨evs, h1, ?_⟩
  intro ev hev _
  refine ⟨?_, ctx, env, evs, h1, hev⟩
  by_contra hne
  rw [list_nodes_other_parent le case_sensitive utf8 uninit dir hook record ctx env hne] at h1
  simp only at h1
  have : evs = [] := by simpa using h1
  rw [this] at hev
  cases hev

/-- After the "." entry, `grub_hfsplus_iterate_dir` extends the trace only by
events of which every hook call is dispatched by `list_nodes` for a record of
a node of the catalog tree whose parent id is the directory's file id. -/
theorem iterate_dir_trace {ExtR AttrR τ : Type} (le : Bool) (fuel sfuel : Nat)
    (data : grub_hfsplus_data grub_hfsplus_catrecord ExtR AttrR)
    (utf8 : List Nat → List Nat) (uninit dir : grub_hfsplus_file)
    (hook : List Nat → Nat → grub_hfsplus_file → τ → Int × τ) (hook_data : τ)
    (env env1 : grub_env) (ret : Int) (hd : τ)
    (h : grub_hfsplus_iterate_dir le fuel sfuel data utf8 uninit dir hook hook_data env
      = some (ret, hd, env1))
    (hm : (grub_malloc env).1 = true) :
    trace_ext
      (fun ev => ev.is_hook = true →
        ∃ id n i, data.catalog_tree.read_node id = Except.ok n ∧
          grub_be_to_cpu32 le (n.recptr i).catkey.parent = dir.fileid ∧
          dispatched_for le data.case_sensitive utf8 uninit dir hook (n.recptr i) ev)
      (trace_event (grub_malloc env).2 (grub_event.hook [46] GRUB_FSHELP_DIR dir)) env1 := by
  unfold grub_hfsplus_iterate_dir at h
  simp only [hm, if_true] at h
  split at h
  · cases h
    exact trace_ext_refl _ _
  · split at h
    · cases h
    · next r env3 hs =>
      have t1 := btree_search_trace le catrecord_mem data.catalog_tree _ _ sfuel _ env3 r hs
      have t2 := trace_ext_trans (fun ev => ev.is_hook = false) _ _ _
        (trace_ext_event _ (trace_event (grub_malloc env).2
            (grub_event.hook [46] GRUB_FSHELP_DIR dir))
          (grub_event.search data.catalog_tree.file.fileid
            (grub_hfsplus_key_internal.catkey ⟨dir.fileid, [], 0⟩)) rfl) t1
      have t3 := trace_ext_mono _
        (fun ev => ev.is_hook = true →
          ∃ id n i, data.catalog_tree.read_node id = Except.ok n ∧
            grub_be_to_cpu32 le (n.recptr i).catkey.parent = dir.fileid ∧
            dispatched_for le data.case_sensitive utf8 uninit dir hook (n.recptr i) ev)
        _ _ (fun ev h1 h2 => by rw [h1] at h2; cases h2) t2
      split at h
      · cases h
        exact t3
      · next node hnode =>
        split at h
        · cases h
        · next res hres =>
          cases h
          refine trace_ext_trans _ _ _ _ t3 ?_
          have hmatch : r.matchnode = some (some node) := by
            split at hnode
            · cases hnode
            · cases hmn : r.matchnode with
              | none => rw [hmn] at hnode; cases hnode
              | some m =>
                rw [hmn] at hnode
                have hj : (some m : Option (Option _)).join = m := rfl
                rw [hj] at hnode
                rw [hnode]
          obtain ⟨_, hin, _⟩ := btree_search_match_spec le catrecord_mem data.catalog_tree
            _ _ sfuel _ env3 r node hs hmatch
          exact btree_iterate_trace le data.catalog_tree
            (list_nodes le data.case_sensitive utf8 uninit dir hook)
            (fun record ev => ev.is_hook = true →
              grub_be_to_cpu32 le record.catkey.parent = dir.fileid ∧
              dispatched_for le data.case_sensitive utf8 uninit dir hook record ev)
            _
            (fun record c e =>
              list_nodes_trace le data.case_sensitive utf8 uninit dir hook record c e)
            (fun id n i ev hid hq hh => ⟨id, n, i, hid, hq hh⟩)
            (fun f id ok hh => by cases hh)
            fuel node _ _ env3 res hin hres

/-- The directory listing returns on every catalog tree: with at least
`2 ^ 34 + 1` passes of fuel for the search and for the iteration its result
does not depend on the fuel. -/
theorem iterate_dir_returns {ExtR AttrR τ : Type} (le : Bool)
    (data : grub_hfsplus_data grub_hfsplus_catrecord ExtR AttrR)
    (utf8 : List Nat → List Nat) (uninit dir : grub_hfsplus_file)
    (hook : List Nat → Nat → grub_hfsplus_file → τ → Int × τ) (hook_data : τ)
    (env : grub_env) :
    ∃ r, ∀ fuel sfuel, 2 ^ 34 + 1 ≤ fuel → 2 ^ 34 + 1 ≤ sfuel →
      grub_hfsplus_iterate_dir le fuel sfuel data utf8 uninit dir hook hook_data env
        = some r := by
  unfold grub_hfsplus_iterate_dir
  dsimp only
  by_cases hm : (grub_malloc env).1 = true
  · by_cases hh : (hook [46] GRUB_FSHELP_DIR dir hook_data).1 ≠ 0
    · exact ⟨(1, (hook [46] GRUB_FSHELP_DIR dir hook_data).2,
          trace_event (grub_malloc env).2 (grub_event.hook [46] GRUB_FSHELP_DIR dir)),
        fun fuel sfuel _ _ => by rw [if_pos hm, if_pos hh]⟩
    · obtain ⟨r, hr⟩ := btree_search_returns le catrecord_mem data.catalog_tree
        (⟨dir.fileid, [], 0⟩ : grub_hfsplus_catkey_internal) (grub_hfsplus_cmp_catkey le)
        (trace_event (trace_event (grub_malloc env).2
          (grub_event.hook [46] GRUB_FSHELP_DIR dir))
          (grub_event.search data.catalog_tree.file.fileid
            (grub_hfsplus_key_internal.catkey ⟨dir.fileid, [], 0⟩)))
      cases hn : (if r.1.err ≠ grub_err_t.GRUB_ERR_NONE then none else r.1.matchnode.join) with
      | none =>
        refine ⟨(0, (hook [46] GRUB_FSHELP_DIR dir hook_data).2, r.2), ?_⟩
        intro fuel sfuel _ hs
        rw [if_pos hm, if_neg hh, hr sfuel hs]
        dsimp only
        rw [hn]
      | some node =>
        obtain ⟨res, hres⟩ := btree_iterate_loop_terminates le data.catalog_tree
          (list_nodes le data.case_sensitive utf8 uninit dir hook) node
          (r.1.keyoffset.getD 0) ⟨0, (hook [46] GRUB_FSHELP_DIR dir hook_data).2⟩ r.2
        refine ⟨(res.hook_arg.ret, res.hook_arg.hook_data, res.env), ?_⟩
        intro fuel sfuel hf hs
        rw [if_pos hm, if_neg hh, hr sfuel hs]
        dsimp only
        rw [hn]
        dsimp only
        unfold grub_hfsplus_btree_iterate_node
        rw [while_loop_mono_le _ _ fuel _ res hf hres]
  · exact ⟨(1, hook_data, (grub_malloc env).2), fun fuel sfuel _ _ => by rw [if_neg hm]⟩

/-- **C6.** For every directory node and catalog tree,
`grub_hfsplus_iterate_dir` returns (given `2 ^ 34 + 1` passes of fuel for the
search and for the iteration), and whenever it returns: if its node
allocation failed it has dispatched nothing (it returns 1 at once); otherwise
the first thing it does after the allocation is to call the visitor with
(".", `GRUB_FSHELP_DIR`, a copy equal field for field to `dir`), and every
other action (the catalog search, node reads, every other visitor call) comes
after it in the trace. -/
theorem iterate_dir_dot_first {ExtR AttrR τ : Type} (le : Bool)
    (data : grub_hfsplus_data grub_hfsplus_catrecord ExtR AttrR)
    (utf8 : List Nat → List Nat) (uninit dir : grub_hfsplus_file)
    (hook : List Nat → Nat → grub_hfsplus_file → τ → Int × τ) (hook_data : τ)
    (env : grub_env) :
    (∃ r, ∀ fuel sfuel, 2 ^ 34 + 1 ≤ fuel → 2 ^ 34 + 1 ≤ sfuel →
      grub_hfsplus_iterate_dir le fuel sfuel data utf8 uninit dir hook hook_data env
        = some r) ∧
    (∀ (fuel sfuel : Nat) (ret : Int) (hd : τ) (env1 : grub_env),
      grub_hfsplus_iterate_dir le fuel sfuel data utf8 uninit dir hook hook_data env
        = some (ret, hd, env1) →
      ((grub_malloc env).1 = false →
        ret = 1 ∧ hd = hook_data ∧ env1.trace = env.trace ++ [grub_event.malloc false]) ∧
      ((grub_malloc env).1 = true →
        ∃ rest, env1.trace = env.trace ++
          grub_event.malloc true :: grub_event.hook [46] GRUB_FSHELP_DIR dir :: rest)) := by
  refine ⟨iterate_dir_returns le data utf8 uninit dir hook hook_data env, ?_⟩
  intro fuel sfuel ret hd env1 h
  constructor
  · intro hm
    have ht := grub_malloc_trace env
    unfold grub_hfsplus_iterate_dir at h
    simp only [hm, Bool.false_eq_true, if_false, Option.some.injEq, Prod.mk.injEq] at h
    obtain ⟨rfl, rfl, rfl⟩ := h
    rw [hm] at ht
    exact ⟨rfl, rfl, ht⟩
  · intro hm
    obtain ⟨rest, hrest, _⟩ := iterate_dir_trace le fuel sfuel data utf8 uninit dir hook
      hook_data env env1 ret hd h hm
    have ht := grub_malloc_trace env
    rw [hm] at ht
    refine ⟨rest, ?_⟩
    rw [hrest]
    simp only [trace_event, ht, List.append_assoc, List.singleton_append]
    rfl

/-- Instance of C6 on the root directory of `ex_catalog_data`: the run itself
(".", then the catalog search, then "A"), and the theorem applied to it. -/
theorem iterate_dir_dot_first_witness :
    grub_hfsplus_iterate_dir false 2 2 ex_catalog_data (fun l => l) (ex_file 0) (ex_file 2)
        ex_dir_hook 0 ex_env =
      some (0, 2,
        ⟨grub_err_t.GRUB_ERR_NONE, grub_errmsg.no_message, [],
          [grub_event.malloc true,
            grub_event.hook [46] GRUB_FSHELP_DIR (ex_file 2),
            grub_event.search 4 (grub_hfsplus_key_internal.catkey ⟨2, [], 0⟩),
            grub_event.malloc true,
            grub_event.read_node 4 1 true,
            grub_event.malloc true,
            grub_event.malloc true,
            grub_event.hook [65] GRUB_FSHELP_REG
              (list_nodes_node false (ex_file 0) (ex_catfile GRUB_HFSPLUS_FILETYPE_REG))]⟩) ∧
    ((grub_malloc ex_env).1 = true →
      ∃ rest,
        [grub_event.malloc true,
          grub_event.hook [46] GRUB_FSHELP_DIR (ex_file 2),
          grub_event.search 4 (grub_hfsplus_key_internal.catkey ⟨2, [], 0⟩),
          grub_event.malloc true,
          grub_event.read_node 4 1 true,
          grub_event.malloc true,
          grub_event.malloc true,
          grub_event.hook [65] GRUB_FSHELP_REG
            (list_nodes_node false (ex_file 0) (ex_catfile GRUB_HFSPLUS_FILETYPE_REG))]
        = ex_env.trace ++
          grub_event.malloc true :: grub_event.hook [46] GRUB_FSHELP_DIR (ex_file 2) :: rest) :=
  ⟨rfl,
    ((iterate_dir_dot_first false ex_catalog_data (fun l => l) (ex_file 0) (ex_file 2)
      ex_dir_hook 0 ex_env).2 2 2 0 2 _ rfl).2⟩

/-- **C11.** For a node whose file id is that of the extents-overflow file and
a logical block not covered by the node's 8 inline extents,
`grub_hfsplus_read_block` returns the failure value (all ones) in its first
pass, whatever the fuel given to tree searches and whatever the trees hold:
it raises `GRUB_ERR_READ_ERROR` ("extra extents found in an extend overflow
file") and the trace is left as it was, so no search of the extents-overflow
tree, no allocation and no node read took place. -/
theorem read_block_overflow_file {CatR AttrR : Type} (le : Bool) (sfuel : Nat)
    (data : grub_hfsplus_data CatR grub_hfsplus_extrecord AttrR) (node : grub_hfsplus_file)
    (fileblock : Nat) (env : grub_env)
    (hid : node.fileid = GRUB_HFSPLUS_FILEID_OVERFLOW)
    (hb : extents_total le (read_block_inline node) ≤ fileblock) :
    ∃ env1,
      (∀ fuel, 1 ≤ fuel →
        grub_hfsplus_read_block le fuel sfuel data node fileblock env
          = some (0xffffffffffffffff, env1)) ∧
      env1.grub_errno = grub_err_t.GRUB_ERR_READ_ERROR ∧
      env1.grub_errmsg = grub_errmsg.extra_extents ∧
      env1.trace = env.trace ∧ env1.mm = env.mm := by
  refine ⟨(grub_error env grub_err_t.GRUB_ERR_READ_ERROR grub_errmsg.extra_extents).2,
    ?_, rfl, rfl, rfl, rfl⟩
  intro fuel hf
  obtain ⟨n, rfl⟩ : ∃ n, fuel = n + 1 := ⟨fuel - 1, by omega⟩
  have hmiss := (grub_hfsplus_find_block_spec le (read_block_inline node) fileblock).2 hb
  unfold read_block_inline at hmiss
  unfold grub_hfsplus_read_block
  rw [while_loop_succ]
  simp [read_block_body, hmiss, hid]

/-- Instance of C11 on the extents-overflow file of a volume, with 4 blocks
inline (physical 40..43): block 3 is resolved, block 4 is not and no search is
made. -/
theorem read_block_overflow_file_witness :
    grub_hfsplus_read_block false 1 0 ex_data
        { ex_file 3 with extents := ex_one_extent 40 4 } 3 ex_env = some (43, ex_env) ∧
    ∃ env1,
      (∀ fuel, 1 ≤ fuel →
        grub_hfsplus_read_block false fuel 0 ex_data
            { ex_file 3 with extents := ex_one_extent 40 4 } 4 ex_env
          = some (0xffffffffffffffff, env1)) ∧
      env1.grub_errno = grub_err_t.GRUB_ERR_READ_ERROR ∧
      env1.grub_errmsg = grub_errmsg.extra_extents ∧
      env1.trace = ex_env.trace ∧ env1.mm = ex_env.mm :=
  ⟨rfl, read_block_overflow_file false 0 ex_data
    { ex_file 3 with extents := ex_one_extent 40 4 } 4 ex_env rfl (by decide)⟩

/-- A pass of the loop of `grub_hfsplus_read_block`, for a file other than the
extents-overflow file, in which the current extent list does not cover the
block and the tree search fails or stores no node: the pass leaves the loop
with the failure value, raising `GRUB_ERR_READ_ERROR`. -/
theorem read_block_body_no_record {CatR AttrR : Type} (le : Bool) (sfuel : Nat)
    (data : grub_hfsplus_data CatR grub_hfsplus_extrecord AttrR) (node : grub_hfsplus_file)
    (fileblock : Nat) (hid : node.fileid ≠ GRUB_HFSPLUS_FILEID_OVERFLOW)
    (s : read_block_state) (r : grub_hfsplus_search_result grub_hfsplus_extrecord)
    (env2 : grub_env)
    (hb : extents_total le s.extents ≤ s.blksleft)
    (hsearch : grub_hfsplus_btree_search le extrecord_mem sfuel data.extoverflow_tree
      (⟨node.fileid, (fileblock - (s.blksleft - extents_total le s.extents)) % 2 ^ 32,
        if node.compressed then 0xff else 0⟩ : grub_hfsplus_extkey_internal)
      (grub_hfsplus_cmp_extkey le)
      (trace_event s.env (grub_event.search data.extoverflow_tree.file.fileid
        (grub_hfsplus_key_internal.extkey
          ⟨node.fileid, (fileblock - (s.blksleft - extents_total le s.extents)) % 2 ^ 32,
            if node.compressed then 0xff else 0⟩))) = some (r, env2))
    (hr : r.err ≠ grub_err_t.GRUB_ERR_NONE ∨ r.matchnode.join = none) :
    read_block_body le sfuel data node fileblock s =
      loop_ctl.ret (some (0xffffffffffffffff,
        (grub_error env2 grub_err_t.GRUB_ERR_READ_ERROR grub_errmsg.no_block_found).2)) := by
  have hmiss := (grub_hfsplus_find_block_spec le s.extents s.blksleft).2 hb
  have hnone : (if r.err ≠ grub_err_t.GRUB_ERR_NONE then none else r.matchnode.join)
      = none := by
    rcases hr with h | h
    · rw [if_pos h]
    · rw [h]; simp
  unfold read_block_body
  simp only [hmiss, ne_eq, not_true_eq_false, if_false, if_neg hid, hsearch, hnone]

/-- **C12.** For a file node other than the extents-overflow file, in whatever
pass `k` of its loop `grub_hfsplus_read_block` finds the block not covered by
the current extent list: if the search of the extents-overflow tree for the
key it builds (the node's file id, the start block, the fork type) returns an
error code, or stores no matching node, the function raises
`GRUB_ERR_READ_ERROR` ("no block found for the file id ...") and returns the
failure value `0xffffffffffffffff`, not a physical block number. -/
theorem read_block_no_overflow_record {CatR AttrR : Type} (le : Bool) (sfuel : Nat)
    (data : grub_hfsplus_data CatR grub_hfsplus_extrecord AttrR) (node : grub_hfsplus_file)
    (fileblock : Nat) (env : grub_env) (k : Nat) (s : read_block_state)
    (r : grub_hfsplus_search_result grub_hfsplus_extrecord) (env2 : grub_env)
    (hid : node.fileid ≠ GRUB_HFSPLUS_FILEID_OVERFLOW)
    (hk : loop_state (read_block_body le sfuel data node fileblock) k
      ⟨read_block_inline node, fileblock, env⟩ = some s)
    (hb : extents_total le s.extents ≤ s.blksleft)
    (hsearch : grub_hfsplus_btree_search le extrecord_mem sfuel data.extoverflow_tree
      (⟨node.fileid, (fileblock - (s.blksleft - extents_total le s.extents)) % 2 ^ 32,
        if node.compressed then 0xff else 0⟩ : grub_hfsplus_extkey_internal)
      (grub_hfsplus_cmp_extkey le)
      (trace_event s.env (grub_event.search data.extoverflow_tree.file.fileid
        (grub_hfsplus_key_internal.extkey
          ⟨node.fileid, (fileblock - (s.blksleft - extents_total le s.extents)) % 2 ^ 32,
            if node.compressed then 0xff else 0⟩))) = some (r, env2))
    (hr : r.err ≠ grub_err_t.GRUB_ERR_NONE ∨ r.matchnode.join = none) :
    ∃ env1,
      (∀ fuel, k + 1 ≤ fuel →
        grub_hfsplus_read_block le fuel sfuel data node fileblock env
          = some (0xffffffffffffffff, env1)) ∧
      env1.grub_errno = grub_err_t.GRUB_ERR_READ_ERROR ∧
      env1.grub_errmsg = grub_errmsg.no_block_found ∧
      env1.trace = env2.trace := by
  refine ⟨(grub_error env2 grub_err_t.GRUB_ERR_READ_ERROR grub_errmsg.no_block_found).2,
    ?_, rfl, rfl, rfl⟩
  intro fuel hf
  have hbody := read_block_body_no_record le sfuel data node fileblock hid s r env2 hb
    hsearch hr
  have hw : while_loop (read_block_body le sfuel data node fileblock) fuel
      ⟨read_block_inline node, fileblock, env⟩ =
      some (some (0xffffffffffffffff,
        (grub_error env2 grub_err_t.GRUB_ERR_READ_ERROR grub_errmsg.no_block_found).2)) :=
    (while_loop_eq_some_iff _ fuel _ _).2 ⟨k, by omega, s, hk, hbody⟩
  unfold grub_hfsplus_read_block
  unfold read_block_inline at hw
  rw [hw]
  rfl

/-- Instance of C12 on `ex_fragmented_file` in `ex_data`, whose extents end at
logical block 17: for block 18 the third pass searches the key (file 100, data
fork, start 18), the leaf holds no such record, and the function fails. -/
theorem read_block_no_overflow_record_witness :
    grub_hfsplus_read_block false 3 1 ex_data ex_fragmented_file 18 ex_env =
      some (0xffffffffffffffff,
        ⟨grub_err_t.GRUB_ERR_READ_ERROR, grub_errmsg.no_block_found, [],
          [grub_event.search 3 (grub_hfsplus_key_internal.extkey ⟨100, 10, 0⟩),
            grub_event.malloc true, grub_event.read_node 3 1 true,
            grub_event.search 3 (grub_hfsplus_key_internal.extkey ⟨100, 15, 0⟩),
            grub_event.malloc true, grub_event.read_node 3 1 true,
            grub_event.search 3 (grub_hfsplus_key_internal.extkey ⟨100, 18, 0⟩),
            grub_event.malloc true, grub_event.read_node 3 1 true]⟩) ∧
    ∃ env1,
      (∀ fuel, 2 + 1 ≤ fuel →
        grub_hfsplus_read_block false fuel 1 ex_data ex_fragmented_file 18 ex_env
          = some (0xffffffffffffffff, env1)) ∧
      env1.grub_errno = grub_err_t.GRUB_ERR_READ_ERROR ∧
      env1.grub_errmsg = grub_errmsg.no_block_found ∧
      env1.trace =
        [grub_event.search 3 (grub_hfsplus_key_internal.extkey ⟨100, 10, 0⟩),
          grub_event.malloc true, grub_event.read_node 3 1 true,
          grub_event.search 3 (grub_hfsplus_key_internal.extkey ⟨100, 15, 0⟩),
          grub_event.malloc true, grub_event.read_node 3 1 true,
          grub_event.search 3 (grub_hfsplus_key_internal.extkey ⟨100, 18, 0⟩),
          grub_event.malloc true, grub_event.read_node 3 1 true] :=
  ⟨rfl,
    read_block_no_overflow_record false 1 ex_data ex_fragmented_file 18 ex_env 2
      ⟨ex_one_extent 700 3, 3,
        ⟨grub_err_t.GRUB_ERR_NONE, grub_errmsg.no_message, [],
          [grub_event.search 3 (grub_hfsplus_key_internal.extkey ⟨100, 10, 0⟩),
            grub_event.malloc true, grub_event.read_node 3 1 true,
            grub_event.search 3 (grub_hfsplus_key_internal.extkey ⟨100, 15, 0⟩),
            grub_event.malloc true, grub_event.read_node 3 1 true]⟩⟩
      ⟨grub_err_t.GRUB_ERR_NONE, some none, none⟩
      ⟨grub_err_t.GRUB_ERR_NONE, grub_errmsg.no_message, [],
        [grub_event.search 3 (grub_hfsplus_key_internal.extkey ⟨100, 10, 0⟩),
          grub_event.malloc true, grub_event.read_node 3 1 true,
          grub_event.search 3 (grub_hfsplus_key_internal.extkey ⟨100, 15, 0⟩),
          grub_event.malloc true, grub_event.read_node 3 1 true,
          grub_event.search 3 (grub_hfsplus_key_internal.extkey ⟨100, 18, 0⟩),
          grub_event.malloc true, grub_event.read_node 3 1 true]⟩
      (by decide) rfl (by decide) rfl (Or.inr rfl)⟩

/-! ## Directory iteration: stopping at "." -/

/-- **C13.** If the visitor returns non-zero on the "." entry (which it is
handed once the node for it is allocated), `grub_hfsplus_iterate_dir` returns
1 at once, whatever the fuel and the catalog tree: the whole trace of the call
is the allocation followed by the "." visitor call, so there is no catalog
search, no node read and no further entry. -/
theorem iterate_dir_stop_at_dot {ExtR AttrR τ : Type} (le : Bool) (fuel sfuel : Nat)
    (data : grub_hfsplus_data grub_hfsplus_catrecord ExtR AttrR)
    (utf8 : List Nat → List Nat) (uninit dir : grub_hfsplus_file)
    (hook : List Nat → Nat → grub_hfsplus_file → τ → Int × τ) (hook_data : τ)
    (env : grub_env)
    (hm : (grub_malloc env).1 = true)
    (hstop : (hook [46] GRUB_FSHELP_DIR dir hook_data).1 ≠ 0) :
    ∃ env1,
      grub_hfsplus_iterate_dir le fuel sfuel data utf8 uninit dir hook hook_data env
        = some (1, (hook [46] GRUB_FSHELP_DIR dir hook_data).2, env1) ∧
      env1.trace = env.trace ++
        [grub_event.malloc true, grub_event.hook [46] GRUB_FSHELP_DIR dir] ∧
      env1.grub_errno = env.grub_errno ∧ env1.grub_errmsg = env.grub_errmsg := by
  refine ⟨trace_event (grub_malloc env).2 (grub_event.hook [46] GRUB_FSHELP_DIR dir),
    ?_, ?_, ?_, ?_⟩
  · unfold grub_hfsplus_iterate_dir
    dsimp only
    rw [if_pos hm, if_pos hstop]
  · have ht := grub_malloc_trace env
    rw [hm] at ht
    simp only [trace_event, ht, List.append_assoc, List.singleton_append]
  · unfold grub_malloc at hm ⊢
    rcases hmm : env.mm with _ | ⟨b, rest⟩
    · simp [trace_event]
    · cases b
      · simp [hmm] at hm
      · simp [trace_event]
  · unfold grub_malloc
    rcases hmm : env.mm with _ | ⟨b, rest⟩
    · simp [trace_event]
    · cases b <;> simp [trace_event]

/-- Instance of C13 on the root directory of `ex_catalog_data` with a visitor
that stops at once, given no fuel at all. -/
theorem iterate_dir_stop_at_dot_witness :
    grub_hfsplus_iterate_dir false 0 0 ex_catalog_data (fun l => l) (ex_file 0) (ex_file 2)
        (fun _ _ _ s => ((1 : Int), s + 1)) 0 ex_env =
      some (1, 1,
        ⟨grub_err_t.GRUB_ERR_NONE, grub_errmsg.no_message, [],
          [grub_event.malloc true, grub_event.hook [46] GRUB_FSHELP_DIR (ex_file 2)]⟩) ∧
    ∃ env1,
      grub_hfsplus_iterate_dir false 0 0 ex_catalog_data (fun l => l) (ex_file 0) (ex_file 2)
          (fun _ _ _ s => ((1 : Int), s + 1)) 0 ex_env
        = some (1, 1, env1) ∧
      env1.trace = ex_env.trace ++
        [grub_event.malloc true, grub_event.hook [46] GRUB_FSHELP_DIR (ex_file 2)] ∧
      env1.grub_errno = ex_env.grub_errno ∧ env1.grub_errmsg = ex_env.grub_errmsg :=
  ⟨rfl,
    iterate_dir_stop_at_dot false 0 0 ex_catalog_data (fun l => l) (ex_file 0) (ex_file 2)
      (fun _ _ _ s => ((1 : Int), s + 1)) 0 ex_env rfl (by decide)⟩

/-! ## The key comparators -/

/-- The extent-key comparator computes the lexicographic comparison of the
decoded on-disk key with the search key. -/
theorem cmp_extkey_eq_order (le : Bool) (keya : grub_hfsplus_extrecord)
    (keyb : grub_hfsplus_extkey_internal) :
    grub_hfsplus_cmp_extkey le keya keyb
      = ordering_sign (extkey_order (extkey_decoded le keya.extkey) keyb) := by
  unfold grub_hfsplus_cmp_extkey extkey_order extkey_decoded
  dsimp only
  rcases Nat.lt_trichotomy (grub_be_to_cpu32 le keya.extkey.fileid) keyb.fileid with h1 | h1 | h1
  · rw [Nat.compare_eq_lt.2 h1, if_neg (by omega), if_pos h1]; rfl
  · rw [Nat.compare_eq_eq.2 h1, if_neg (by omega), if_neg (by omega)]
    rcases Nat.lt_trichotomy keya.extkey.type keyb.type with h2 | h2 | h2
    · rw [Nat.compare_eq_lt.2 h2, if_neg (by omega), if_pos h2]; rfl
    · rw [Nat.compare_eq_eq.2 h2, if_neg (by omega), if_neg (by omega), if_neg (by omega),
        if_neg (by omega)]
      rcases Nat.lt_trichotomy (grub_be_to_cpu32 le keya.extkey.start) keyb.start
        with h3 | h3 | h3
      · rw [Nat.compare_eq_lt.2 h3, if_neg (by omega), if_pos h3]; rfl
      · rw [Nat.compare_eq_eq.2 h3, if_neg (by omega), if_neg (by omega)]; rfl
      · rw [Nat.compare_eq_gt.2 h3, if_pos h3]; rfl
    · rw [Nat.compare_eq_gt.2 h2, if_pos h2]; rfl
  · rw [Nat.compare_eq_gt.2 h1, if_pos h1]; rfl

/-- The sign of the lexicographic comparison of extent keys: negative,
zero, positive. -/
theorem extkey_order_sign (a b : grub_hfsplus_extkey_internal) :
    (ordering_sign (extkey_order a b) = -1 ↔
      a.fileid < b.fileid ∨ (a.fileid = b.fileid ∧
        (a.type < b.type ∨ (a.type = b.type ∧ a.start < b.start)))) ∧
    (ordering_sign (extkey_order a b) = 0 ↔
      a.fileid = b.fileid ∧ a.type = b.type ∧ a.start = b.start) ∧
    (ordering_sign (extkey_order a b) = 1 ↔
      b.fileid < a.fileid ∨ (a.fileid = b.fileid ∧
        (b.type < a.type ∨ (a.type = b.type ∧ b.start < a.start)))) := by
  unfold extkey_order
  rcases Nat.lt_trichotomy a.fileid b.fileid with h1 | h1 | h1
  · rw [Nat.compare_eq_lt.2 h1]
    simp only [Ordering.then, ordering_sign]
    refine ⟨by simp [h1], ?_, ?_⟩ <;> constructor <;> intro h <;> omega
  · rw [Nat.compare_eq_eq.2 h1]
    rcases Nat.lt_trichotomy a.type b.type with h2 | h2 | h2
    · rw [Nat.compare_eq_lt.2 h2]
      simp only [Ordering.then, ordering_sign]
      refine ⟨by simp [h1, h2], ?_, ?_⟩ <;> constructor <;> intro h <;> omega
    · rw [Nat.compare_eq_eq.2 h2]
      rcases Nat.lt_trichotomy a.start b.start with h3 | h3 | h3
      · rw [Nat.compare_eq_lt.2 h3]
        simp only [Ordering.then, ordering_sign]
        refine ⟨by simp [h1, h2, h3], ?_, ?_⟩ <;> constructor <;> intro h <;> omega
      · rw [Nat.compare_eq_eq.2 h3]
        simp only [Ordering.then, ordering_sign]
        refine ⟨?_, by simp [h1, h2, h3], ?_⟩ <;> constructor <;> intro h <;> omega
      · rw [Nat.compare_eq_gt.2 h3]
        simp only [Ordering.then, ordering_sign]
        refine ⟨?_, ?_, by simp [h1, h2, h3]⟩ <;> constructor <;> intro h <;> omega
    · rw [Nat.compare_eq_gt.2 h2]
      simp only [Ordering.then, ordering_sign]
      refine ⟨?_, ?_, by simp [h1, h2]⟩ <;> constructor <;> intro h <;> omega
  · rw [Nat.compare_eq_gt.2 h1]
    simp only [Ordering.then, ordering_sign]
    refine ⟨?_, ?_, by simp [h1]⟩ <;> constructor <;> intro h <;> omega

theorem ordering_sign_cases (o : Ordering) :
    ordering_sign o = -1 ∨ ordering_sign o = 0 ∨ ordering_sign o = 1 := by
  cases o <;> simp [ordering_sign]

/-- **C19.** For every on-disk extent key `a` and search key `b`,
`grub_hfsplus_cmp_extkey (a, b)` is -1, 0 or 1 and is the lexicographic
comparison of the triples (file id, fork type, start block), file id and start
block of `a` decoded from big-endian and every component compared as an
unsigned integer; it is 0 exactly when the three components are equal; and on
decoded keys it is antisymmetric (swapping the keys negates the result) and
transitive. -/
theorem cmp_extkey_total_order (le : Bool) :
    (∀ (a : grub_hfsplus_extrecord) (b : grub_hfsplus_extkey_internal),
      grub_hfsplus_cmp_extkey le a b
        = ordering_sign (extkey_order (extkey_decoded le a.extkey) b) ∧
      (grub_hfsplus_cmp_extkey le a b = -1 ∨ grub_hfsplus_cmp_extkey le a b = 0 ∨
        grub_hfsplus_cmp_extkey le a b = 1) ∧
      (grub_hfsplus_cmp_extkey le a b = 0 ↔
        grub_be_to_cpu32 le a.extkey.fileid = b.fileid ∧ a.extkey.type = b.type ∧
          grub_be_to_cpu32 le a.extkey.start = b.start)) ∧
    (∀ a b : grub_hfsplus_extrecord,
      grub_hfsplus_cmp_extkey le a (extkey_decoded le b.extkey)
        = - grub_hfsplus_cmp_extkey le b (extkey_decoded le a.extkey)) ∧
    (∀ a b c : grub_hfsplus_extrecord,
      grub_hfsplus_cmp_extkey le a (extkey_decoded le b.extkey) ≤ 0 →
      grub_hfsplus_cmp_extkey le b (extkey_decoded le c.extkey) ≤ 0 →
      grub_hfsplus_cmp_extkey le a (extkey_decoded le c.extkey) ≤ 0) := by
  refine ⟨?_, ?_, ?_⟩
  · intro a b
    refine ⟨cmp_extkey_eq_order le a b, ?_, ?_⟩
    · rw [cmp_extkey_eq_order]
      exact ordering_sign_cases _
    · rw [cmp_extkey_eq_order]
      exact (extkey_order_sign (extkey_decoded le a.extkey) b).2.1
  · intro a b
    rw [cmp_extkey_eq_order, cmp_extkey_eq_order]
    obtain ⟨p1, p2, p3⟩ := extkey_order_sign (extkey_decoded le a.extkey)
      (extkey_decoded le b.extkey)
    obtain ⟨q1, q2, q3⟩ := extkey_order_sign (extkey_decoded le b.extkey)
      (extkey_decoded le a.extkey)
    rcases ordering_sign_cases
        (extkey_order (extkey_decoded le a.extkey) (extkey_decoded le b.extkey))
      with h | h | h
    · have := p1.1 h
      rw [h, q3.2 (by omega)]
    · have := p2.1 h
      rw [h, q2.2 (by omega)]
      decide
    · have := p3.1 h
      rw [h, q1.2 (by omega)]
      decide
  · intro a b c hab hbc
    rw [cmp_extkey_eq_order] at hab hbc ⊢
    obtain ⟨p1, p2, p3⟩ := extkey_order_sign (extkey_decoded le a.extkey)
      (extkey_decoded le b.extkey)
    obtain ⟨q1, q2, q3⟩ := extkey_order_sign (extkey_decoded le b.extkey)
      (extkey_decoded le c.extkey)
    obtain ⟨r1, r2, r3⟩ := extkey_order_sign (extkey_decoded le a.extkey)
      (extkey_decoded le c.extkey)
    rcases ordering_sign_cases
        (extkey_order (extkey_decoded le a.extkey) (extkey_decoded le c.extkey))
      with h | h | h
    · rw [h]; decide
    · rw [h]
    · exfalso
      have hc := r3.1 h
      rcases ordering_sign_cases
          (extkey_order (extkey_decoded le a.extkey) (extkey_decoded le b.extkey))
        with h1 | h1 | h1
      · have ha := p1.1 h1
        rcases ordering_sign_cases
            (extkey_order (extkey_decoded le b.extkey) (extkey_decoded le c.extkey))
          with h2 | h2 | h2
        · have hb := q1.1 h2
          omega
        · have hb := q2.1 h2
          omega
        · rw [h2] at hbc
          exact absurd hbc (by decide)
      · have ha := p2.1 h1
        rcases ordering_sign_cases
            (extkey_order (extkey_decoded le b.extkey) (extkey_decoded le c.extkey))
          with h2 | h2 | h2
        · have hb := q1.1 h2
          omega
        · have hb := q2.1 h2
          omega
        · rw [h2] at hbc
          exact absurd hbc (by decide)
      · rw [h1] at hab
        exact absurd hab (by decide)

/-- Instance of C19 on a little-endian host, with the keys (file 100, data
fork, start 10), (file 100, data fork, start 256) and (file 100, resource
fork, start 0): the raw start blocks `0x0A000000` and `0x00010000` compare
the other way round before decoding. -/
theorem cmp_extkey_total_order_witness :
    grub_hfsplus_cmp_extkey true (ex_extrecord 0 0x64000000 0x0A000000) ⟨100, 256, 0⟩ = -1 ∧
    grub_hfsplus_cmp_extkey true (ex_extrecord 0 0x64000000 0x00010000) ⟨100, 0, 0xff⟩ = -1 ∧
    grub_hfsplus_cmp_extkey true (ex_extrecord 0 0x64000000 0x0A000000)
      (extkey_decoded true (ex_extrecord 0xff 0x64000000 0).extkey) ≤ 0 :=
  ⟨rfl, rfl,
    (cmp_extkey_total_order true).2.2
      (ex_extrecord 0 0x64000000 0x0A000000) (ex_extrecord 0 0x64000000 0x00010000)
      (ex_extrecord 0xff 0x64000000 0) (by decide) (by decide)⟩

theorem lex_units_cons (x y : Nat) (s t : List Nat) :
    lex_units (x :: s) (y :: t) = (compare x y).then (lex_units s t) := rfl

/-- Two name sequences compare equal exactly when they are the same sequence. -/
theorem lex_units_eq_iff : ∀ (s t : List Nat), lex_units s t = Ordering.eq ↔ s = t := by
  intro s
  induction s with
  | nil =>
    intro t
    cases t <;> simp [lex_units]
  | cons x s ih =>
    intro t
    cases t with
    | nil => simp [lex_units]
    | cons y t =>
      rw [lex_units_cons]
      rcases Nat.lt_trichotomy x y with h | h | h
      · rw [Nat.compare_eq_lt.2 h]
        simp only [Ordering.then, List.cons.injEq]
        constructor
        · intro h1; cases h1
        · rintro ⟨h1, _⟩; omega
      · rw [Nat.compare_eq_eq.2 h]
        simp only [Ordering.then, List.cons.injEq, ih t, h, true_and]
      · rw [Nat.compare_eq_gt.2 h]
        simp only [Ordering.then, List.cons.injEq]
        constructor
        · intro h1; cases h1
        · rintro ⟨h1, _⟩; omega

/-- The lexicographic comparison is decided by the common-length prefixes and,
if they are equal, by the lengths. -/
theorem lex_units_take : ∀ (s t : List Nat),
    lex_units s t =
      (lex_units (s.take (min s.length t.length)) (t.take (min s.length t.length))).then
        (compare s.length t.length) := by
  intro s
  induction s with
  | nil =>
    intro t
    cases t with
    | nil => rfl
    | cons y t =>
      simp only [List.length_nil, List.length_cons, Nat.zero_min, List.take_zero, lex_units,
        Ordering.then]
      exact (Nat.compare_eq_lt.2 (by omega)).symm
  | cons x s ih =>
    intro t
    cases t with
    | nil =>
      simp only [List.length_nil, List.length_cons, Nat.min_zero, List.take_zero, lex_units,
        Ordering.then]
      exact (Nat.compare_eq_gt.2 (by omega)).symm
    | cons y t =>
      have hm : min (x :: s).length (y :: t).length = min s.length t.length + 1 := by
        simp only [List.length_cons]
        omega
      rw [hm, List.take_succ_cons, List.take_succ_cons, lex_units_cons, lex_units_cons, ih t]
      have hc : compare (x :: s).length (y :: t).length = compare s.length t.length := by
        simp only [List.length_cons]
        rcases Nat.lt_trichotomy s.length t.length with h | h | h
        · rw [Nat.compare_eq_lt.2 h, Nat.compare_eq_lt.2 (by omega)]
        · rw [Nat.compare_eq_eq.2 h, Nat.compare_eq_eq.2 (by omega)]
        · rw [Nat.compare_eq_gt.2 h, Nat.compare_eq_gt.2 (by omega)]
      rw [hc]
      cases compare x y <;> rfl

theorem grub_memcmp_cons (a b : Nat) (s1 s2 : List Nat) :
    grub_memcmp (a :: s1) (b :: s2)
      = if a ≠ b then (a : Int) - (b : Int) else grub_memcmp s1 s2 := rfl

/-- Comparing big-endian 16-bit cells byte by byte has the sign of comparing
their values unit by unit. -/
theorem grub_memcmp_units (le : Bool) : ∀ (xs ys : List Nat), xs.length = ys.length →
    Int.sign (grub_memcmp (xs.flatMap (unit_bytes le)) (ys.flatMap (unit_bytes le)))
      = ordering_sign (lex_units (xs.map (grub_be_to_cpu16 le)) (ys.map (grub_be_to_cpu16 le))) := by
  intro xs
  induction xs with
  | nil =>
    intro ys h
    cases ys with
    | nil => rfl
    | cons y t => simp at h
  | cons x s ih =>
    intro ys h
    cases ys with
    | nil => simp at h
    | cons y t =>
      have hl : s.length = t.length := by simpa using h
      have hx := grub_be_to_cpu16_lt le x
      have hy := grub_be_to_cpu16_lt le y
      simp only [List.flatMap_cons, unit_bytes, List.cons_append, List.nil_append,
        grub_memcmp_cons, List.map_cons, lex_units_cons]
      rcases Nat.lt_trichotomy (grub_be_to_cpu16 le x) (grub_be_to_cpu16 le y) with hc | hc | hc
      · rw [Nat.compare_eq_lt.2 hc]
        simp only [Ordering.then, ordering_sign]
        by_cases h1 : grub_be_to_cpu16 le x / 256 ≠ grub_be_to_cpu16 le y / 256
        · rw [if_pos h1]
          exact Int.sign_eq_neg_one_of_neg (by omega)
        · rw [if_neg h1, if_pos (by omega)]
          exact Int.sign_eq_neg_one_of_neg (by omega)
      · rw [Nat.compare_eq_eq.2 hc, hc]
        simp only [Ordering.then, ne_eq, not_true_eq_false, if_false]
        exact ih t hl
      · rw [Nat.compare_eq_gt.2 hc]
        simp only [Ordering.then, ordering_sign]
        by_cases h1 : grub_be_to_cpu16 le x / 256 ≠ grub_be_to_cpu16 le y / 256
        · rw [if_pos h1]
          exact Int.sign_eq_one_of_pos (by omega)
        · rw [if_neg h1, if_pos (by omega)]
          exact Int.sign_eq_one_of_pos (by omega)

/-- The difference of two lengths below `2 ^ 15`, computed in `grub_size_t` and
converted to `int`, is their difference as integers. -/
theorem to_int32_length_diff (a b : Nat) (ha : a < 2 ^ 15) (hb : b < 2 ^ 15) :
    to_int32 ((a + 2 ^ 64 - b % 2 ^ 64) % 2 ^ 64) = (a : Int) - (b : Int) := by
  unfold to_int32
  norm_num at ha hb ⊢
  split_ifs with h <;> omega

theorem ordering_sign_compare (a b : Nat) :
    ordering_sign (compare a b) = Int.sign ((a : Int) - (b : Int)) := by
  rcases Nat.lt_trichotomy a b with h | h | h
  · rw [Nat.compare_eq_lt.2 h, Int.sign_eq_neg_one_of_neg (by omega)]; rfl
  · rw [Nat.compare_eq_eq.2 h, h, sub_self]; rfl
  · rw [Nat.compare_eq_gt.2 h, Int.sign_eq_one_of_pos (by omega)]; rfl

theorem ordering_sign_eq_zero (o : Ordering) : ordering_sign o = 0 ↔ o = Ordering.eq := by
  cases o <;> simp [ordering_sign]

theorem catkey_units_length (le : Bool) (k : grub_hfsplus_catkey) :
    (catkey_units le k).length = grub_be_to_cpu16 le k.namelen := by
  simp [catkey_units]

/-- The cells that the comparator hands to `grub_memcmp`, decoded, are the
first `len` units of the name. -/
theorem catkey_units_take (le : Bool) (k : grub_hfsplus_catkey) (len : Nat)
    (h : len ≤ grub_be_to_cpu16 le k.namelen) :
    ((List.range len).map k.name).map (grub_be_to_cpu16 le) = (catkey_units le k).take len := by
  unfold catkey_units
  rw [← List.map_take, List.map_map]
  congr 1
  rw [List.take_range, Nat.min_eq_left h]

/-- The byte-wise comparison inside `grub_hfsplus_cmp_catkey` has the sign of
the unit-wise comparison of the two names cut to their common length. -/
theorem cmp_catkey_memcmp_sign (le : Bool) (keya : grub_hfsplus_catrecord)
    (keyb : grub_hfsplus_catkey_internal) (hname : keyb.name.length = keyb.namelen) :
    Int.sign (grub_memcmp
        (((List.range (min (grub_be_to_cpu16 le keya.catkey.namelen) keyb.namelen)).map
          keya.catkey.name).flatMap (unit_bytes le))
        ((keyb.name.take (min (grub_be_to_cpu16 le keya.catkey.namelen) keyb.namelen)).flatMap
          (unit_bytes le)))
      = ordering_sign (lex_units
          ((catkey_units le keya.catkey).take
            (min (grub_be_to_cpu16 le keya.catkey.namelen) keyb.namelen))
          ((keyb.name.map (grub_be_to_cpu16 le)).take
            (min (grub_be_to_cpu16 le keya.catkey.namelen) keyb.namelen))) := by
  rw [grub_memcmp_units le _ _ (by
      rw [List.length_map, List.length_range, List.length_take, hname]
      omega),
    catkey_units_take le keya.catkey _ (Nat.min_le_left _ _), List.map_take]

/-- The sign of `grub_hfsplus_cmp_catkey` is the lexicographic comparison of
(parent id, name). -/
theorem cmp_catkey_sign (le : Bool) (keya : grub_hfsplus_catrecord)
    (keyb : grub_hfsplus_catkey_internal) (hname : keyb.name.length = keyb.namelen)
    (ha : grub_be_to_cpu16 le keya.catkey.namelen < 2 ^ 15) (hb : keyb.namelen < 2 ^ 15) :
    Int.sign (grub_hfsplus_cmp_catkey le keya keyb)
      = ordering_sign (catkey_order
          (grub_be_to_cpu32 le keya.catkey.parent, catkey_units le keya.catkey)
          (keyb.parent, keyb.name.map (grub_be_to_cpu16 le))) := by
  unfold grub_hfsplus_cmp_catkey catkey_order
  dsimp only
  rcases Nat.lt_trichotomy (grub_be_to_cpu32 le keya.catkey.parent) keyb.parent with h | h | h
  · rw [Nat.compare_eq_lt.2 h, if_neg (by omega), if_pos h]
    rfl
  · rw [Nat.compare_eq_eq.2 h, if_neg (by omega), if_neg (by omega)]
    have hM : (if grub_be_to_cpu16 le keya.catkey.namelen > keyb.namelen then keyb.namelen
        else grub_be_to_cpu16 le keya.catkey.namelen)
        = min (grub_be_to_cpu16 le keya.catkey.namelen) keyb.namelen := by
      split_ifs <;> omega
    rw [hM]
    have hs := cmp_catkey_memcmp_sign le keya keyb hname
    have hl := lex_units_take (catkey_units le keya.catkey)
      (keyb.name.map (grub_be_to_cpu16 le))
    rw [catkey_units_length, List.length_map, hname] at hl
    simp only [Ordering.then]
    rw [hl]
    by_cases hd : grub_memcmp
        (((List.range (min (grub_be_to_cpu16 le keya.catkey.namelen) keyb.namelen)).map
          keya.catkey.name).flatMap (unit_bytes le))
        ((keyb.name.take (min (grub_be_to_cpu16 le keya.catkey.namelen) keyb.namelen)).flatMap
          (unit_bytes le)) = 0
    · rw [if_pos hd, to_int32_length_diff _ _ ha hb]
      rw [hd, Int.sign_zero] at hs
      rw [(ordering_sign_eq_zero _).1 hs.symm]
      simp only [Ordering.then]
      exact (ordering_sign_compare _ _).symm
    · rw [if_neg hd, hs]
      have hne : ordering_sign (lex_units
          ((catkey_units le keya.catkey).take
            (min (grub_be_to_cpu16 le keya.catkey.namelen) keyb.namelen))
          ((keyb.name.map (grub_be_to_cpu16 le)).take
            (min (grub_be_to_cpu16 le keya.catkey.namelen) keyb.namelen))) ≠ 0 := by
        rw [← hs]
        exact fun h0 => hd (Int.sign_eq_zero_iff_zero.1 h0)
      revert hne
      cases lex_units
          ((catkey_units le keya.catkey).take
            (min (grub_be_to_cpu16 le keya.catkey.namelen) keyb.namelen))
          ((keyb.name.map (grub_be_to_cpu16 le)).take
            (min (grub_be_to_cpu16 le keya.catkey.namelen) keyb.namelen)) <;>
        simp [ordering_sign, Ordering.then]
  · rw [Nat.compare_eq_gt.2 h, if_pos h]
    rfl

/-- **C18.** For every on-disk catalog key `a` and search key `b` (its name
held as `namelen` big-endian cells) with name lengths below `2 ^ 15`:
* the sign of `grub_hfsplus_cmp_catkey (a, b)` is the lexicographic comparison
  of (parent id, name as the sequence of its 16-bit unit values), a proper
  prefix sorting before its extensions;
* the byte-wise `grub_memcmp` over the common length has the sign of the
  numeric unit-by-unit comparison of the two names cut to that length;
* the result is 0 exactly when the parent ids, the name lengths and all units
  are equal. -/
theorem cmp_catkey_lexicographic (le : Bool) (keya : grub_hfsplus_catrecord)
    (keyb : grub_hfsplus_catkey_internal) (hname : keyb.name.length = keyb.namelen)
    (ha : grub_be_to_cpu16 le keya.catkey.namelen < 2 ^ 15) (hb : keyb.namelen < 2 ^ 15) :
    Int.sign (grub_hfsplus_cmp_catkey le keya keyb)
      = ordering_sign (catkey_order
          (grub_be_to_cpu32 le keya.catkey.parent, catkey_units le keya.catkey)
          (keyb.parent, keyb.name.map (grub_be_to_cpu16 le))) ∧
    Int.sign (grub_memcmp
        (((List.range (min (grub_be_to_cpu16 le keya.catkey.namelen) keyb.namelen)).map
          keya.catkey.name).flatMap (unit_bytes le))
        ((keyb.name.take (min (grub_be_to_cpu16 le keya.catkey.namelen) keyb.namelen)).flatMap
          (unit_bytes le)))
      = ordering_sign (lex_units
          ((catkey_units le keya.catkey).take
            (min (grub_be_to_cpu16 le keya.catkey.namelen) keyb.namelen))
          ((keyb.name.map (grub_be_to_cpu16 le)).take
            (min (grub_be_to_cpu16 le keya.catkey.namelen) keyb.namelen))) ∧
    (grub_hfsplus_cmp_catkey le keya keyb = 0 ↔
      grub_be_to_cpu32 le keya.catkey.parent = keyb.parent ∧
      grub_be_to_cpu16 le keya.catkey.namelen = keyb.namelen ∧
      catkey_units le keya.catkey = keyb.name.map (grub_be_to_cpu16 le)) := by
  have hs := cmp_catkey_sign le keya keyb hname ha hb
  refine ⟨hs, cmp_catkey_memcmp_sign le keya keyb hname, ?_⟩
  rw [← Int.sign_eq_zero_iff_zero, hs, ordering_sign_eq_zero]
  unfold catkey_order
  dsimp only
  rcases Nat.lt_trichotomy (grub_be_to_cpu32 le keya.catkey.parent) keyb.parent with h | h | h
  · rw [Nat.compare_eq_lt.2 h]
    simp only [Ordering.then]
    constructor
    · intro h1; cases h1
    · rintro ⟨h1, _⟩; omega
  · rw [Nat.compare_eq_eq.2 h]
    simp only [Ordering.then, lex_units_eq_iff]
    constructor
    · intro h1
      refine ⟨h, ?_, h1⟩
      have := congrArg List.length h1
      rw [catkey_units_length, List.length_map, hname] at this
      exact this
    · rintro ⟨_, _, h1⟩
      exact h1
  · rw [Nat.compare_eq_gt.2 h]
    simp only [Ordering.then]
    constructor
    · intro h1; cases h1
    · rintro ⟨h1, _⟩; omega

/-- Instance of C18 on a little-endian host: the on-disk name of the single
unit `0x0100` against the search name `0x00FF` (raw cells `0x0001` and
`0xFF00`) under the same parent: the comparator returns 1, the bytes 01 00
against 00 FF, as the units 256 and 255 compare. -/
theorem cmp_catkey_lexicographic_witness :
    grub_hfsplus_cmp_catkey true ex_swapped_catrecord ⟨2, [0xFF00], 1⟩ = 1 ∧
    Int.sign (grub_hfsplus_cmp_catkey true ex_swapped_catrecord ⟨2, [0xFF00], 1⟩)
      = ordering_sign (catkey_order
          (grub_be_to_cpu32 true ex_swapped_catrecord.catkey.parent,
            catkey_units true ex_swapped_catrecord.catkey)
          (2, [0xFF00].map (grub_be_to_cpu16 true))) ∧
    catkey_order
      (grub_be_to_cpu32 true ex_swapped_catrecord.catkey.parent,
        catkey_units true ex_swapped_catrecord.catkey)
      (2, [0xFF00].map (grub_be_to_cpu16 true)) = Ordering.gt :=
  ⟨by decide,
    (cmp_catkey_lexicographic true ex_swapped_catrecord ⟨2, [0xFF00], 1⟩ rfl (by decide)
      (by decide)).1,
    by decide⟩

/-! ## The name loops of `list_nodes` -/

/-- Decoding a 16-bit cell twice gives the cell back. -/
theorem grub_be_to_cpu16_involutive (le : Bool) (x : Nat) :
    grub_be_to_cpu16 le (grub_be_to_cpu16 le x) = x % 65536 := by
  unfold grub_be_to_cpu16
  cases le
  · simp
  · simp only [if_true, grub_swap_bytes16]
    have h1 : (x % 256 * 256 + x / 256 % 256) % 256 = x / 256 % 256 := by omega
    have h2 : (x % 256 * 256 + x / 256 % 256) / 256 = x % 256 := by omega
    rw [h1, h2]
    omega

theorem list_nodes_swap_name_succ (le : Bool) (name : Nat → Nat) (todo i : Nat) :
    list_nodes_swap_name le name (todo + 1) i =
      if (if grub_be_to_cpu16 le (name i) = 47 then 58 else grub_be_to_cpu16 le (name i)) = 0
      then (Function.update name i
        (if grub_be_to_cpu16 le (name i) = 47 then 58 else grub_be_to_cpu16 le (name i)), true)
      else list_nodes_swap_name le (Function.update name i
        (if grub_be_to_cpu16 le (name i) = 47 then 58 else grub_be_to_cpu16 le (name i)))
        todo (i + 1) := rfl

/-- The first name loop returns early exactly when one of the units it is to
convert is NUL. -/
theorem list_nodes_swap_name_early (le : Bool) :
    ∀ (todo : Nat) (name : Nat → Nat) (i : Nat),
      (list_nodes_swap_name le name todo i).2 = true ↔
        ∃ j, i ≤ j ∧ j < i + todo ∧ grub_be_to_cpu16 le (name j) = 0 := by
  intro todo
  induction todo with
  | zero =>
    intro name i
    simp only [list_nodes_swap_name, Bool.false_eq_true, false_iff]
    rintro ⟨j, h1, h2, _⟩
    omega
  | succ n ih =>
    intro name i
    rw [list_nodes_swap_name_succ]
    by_cases h47 : grub_be_to_cpu16 le (name i) = 47
    · rw [if_pos h47, if_neg (by decide), ih]
      constructor
      · rintro ⟨j, h1, h2, h3⟩
        refine ⟨j, by omega, by omega, ?_⟩
        rwa [Function.update_noteq (by omega)] at h3
      · rintro ⟨j, h1, h2, h3⟩
        have hj : j ≠ i := by
          rintro rfl
          omega
        refine ⟨j, by omega, by omega, ?_⟩
        rwa [Function.update_noteq hj]
    · rw [if_neg h47]
      by_cases h0 : grub_be_to_cpu16 le (name i) = 0
      · rw [if_pos h0]
        exact ⟨fun _ => ⟨i, le_refl _, by omega, h0⟩, fun _ => rfl⟩
      · rw [if_neg h0, ih]
        constructor
        · rintro ⟨j, h1, h2, h3⟩
          refine ⟨j, by omega, by omega, ?_⟩
          rwa [Function.update_noteq (by omega)] at h3
        · rintro ⟨j, h1, h2, h3⟩
          have hj : j ≠ i := by
            rintro rfl
            exact h0 h3
          refine ⟨j, by omega, by omega, ?_⟩
          rwa [Function.update_noteq hj]

/-- The name array after a first name loop that ran to its end: each cell in
range decoded, `/` replaced by `:`. -/
theorem list_nodes_swap_name_cells (le : Bool) :
    ∀ (todo : Nat) (name : Nat → Nat) (i : Nat),
      (list_nodes_swap_name le name todo i).2 = false →
      ∀ j, (list_nodes_swap_name le name todo i).1 j =
        if i ≤ j ∧ j < i + todo then
          (if grub_be_to_cpu16 le (name j) = 47 then 58 else grub_be_to_cpu16 le (name j))
        else name j := by
  intro todo
  induction todo with
  | zero =>
    intro name i _ j
    rw [if_neg (by omega)]
    rfl
  | succ n ih =>
    intro name i h j
    rw [list_nodes_swap_name_succ] at h ⊢
    by_cases h0 : (if grub_be_to_cpu16 le (name i) = 47 then 58
        else grub_be_to_cpu16 le (name i)) = 0
    · rw [if_pos h0] at h
      cases h
    · rw [if_neg h0] at h ⊢
      rw [ih _ _ h j]
      by_cases hj : j = i
      · have e1 : ¬ (i + 1 ≤ j ∧ j < i + 1 + n) := by omega
        have e2 : i ≤ j ∧ j < i + (n + 1) := by omega
        rw [if_neg e1, if_pos e2, hj, Function.update_same]
      · rw [Function.update_noteq hj]
        by_cases hr : i + 1 ≤ j ∧ j < i + 1 + n
        · have e2 : i ≤ j ∧ j < i + (n + 1) := by omega
          rw [if_pos hr, if_pos e2]
        · have e2 : ¬ (i ≤ j ∧ j < i + (n + 1)) := by omega
          rw [if_neg hr, if_neg e2]

/-- The name array after the second name loop: each cell in range has `:`
replaced by `/` and is encoded back. -/
theorem list_nodes_restore_name_cells (le : Bool) :
    ∀ (todo : Nat) (name : Nat → Nat) (i j : Nat),
      list_nodes_restore_name le name todo i j =
        if i ≤ j ∧ j < i + todo then
          grub_be_to_cpu16 le (if name j = 58 then 47 else name j)
        else name j := by
  intro todo
  induction todo with
  | zero =>
    intro name i j
    rw [if_neg (by omega)]
    rfl
  | succ n ih =>
    intro name i j
    show list_nodes_restore_name le (Function.update name i
      (grub_be_to_cpu16 le (if name i = 58 then 47 else name i))) n (i + 1) j = _
    rw [ih]
    by_cases hj : j = i
    · have e1 : ¬ (i + 1 ≤ j ∧ j < i + 1 + n) := by omega
      have e2 : i ≤ j ∧ j < i + (n + 1) := by omega
      rw [if_neg e1, if_pos e2, hj, Function.update_same]
    · rw [Function.update_noteq hj]
      by_cases hr : i + 1 ≤ j ∧ j < i + 1 + n
      · have e2 : i ≤ j ∧ j < i + (n + 1) := by omega
        rw [if_pos hr, if_pos e2]
      · have e2 : ¬ (i ≤ j ∧ j < i + (n + 1)) := by omega
        rw [if_neg hr, if_neg e2]

/-! ## What `list_nodes` dispatches -/

/-- A successful allocation leaves the pending error as it was. -/
theorem grub_malloc_ok_errno (env : grub_env) (h : (grub_malloc env).1 = true) :
    (grub_malloc env).2.grub_errno = env.grub_errno ∧
    (grub_malloc env).2.grub_errmsg = env.grub_errmsg := by
  unfold grub_malloc at h ⊢
  rcases hmm : env.mm with _ | ⟨b, rest⟩
  · simp [trace_event]
  · cases b
    · simp [hmm] at h
    · simp [trace_event]

/-- The name handed to the UTF-8 conversion when the first name loop ran to its
end: the display units of the key. -/
theorem list_nodes_swap_name_units (le : Bool) (k : grub_hfsplus_catkey)
    (h : (list_nodes_swap_name le k.name (grub_be_to_cpu16 le k.namelen) 0).2 = false) :
    (List.range (grub_be_to_cpu16 le k.namelen)).map
        (list_nodes_swap_name le k.name (grub_be_to_cpu16 le k.namelen) 0).1
      = catkey_display_units le k := by
  unfold catkey_display_units catkey_units
  rw [List.map_map]
  apply List.map_congr_left
  intro j hj
  rw [List.mem_range] at hj
  have e : 0 ≤ j ∧ j < 0 + grub_be_to_cpu16 le k.namelen := by omega
  rw [list_nodes_swap_name_cells le _ _ _ h j, if_pos e]
  rfl

theorem list_nodes_swap_name_nul (le : Bool) (k : grub_hfsplus_catkey) :
    (list_nodes_swap_name le k.name (grub_be_to_cpu16 le k.namelen) 0).2 = true
      ↔ catkey_has_nul le k := by
  rw [list_nodes_swap_name_early]
  unfold catkey_has_nul
  constructor
  · rintro ⟨j, _, h2, h3⟩
    exact ⟨j, by omega, h3⟩
  · rintro ⟨j, h2, h3⟩
    exact ⟨j, by omega, by omega, h3⟩

/-- A record whose name holds a NUL unit is given up by the entry part of
`list_nodes` after the allocation of the name buffer, whether that succeeded
or not: it returns 0 and the hook is not called. -/
theorem list_nodes_entry_nul {τ : Type} (le : Bool) (case_sensitive : Bool)
    (utf8 : List Nat → List Nat) (uninit : grub_hfsplus_file)
    (hook : List Nat → Nat → grub_hfsplus_file → τ → Int × τ)
    (catkey : grub_hfsplus_catkey) (fileinfo : (Nat → Nat) → grub_hfsplus_catfile) (type : Nat)
    (ctx : list_nodes_ctx τ) (env : grub_env) (hnul : catkey_has_nul le catkey) :
    list_nodes_entry le case_sensitive utf8 uninit hook catkey fileinfo type ctx env
      = (0, ctx, (grub_malloc env).2) := by
  unfold list_nodes_entry
  dsimp only
  by_cases hm : (grub_malloc env).1 = true
  · rw [if_pos hm, if_pos ((list_nodes_swap_name_nul le catkey).2 hnul)]
  · rw [if_neg hm]

/-- A record whose name holds no NUL unit, when both allocations succeed, is
dispatched by the entry part of `list_nodes`: the hook is called once, with
the converted display name, the type with the case-insensitive marker added on
a volume that is not case sensitive, and the node filled from the record body
read after the two name loops; its result is returned and stored in the
context. -/
theorem list_nodes_entry_dispatch {τ : Type} (le : Bool) (case_sensitive : Bool)
    (utf8 : List Nat → List Nat) (uninit : grub_hfsplus_file)
    (hook : List Nat → Nat → grub_hfsplus_file → τ → Int × τ)
    (catkey : grub_hfsplus_catkey) (fileinfo : (Nat → Nat) → grub_hfsplus_catfile) (type : Nat)
    (ctx : list_nodes_ctx τ) (env : grub_env)
    (hnul : ¬ catkey_has_nul le catkey)
    (hm1 : (grub_malloc env).1 = true)
    (hm2 : (grub_malloc (grub_malloc env).2).1 = true) :
    list_nodes_entry le case_sensitive utf8 uninit hook catkey fileinfo type ctx env
      = ((hook (utf8 (catkey_display_units le catkey))
            (if case_sensitive then type else type ||| GRUB_FSHELP_CASE_INSENSITIVE)
            (list_nodes_node le uninit (fileinfo (catkey_name_restored le catkey))) ctx.hook_data).1,
          ⟨(hook (utf8 (catkey_display_units le catkey))
            (if case_sensitive then type else type ||| GRUB_FSHELP_CASE_INSENSITIVE)
            (list_nodes_node le uninit (fileinfo (catkey_name_restored le catkey))) ctx.hook_data).1,
           (hook (utf8 (catkey_display_units le catkey))
            (if case_sensitive then type else type ||| GRUB_FSHELP_CASE_INSENSITIVE)
            (list_nodes_node le uninit (fileinfo (catkey_name_restored le catkey))) ctx.hook_data).2⟩,
          trace_event (grub_malloc (grub_malloc env).2).2
            (grub_event.hook (utf8 (catkey_display_units le catkey))
              (if case_sensitive then type else type ||| GRUB_FSHELP_CASE_INSENSITIVE)
              (list_nodes_node le uninit (fileinfo (catkey_name_restored le catkey))))) := by
  have hs : (list_nodes_swap_name le catkey.name (grub_be_to_cpu16 le catkey.namelen) 0).2
      = false := by
    cases h : (list_nodes_swap_name le catkey.name (grub_be_to_cpu16 le catkey.namelen) 0).2
    · rfl
    · exact absurd ((list_nodes_swap_name_nul le catkey).1 h) hnul
  unfold list_nodes_entry catkey_name_restored
  dsimp only
  rw [if_pos hm1, hs, if_neg (by decide), if_pos hm2, list_nodes_swap_name_units le catkey hs]

/-- The function `list_nodes` on a record of the directory, by record type. -/
theorem list_nodes_of_parent {τ : Type} (le : Bool) (case_sensitive : Bool)
    (utf8 : List Nat → List Nat) (uninit dir : grub_hfsplus_file)
    (hook : List Nat → Nat → grub_hfsplus_file → τ → Int × τ)
    (record : grub_hfsplus_catrecord) (ctx : list_nodes_ctx τ) (env : grub_env)
    (hpar : grub_be_to_cpu32 le record.catkey.parent = dir.fileid) :
    list_nodes le case_sensitive utf8 uninit dir hook record ctx env =
      if grub_be_to_cpu16 le (catrecord_fileinfo le record).type
          = GRUB_HFSPLUS_FILETYPE_DIR_THREAD then
        list_nodes_thread le uninit dir hook (catrecord_fileinfo le record) ctx env
      else if list_nodes_filetype le (catrecord_fileinfo le record) = GRUB_FSHELP_UNKNOWN then
        (0, ctx, env)
      else
        list_nodes_entry le case_sensitive utf8 uninit hook record.catkey
          (catrecord_body le record)
          (list_nodes_filetype le (catrecord_fileinfo le record)) ctx env := by
  unfold list_nodes catrecord_fileinfo catrecord_body
  dsimp only
  rw [if_neg (not_not.2 hpar)]

/-- Whatever the entry part of `list_nodes` dispatches is the record's own
entry: its display name converted, its type, the node filled from its body
as the buffer holds it after the two name loops. -/
theorem list_nodes_entry_trace {τ : Type} (le : Bool) (case_sensitive : Bool)
    (utf8 : List Nat → List Nat) (uninit : grub_hfsplus_file)
    (hook : List Nat → Nat → grub_hfsplus_file → τ → Int × τ)
    (catkey : grub_hfsplus_catkey) (fileinfo : (Nat → Nat) → grub_hfsplus_catfile) (type : Nat)
    (ctx : list_nodes_ctx τ) (env : grub_env) :
    trace_ext
      (fun ev => ev.is_hook = true →
        ev = grub_event.hook (utf8 (catkey_display_units le catkey))
          (if case_sensitive then type else type ||| GRUB_FSHELP_CASE_INSENSITIVE)
          (list_nodes_node le uninit (fileinfo (catkey_name_restored le catkey))))
      env
      (list_nodes_entry le case_sensitive utf8 uninit hook catkey fileinfo type ctx env).2.2 := by
  have m1 := trace_ext_malloc
    (fun ev => ev.is_hook = true →
      ev = grub_event.hook (utf8 (catkey_display_units le catkey))
        (if case_sensitive then type else type ||| GRUB_FSHELP_CASE_INSENSITIVE)
        (list_nodes_node le uninit (fileinfo (catkey_name_restored le catkey)))) env (fun _ h => by cases h)
  have m2 := trace_ext_malloc
    (fun ev => ev.is_hook = true →
      ev = grub_event.hook (utf8 (catkey_display_units le catkey))
        (if case_sensitive then type else type ||| GRUB_FSHELP_CASE_INSENSITIVE)
        (list_nodes_node le uninit (fileinfo (catkey_name_restored le catkey)))) (grub_malloc env).2 (fun _ h => by cases h)
  by_cases hnul : catkey_has_nul le catkey
  · rw [list_nodes_entry_nul le case_sensitive utf8 uninit hook catkey fileinfo type ctx env
      hnul]
    exact m1
  · by_cases hm1 : (grub_malloc env).1 = true
    · by_cases hm2 : (grub_malloc (grub_malloc env).2).1 = true
      · rw [list_nodes_entry_dispatch le case_sensitive utf8 uninit hook catkey fileinfo type
          ctx env hnul hm1 hm2]
        exact trace_ext_trans _ _ _ _ m1
          (trace_ext_trans _ _ _ _ m2 (trace_ext_event _ _ _ (fun _ => rfl)))
      · have e : (list_nodes_entry le case_sensitive utf8 uninit hook catkey fileinfo type
            ctx env).2.2 = (grub_malloc (grub_malloc env).2).2 := by
          unfold list_nodes_entry
          dsimp only
          have hs : (list_nodes_swap_name le catkey.name
              (grub_be_to_cpu16 le catkey.namelen) 0).2 = false := by
            cases h : (list_nodes_swap_name le catkey.name
              (grub_be_to_cpu16 le catkey.namelen) 0).2
            · rfl
            · exact absurd ((list_nodes_swap_name_nul le catkey).1 h) hnul
          rw [if_pos hm1, hs, if_neg (by decide), if_neg hm2]
        rw [e]
        exact trace_ext_trans _ _ _ _ m1 m2
    · have e : (list_nodes_entry le case_sensitive utf8 uninit hook catkey fileinfo type
          ctx env).2.2 = (grub_malloc env).2 := by
        unfold list_nodes_entry
        dsimp only
        rw [if_neg hm1]
      rw [e]
      exact m1

/-- Whatever `list_nodes` dispatches for a record that is not a folder thread
is the record's own entry: its display name converted, its type, the node
filled from its body as the buffer holds it after the two name loops. -/
theorem list_nodes_record_trace {τ : Type} (le : Bool) (case_sensitive : Bool)
    (utf8 : List Nat → List Nat) (uninit dir : grub_hfsplus_file)
    (hook : List Nat → Nat → grub_hfsplus_file → τ → Int × τ)
    (record : grub_hfsplus_catrecord) (ctx : list_nodes_ctx τ) (env : grub_env)
    (hthread : grub_be_to_cpu16 le (catrecord_fileinfo le record).type
      ≠ GRUB_HFSPLUS_FILETYPE_DIR_THREAD) :
    trace_ext
      (fun ev => ev.is_hook = true →
        ev = grub_event.hook (utf8 (catkey_display_units le record.catkey))
          (if case_sensitive then list_nodes_filetype le (catrecord_fileinfo le record)
            else list_nodes_filetype le (catrecord_fileinfo le record)
              ||| GRUB_FSHELP_CASE_INSENSITIVE)
          (list_nodes_node le uninit (catrecord_fileinfo_restored le record)))
      env (list_nodes le case_sensitive utf8 uninit dir hook record ctx env).2.2 := by
  by_cases hpar : grub_be_to_cpu32 le record.catkey.parent = dir.fileid
  · rw [list_nodes_of_parent le case_sensitive utf8 uninit dir hook record ctx env hpar,
      if_neg hthread]
    by_cases hu : list_nodes_filetype le (catrecord_fileinfo le record) = GRUB_FSHELP_UNKNOWN
    · rw [if_pos hu]
      exact trace_ext_refl _ _
    · rw [if_neg hu]
      unfold catrecord_fileinfo_restored
      exact list_nodes_entry_trace le case_sensitive utf8 uninit hook record.catkey
        (catrecord_body le record) _ ctx env
  · rw [list_nodes_other_parent le case_sensitive utf8 uninit dir hook record ctx env hpar]
    exact trace_ext_refl _ _

/-- **C14.** For a folder-thread record whose key parent id is the directory's
file id: if the directory's file id is 2, `list_nodes` returns 0 and changes
nothing (no visitor call); otherwise, its node allocated, it calls the visitor
exactly once, with the name "..", the kind `GRUB_FSHELP_DIR` and a node whose
file id is the parent id stored in the thread record (decoded), and returns
the visitor's result (if the allocation fails it returns 1 without a call).
A record of any other type is never given that entry: every visitor call
`list_nodes` makes for it is the record's own entry, under the name converted
from the record's key (which is ".." exactly when that name converts to
".."), with the record's own kind and the node filled from the record's body
as the buffer holds it after the name loops. -/
theorem list_nodes_dotdot {τ : Type} (le : Bool) (case_sensitive : Bool)
    (utf8 : List Nat → List Nat) (uninit dir : grub_hfsplus_file)
    (hook : List Nat → Nat → grub_hfsplus_file → τ → Int × τ)
    (record : grub_hfsplus_catrecord) (ctx : list_nodes_ctx τ) (env : grub_env) :
    (grub_be_to_cpu32 le record.catkey.parent = dir.fileid →
      grub_be_to_cpu16 le (catrecord_fileinfo le record).type
        = GRUB_HFSPLUS_FILETYPE_DIR_THREAD →
      (dir.fileid = 2 →
        list_nodes le case_sensitive utf8 uninit dir hook record ctx env = (0, ctx, env)) ∧
      (dir.fileid ≠ 2 → (grub_malloc env).1 = true →
        ∃ (node : grub_hfsplus_file) (env1 : grub_env),
          node.fileid = grub_be_to_cpu32 le (catrecord_fileinfo le record).parentid ∧
          node.mtime = 0 ∧ node.size = 0 ∧
          list_nodes le case_sensitive utf8 uninit dir hook record ctx env
            = ((hook [46, 46] GRUB_FSHELP_DIR node ctx.hook_data).1,
                ⟨(hook [46, 46] GRUB_FSHELP_DIR node ctx.hook_data).1,
                  (hook [46, 46] GRUB_FSHELP_DIR node ctx.hook_data).2⟩, env1) ∧
          env1.trace = env.trace ++
            [grub_event.malloc true, grub_event.hook [46, 46] GRUB_FSHELP_DIR node]) ∧
      (dir.fileid ≠ 2 → (grub_malloc env).1 = false →
        list_nodes le case_sensitive utf8 uninit dir hook record ctx env
          = (1, ctx, (grub_malloc env).2))) ∧
    (grub_be_to_cpu16 le (catrecord_fileinfo le record).type
        ≠ GRUB_HFSPLUS_FILETYPE_DIR_THREAD →
      trace_ext
        (fun ev => ev.is_hook = true →
          ev = grub_event.hook (utf8 (catkey_display_units le record.catkey))
            (if case_sensitive then list_nodes_filetype le (catrecord_fileinfo le record)
              else list_nodes_filetype le (catrecord_fileinfo le record)
                ||| GRUB_FSHELP_CASE_INSENSITIVE)
            (list_nodes_node le uninit (catrecord_fileinfo_restored le record)))
        env (list_nodes le case_sensitive utf8 uninit dir hook record ctx env).2.2) := by
  constructor
  · intro hpar htype
    have hl := list_nodes_of_parent le case_sensitive utf8 uninit dir hook record ctx env hpar
    rw [if_pos htype] at hl
    rw [hl]
    unfold list_nodes_thread
    dsimp only
    refine ⟨fun h2 => by rw [if_pos h2], ?_, ?_⟩
    · intro h2 hm
      refine ⟨{ uninit with
          mtime := 0
          size := 0
          fileid := grub_be_to_cpu32 le (catrecord_fileinfo le record).parentid },
        _, rfl, rfl, rfl, by rw [if_neg h2, if_pos hm], ?_⟩
      have ht := grub_malloc_trace env
      rw [hm] at ht
      simp only [trace_event, ht, List.append_assoc, List.singleton_append]
    · intro h2 hm
      rw [if_neg h2, hm]
      rfl
  · intro htype
    exact list_nodes_record_trace le case_sensitive utf8 uninit dir hook record ctx env htype

/-- Instance of C14 on the thread record of folder 5, whose stored parent id is
1, listed in folder 5: one visitor call, for "..", with a node of file id 1;
and the same record listed in the root folder 2 (as the thread record of the
root) dispatches nothing. -/
theorem list_nodes_dotdot_witness :
    list_nodes false true (fun l => l) (ex_file 0) (ex_file 5) ex_dir_hook
        (ex_catrecord 5 [] GRUB_HFSPLUS_FILETYPE_DIR_THREAD) ⟨0, 0⟩ ex_env
      = (0, ⟨0, 1⟩,
          ⟨grub_err_t.GRUB_ERR_NONE, grub_errmsg.no_message, [],
            [grub_event.malloc true, grub_event.hook [46, 46] GRUB_FSHELP_DIR (ex_file 1)]⟩) ∧
    list_nodes false true (fun l => l) (ex_file 0) (ex_file 2) ex_dir_hook
        (ex_catrecord 2 [] GRUB_HFSPLUS_FILETYPE_DIR_THREAD) ⟨0, 0⟩ ex_env
      = (0, ⟨0, 0⟩, ex_env) ∧
    ∃ (node : grub_hfsplus_file) (env1 : grub_env),
      node.fileid = grub_be_to_cpu32 false
        (catrecord_fileinfo false (ex_catrecord 5 [] GRUB_HFSPLUS_FILETYPE_DIR_THREAD)).parentid ∧
      node.mtime = 0 ∧ node.size = 0 ∧
      list_nodes false true (fun l => l) (ex_file 0) (ex_file 5) ex_dir_hook
          (ex_catrecord 5 [] GRUB_HFSPLUS_FILETYPE_DIR_THREAD) ⟨0, 0⟩ ex_env
        = ((ex_dir_hook [46, 46] GRUB_FSHELP_DIR node 0).1,
            ⟨(ex_dir_hook [46, 46] GRUB_FSHELP_DIR node 0).1,
              (ex_dir_hook [46, 46] GRUB_FSHELP_DIR node 0).2⟩, env1) ∧
      env1.trace = ex_env.trace ++
        [grub_event.malloc true, grub_event.hook [46, 46] GRUB_FSHELP_DIR node] :=
  ⟨rfl,
    ((list_nodes_dotdot false true (fun l => l) (ex_file 0) (ex_file 2) ex_dir_hook
      (ex_catrecord 2 [] GRUB_HFSPLUS_FILETYPE_DIR_THREAD) ⟨0, 0⟩ ex_env).1 rfl rfl).1 rfl,
    ((list_nodes_dotdot false true (fun l => l) (ex_file 0) (ex_file 5) ex_dir_hook
      (ex_catrecord 5 [] GRUB_HFSPLUS_FILETYPE_DIR_THREAD) ⟨0, 0⟩ ex_env).1 rfl rfl).2.1
      (by decide) rfl⟩

/-- Counterexample to the last sentence of C14 as stated ("no other record
type produces a '..' entry"): a folder record (type
`GRUB_HFSPLUS_FILETYPE_DIR`, not a folder thread) of the root folder whose
name is the two units `..` is dispatched by `list_nodes` under the name "..",
kind `GRUB_FSHELP_DIR`, with the record's own file id 20. -/
theorem list_nodes_folder_named_dotdot :
    grub_be_to_cpu16 false
        (catrecord_fileinfo false (ex_catrecord 2 [46, 46] GRUB_HFSPLUS_FILETYPE_DIR)).type
      = GRUB_HFSPLUS_FILETYPE_DIR ∧
    GRUB_HFSPLUS_FILETYPE_DIR ≠ GRUB_HFSPLUS_FILETYPE_DIR_THREAD ∧
    list_nodes false true (fun l => l) (ex_file 0) (ex_file 2) ex_dir_hook
        (ex_catrecord 2 [46, 46] GRUB_HFSPLUS_FILETYPE_DIR) ⟨0, 0⟩ ex_env
      = (0, ⟨0, 1⟩,
          ⟨grub_err_t.GRUB_ERR_NONE, grub_errmsg.no_message, [],
            [grub_event.malloc true, grub_event.malloc true,
              grub_event.hook [46, 46] GRUB_FSHELP_DIR
                ⟨20, 0, 0, 2212122496, false, ex_no_extents, ex_no_extents, 0, 0, 0⟩]⟩) :=
  ⟨rfl, by decide, rfl⟩

/-- A record of the directory that is not a folder thread and whose type is
known, its name free of NUL units, is emitted when both allocations succeed. -/
theorem list_nodes_emits_of_filetype {τ : Type} (le : Bool) (case_sensitive : Bool)
    (utf8 : List Nat → List Nat) (uninit dir : grub_hfsplus_file)
    (hook : List Nat → Nat → grub_hfsplus_file → τ → Int × τ)
    (record : grub_hfsplus_catrecord) (ctx : list_nodes_ctx τ) (env : grub_env) (kind : Nat)
    (hpar : grub_be_to_cpu32 le record.catkey.parent = dir.fileid)
    (hthread : grub_be_to_cpu16 le (catrecord_fileinfo le record).type
      ≠ GRUB_HFSPLUS_FILETYPE_DIR_THREAD)
    (hkind : list_nodes_filetype le (catrecord_fileinfo le record) = kind)
    (hknown : kind ≠ GRUB_FSHELP_UNKNOWN)
    (hnul : ¬ catkey_has_nul le record.catkey)
    (hm1 : (grub_malloc env).1 = true)
    (hm2 : (grub_malloc (grub_malloc env).2).1 = true) :
    list_nodes_emits le case_sensitive utf8 uninit dir hook record ctx env kind := by
  unfold list_nodes_emits
  rw [list_nodes_of_parent le case_sensitive utf8 uninit dir hook record ctx env hpar,
    if_neg hthread, hkind, if_neg hknown,
    list_nodes_entry_dispatch le case_sensitive utf8 uninit hook record.catkey
      (catrecord_body le record) kind ctx env hnul hm1 hm2]
  rfl

/-- **C15.** For a catalog file record of the directory (record type
`GRUB_HFSPLUS_FILETYPE_REG`, key parent id equal to the directory's file id),
`list_nodes` classifies by `mode & 0170000`: with 0100000 the record is
emitted as a regular file and with 0120000 as a symbolic link (its name free
of NUL units and the two allocations succeeding); with any other value it is
skipped: `list_nodes` returns 0 leaving context and global state untouched (no
visitor call, no error), and the record loop goes on to the next record.  A
catalog directory record is classified as a directory whatever its mode, and
emitted as one. -/
theorem list_nodes_classifies {τ : Type} (le : Bool) (case_sensitive : Bool)
    (utf8 : List Nat → List Nat) (uninit dir : grub_hfsplus_file)
    (hook : List Nat → Nat → grub_hfsplus_file → τ → Int × τ)
    (record : grub_hfsplus_catrecord) (ctx : list_nodes_ctx τ) (env : grub_env)
    (hpar : grub_be_to_cpu32 le record.catkey.parent = dir.fileid) :
    (grub_be_to_cpu16 le (catrecord_fileinfo le record).type = GRUB_HFSPLUS_FILETYPE_REG →
      (grub_be_to_cpu16 le (catrecord_fileinfo le record).mode &&& 0o170000 = 0o100000 →
        list_nodes_filetype le (catrecord_fileinfo le record) = GRUB_FSHELP_REG ∧
        (¬ catkey_has_nul le record.catkey → (grub_malloc env).1 = true →
          (grub_malloc (grub_malloc env).2).1 = true →
          list_nodes_emits le case_sensitive utf8 uninit dir hook record ctx env
            GRUB_FSHELP_REG)) ∧
      (grub_be_to_cpu16 le (catrecord_fileinfo le record).mode &&& 0o170000 = 0o120000 →
        list_nodes_filetype le (catrecord_fileinfo le record) = GRUB_FSHELP_SYMLINK ∧
        (¬ catkey_has_nul le record.catkey → (grub_malloc env).1 = true →
          (grub_malloc (grub_malloc env).2).1 = true →
          list_nodes_emits le case_sensitive utf8 uninit dir hook record ctx env
            GRUB_FSHELP_SYMLINK)) ∧
      (grub_be_to_cpu16 le (catrecord_fileinfo le record).mode &&& 0o170000 ≠ 0o100000 →
        grub_be_to_cpu16 le (catrecord_fileinfo le record).mode &&& 0o170000 ≠ 0o120000 →
        list_nodes_filetype le (catrecord_fileinfo le record) = GRUB_FSHELP_UNKNOWN ∧
        list_nodes le case_sensitive utf8 uninit dir hook record ctx env = (0, ctx, env) ∧
        ∀ (n : grub_hfsplus_btnode grub_hfsplus_catrecord) (todo rec : Nat),
          n.recptr rec = record →
          btree_iterate_records n (list_nodes le case_sensitive utf8 uninit dir hook)
              (todo + 1) rec ctx env
            = btree_iterate_records n (list_nodes le case_sensitive utf8 uninit dir hook)
              todo (rec + 1) ctx env)) ∧
    (grub_be_to_cpu16 le (catrecord_fileinfo le record).type = GRUB_HFSPLUS_FILETYPE_DIR →
      list_nodes_filetype le (catrecord_fileinfo le record) = GRUB_FSHELP_DIR ∧
      (¬ catkey_has_nul le record.catkey → (grub_malloc env).1 = true →
        (grub_malloc (grub_malloc env).2).1 = true →
        list_nodes_emits le case_sensitive utf8 uninit dir hook record ctx env
          GRUB_FSHELP_DIR)) := by
  constructor
  · intro hreg
    have hthread : grub_be_to_cpu16 le (catrecord_fileinfo le record).type
        ≠ GRUB_HFSPLUS_FILETYPE_DIR_THREAD := by
      rw [hreg]; decide
    refine ⟨?_, ?_, ?_⟩
    · intro hmode
      have hk : list_nodes_filetype le (catrecord_fileinfo le record) = GRUB_FSHELP_REG := by
        unfold list_nodes_filetype
        rw [if_pos hreg]
        exact if_pos hmode
      exact ⟨hk, fun hnul hm1 hm2 =>
        list_nodes_emits_of_filetype le case_sensitive utf8 uninit dir hook record ctx env _
          hpar hthread hk (by decide) hnul hm1 hm2⟩
    · intro hmode
      have hk : list_nodes_filetype le (catrecord_fileinfo le record)
          = GRUB_FSHELP_SYMLINK := by
        unfold list_nodes_filetype
        rw [if_pos hreg]
        have h1 : ¬ (grub_be_to_cpu16 le (catrecord_fileinfo le record).mode
            &&& GRUB_HFSPLUS_FILEMODE_MASK = GRUB_HFSPLUS_FILEMODE_REG) := by
          show ¬ (grub_be_to_cpu16 le (catrecord_fileinfo le record).mode &&& 0o170000
            = 0o100000)
          rw [hmode]; decide
        dsimp only
        rw [if_neg h1]
        exact if_pos hmode
      exact ⟨hk, fun hnul hm1 hm2 =>
        list_nodes_emits_of_filetype le case_sensitive utf8 uninit dir hook record ctx env _
          hpar hthread hk (by decide) hnul hm1 hm2⟩
    · intro h1 h2
      have hk : list_nodes_filetype le (catrecord_fileinfo le record)
          = GRUB_FSHELP_UNKNOWN := by
        unfold list_nodes_filetype
        rw [if_pos hreg]
        exact (if_neg h1).trans (if_neg h2)
      have hl : list_nodes le case_sensitive utf8 uninit dir hook record ctx env
          = (0, ctx, env) := by
        rw [list_nodes_of_parent le case_sensitive utf8 uninit dir hook record ctx env hpar,
          if_neg hthread, if_pos hk]
      refine ⟨hk, hl, ?_⟩
      intro n todo rec hrec
      rw [btree_iterate_records_succ, hrec, hl]
      simp
  · intro hdir
    have hthread : grub_be_to_cpu16 le (catrecord_fileinfo le record).type
        ≠ GRUB_HFSPLUS_FILETYPE_DIR_THREAD := by
      rw [hdir]; decide
    have hk : list_nodes_filetype le (catrecord_fileinfo le record) = GRUB_FSHELP_DIR := by
      unfold list_nodes_filetype
      rw [if_neg (by rw [hdir]; decide), if_pos hdir]
    exact ⟨hk, fun hnul hm1 hm2 =>
      list_nodes_emits_of_filetype le case_sensitive utf8 uninit dir hook record ctx env _
        hpar hthread hk (by decide) hnul hm1 hm2⟩

/-- Instance of C15 in the root folder: the file record "L" with mode 0120777
is emitted as a symbolic link, the file record "B" with mode 0060644 (a block
device) is skipped, and the directory record "D" is emitted as a directory
although its mode reads as a regular file's. -/
theorem list_nodes_classifies_witness :
    list_nodes false true (fun l => l) (ex_file 0) (ex_file 2) ex_dir_hook
        (ex_catrecord_mode 2 [76] GRUB_HFSPLUS_FILETYPE_REG 0o120777) ⟨0, 0⟩ ex_env
      = (0, ⟨0, 1⟩,
          ⟨grub_err_t.GRUB_ERR_NONE, grub_errmsg.no_message, [],
            [grub_event.malloc true, grub_event.malloc true,
              grub_event.hook [76] GRUB_FSHELP_SYMLINK
                (list_nodes_node false (ex_file 0)
                  (catrecord_fileinfo false
                    (ex_catrecord_mode 2 [76] GRUB_HFSPLUS_FILETYPE_REG 0o120777)))]⟩) ∧
    list_nodes_emits false true (fun l => l) (ex_file 0) (ex_file 2) ex_dir_hook
      (ex_catrecord_mode 2 [76] GRUB_HFSPLUS_FILETYPE_REG 0o120777) ⟨0, 0⟩ ex_env
      GRUB_FSHELP_SYMLINK ∧
    list_nodes false true (fun l => l) (ex_file 0) (ex_file 2) ex_dir_hook
        (ex_catrecord_mode 2 [66] GRUB_HFSPLUS_FILETYPE_REG 0o060644) ⟨0, 0⟩ ex_env
      = (0, ⟨0, 0⟩, ex_env) ∧
    list_nodes_emits false true (fun l => l) (ex_file 0) (ex_file 2) ex_dir_hook
      (ex_catrecord_mode 2 [68] GRUB_HFSPLUS_FILETYPE_DIR 0o100644) ⟨0, 0⟩ ex_env
      GRUB_FSHELP_DIR :=
  ⟨rfl,
    (((list_nodes_classifies false true (fun l => l) (ex_file 0) (ex_file 2) ex_dir_hook
      (ex_catrecord_mode 2 [76] GRUB_HFSPLUS_FILETYPE_REG 0o120777) ⟨0, 0⟩ ex_env rfl).1
        rfl).2.1 (by decide)).2
      (by
        rintro ⟨j, hj, h0⟩
        have h1 : j < 1 := hj
        interval_cases j
        revert h0
        decide) rfl rfl,
    ((((list_nodes_classifies false true (fun l => l) (ex_file 0) (ex_file 2) ex_dir_hook
      (ex_catrecord_mode 2 [66] GRUB_HFSPLUS_FILETYPE_REG 0o060644) ⟨0, 0⟩ ex_env rfl).1
        rfl).2.2 (by decide) (by decide)).2).1,
    ((list_nodes_classifies false true (fun l => l) (ex_file 0) (ex_file 2) ex_dir_hook
      (ex_catrecord_mode 2 [68] GRUB_HFSPLUS_FILETYPE_DIR 0o100644) ⟨0, 0⟩ ex_env rfl).2
        rfl).2
      (by
        rintro ⟨j, hj, h0⟩
        have h1 : j < 1 := hj
        interval_cases j
        revert h0
        decide) rfl rfl⟩

/-- **C16.** For a file or directory record of the directory whose name holds
at least one NUL code unit, `list_nodes` skips the entry: it returns 0 with
the context untouched, the trace grows by no visitor call (at most by the
allocation of the name buffer), the pending error is the one there was before
(the allocation succeeding; `list_nodes` itself raises none), and the record
loop goes on to the next record. -/
theorem list_nodes_skips_nul {τ : Type} (le : Bool) (case_sensitive : Bool)
    (utf8 : List Nat → List Nat) (uninit dir : grub_hfsplus_file)
    (hook : List Nat → Nat → grub_hfsplus_file → τ → Int × τ)
    (record : grub_hfsplus_catrecord) (ctx : list_nodes_ctx τ) (env : grub_env)
    (hpar : grub_be_to_cpu32 le record.catkey.parent = dir.fileid)
    (htype : grub_be_to_cpu16 le (catrecord_fileinfo le record).type
        = GRUB_HFSPLUS_FILETYPE_REG ∨
      grub_be_to_cpu16 le (catrecord_fileinfo le record).type = GRUB_HFSPLUS_FILETYPE_DIR)
    (hnul : catkey_has_nul le record.catkey) :
    ∃ env1,
      list_nodes le case_sensitive utf8 uninit dir hook record ctx env = (0, ctx, env1) ∧
      trace_ext (fun ev => ev.is_hook = false) env env1 ∧
      ((grub_malloc env).1 = true →
        env1.grub_errno = env.grub_errno ∧ env1.grub_errmsg = env.grub_errmsg) ∧
      ∀ (n : grub_hfsplus_btnode grub_hfsplus_catrecord) (todo rec : Nat),
        n.recptr rec = record →
        btree_iterate_records n (list_nodes le case_sensitive utf8 uninit dir hook)
            (todo + 1) rec ctx env
          = btree_iterate_records n (list_nodes le case_sensitive utf8 uninit dir hook)
            todo (rec + 1) ctx env1 := by
  have hthread : grub_be_to_cpu16 le (catrecord_fileinfo le record).type
      ≠ GRUB_HFSPLUS_FILETYPE_DIR_THREAD := by
    rcases htype with h | h <;> rw [h] <;> decide
  have hl := list_nodes_of_parent le case_sensitive utf8 uninit dir hook record ctx env hpar
  rw [if_neg hthread] at hl
  by_cases hu : list_nodes_filetype le (catrecord_fileinfo le record) = GRUB_FSHELP_UNKNOWN
  · rw [if_pos hu] at hl
    refine ⟨env, hl, trace_ext_refl _ _, fun _ => ⟨rfl, rfl⟩, ?_⟩
    intro n todo rec hrec
    rw [btree_iterate_records_succ, hrec, hl]
    simp
  · rw [if_neg hu, list_nodes_entry_nul le case_sensitive utf8 uninit hook record.catkey
      (catrecord_body le record) _ ctx env hnul] at hl
    refine ⟨(grub_malloc env).2, hl, trace_ext_malloc _ env (fun _ => rfl),
      grub_malloc_ok_errno env, ?_⟩
    intro n todo rec hrec
    rw [btree_iterate_records_succ, hrec, hl]
    simp

/-- Instance of C16 in the root folder: the file record whose name is the
units 65, 0, 66 is skipped after the allocation of its name buffer. -/
theorem list_nodes_skips_nul_witness :
    list_nodes false true (fun l => l) (ex_file 0) (ex_file 2) ex_dir_hook
        (ex_catrecord 2 [65, 0, 66] GRUB_HFSPLUS_FILETYPE_REG) ⟨0, 0⟩ ex_env
      = (0, ⟨0, 0⟩,
          ⟨grub_err_t.GRUB_ERR_NONE, grub_errmsg.no_message, [], [grub_event.malloc true]⟩) ∧
    ∃ env1,
      list_nodes false true (fun l => l) (ex_file 0) (ex_file 2) ex_dir_hook
          (ex_catrecord 2 [65, 0, 66] GRUB_HFSPLUS_FILETYPE_REG) ⟨0, 0⟩ ex_env
        = (0, ⟨0, 0⟩, env1) ∧
      trace_ext (fun ev => ev.is_hook = false) ex_env env1 ∧
      ((grub_malloc ex_env).1 = true →
        env1.grub_errno = ex_env.grub_errno ∧ env1.grub_errmsg = ex_env.grub_errmsg) ∧
      ∀ (n : grub_hfsplus_btnode grub_hfsplus_catrecord) (todo rec : Nat),
        n.recptr rec = ex_catrecord 2 [65, 0, 66] GRUB_HFSPLUS_FILETYPE_REG →
        btree_iterate_records n (list_nodes false true (fun l => l) (ex_file 0) (ex_file 2)
            ex_dir_hook) (todo + 1) rec ⟨0, 0⟩ ex_env
          = btree_iterate_records n (list_nodes false true (fun l => l) (ex_file 0)
            (ex_file 2) ex_dir_hook) todo (rec + 1) ⟨0, 0⟩ env1 :=
  ⟨rfl,
    list_nodes_skips_nul false true (fun l => l) (ex_file 0) (ex_file 2) ex_dir_hook
      (ex_catrecord 2 [65, 0, 66] GRUB_HFSPLUS_FILETYPE_REG) ⟨0, 0⟩ ex_env rfl (Or.inl rfl)
      ⟨1, by decide, by decide⟩⟩

theorem list_nodes_filetype_cases (le : Bool) (fileinfo : grub_hfsplus_catfile) :
    list_nodes_filetype le fileinfo = GRUB_FSHELP_UNKNOWN ∨
    list_nodes_filetype le fileinfo = GRUB_FSHELP_REG ∨
    list_nodes_filetype le fileinfo = GRUB_FSHELP_DIR ∨
    list_nodes_filetype le fileinfo = GRUB_FSHELP_SYMLINK := by
  unfold list_nodes_filetype
  dsimp only
  split_ifs <;> simp

/-- **C20.** Every visitor call that `list_nodes` makes for a file or directory
record (any record that is not a folder thread, so not the ".." entry) passes
a kind that carries the marker `GRUB_FSHELP_CASE_INSENSITIVE` if and only if
the volume's `case_sensitive` flag is false, and whose part under
`GRUB_FSHELP_TYPE_MASK` is the kind the record was classified as (regular
file, directory or symbolic link), marker or not. -/
theorem list_nodes_case_marker {τ : Type} (le : Bool) (case_sensitive : Bool)
    (utf8 : List Nat → List Nat) (uninit dir : grub_hfsplus_file)
    (hook : List Nat → Nat → grub_hfsplus_file → τ → Int × τ)
    (record : grub_hfsplus_catrecord) (ctx : list_nodes_ctx τ) (env : grub_env)
    (hthread : grub_be_to_cpu16 le (catrecord_fileinfo le record).type
      ≠ GRUB_HFSPLUS_FILETYPE_DIR_THREAD) :
    trace_ext
      (fun ev => ∀ (filename : List Nat) (filetype : Nat) (node : grub_hfsplus_file),
        ev = grub_event.hook filename filetype node →
        (filetype &&& GRUB_FSHELP_CASE_INSENSITIVE ≠ 0 ↔ case_sensitive = false) ∧
        filetype &&& GRUB_FSHELP_TYPE_MASK
          = list_nodes_filetype le (catrecord_fileinfo le record) ∧
        (list_nodes_filetype le (catrecord_fileinfo le record) = GRUB_FSHELP_REG ∨
          list_nodes_filetype le (catrecord_fileinfo le record) = GRUB_FSHELP_DIR ∨
          list_nodes_filetype le (catrecord_fileinfo le record) = GRUB_FSHELP_SYMLINK))
      env (list_nodes le case_sensitive utf8 uninit dir hook record ctx env).2.2 := by
  by_cases hpar : grub_be_to_cpu32 le record.catkey.parent = dir.fileid
  · rw [list_nodes_of_parent le case_sensitive utf8 uninit dir hook record ctx env hpar,
      if_neg hthread]
    by_cases hu : list_nodes_filetype le (catrecord_fileinfo le record) = GRUB_FSHELP_UNKNOWN
    · rw [if_pos hu]
      exact trace_ext_refl _ _
    · rw [if_neg hu]
      refine trace_ext_mono _ _ _ _ ?_
        (list_nodes_entry_trace le case_sensitive utf8 uninit hook record.catkey
          (catrecord_body le record) _ ctx env)
      intro ev hev filename filetype node he
      have h1 := hev (by rw [he]; rfl)
      rw [he] at h1
      injection h1 with _ hty _
      have hk : list_nodes_filetype le (catrecord_fileinfo le record) = GRUB_FSHELP_REG ∨
          list_nodes_filetype le (catrecord_fileinfo le record) = GRUB_FSHELP_DIR ∨
          list_nodes_filetype le (catrecord_fileinfo le record) = GRUB_FSHELP_SYMLINK := by
        rcases list_nodes_filetype_cases le (catrecord_fileinfo le record) with h | h
        · exact absurd h hu
        · exact h
      refine ⟨?_, ?_, hk⟩
      · rw [hty]
        cases case_sensitive <;> rcases hk with h | h | h <;> rw [h] <;> decide
      · rw [hty]
        cases case_sensitive <;> rcases hk with h | h | h <;> rw [h] <;> decide
  · rw [list_nodes_other_parent le case_sensitive utf8 uninit dir hook record ctx env hpar]
    exact trace_ext_refl _ _

/-- Instance of C20 on the file record "A": on a volume that is not case
sensitive the visitor gets the kind `0x101` (regular file with the marker), on
a case-sensitive one the kind 1. -/
theorem list_nodes_case_marker_witness :
    (list_nodes false false (fun l => l) (ex_file 0) (ex_file 2) ex_dir_hook
        (ex_catrecord 2 [65] GRUB_HFSPLUS_FILETYPE_REG) ⟨0, 0⟩ ex_env).2.2.trace
      = [grub_event.malloc true, grub_event.malloc true,
          grub_event.hook [65] 0x101
            (list_nodes_node false (ex_file 0) (ex_catfile GRUB_HFSPLUS_FILETYPE_REG))] ∧
    (list_nodes false true (fun l => l) (ex_file 0) (ex_file 2) ex_dir_hook
        (ex_catrecord 2 [65] GRUB_HFSPLUS_FILETYPE_REG) ⟨0, 0⟩ ex_env).2.2.trace
      = [grub_event.malloc true, grub_event.malloc true,
          grub_event.hook [65] 1
            (list_nodes_node false (ex_file 0) (ex_catfile GRUB_HFSPLUS_FILETYPE_REG))] ∧
    trace_ext
      (fun ev => ∀ (filename : List Nat) (filetype : Nat) (node : grub_hfsplus_file),
        ev = grub_event.hook filename filetype node →
        (filetype &&& GRUB_FSHELP_CASE_INSENSITIVE ≠ 0 ↔ false = false) ∧
        filetype &&& GRUB_FSHELP_TYPE_MASK
          = list_nodes_filetype false
            (catrecord_fileinfo false (ex_catrecord 2 [65] GRUB_HFSPLUS_FILETYPE_REG)) ∧
        (list_nodes_filetype false
            (catrecord_fileinfo false (ex_catrecord 2 [65] GRUB_HFSPLUS_FILETYPE_REG))
            = GRUB_FSHELP_REG ∨
          list_nodes_filetype false
            (catrecord_fileinfo false (ex_catrecord 2 [65] GRUB_HFSPLUS_FILETYPE_REG))
            = GRUB_FSHELP_DIR ∨
          list_nodes_filetype false
            (catrecord_fileinfo false (ex_catrecord 2 [65] GRUB_HFSPLUS_FILETYPE_REG))
            = GRUB_FSHELP_SYMLINK))
      ex_env
      (list_nodes false false (fun l => l) (ex_file 0) (ex_file 2) ex_dir_hook
        (ex_catrecord 2 [65] GRUB_HFSPLUS_FILETYPE_REG) ⟨0, 0⟩ ex_env).2.2 :=
  ⟨rfl, rfl,
    list_nodes_case_marker false false (fun l => l) (ex_file 0) (ex_file 2) ex_dir_hook
      (ex_catrecord 2 [65] GRUB_HFSPLUS_FILETYPE_REG) ⟨0, 0⟩ ex_env (by decide)⟩

/-- The two name loops of `list_nodes` run one after the other on a name free
of NUL units: every converted cell gets its value back, except that a cell
holding `:` gets `/`. -/
theorem list_nodes_name_loops (le : Bool) (name : Nat → Nat) (n : Nat)
    (h16 : ∀ j, j < n → name j < 65536)
    (hnul : ∀ j, j < n → grub_be_to_cpu16 le (name j) ≠ 0) :
    (list_nodes_swap_name le name n 0).2 = false ∧
    ∀ j, list_nodes_restore_name le (list_nodes_swap_name le name n 0).1 n 0 j =
      if j < n ∧ grub_be_to_cpu16 le (name j) = 58 then grub_be_to_cpu16 le 47
      else name j := by
  have hs : (list_nodes_swap_name le name n 0).2 = false := by
    cases h : (list_nodes_swap_name le name n 0).2
    · rfl
    · obtain ⟨j, _, h2, h3⟩ := (list_nodes_swap_name_early le n name 0).1 h
      exact absurd h3 (hnul j (by omega))
  refine ⟨hs, ?_⟩
  intro j
  rw [list_nodes_restore_name_cells, list_nodes_swap_name_cells le n name 0 hs j]
  by_cases hj : j < n
  · have e : 0 ≤ j ∧ j < 0 + n := by omega
    rw [if_pos e, if_pos e]
    by_cases h58 : grub_be_to_cpu16 le (name j) = 58
    · have e2 : j < n ∧ grub_be_to_cpu16 le (name j) = 58 := ⟨hj, h58⟩
      rw [if_pos e2, h58]
      rfl
    · have e2 : ¬ (j < n ∧ grub_be_to_cpu16 le (name j) = 58) := fun h => h58 h.2
      rw [if_neg e2]
      by_cases h47 : grub_be_to_cpu16 le (name j) = 47
      · rw [if_pos h47, if_pos rfl, ← h47, grub_be_to_cpu16_involutive]
        exact Nat.mod_eq_of_lt (h16 j hj)
      · rw [if_neg h47, if_neg h58, grub_be_to_cpu16_involutive]
        exact Nat.mod_eq_of_lt (h16 j hj)
  · have e : ¬ (0 ≤ j ∧ j < 0 + n) := by omega
    have e2 : ¬ (j < n ∧ grub_be_to_cpu16 le (name j) = 58) := fun h => hj h.1
    rw [if_neg e, if_neg e, if_neg e2]

/-- **C17 (as amended).** For the name of a catalog record, a sequence of
16-bit cells none of which decodes to NUL: the decode pass of `list_nodes`
(decode each cell, replace `/` by `:`) runs to its end, and followed by the
re-encode pass (replace `:` by `/`, encode back) it leaves in every cell the
value that was there, except that a cell holding `:` (0x003A) on disk then
holds `/` (0x002F).  So for every name with no unit `:` (names holding `/`
included) the two passes reproduce the on-disk name exactly, unit for unit,
and the name in the node buffer after `list_nodes` is the one before. -/
theorem list_nodes_name_roundtrip (le : Bool) (record : grub_hfsplus_catrecord)
    (h16 : ∀ j, j < grub_be_to_cpu16 le record.catkey.namelen → record.catkey.name j < 65536)
    (hnul : ¬ catkey_has_nul le record.catkey) :
    (list_nodes_swap_name le record.catkey.name
      (grub_be_to_cpu16 le record.catkey.namelen) 0).2 = false ∧
    (∀ j, list_nodes_restore_name le
        (list_nodes_swap_name le record.catkey.name
          (grub_be_to_cpu16 le record.catkey.namelen) 0).1
        (grub_be_to_cpu16 le record.catkey.namelen) 0 j =
      if j < grub_be_to_cpu16 le record.catkey.namelen ∧
          grub_be_to_cpu16 le (record.catkey.name j) = 58
      then grub_be_to_cpu16 le 47 else record.catkey.name j) ∧
    ((∀ j, j < grub_be_to_cpu16 le record.catkey.namelen →
        grub_be_to_cpu16 le (record.catkey.name j) ≠ 58) →
      list_nodes_restore_name le
          (list_nodes_swap_name le record.catkey.name
            (grub_be_to_cpu16 le record.catkey.namelen) 0).1
          (grub_be_to_cpu16 le record.catkey.namelen) 0 = record.catkey.name ∧
      ∀ (dir : grub_hfsplus_file) (env : grub_env),
        list_nodes_name le dir record env = record.catkey.name) := by
  obtain ⟨hs, hcells⟩ := list_nodes_name_loops le record.catkey.name
    (grub_be_to_cpu16 le record.catkey.namelen) h16
    (fun j hj h0 => hnul ⟨j, hj, h0⟩)
  refine ⟨hs, hcells, ?_⟩
  intro hcolon
  have hall : list_nodes_restore_name le
      (list_nodes_swap_name le record.catkey.name
        (grub_be_to_cpu16 le record.catkey.namelen) 0).1
      (grub_be_to_cpu16 le record.catkey.namelen) 0 = record.catkey.name := by
    funext j
    rw [hcells j]
    exact if_neg (fun h => hcolon j h.1 h.2)
  refine ⟨hall, ?_⟩
  intro dir env
  unfold list_nodes_name
  dsimp only
  split_ifs <;> first | rfl | exact hall | simp_all

/-- Instance of C17 on the name "a/b" (big-endian host): the decode pass
surfaces "a:b", and the re-encode pass puts "a/b" back. -/
theorem list_nodes_name_roundtrip_witness :
    (List.range 3).map
        (list_nodes_swap_name false
          (ex_catrecord 2 [97, 47, 98] GRUB_HFSPLUS_FILETYPE_REG).catkey.name 3 0).1
      = [97, 58, 98] ∧
    list_nodes_restore_name false
        (list_nodes_swap_name false
          (ex_catrecord 2 [97, 47, 98] GRUB_HFSPLUS_FILETYPE_REG).catkey.name 3 0).1 3 0
      = (ex_catrecord 2 [97, 47, 98] GRUB_HFSPLUS_FILETYPE_REG).catkey.name :=
  ⟨by decide,
    ((list_nodes_name_roundtrip false (ex_catrecord 2 [97, 47, 98] GRUB_HFSPLUS_FILETYPE_REG)
      (by
        intro j hj
        have h3 : j < 3 := hj
        interval_cases j <;> decide)
      (by
        rintro ⟨j, hj, h0⟩
        have h3 : j < 3 := hj
        interval_cases j <;> revert h0 <;> decide)).2.2
      (by
        intro j hj
        have h3 : j < 3 := hj
        interval_cases j <;> decide)).1⟩

/-- **C17, counterexample to the claim as stated.** The record named by the
single unit `:` (0x003A, big-endian host), a name free of NUL units: the
record is emitted, under the name ":", and after the two passes its name cell
in the node buffer holds `/` (0x002F), not the on-disk unit. -/
theorem list_nodes_name_colon_lost :
    list_nodes false true (fun l => l) (ex_file 0) (ex_file 2) ex_dir_hook
        (ex_catrecord 2 [58] GRUB_HFSPLUS_FILETYPE_REG) ⟨0, 0⟩ ex_env
      = (0, ⟨0, 1⟩,
          ⟨grub_err_t.GRUB_ERR_NONE, grub_errmsg.no_message, [],
            [grub_event.malloc true, grub_event.malloc true,
              grub_event.hook [58] GRUB_FSHELP_REG
                (list_nodes_node false (ex_file 0) (ex_catfile GRUB_HFSPLUS_FILETYPE_REG))]⟩) ∧
    (ex_catrecord 2 [58] GRUB_HFSPLUS_FILETYPE_REG).catkey.name 0 = 58 ∧
    grub_be_to_cpu16 false ((ex_catrecord 2 [58] GRUB_HFSPLUS_FILETYPE_REG).catkey.name 0) ≠ 0 ∧
    (list_nodes_swap_name false
      (ex_catrecord 2 [58] GRUB_HFSPLUS_FILETYPE_REG).catkey.name 1 0).2 = false ∧
    list_nodes_restore_name false
      (list_nodes_swap_name false
        (ex_catrecord 2 [58] GRUB_HFSPLUS_FILETYPE_REG).catkey.name 1 0).1 1 0 0 = 47 ∧
    list_nodes_name false (ex_file 2) (ex_catrecord 2 [58] GRUB_HFSPLUS_FILETYPE_REG)
      ex_env 0 = 47 := by
  refine ⟨rfl, rfl, by decide, rfl, rfl, rfl⟩

/-! ## The scan of one extent list -/

/-- The scan of an extent list hits in extent `i`, the first one whose running
total exceeds the block number. -/
theorem find_block_loop_index (le : Bool) :
    ∀ (l : List grub_hfsplus_extent) (b i : Nat) (e : grub_hfsplus_extent),
      l[i]? = some e →
      b < extent_list_total le (l.take (i + 1)) →
      (∀ j, j < i → extent_list_total le (l.take (j + 1)) ≤ b) →
      find_block_loop le l b =
        (some (grub_be_to_cpu32 le e.start + (b - extent_list_total le (l.take i))),
          b - extent_list_total le (l.take i)) := by
  intro l
  induction l with
  | nil => intro b i e h; simp at h
  | cons x rest ih =>
    intro b i e hi hlt hmin
    cases i with
    | zero =>
      simp only [List.getElem?_cons_zero, Option.some.injEq] at hi
      subst hi
      have h1 : b < grub_be_to_cpu32 le x.count := by
        simpa [extent_list_total] using hlt
      have hs := grub_be_to_cpu32_lt le x.start
      have hc := grub_be_to_cpu32_lt le x.count
      simp only [find_block_loop, if_pos h1, List.take_zero, extent_list_total, List.map_nil,
        List.sum_nil, Nat.sub_zero]
      congr 2
      exact Nat.mod_eq_of_lt (by omega)
    | succ k =>
      simp only [List.getElem?_cons_succ] at hi
      have h0 : grub_be_to_cpu32 le x.count ≤ b := by
        have := hmin 0 (by omega)
        simpa [extent_list_total] using this
      have hlt2 : b - grub_be_to_cpu32 le x.count < extent_list_total le (rest.take (k + 1)) := by
        rw [List.take_succ_cons, extent_list_total_cons] at hlt
        omega
      have hmin2 : ∀ j, j < k →
          extent_list_total le (rest.take (j + 1)) ≤ b - grub_be_to_cpu32 le x.count := by
        intro j hj
        have := hmin (j + 1) (by omega)
        rw [List.take_succ_cons, extent_list_total_cons] at this
        omega
      have hr := ih (b - grub_be_to_cpu32 le x.count) k e hi hlt2 hmin2
      have hk : extent_list_total le (rest.take k) ≤ b - grub_be_to_cpu32 le x.count := by
        cases k with
        | zero => simp [extent_list_total]
        | succ m => exact hmin2 m (by omega)
      simp only [find_block_loop, if_neg (not_lt.2 h0), hr, List.take_succ_cons,
        extent_list_total_cons]
      have e1 : b - grub_be_to_cpu32 le x.count - extent_list_total le (rest.take k)
          = b - (grub_be_to_cpu32 le x.count + extent_list_total le (rest.take k)) := by omega
      rw [e1]

/-- **C26.** For every array of 8 extents and every block number `b`: if `i` is
the smallest index with `b < count_0 + ... + count_i` (decoded counts),
`grub_hfsplus_find_block` returns `start_i + (b - (count_0 + ... + count_{i-1}))`
and leaves `*fileblock` as it was; if there is no such index it returns
`0xffffffffffffffff` and sets `*fileblock` to `b` minus the sum of the 8
counts. -/
theorem find_block_first_covering (le : Bool) (extent : grub_hfsplus_extents) (b : Nat) :
    (∀ (i : Nat) (e : grub_hfsplus_extent), extent.toList[i]? = some e →
      b < extent_list_total le (extent.toList.take (i + 1)) →
      (∀ j, j < i → ¬ b < extent_list_total le (extent.toList.take (j + 1))) →
      grub_hfsplus_find_block le extent b =
        (grub_be_to_cpu32 le e.start + (b - extent_list_total le (extent.toList.take i)), b)) ∧
    ((∀ i, i < 8 → ¬ b < extent_list_total le (extent.toList.take (i + 1))) →
      grub_hfsplus_find_block le extent b =
        (0xffffffffffffffff, b - extent_list_total le extent.toList)) := by
  constructor
  · intro i e hi hlt hmin
    have h := find_block_loop_index le extent.toList b i e hi hlt
      (fun j hj => not_lt.1 (hmin j hj))
    unfold grub_hfsplus_find_block
    rw [h]
  · intro hno
    have h8 : extent.toList.length = 8 := extent.toList_length
    have hall : extent_list_total le extent.toList ≤ b := by
      have := hno 7 (by omega)
      rw [List.take_of_length_le (by omega)] at this
      omega
    exact (grub_hfsplus_find_block_spec le extent b).2 hall

/-- Instance of C26 on the extents (100, 4), (200, 3), (0, 0), ... of a
big-endian host: block 5 lies in extent 1 and resolves to 201; block 9 lies in
none, and 2 blocks are left to find. -/
theorem find_block_first_covering_witness :
    grub_hfsplus_find_block false
        ⟨[⟨100, 4⟩, ⟨200, 3⟩, ⟨0, 0⟩, ⟨0, 0⟩, ⟨0, 0⟩, ⟨0, 0⟩, ⟨0, 0⟩, ⟨0, 0⟩], rfl⟩ 5
      = (201, 5) ∧
    grub_hfsplus_find_block false
        ⟨[⟨100, 4⟩, ⟨200, 3⟩, ⟨0, 0⟩, ⟨0, 0⟩, ⟨0, 0⟩, ⟨0, 0⟩, ⟨0, 0⟩, ⟨0, 0⟩], rfl⟩ 9
      = (0xffffffffffffffff, 2) :=
  ⟨(find_block_first_covering false
      ⟨[⟨100, 4⟩, ⟨200, 3⟩, ⟨0, 0⟩, ⟨0, 0⟩, ⟨0, 0⟩, ⟨0, 0⟩, ⟨0, 0⟩, ⟨0, 0⟩], rfl⟩ 5).1 1
      ⟨200, 3⟩ rfl (by decide)
      (by
        intro j hj
        interval_cases j
        decide),
    (find_block_first_covering false
      ⟨[⟨100, 4⟩, ⟨200, 3⟩, ⟨0, 0⟩, ⟨0, 0⟩, ⟨0, 0⟩, ⟨0, 0⟩, ⟨0, 0⟩, ⟨0, 0⟩], rfl⟩ 9).2
      (by
        intro i hi
        interval_cases i <;> decide)⟩

/-! ## The empty-name catalog key -/

/-- **C30.** For every on-disk catalog key `a` and search key with an empty
name (`namelen` 0) whose parent id is that of `a` (decoded),
`grub_hfsplus_cmp_catkey (a, key)` is the name length of `a`: 0 exactly when
the name of `a` is empty, strictly positive otherwise, so never negative: no
record of that parent compares below the empty-name key. -/
theorem cmp_catkey_empty_name (le : Bool) (keya : grub_hfsplus_catrecord)
    (keyb : grub_hfsplus_catkey_internal)
    (hpar : grub_be_to_cpu32 le keya.catkey.parent = keyb.parent)
    (hempty : keyb.namelen = 0) :
    grub_hfsplus_cmp_catkey le keya keyb = (grub_be_to_cpu16 le keya.catkey.namelen : Int) ∧
    (grub_hfsplus_cmp_catkey le keya keyb = 0 ↔ grub_be_to_cpu16 le keya.catkey.namelen = 0) ∧
    (grub_be_to_cpu16 le keya.catkey.namelen ≠ 0 → 0 < grub_hfsplus_cmp_catkey le keya keyb) ∧
    ¬ grub_hfsplus_cmp_catkey le keya keyb < 0 := by
  have hl := grub_be_to_cpu16_lt le keya.catkey.namelen
  have hc : grub_hfsplus_cmp_catkey le keya keyb
      = (grub_be_to_cpu16 le keya.catkey.namelen : Int) := by
    unfold grub_hfsplus_cmp_catkey
    dsimp only
    rw [if_neg (by omega), if_neg (by omega), hempty]
    have hlen : (if grub_be_to_cpu16 le keya.catkey.namelen > 0 then 0
        else grub_be_to_cpu16 le keya.catkey.namelen) = 0 := by
      split_ifs <;> omega
    rw [hlen]
    simp only [List.range_zero, List.map_nil, List.flatMap_nil, List.take_zero, grub_memcmp,
      if_true]
    unfold to_int32
    norm_num
    omega
  rw [hc]
  refine ⟨rfl, ?_, ?_, ?_⟩
  · exact Int.natCast_eq_zero
  · intro h
    exact Int.natCast_pos.2 (Nat.pos_of_ne_zero h)
  · exact not_lt.2 (Int.natCast_nonneg _)

/-- Instance of C30 on the records of `ex_catalog_leaf` against the key of the
root folder with an empty name: the thread record (empty name) compares equal
and the record of the file "A" compares 1. -/
theorem cmp_catkey_empty_name_witness :
    grub_hfsplus_cmp_catkey false (ex_catalog_leaf.recptr 0) ⟨2, [], 0⟩ = 0 ∧
    grub_hfsplus_cmp_catkey false (ex_catalog_leaf.recptr 1) ⟨2, [], 0⟩
      = (grub_be_to_cpu16 false (ex_catalog_leaf.recptr 1).catkey.namelen : Int) ∧
    0 < grub_hfsplus_cmp_catkey false (ex_catalog_leaf.recptr 1) ⟨2, [], 0⟩ :=
  ⟨by decide,
    (cmp_catkey_empty_name false (ex_catalog_leaf.recptr 1) ⟨2, [], 0⟩ rfl rfl).1,
    (cmp_catkey_empty_name false (ex_catalog_leaf.recptr 1) ⟨2, [], 0⟩ rfl rfl).2.2.1
      (by decide)⟩

/-! ## The node of an emitted entry -/

/-- The fields of the node `list_nodes` fills in for a file or directory
record. -/
theorem list_nodes_node_fields (le : Bool) (uninit : grub_hfsplus_file)
    (fileinfo : grub_hfsplus_catfile) :
    (list_nodes_node le uninit fileinfo).fileid = grub_be_to_cpu32 le fileinfo.fileid ∧
    (list_nodes_node le uninit fileinfo).size = grub_be_to_cpu64 le fileinfo.data.size ∧
    (list_nodes_node le uninit fileinfo).resource_size
      = grub_be_to_cpu64 le fileinfo.resource.size ∧
    (list_nodes_node le uninit fileinfo).extents = fileinfo.data.extents ∧
    (list_nodes_node le uninit fileinfo).resource_extents = fileinfo.resource.extents ∧
    (list_nodes_node le uninit fileinfo).compressed = false ∧
    (((list_nodes_node le uninit fileinfo).mtime : Nat) : Int)
      = ((grub_be_to_cpu32 le fileinfo.mtime : Int) - 2082844800) % 2 ^ 32 ∧
    (2082844800 ≤ grub_be_to_cpu32 le fileinfo.mtime →
      (list_nodes_node le uninit fileinfo).mtime
        = grub_be_to_cpu32 le fileinfo.mtime - 2082844800) := by
  have hm := grub_be_to_cpu32_lt le fileinfo.mtime
  refine ⟨rfl, rfl, rfl, rfl, rfl, rfl, ?_, ?_⟩
  · show (((grub_be_to_cpu32 le fileinfo.mtime + (2 ^ 32 - 2082844800)) % 2 ^ 32 : Nat) : Int)
      = _
    norm_num
    omega
  · intro h
    show (grub_be_to_cpu32 le fileinfo.mtime + (2 ^ 32 - 2082844800)) % 2 ^ 32 = _
    norm_num
    omega

/-- **C28.** In every visitor call that `list_nodes` makes for a file or
directory record (any record that is not a folder thread), the node passed
has: file id = the record's file id decoded from big-endian; size and
resource size = the decoded sizes of the data and resource fork; extents and
resource extents = the record's 8 data-fork and 8 resource-fork extents as
they are; the compressed flag cleared; and mtime = (decoded on-disk mtime -
2082844800) modulo `2 ^ 32`, the exact difference whenever the on-disk mtime
is at least 2082844800; all of the record body as the node buffer holds it
when the node is filled, after the name was converted in place and back.
That body is the on-disk record body whenever no unit of the name (of 16-bit
cells) is `:` (0x003A), and whenever the body does not depend on the name
cells, lying behind them. -/
theorem list_nodes_node_of_record {τ : Type} (le : Bool) (case_sensitive : Bool)
    (utf8 : List Nat → List Nat) (uninit dir : grub_hfsplus_file)
    (hook : List Nat → Nat → grub_hfsplus_file → τ → Int × τ)
    (record : grub_hfsplus_catrecord) (ctx : list_nodes_ctx τ) (env : grub_env)
    (hthread : grub_be_to_cpu16 le (catrecord_fileinfo le record).type
      ≠ GRUB_HFSPLUS_FILETYPE_DIR_THREAD) :
    trace_ext
      (fun ev => ∀ (filename : List Nat) (filetype : Nat) (node : grub_hfsplus_file),
        ev = grub_event.hook filename filetype node →
        node_of_fileinfo le node (catrecord_fileinfo_restored le record) ∧
        (((∀ j, j < grub_be_to_cpu16 le record.catkey.namelen →
              record.catkey.name j < 65536 ∧
              grub_be_to_cpu16 le (record.catkey.name j) ≠ 58) ∨
            (∀ name : Nat → Nat,
              (∀ j, grub_be_to_cpu16 le record.catkey.namelen ≤ j →
                name j = record.catkey.name j) →
              catrecord_body le record name = catrecord_fileinfo le record)) →
          node_of_fileinfo le node (catrecord_fileinfo le record)))
      env (list_nodes le case_sensitive utf8 uninit dir hook record ctx env).2.2 := by
  by_cases hpar : grub_be_to_cpu32 le record.catkey.parent = dir.fileid
  · rw [list_nodes_of_parent le case_sensitive utf8 uninit dir hook record ctx env hpar,
      if_neg hthread]
    by_cases hu : list_nodes_filetype le (catrecord_fileinfo le record) = GRUB_FSHELP_UNKNOWN
    · rw [if_pos hu]
      exact trace_ext_refl _ _
    · rw [if_neg hu]
      by_cases hnul : catkey_has_nul le record.catkey
      · rw [list_nodes_entry_nul le case_sensitive utf8 uninit hook record.catkey
          (catrecord_body le record) _ ctx env hnul]
        exact trace_ext_malloc _ env (fun _ _ _ _ h => by cases h)
      · have hs : (list_nodes_swap_name le record.catkey.name
            (grub_be_to_cpu16 le record.catkey.namelen) 0).2 = false := by
          cases h : (list_nodes_swap_name le record.catkey.name
            (grub_be_to_cpu16 le record.catkey.namelen) 0).2
          · rfl
          · exact absurd ((list_nodes_swap_name_nul le record.catkey).1 h) hnul
        refine trace_ext_mono _ _ _ _ ?_
          (list_nodes_entry_trace le case_sensitive utf8 uninit hook record.catkey
            (catrecord_body le record) _ ctx env)
        intro ev hev filename filetype node he
        have h1 := hev (by rw [he]; rfl)
        rw [he] at h1
        injection h1 with _ _ hnode
        have hfields : node_of_fileinfo le node (catrecord_fileinfo_restored le record) := by
          rw [hnode]
          unfold node_of_fileinfo catrecord_fileinfo_restored
          exact list_nodes_node_fields le uninit _
        refine ⟨hfields, ?_⟩
        intro hc
        have hsame : catrecord_fileinfo_restored le record = catrecord_fileinfo le record := by
          rcases hc with h | h
          · have hl := (list_nodes_name_loops le record.catkey.name
              (grub_be_to_cpu16 le record.catkey.namelen) (fun j hj => (h j hj).1)
              (fun j hj h0 => hnul ⟨j, hj, h0⟩)).2
            have hname : catkey_name_restored le record.catkey = record.catkey.name := by
              funext j
              unfold catkey_name_restored
              rw [hl j, if_neg (fun hh => (h j hh.1).2 hh.2)]
            unfold catrecord_fileinfo_restored
            rw [hname]
            rfl
          · unfold catrecord_fileinfo_restored
            refine h _ (fun j hj => ?_)
            unfold catkey_name_restored
            have e : ¬ (0 ≤ j ∧ j < 0 + grub_be_to_cpu16 le record.catkey.namelen) := by omega
            rw [list_nodes_restore_name_cells, if_neg e,
              list_nodes_swap_name_cells le _ _ 0 hs j, if_neg e]
        rw [← hsame]
        exact hfields
  · rw [list_nodes_other_parent le case_sensitive utf8 uninit dir hook record ctx env hpar]
    exact trace_ext_refl _ _

/-- Instance of C28 on `ex_dated_catrecord`, whose name "A" holds no `:` and
whose body does not depend on the name cells: the node handed to the visitor
has file id 20, size 4096, the extent (50, 1) and mtime 3000000000 -
2082844800 = 917155200, the fields of the on-disk body; and with an on-disk
mtime of 0 the node's mtime is `2 ^ 32 - 2082844800`. -/
theorem list_nodes_node_of_record_witness :
    (list_nodes false true (fun l => l) (ex_file 0) (ex_file 2) ex_dir_hook
        ex_dated_catrecord ⟨0, 0⟩ ex_env).2.2.trace
      = [grub_event.malloc true, grub_event.malloc true,
          grub_event.hook [65] GRUB_FSHELP_REG
            ⟨20, 4096, 0, 917155200, false, ex_one_extent 50 1, ex_no_extents, 0, 0, 0⟩] ∧
    (list_nodes_node false (ex_file 0) (ex_catfile GRUB_HFSPLUS_FILETYPE_REG)).mtime
      = 2212122496 ∧
    (∀ j, j < grub_be_to_cpu16 false ex_dated_catrecord.catkey.namelen →
      ex_dated_catrecord.catkey.name j < 65536 ∧
      grub_be_to_cpu16 false (ex_dated_catrecord.catkey.name j) ≠ 58) ∧
    (∀ name : Nat → Nat,
      (∀ j, grub_be_to_cpu16 false ex_dated_catrecord.catkey.namelen ≤ j →
        name j = ex_dated_catrecord.catkey.name j) →
      catrecord_body false ex_dated_catrecord name
        = catrecord_fileinfo false ex_dated_catrecord) ∧
    trace_ext
      (fun ev => ∀ (filename : List Nat) (filetype : Nat) (node : grub_hfsplus_file),
        ev = grub_event.hook filename filetype node →
        node_of_fileinfo false node (catrecord_fileinfo_restored false ex_dated_catrecord) ∧
        (((∀ j, j < grub_be_to_cpu16 false ex_dated_catrecord.catkey.namelen →
              ex_dated_catrecord.catkey.name j < 65536 ∧
              grub_be_to_cpu16 false (ex_dated_catrecord.catkey.name j) ≠ 58) ∨
            (∀ name : Nat → Nat,
              (∀ j, grub_be_to_cpu16 false ex_dated_catrecord.catkey.namelen ≤ j →
                name j = ex_dated_catrecord.catkey.name j) →
              catrecord_body false ex_dated_catrecord name
                = catrecord_fileinfo false ex_dated_catrecord)) →
          node_of_fileinfo false node (catrecord_fileinfo false ex_dated_catrecord)))
      ex_env
      (list_nodes false true (fun l => l) (ex_file 0) (ex_file 2) ex_dir_hook
        ex_dated_catrecord ⟨0, 0⟩ ex_env).2.2 :=
  ⟨rfl, by decide,
    fun _ _ => by
      show (65 : Nat) < 65536 ∧ grub_be_to_cpu16 false 65 ≠ 58
      decide,
    fun _ _ => rfl,
    list_nodes_node_of_record false true (fun l => l) (ex_file 0) (ex_file 2) ex_dir_hook
      ex_dated_catrecord ⟨0, 0⟩ ex_env (by decide)⟩

/-- Counterexample to C28 as stated: `ex_overlap_catrecord` is a folder record
of the root folder whose on-disk file id is 0x0001003A, the low half of which
is name cell 5.  The second name loop of `list_nodes` writes `/` (0x002F)
where the first one found `:` (0x003A), and the node is filled after it: the
visitor gets the entry with file id 0x0001002F. -/
theorem list_nodes_node_overlapping_name :
    grub_be_to_cpu16 false (catrecord_fileinfo false ex_overlap_catrecord).type
      = GRUB_HFSPLUS_FILETYPE_DIR ∧
    grub_be_to_cpu32 false (catrecord_fileinfo false ex_overlap_catrecord).fileid
      = 0x0001003A ∧
    list_nodes false true (fun l => l) (ex_file 0) (ex_file 2) ex_dir_hook
        ex_overlap_catrecord ⟨0, 0⟩ ex_env
      = (0, ⟨0, 1⟩,
          ⟨grub_err_t.GRUB_ERR_NONE, grub_errmsg.no_message, [],
            [grub_event.malloc true, grub_event.malloc true,
              grub_event.hook [1, 1, 1, 1, 1, 58] GRUB_FSHELP_DIR
                ⟨0x0001002F, 0, 0, 917155200, false, ex_no_extents, ex_no_extents,
                  0, 0, 0⟩]⟩) :=
  ⟨rfl, rfl, rfl⟩

/-! ## Mounting: the stages after the allocation -/

/-- The mount, once the volume is allocated. -/
theorem mount_of_alloc {CatR ExtR AttrR : Type} (le : Bool)
    (disk : grub_disk CatR ExtR AttrR) (uninit : grub_hfsplus_file) (env : grub_env)
    (hm : (grub_malloc env).1 = true) :
    grub_hfsplus_mount le disk uninit env =
      match mount_read_volheader le disk (grub_malloc env).2 with
      | Except.error env1 => mount_fail env1
      | Except.ok (embedded_offset, vh, env1) =>
        if mount_header_rejected le vh then
          mount_fail (grub_error env1 grub_err_t.GRUB_ERR_BAD_FS grub_errmsg.not_hfsplus).2
        else
          mount_trees le disk uninit embedded_offset vh env1 := by
  unfold grub_hfsplus_mount
  dsimp only
  rw [if_pos hm]

/-- The label `fail:` returns no volume; it turns a pending
`GRUB_ERR_OUT_OF_RANGE` into `GRUB_ERR_BAD_FS` and leaves any other state as
it is. -/
theorem mount_fail_spec {D : Type} (env : grub_env) :
    (@mount_fail D env).1 = none ∧
    (env.grub_errno = grub_err_t.GRUB_ERR_OUT_OF_RANGE →
      (@mount_fail D env).2.grub_errno = grub_err_t.GRUB_ERR_BAD_FS ∧
      (@mount_fail D env).2.grub_errmsg = grub_errmsg.not_hfsplus ∧
      (@mount_fail D env).2.trace = env.trace) ∧
    (env.grub_errno ≠ grub_err_t.GRUB_ERR_OUT_OF_RANGE → (@mount_fail D env).2 = env) := by
  unfold mount_fail
  by_cases h : env.grub_errno = grub_err_t.GRUB_ERR_OUT_OF_RANGE
  · rw [if_pos h]
    exact ⟨rfl, fun _ => ⟨rfl, rfl, rfl⟩, fun h1 => absurd h h1⟩
  · rw [if_neg h]
    exact ⟨rfl, fun h1 => absurd h1 h, fun _ => rfl⟩

/-- A header stage that succeeds leaves no error pending. -/
theorem mount_read_volheader_ok {CatR ExtR AttrR : Type} (le : Bool)
    (disk : grub_disk CatR ExtR AttrR) (env env1 : grub_env) (embedded_offset : Nat)
    (vh : grub_hfsplus_volheader)
    (h : mount_read_volheader le disk env = Except.ok (embedded_offset, vh, env1)) :
    env1.grub_errno = grub_err_t.GRUB_ERR_NONE := by
  unfold mount_read_volheader at h
  dsimp only at h
  split_ifs at h with h1 h2 h3 h4
  · cases h
    exact not_not.1 h4
  · cases h
    exact not_not.1 h1

/-- **C22.** When the volume header validates and the reads of the catalog
header, the extents-overflow header and the first extents-overflow node
succeed, a failed read of the attributes tree header (whatever error it
left) does not fail `grub_hfsplus_mount`: it returns a volume whose attributes
tree has root 0 and node size 0, the other two trees set up from their
headers, and `grub_errno` is `GRUB_ERR_NONE` on return. -/
theorem mount_attr_tree_optional {CatR ExtR AttrR : Type} (le : Bool)
    (disk : grub_disk CatR ExtR AttrR) (uninit : grub_hfsplus_file) (env env1 : grub_env)
    (embedded_offset : Nat) (vh : grub_hfsplus_volheader)
    (cat_header ext_header : grub_hfsplus_btheader) (e : grub_err_t)
    (hm : (grub_malloc env).1 = true)
    (hvol : mount_read_volheader le disk (grub_malloc env).2
      = Except.ok (embedded_offset, vh, env1))
    (hval : mount_header_rejected le vh = false)
    (hcat : disk.read_btheader
        (mount_tree_file le uninit GRUB_HFSPLUS_FILEID_CATALOG vh.catalog_file) embedded_offset
        (mount_log2blksize (grub_be_to_cpu32 le vh.blksize) 32 0) = Except.ok cat_header)
    (hext : disk.read_btheader
        (mount_tree_file le uninit GRUB_HFSPLUS_FILEID_OVERFLOW vh.extents_file) embedded_offset
        (mount_log2blksize (grub_be_to_cpu32 le vh.blksize) 32 0) = Except.ok ext_header)
    (hnode : disk.read_btnode
        (mount_tree_file le uninit GRUB_HFSPLUS_FILEID_OVERFLOW vh.extents_file) embedded_offset
        (mount_log2blksize (grub_be_to_cpu32 le vh.blksize) 32 0) = Except.ok ())
    (hattr : disk.read_btheader
        (mount_tree_file le uninit GRUB_HFSPLUS_FILEID_ATTR vh.attr_file) embedded_offset
        (mount_log2blksize (grub_be_to_cpu32 le vh.blksize) 32 0) = Except.error e) :
    ∃ (data : grub_hfsplus_data CatR ExtR AttrR) (env2 : grub_env),
      grub_hfsplus_mount le disk uninit env = (some data, env2) ∧
      data.attr_tree.root = 0 ∧ data.attr_tree.nodesize = 0 ∧
      env2.grub_errno = grub_err_t.GRUB_ERR_NONE ∧
      env2.trace = env1.trace ∧
      data.catalog_tree.root = grub_be_to_cpu32 le cat_header.root ∧
      data.catalog_tree.nodesize = grub_be_to_cpu16 le cat_header.nodesize ∧
      data.extoverflow_tree.root = grub_be_to_cpu32 le ext_header.root ∧
      data.extoverflow_tree.nodesize = grub_be_to_cpu16 le ext_header.nodesize := by
  rw [mount_of_alloc le disk uninit env hm, hvol]
  dsimp only
  rw [hval]
  unfold mount_trees
  simp only [Bool.false_eq_true, if_false, hcat, hext, hnode, hattr]
  exact ⟨_, _, rfl, rfl, rfl, rfl, rfl, rfl, rfl, rfl, rfl⟩

/-- Instance of C22 on `ex_disk` with an unreadable attributes header: the
mount returns a volume with absent attributes tree and no error pending,
although the failed read had left `GRUB_ERR_READ_ERROR`. -/
theorem mount_attr_tree_optional_witness :
    ∃ (data : grub_hfsplus_data Nat Nat Nat) (env2 : grub_env),
      grub_hfsplus_mount true (ex_disk grub_err_t.GRUB_ERR_NONE false) (ex_file 0) ex_env
        = (some data, env2) ∧
      data.attr_tree.root = 0 ∧ data.attr_tree.nodesize = 0 ∧
      env2.grub_errno = grub_err_t.GRUB_ERR_NONE ∧
      env2.trace = [grub_event.malloc true, grub_event.disk_read 2] ∧
      data.catalog_tree.root = grub_be_to_cpu32 true ex_btheader.root ∧
      data.catalog_tree.nodesize = grub_be_to_cpu16 true ex_btheader.nodesize ∧
      data.extoverflow_tree.root = grub_be_to_cpu32 true ex_btheader.root ∧
      data.extoverflow_tree.nodesize = grub_be_to_cpu16 true ex_btheader.nodesize :=
  mount_attr_tree_optional true (ex_disk grub_err_t.GRUB_ERR_NONE false) (ex_file 0) ex_env
    ⟨grub_err_t.GRUB_ERR_NONE, grub_errmsg.no_message, [],
      [grub_event.malloc true, grub_event.disk_read 2]⟩
    0 ex_volheader ex_btheader ex_btheader grub_err_t.GRUB_ERR_READ_ERROR
    rfl rfl (by decide) rfl rfl rfl rfl

/-- **C23.** Every `goto fail` of `grub_hfsplus_mount` (the volume allocated)
returns what the label `fail:` makes of the state it is reached with: no
volume, and `GRUB_ERR_BAD_FS` ("not a HFS+ filesystem") in place of a pending
`GRUB_ERR_OUT_OF_RANGE`, any other pending error being left as it is.  The
label is reached with the error left by the boot-block read, by the re-read
of the embedded header behind an HFS wrapper, and by the reads of the catalog
header, the extents-overflow header and the first extents-overflow node. -/
theorem mount_fail_reclassifies {CatR ExtR AttrR : Type} (le : Bool)
    (disk : grub_disk CatR ExtR AttrR) (uninit : grub_hfsplus_file) (env : grub_env)
    (hm : (grub_malloc env).1 = true) :
    (∀ envf : grub_env,
      (@mount_fail (grub_hfsplus_data CatR ExtR AttrR) envf).1 = none ∧
      (envf.grub_errno = grub_err_t.GRUB_ERR_OUT_OF_RANGE →
        (@mount_fail (grub_hfsplus_data CatR ExtR AttrR) envf).2.grub_errno
          = grub_err_t.GRUB_ERR_BAD_FS ∧
        (@mount_fail (grub_hfsplus_data CatR ExtR AttrR) envf).2.grub_errmsg
          = grub_errmsg.not_hfsplus) ∧
      (envf.grub_errno ≠ grub_err_t.GRUB_ERR_OUT_OF_RANGE →
        (@mount_fail (grub_hfsplus_data CatR ExtR AttrR) envf).2 = envf)) ∧
    ((read_failed (trace_event (grub_malloc env).2 (grub_event.disk_read GRUB_HFSPLUS_SBLOCK))
        (disk.read_volheader GRUB_HFSPLUS_SBLOCK).1).grub_errno ≠ grub_err_t.GRUB_ERR_NONE →
      grub_hfsplus_mount le disk uninit env =
        mount_fail (read_failed
          (trace_event (grub_malloc env).2 (grub_event.disk_read GRUB_HFSPLUS_SBLOCK))
          (disk.read_volheader GRUB_HFSPLUS_SBLOCK).1)) ∧
    (∀ (env1 env2 : grub_env) (embedded_offset : Nat),
      env1 = read_failed
        (trace_event (grub_malloc env).2 (grub_event.disk_read GRUB_HFSPLUS_SBLOCK))
        (disk.read_volheader GRUB_HFSPLUS_SBLOCK).1 →
      env1.grub_errno = grub_err_t.GRUB_ERR_NONE →
      grub_be_to_cpu16 le (disk.read_volheader GRUB_HFSPLUS_SBLOCK).2.hfs.magic
        = GRUB_HFS_MAGIC →
      grub_be_to_cpu16 le (disk.read_volheader GRUB_HFSPLUS_SBLOCK).2.hfs.embed_sig
        = GRUB_HFSPLUS_MAGIC →
      embedded_offset
        = grub_be_to_cpu16 le (disk.read_volheader GRUB_HFSPLUS_SBLOCK).2.hfs.first_block
          + grub_be_to_cpu16 le
              (disk.read_volheader GRUB_HFSPLUS_SBLOCK).2.hfs.embed_extent_first_block
            * (grub_be_to_cpu32 le (disk.read_volheader GRUB_HFSPLUS_SBLOCK).2.hfs.blksz
              >>> GRUB_DISK_SECTOR_BITS) →
      env2 = read_failed
        (trace_event env1 (grub_event.disk_read (embedded_offset + GRUB_HFSPLUS_SBLOCK)))
        (disk.read_volheader (embedded_offset + GRUB_HFSPLUS_SBLOCK)).1 →
      env2.grub_errno ≠ grub_err_t.GRUB_ERR_NONE →
      grub_hfsplus_mount le disk uninit env = mount_fail env2) ∧
    (∀ (env1 : grub_env) (embedded_offset : Nat) (vh : grub_hfsplus_volheader),
      mount_read_volheader le disk (grub_malloc env).2
        = Except.ok (embedded_offset, vh, env1) →
      mount_header_rejected le vh = false →
      (∀ e, disk.read_btheader
          (mount_tree_file le uninit GRUB_HFSPLUS_FILEID_CATALOG vh.catalog_file)
          embedded_offset (mount_log2blksize (grub_be_to_cpu32 le vh.blksize) 32 0)
          = Except.error e →
        grub_hfsplus_mount le disk uninit env = mount_fail (read_failed env1 e)) ∧
      (∀ cat_header e, disk.read_btheader
          (mount_tree_file le uninit GRUB_HFSPLUS_FILEID_CATALOG vh.catalog_file)
          embedded_offset (mount_log2blksize (grub_be_to_cpu32 le vh.blksize) 32 0)
          = Except.ok cat_header →
        disk.read_btheader
          (mount_tree_file le uninit GRUB_HFSPLUS_FILEID_OVERFLOW vh.extents_file)
          embedded_offset (mount_log2blksize (grub_be_to_cpu32 le vh.blksize) 32 0)
          = Except.error e →
        grub_hfsplus_mount le disk uninit env = mount_fail (read_failed env1 e)) ∧
      (∀ cat_header ext_header e, disk.read_btheader
          (mount_tree_file le uninit GRUB_HFSPLUS_FILEID_CATALOG vh.catalog_file)
          embedded_offset (mount_log2blksize (grub_be_to_cpu32 le vh.blksize) 32 0)
          = Except.ok cat_header →
        disk.read_btheader
          (mount_tree_file le uninit GRUB_HFSPLUS_FILEID_OVERFLOW vh.extents_file)
          embedded_offset (mount_log2blksize (grub_be_to_cpu32 le vh.blksize) 32 0)
          = Except.ok ext_header →
        disk.read_btnode
          (mount_tree_file le uninit GRUB_HFSPLUS_FILEID_OVERFLOW vh.extents_file)
          embedded_offset (mount_log2blksize (grub_be_to_cpu32 le vh.blksize) 32 0)
          = Except.error e →
        grub_hfsplus_mount le disk uninit env = mount_fail (read_failed env1 e))) := by
  refine ⟨?_, ?_, ?_, ?_⟩
  · intro envf
    obtain ⟨h1, h2, h3⟩ := @mount_fail_spec (grub_hfsplus_data CatR ExtR AttrR) envf
    exact ⟨h1, fun h => ⟨(h2 h).1, (h2 h).2.1⟩, h3⟩
  · intro h
    rw [mount_of_alloc le disk uninit env hm]
    unfold mount_read_volheader
    dsimp only
    rw [if_pos h]
  · intro env1 env2 embedded_offset he1 h1 hmagic hsig hoff he2 h2
    rw [mount_of_alloc le disk uninit env hm]
    unfold mount_read_volheader
    dsimp only
    rw [← he1, if_neg (not_not.2 h1), if_pos hmagic, if_neg (not_not.2 hsig), ← hoff, ← he2,
      if_pos h2]
  · intro env1 embedded_offset vh hvol hval
    have hmount : grub_hfsplus_mount le disk uninit env
        = mount_trees le disk uninit embedded_offset vh env1 := by
      rw [mount_of_alloc le disk uninit env hm, hvol]
      dsimp only
      rw [hval]
      rfl
    rw [hmount]
    unfold mount_trees
    refine ⟨?_, ?_, ?_⟩
    · intro e hc
      simp only [hc]
    · intro ch e hc hx
      simp only [hc, hx]
    · intro ch eh e hc hx hn
      simp only [hc, hx, hn]

/-- Instance of C23 on `ex_disk`: a boot-block read that raises
`GRUB_ERR_OUT_OF_RANGE` makes the mount fail with `GRUB_ERR_BAD_FS`, one that
raises `GRUB_ERR_READ_ERROR` with that very error. -/
theorem mount_fail_reclassifies_witness :
    grub_hfsplus_mount true (ex_disk grub_err_t.GRUB_ERR_OUT_OF_RANGE true) (ex_file 0) ex_env
      = (none, ⟨grub_err_t.GRUB_ERR_BAD_FS, grub_errmsg.not_hfsplus, [],
          [grub_event.malloc true, grub_event.disk_read 2]⟩) ∧
    grub_hfsplus_mount true (ex_disk grub_err_t.GRUB_ERR_READ_ERROR true) (ex_file 0) ex_env
      = (none, ⟨grub_err_t.GRUB_ERR_READ_ERROR, grub_errmsg.no_message, [],
          [grub_event.malloc true, grub_event.disk_read 2]⟩) ∧
    grub_hfsplus_mount true (ex_disk grub_err_t.GRUB_ERR_OUT_OF_RANGE true) (ex_file 0) ex_env
      = mount_fail (read_failed
          (trace_event (grub_malloc ex_env).2 (grub_event.disk_read GRUB_HFSPLUS_SBLOCK))
          ((ex_disk grub_err_t.GRUB_ERR_OUT_OF_RANGE true).read_volheader
            GRUB_HFSPLUS_SBLOCK).1) :=
  ⟨rfl, rfl,
    (mount_fail_reclassifies true (ex_disk grub_err_t.GRUB_ERR_OUT_OF_RANGE true) (ex_file 0)
      ex_env rfl).2.1 (by decide)⟩

/-- A volume returned by the tree stage of the mount carries the embedded
offset and the volume header the stage was given. -/
theorem mount_trees_some {CatR ExtR AttrR : Type} (le : Bool)
    (disk : grub_disk CatR ExtR AttrR) (uninit : grub_hfsplus_file) (embedded_offset : Nat)
    (vh : grub_hfsplus_volheader) (env env1 : grub_env)
    (data : grub_hfsplus_data CatR ExtR AttrR)
    (h : mount_trees le disk uninit embedded_offset vh env = (some data, env1)) :
    data.embedded_offset = embedded_offset ∧ data.volheader = vh := by
  have hf : ∀ e : grub_env,
      @mount_fail (grub_hfsplus_data CatR ExtR AttrR) e ≠ (some data, env1) := by
    intro e h1
    have := (@mount_fail_spec (grub_hfsplus_data CatR ExtR AttrR) e).1
    rw [h1] at this
    cases this
  unfold mount_trees at h
  dsimp only at h
  split at h
  · exact absurd h (hf _)
  · split at h
    · exact absurd h (hf _)
    · split at h
      · exact absurd h (hf _)
      · simp only [Prod.mk.injEq, Option.some.injEq] at h
        rw [← h.1]
        exact ⟨rfl, rfl⟩

/-- **C29.** With the boot-block read at sector `GRUB_HFSPLUS_SBLOCK` leaving
no error:
* if the boot block does not carry the HFS wrapper magic, the header that
  `grub_hfsplus_mount` validates is the one read first and `embedded_offset`
  is 0;
* if it carries the wrapper magic and the embedded signature is the HFS+
  magic, `embedded_offset` is decoded `first_block` + decoded first block of
  the embedded extent * (decoded wrapper block size >> 9), the header is read
  again at sector `embedded_offset + GRUB_HFSPLUS_SBLOCK`, and, that read
  leaving no error, the header validated is the one read there.
In both cases a volume that the mount returns carries that offset and that
header. -/
theorem mount_embedded_offset {CatR ExtR AttrR : Type} (le : Bool)
    (disk : grub_disk CatR ExtR AttrR) (uninit : grub_hfsplus_file) (env env1 : grub_env)
    (hm : (grub_malloc env).1 = true)
    (he1 : env1 = read_failed
      (trace_event (grub_malloc env).2 (grub_event.disk_read GRUB_HFSPLUS_SBLOCK))
      (disk.read_volheader GRUB_HFSPLUS_SBLOCK).1)
    (hboot : env1.grub_errno = grub_err_t.GRUB_ERR_NONE) :
    (grub_be_to_cpu16 le (disk.read_volheader GRUB_HFSPLUS_SBLOCK).2.hfs.magic
        ≠ GRUB_HFS_MAGIC →
      grub_hfsplus_mount le disk uninit env =
        (if mount_header_rejected le (disk.read_volheader GRUB_HFSPLUS_SBLOCK).2.hfsplus then
          mount_fail (grub_error env1 grub_err_t.GRUB_ERR_BAD_FS grub_errmsg.not_hfsplus).2
        else
          mount_trees le disk uninit 0 (disk.read_volheader GRUB_HFSPLUS_SBLOCK).2.hfsplus
            env1) ∧
      ∀ data env3, grub_hfsplus_mount le disk uninit env = (some data, env3) →
        data.embedded_offset = 0 ∧
        data.volheader = (disk.read_volheader GRUB_HFSPLUS_SBLOCK).2.hfsplus) ∧
    (∀ (embedded_offset : Nat) (env2 : grub_env),
      grub_be_to_cpu16 le (disk.read_volheader GRUB_HFSPLUS_SBLOCK).2.hfs.magic
        = GRUB_HFS_MAGIC →
      grub_be_to_cpu16 le (disk.read_volheader GRUB_HFSPLUS_SBLOCK).2.hfs.embed_sig
        = GRUB_HFSPLUS_MAGIC →
      embedded_offset
        = grub_be_to_cpu16 le (disk.read_volheader GRUB_HFSPLUS_SBLOCK).2.hfs.first_block
          + grub_be_to_cpu16 le
              (disk.read_volheader GRUB_HFSPLUS_SBLOCK).2.hfs.embed_extent_first_block
            * (grub_be_to_cpu32 le (disk.read_volheader GRUB_HFSPLUS_SBLOCK).2.hfs.blksz
              >>> 9) →
      env2 = read_failed
        (trace_event env1 (grub_event.disk_read (embedded_offset + GRUB_HFSPLUS_SBLOCK)))
        (disk.read_volheader (embedded_offset + GRUB_HFSPLUS_SBLOCK)).1 →
      env2.grub_errno = grub_err_t.GRUB_ERR_NONE →
      grub_hfsplus_mount le disk uninit env =
        (if mount_header_rejected le
            (disk.read_volheader (embedded_offset + GRUB_HFSPLUS_SBLOCK)).2.hfsplus then
          mount_fail (grub_error env2 grub_err_t.GRUB_ERR_BAD_FS grub_errmsg.not_hfsplus).2
        else
          mount_trees le disk uninit embedded_offset
            (disk.read_volheader (embedded_offset + GRUB_HFSPLUS_SBLOCK)).2.hfsplus env2) ∧
      env2.trace = (grub_malloc env).2.trace ++
        [grub_event.disk_read GRUB_HFSPLUS_SBLOCK,
          grub_event.disk_read (embedded_offset + GRUB_HFSPLUS_SBLOCK)] ∧
      ∀ data env3, grub_hfsplus_mount le disk uninit env = (some data, env3) →
        data.embedded_offset = embedded_offset ∧
        data.volheader
          = (disk.read_volheader (embedded_offset + GRUB_HFSPLUS_SBLOCK)).2.hfsplus) := by
  have hfail : ∀ (e : grub_env) (data : grub_hfsplus_data CatR ExtR AttrR) (env3 : grub_env),
      @mount_fail (grub_hfsplus_data CatR ExtR AttrR) e ≠ (some data, env3) := by
    intro e data env3 h1
    have := (@mount_fail_spec (grub_hfsplus_data CatR ExtR AttrR) e).1
    rw [h1] at this
    cases this
  constructor
  · intro hmagic
    have hmount : grub_hfsplus_mount le disk uninit env =
        (if mount_header_rejected le (disk.read_volheader GRUB_HFSPLUS_SBLOCK).2.hfsplus then
          mount_fail (grub_error env1 grub_err_t.GRUB_ERR_BAD_FS grub_errmsg.not_hfsplus).2
        else
          mount_trees le disk uninit 0 (disk.read_volheader GRUB_HFSPLUS_SBLOCK).2.hfsplus
            env1) := by
      rw [mount_of_alloc le disk uninit env hm]
      unfold mount_read_volheader
      dsimp only
      rw [← he1, if_neg (not_not.2 hboot), if_neg hmagic]
    refine ⟨hmount, ?_⟩
    intro data env3 h
    rw [hmount] at h
    split at h
    · exact absurd h (hfail _ _ _)
    · exact mount_trees_some le disk uninit 0 _ env1 env3 data h
  · intro embedded_offset env2 hmagic hsig hoff he2 h2
    have hmount : grub_hfsplus_mount le disk uninit env =
        (if mount_header_rejected le
            (disk.read_volheader (embedded_offset + GRUB_HFSPLUS_SBLOCK)).2.hfsplus then
          mount_fail (grub_error env2 grub_err_t.GRUB_ERR_BAD_FS grub_errmsg.not_hfsplus).2
        else
          mount_trees le disk uninit embedded_offset
            (disk.read_volheader (embedded_offset + GRUB_HFSPLUS_SBLOCK)).2.hfsplus env2) := by
      rw [mount_of_alloc le disk uninit env hm]
      unfold mount_read_volheader
      dsimp only
      have hoff2 : embedded_offset
        = grub_be_to_cpu16 le (disk.read_volheader GRUB_HFSPLUS_SBLOCK).2.hfs.first_block
          + grub_be_to_cpu16 le
              (disk.read_volheader GRUB_HFSPLUS_SBLOCK).2.hfs.embed_extent_first_block
            * (grub_be_to_cpu32 le (disk.read_volheader GRUB_HFSPLUS_SBLOCK).2.hfs.blksz
              >>> GRUB_DISK_SECTOR_BITS) := hoff
      rw [← he1, if_neg (not_not.2 hboot), if_pos hmagic, if_neg (not_not.2 hsig), ← hoff2,
        ← he2, if_neg (not_not.2 h2)]
    refine ⟨hmount, ?_, ?_⟩
    · rw [he2, he1]
      simp [read_failed, trace_event]
    · intro data env3 h
      rw [hmount] at h
      split at h
      · exact absurd h (hfail _ _ _)
      · exact mount_trees_some le disk uninit embedded_offset _ env2 env3 data h

/-- Instance of C29 on `ex_wrapped_disk`: the embedded offset is
16 + 3 * (4096 >> 9) = 40, the header is read again at sector 42, and the
volume mounted carries offset 40 and the header read there; on the bare
device `ex_disk` the offset is 0. -/
theorem mount_embedded_offset_witness :
    (grub_hfsplus_mount true ex_wrapped_disk (ex_file 0) ex_env).2.trace
      = [grub_event.malloc true, grub_event.disk_read 2, grub_event.disk_read 42] ∧
    (grub_hfsplus_mount true ex_wrapped_disk (ex_file 0) ex_env).1.map
      (fun d => d.embedded_offset) = some 40 ∧
    (grub_hfsplus_mount true (ex_disk grub_err_t.GRUB_ERR_NONE true) (ex_file 0) ex_env).1.map
      (fun d => d.embedded_offset) = some 0 ∧
    (∀ data env3, grub_hfsplus_mount true ex_wrapped_disk (ex_file 0) ex_env = (some data, env3) →
      data.embedded_offset = 40 ∧
      data.volheader = (ex_wrapped_disk.read_volheader (40 + GRUB_HFSPLUS_SBLOCK)).2.hfsplus) :=
  ⟨rfl, rfl, rfl,
    ((mount_embedded_offset true ex_wrapped_disk (ex_file 0) ex_env _ rfl rfl rfl).2 40 _
      (by decide) (by decide) (by decide) rfl rfl).2.2⟩

/-! ## The descent through an index node -/

/-- The record loop of the search on an index node, `j` records from `rec` on
comparing not greater than the key and the next one, if any, greater: the
loop ends with the child pointer of the last of the `j` records. -/
theorem btree_search_records_index {R KI : Type} (le : Bool) (mem : grub_hfsplus_key_mem R)
    (n : grub_hfsplus_btnode R) (key : KI) (compare_keys : R → KI → Int)
    (hidx : n.type = GRUB_HFSPLUS_BTNODE_TYPE_INDEX) :
    ∀ (todo rec currnode : Nat) (matched : Bool) (j : Nat),
      j ≤ todo →
      (∀ i, i < j → ¬ compare_keys (n.recptr (rec + i)) key > 0) →
      (j < todo → compare_keys (n.recptr (rec + j)) key > 0) →
      btree_search_records le mem n key compare_keys todo rec currnode matched =
        grub_hfsplus_scan.done
          (if j = 0 then currnode else index_child le mem n (rec + j - 1))
          (if j = 0 then matched else true) := by
  have hleaf : ¬ (n.type = GRUB_HFSPLUS_BTNODE_TYPE_LEAF) := by
    rw [hidx]; decide
  intro todo
  induction todo with
  | zero =>
    intro rec currnode matched j hj _ _
    have : j = 0 := by omega
    subst this
    rfl
  | succ t ih =>
    intro rec currnode matched j hj hle hgt
    rw [btree_search_records_succ, if_neg (fun h => hleaf h.1), if_pos hidx]
    cases j with
    | zero =>
      have h0 := hgt (by omega)
      rw [Nat.add_zero] at h0
      rw [if_pos h0]
      rfl
    | succ k =>
      have h0 := hle 0 (by omega)
      rw [Nat.add_zero] at h0
      rw [if_neg h0]
      rw [ih (rec + 1) _ true k (by omega)
        (fun i hi => by
          have := hle (i + 1) (by omega)
          rwa [show rec + (i + 1) = rec + 1 + i by omega] at this)
        (fun hk => by
          have := hgt (by omega)
          rwa [show rec + (k + 1) = rec + 1 + k by omega] at this)]
      cases k with
      | zero => rfl
      | succ m =>
        rw [if_neg (by omega), if_neg (by omega), if_neg (by omega), if_neg (by omega)]
        have : rec + 1 + (m + 1) - 1 = rec + (m + 1 + 1) - 1 := by omega
        rw [this]

/-- **C27.** At an index node that `grub_hfsplus_btree_search` visits (the
loop test passed, the node read), let `j` be the smallest record index whose
key compares greater than the search key (`j` = record count if there is
none).  If `j = 0` the pass returns "not found" (error 0, null match);
otherwise the search goes round again and the node it visits next is the
decoded 32-bit child pointer stored right after the key of record `j - 1`. -/
theorem btree_search_index_descent {R KI : Type} (le : Bool) (mem : grub_hfsplus_key_mem R)
    (btree : grub_hfsplus_btree R) (key : KI) (compare_keys : R → KI → Int)
    (s : btree_search_state) (n : grub_hfsplus_btnode R) (j : Nat)
    (hguard : s.save_node ≠ s.currnode)
    (hread : btree.read_node s.currnode = Except.ok n)
    (hidx : n.type = GRUB_HFSPLUS_BTNODE_TYPE_INDEX)
    (hj : j ≤ grub_be_to_cpu16 le n.count)
    (hle : ∀ i, i < j → ¬ compare_keys (n.recptr i) key > 0)
    (hgt : j < grub_be_to_cpu16 le n.count → compare_keys (n.recptr j) key > 0) :
    (j = 0 →
      btree_search_body le mem btree key compare_keys s =
        loop_ctl.ret (⟨grub_err_t.GRUB_ERR_NONE, some none, none⟩,
          trace_event s.env (grub_event.read_node btree.file.fileid s.currnode true)) ∧
      descent_next le mem btree key compare_keys s.currnode = none) ∧
    (j ≠ 0 →
      btree_search_body le mem btree key compare_keys s =
        loop_ctl.again
          ⟨index_child le mem n (j - 1),
            if checkpoint_due s.node_count then s.currnode else s.save_node,
            (s.node_count + 1) % 2 ^ 64,
            trace_event s.env (grub_event.read_node btree.file.fileid s.currnode true)⟩ ∧
      descent_next le mem btree key compare_keys s.currnode
        = some (index_child le mem n (j - 1))) := by
  have hrec := btree_search_records_index le mem n key compare_keys hidx
    (grub_be_to_cpu16 le n.count) 0 s.currnode false j hj
    (fun i hi => by rw [Nat.zero_add]; exact hle i hi)
    (fun h => by rw [Nat.zero_add]; exact hgt h)
  constructor
  · intro h0
    rw [if_pos h0, if_pos h0] at hrec
    constructor
    · unfold btree_search_body
      rw [if_neg hguard]
      simp only [hread, hrec]
      rfl
    · unfold descent_next
      simp only [hread, hrec]
      rfl
  · intro h0
    rw [if_neg h0, if_neg h0, Nat.zero_add] at hrec
    constructor
    · unfold btree_search_body
      rw [if_neg hguard]
      simp only [hread, hrec]
      rfl
    · unfold descent_next
      simp only [hread, hrec]
      rfl

/-- Instance of C27 on the root of `ex_tree`, an index node whose only record
is 2 with child pointer 2: for key 5 no record compares greater (`j = 1`) and
the search descends into node 2; for key 1 record 0 compares greater
(`j = 0`) and the search ends with "not found". -/
theorem btree_search_index_descent_witness :
    (btree_search_body false ex_mem ex_tree (5 : Nat) ex_cmp ⟨1, 0, 0, ex_env⟩ =
        loop_ctl.again ⟨2, 1, 1, trace_event ex_env (grub_event.read_node 4 1 true)⟩ ∧
      descent_next false ex_mem ex_tree (5 : Nat) ex_cmp 1 = some 2) ∧
    (btree_search_body false ex_mem ex_tree (1 : Nat) ex_cmp ⟨1, 0, 0, ex_env⟩ =
        loop_ctl.ret (⟨grub_err_t.GRUB_ERR_NONE, some none, none⟩,
          trace_event ex_env (grub_event.read_node 4 1 true)) ∧
      descent_next false ex_mem ex_tree (1 : Nat) ex_cmp 1 = none) :=
  ⟨(btree_search_index_descent false ex_mem ex_tree (5 : Nat) ex_cmp ⟨1, 0, 0, ex_env⟩
      ex_index_node 1 (by decide) rfl rfl (by decide)
      (by
        intro i hi
        interval_cases i
        decide)
      (by
        intro h
        exact absurd h (by decide))).2 (by decide),
    (btree_search_index_descent false ex_mem ex_tree (1 : Nat) ex_cmp ⟨1, 0, 0, ex_env⟩
      ex_index_node 0 (by decide) rfl rfl (by decide)
      (by
        intro i hi
        exact absurd hi (by omega))
      (by
        intro _
        decide)).1 rfl⟩

/-! ## The keys of the overflow searches -/

/-- With no allocation failure to come, `grub_malloc` succeeds and only
extends the trace. -/
theorem grub_malloc_nil (env : grub_env) (h : env.mm = []) :
    grub_malloc env = (true, trace_event env (grub_event.malloc true)) := by
  unfold grub_malloc
  rw [h]

/-- Against a key with an empty name and the same parent id, a record compares
as its name length. -/
theorem cmp_catkey_empty (le : Bool) (keya : grub_hfsplus_catrecord)
    (keyb : grub_hfsplus_catkey_internal)
    (hpar : grub_be_to_cpu32 le keya.catkey.parent = keyb.parent)
    (hempty : keyb.namelen = 0) :
    grub_hfsplus_cmp_catkey le keya keyb = (grub_be_to_cpu16 le keya.catkey.namelen : Int) := by
  have hl := grub_be_to_cpu16_lt le keya.catkey.namelen
  unfold grub_hfsplus_cmp_catkey
  dsimp only
  rw [if_neg (by omega), if_neg (by omega), hempty]
  have hlen : (if grub_be_to_cpu16 le keya.catkey.namelen > 0 then 0
      else grub_be_to_cpu16 le keya.catkey.namelen) = 0 := by
    split_ifs <;> omega
  rw [hlen]
  simp only [List.range_zero, List.map_nil, List.flatMap_nil, List.take_zero, grub_memcmp,
    if_true]
  unfold to_int32
  norm_num
  omega

/-- The search for the empty-name key of a folder, in a tree whose root is a
leaf that starts with the folder's thread record: the match is record 0 of
the root. -/
theorem btree_search_thread_record (le : Bool)
    (btree : grub_hfsplus_btree grub_hfsplus_catrecord) (parent : Nat) (env : grub_env)
    (L : grub_hfsplus_btnode grub_hfsplus_catrecord)
    (hmm : env.mm = []) (hsize : btree.nodesize ≠ 0)
    (hroot : btree.read_node btree.root = Except.ok L)
    (hleaf : L.type = GRUB_HFSPLUS_BTNODE_TYPE_LEAF)
    (hcount : 1 ≤ grub_be_to_cpu16 le L.count)
    (hpar : grub_be_to_cpu32 le (L.recptr 0).catkey.parent = parent)
    (hname : grub_be_to_cpu16 le (L.recptr 0).catkey.namelen = 0) :
    ∀ sfuel, 1 ≤ sfuel →
      grub_hfsplus_btree_search le catrecord_mem sfuel btree
        (⟨parent, [], 0⟩ : grub_hfsplus_catkey_internal) (grub_hfsplus_cmp_catkey le) env
      = some (⟨grub_err_t.GRUB_ERR_NONE, some (some L), some 0⟩,
          trace_event (trace_event env (grub_event.malloc true))
            (grub_event.read_node btree.file.fileid btree.root true)) := by
  intro sfuel hs
  obtain ⟨f, rfl⟩ : ∃ f, sfuel = f + 1 := ⟨sfuel - 1, by omega⟩
  obtain ⟨c, hc⟩ : ∃ c, grub_be_to_cpu16 le L.count = c + 1 :=
    ⟨grub_be_to_cpu16 le L.count - 1, by omega⟩
  have hcmp : grub_hfsplus_cmp_catkey le (L.recptr 0) ⟨parent, [], 0⟩ = 0 := by
    rw [cmp_catkey_empty le (L.recptr 0) ⟨parent, [], 0⟩ hpar rfl, hname]
    rfl
  have hguard : (btree.root + (2 ^ 64 - 1)) % 2 ^ 64 ≠ btree.root := by
    omega
  have hb : btree_search_body le catrecord_mem btree
      (⟨parent, [], 0⟩ : grub_hfsplus_catkey_internal) (grub_hfsplus_cmp_catkey le)
      (btree_search_init btree (trace_event env (grub_event.malloc true)))
      = loop_ctl.ret (⟨grub_err_t.GRUB_ERR_NONE, some (some L), some 0⟩,
          trace_event (trace_event env (grub_event.malloc true))
            (grub_event.read_node btree.file.fileid btree.root true)) := by
    have hg : (btree_search_init btree (trace_event env (grub_event.malloc true))).save_node
        ≠ (btree_search_init btree (trace_event env (grub_event.malloc true))).currnode := hguard
    have hcur : (btree_search_init btree (trace_event env (grub_event.malloc true))).currnode
        = btree.root := rfl
    unfold btree_search_body
    rw [if_neg hg]
    simp only [hcur, hroot, hc, btree_search_records_succ, hleaf, hcmp, and_self, if_true]
    rfl
  unfold grub_hfsplus_btree_search
  rw [if_neg hsize, grub_malloc_nil env hmm]
  dsimp only
  rw [if_pos rfl, while_loop_succ, hb]

/-- One pass of the iteration loop in which the record hook stops the walk
returns 1 with what the hook left. -/
theorem btree_iterate_body_stop {R σ : Type} (le : Bool) (btree : grub_hfsplus_btree R)
    (hook : R → σ → grub_env → Int × σ × grub_env) (s : btree_iterate_state R σ)
    (h : (btree_iterate_visit le hook s).1 = true) :
    btree_iterate_body le btree hook s = loop_ctl.ret
      ⟨1, (btree_iterate_visit le hook s).2.1, (btree_iterate_visit le hook s).2.2⟩ := by
  unfold btree_iterate_body
  dsimp only
  rw [if_pos h]

/-! ## Symbolic links -/

/-- For a node whose size is below 2^63: when the allocation fails nothing is
read and the result is null; otherwise `grub_hfsplus_read_symlink` returns a
buffer exactly when the reader returns `node.size`, and the buffer then holds
the cells the reader left in `0 .. node.size - 1` followed by a NUL. -/
theorem read_symlink_in_range
    (read_file : grub_hfsplus_file → Nat → Nat → (Nat → Nat) → grub_env →
      grub_hfsplus_read_result)
    (uninit : Nat → Nat) (node : grub_hfsplus_file) (env : grub_env)
    (hsize : node.size < 2 ^ 63) :
    ((grub_malloc env).1 = false →
      grub_hfsplus_read_symlink read_file uninit node env = (none, (grub_malloc env).2)) ∧
    ((grub_malloc env).1 = true →
      (((grub_hfsplus_read_symlink read_file uninit node env).1.isSome = true ↔
          (read_file node 0 node.size uninit (grub_malloc env).2).numread = (node.size : Int)) ∧
        ((read_file node 0 node.size uninit (grub_malloc env).2).numread = (node.size : Int) →
          ∃ s, grub_hfsplus_read_symlink read_file uninit node env
              = (some s, (read_file node 0 node.size uninit (grub_malloc env).2).env) ∧
            symlink_cells s node.size
              = (List.range node.size).map
                  (read_file node 0 node.size uninit (grub_malloc env).2).buf ++ [0]) ∧
        ((read_file node 0 node.size uninit (grub_malloc env).2).numread ≠ (node.size : Int) →
          grub_hfsplus_read_symlink read_file uninit node env
            = (none, (read_file node 0 node.size uninit (grub_malloc env).2).env)))) := by
  have hs : to_ssize node.size = (node.size : Int) := by
    unfold to_ssize
    have h1 : node.size % 2 ^ 64 = node.size := Nat.mod_eq_of_lt (by omega)
    rw [h1, if_pos hsize]
  refine ⟨fun hm => ?_, fun hm => ?_⟩
  · unfold grub_hfsplus_read_symlink
    dsimp only
    rw [hm]
    rfl
  · have hyes : (read_file node 0 node.size uninit (grub_malloc env).2).numread
        = (node.size : Int) →
        grub_hfsplus_read_symlink read_file uninit node env
          = (some (fun i => if i = node.size then 0
                else (read_file node 0 node.size uninit (grub_malloc env).2).buf i),
              (read_file node 0 node.size uninit (grub_malloc env).2).env) := by
      intro h
      unfold grub_hfsplus_read_symlink
      dsimp only
      rw [hm, if_pos rfl, hs, if_neg (not_not.2 h)]
    have hno : (read_file node 0 node.size uninit (grub_malloc env).2).numread
        ≠ (node.size : Int) →
        grub_hfsplus_read_symlink read_file uninit node env
          = (none, (read_file node 0 node.size uninit (grub_malloc env).2).env) := by
      intro h
      unfold grub_hfsplus_read_symlink
      dsimp only
      rw [hm, if_pos rfl, hs, if_pos h]
    refine ⟨⟨fun h => ?_, fun h => ?_⟩, fun h => ⟨_, hyes h, ?_⟩, hno⟩
    · by_contra hne
      rw [hno hne] at h
      exact Bool.noConfusion h
    · rw [hyes h]
      rfl
    · unfold symlink_cells
      rw [List.range_succ, List.map_append, List.map_singleton, if_pos rfl]
      congr 1
      apply List.map_congr_left
      intro i hi
      have hlt := List.mem_range.1 hi
      exact if_neg (by omega)

/-- A link of size 5 whose content is "a/b/c": the result is "a/b/c"
followed by NUL; a read that stops after 3 bytes, or fails, gives null. -/
theorem read_symlink_five_bytes :
    (∃ s, (grub_hfsplus_read_symlink (ex_reader [97, 47, 98, 47, 99]) (fun _ => 170)
          ex_symlink ex_env).1 = some s ∧
        symlink_cells s 5 = [97, 47, 98, 47, 99, 0]) ∧
    (grub_hfsplus_read_symlink (ex_reader [97, 47, 98]) (fun _ => 170)
      ex_symlink ex_env).1 = none ∧
    (grub_hfsplus_read_symlink ex_failing_reader (fun _ => 170) ex_symlink ex_env).1 = none :=
  ⟨⟨_, rfl, by decide⟩, rfl, rfl⟩

/-- **C21.** Evaluation of `grub_hfsplus_read_symlink` on a node of size
`0xffffffffffffffff` when the read fails: `node->size + 1` wraps to an
allocation of 0 bytes, the size converts to the `grub_ssize_t` value -1, the
reader returns -1 and stores nothing, and the function returns a buffer
instead of null, with a NUL stored at index `0xffffffffffffffff`. -/
theorem read_symlink_failed_read_accepted :
    read_symlink_bufsize ex_huge_symlink = 0 ∧
    to_ssize ex_huge_symlink.size = -1 ∧
    (ex_failing_reader ex_huge_symlink 0 ex_huge_symlink.size (fun _ => 170)
      (grub_malloc ex_env).2).numread = -1 ∧
    (ex_failing_reader ex_huge_symlink 0 ex_huge_symlink.size (fun _ => 170)
      (grub_malloc ex_env).2).numread ≠ (ex_huge_symlink.size : Int) ∧
    grub_hfsplus_read_symlink ex_failing_reader (fun _ => 170) ex_huge_symlink ex_env
      = (some (fun i => if i = 0xffffffffffffffff then 0 else 170),
          trace_event ex_env (grub_event.malloc true)) := by
  refine ⟨by decide, by decide, rfl, by decide, ?_⟩
  unfold grub_hfsplus_read_symlink
  rfl


/-! ## Mounting: the block size -/

/-- On a block size `2 ^ k` with `k <= 31` the loop that computes
`log2blksize` counts up to `k` and stops there by its condition, having
evaluated the shifts by `l, l + 1, ..., k`. -/
theorem mount_log2blksize_two_pow (k : Nat) (hk : k ≤ 31) :
    ∀ (fuel l : Nat), l ≤ k → k - l < fuel →
      mount_log2blksize (2 ^ k) fuel l = k ∧
      mount_log2blksize_shifts (2 ^ k) fuel l = List.range' l (k + 1 - l) := by
  intro fuel
  induction fuel with
  | zero => intro l _ h; omega
  | succ f ih =>
    intro l hl hf
    have hl32 : (2 : Nat) ^ l < 2 ^ 32 := Nat.pow_lt_pow_right (by norm_num) (by omega)
    have hmod : 2 ^ l % 2 ^ 32 = 2 ^ l := Nat.mod_eq_of_lt hl32
    by_cases hlk : l = k
    · subst hlk
      have hnot : ¬ (2 ^ l % 2 ^ 32 < 2 ^ l) := by rw [hmod]; omega
      have e1 : l + 1 - l = 1 := by omega
      constructor
      · show (if 2 ^ l % 2 ^ 32 < 2 ^ l then mount_log2blksize (2 ^ l) f (l + 1) else l) = l
        rw [if_neg hnot]
      · show l :: (if 2 ^ l % 2 ^ 32 < 2 ^ l then
          mount_log2blksize_shifts (2 ^ l) f (l + 1) else []) = _
        rw [if_neg hnot, e1]
        rfl
    · have hlt : l < k := by omega
      have hyes : 2 ^ l % 2 ^ 32 < 2 ^ k := by
        rw [hmod]
        exact Nat.pow_lt_pow_right (by norm_num) hlt
      obtain ⟨h1, h2⟩ := ih (l + 1) (by omega) (by omega)
      have e1 : k + 1 - l = (k + 1 - (l + 1)) + 1 := by omega
      constructor
      · show (if 2 ^ l % 2 ^ 32 < 2 ^ k then mount_log2blksize (2 ^ k) f (l + 1) else l) = k
        rw [if_pos hyes, h1]
      · show l :: (if 2 ^ l % 2 ^ 32 < 2 ^ k then
          mount_log2blksize_shifts (2 ^ k) f (l + 1) else []) = _
        rw [if_pos hyes, h2, e1, List.range'_succ]

/-- A volume header that passes the validation of `grub_hfsplus_mount` has a
decoded block size `2 ^ k` with `9 <= k <= 31`. -/
theorem mount_accepted_blksize (le : Bool) (vh : grub_hfsplus_volheader)
    (hb : vh.blksize < 4294967296) (hacc : mount_header_rejected le vh = false) :
    ∃ k, 9 ≤ k ∧ k ≤ 31 ∧ grub_be_to_cpu32 le vh.blksize = 2 ^ k := by
  have hdec := grub_be_to_cpu32_lt le vh.blksize
  have hraw := land_pred_ne_zero_iff vh.blksize hb
  obtain ⟨_, hp⟩ := raw_tests_agree le vh.blksize hb
  unfold mount_header_rejected at hacc
  simp only [decide_eq_false_iff_not, not_or, not_lt] at hacc
  obtain ⟨_, h0, hpow, hsz⟩ := hacc
  have hpow2 : ∃ k, vh.blksize = 2 ^ k := by
    by_contra hno
    exact hpow (hraw.2 ⟨h0, hno⟩)
  obtain ⟨k, hk⟩ := hp.1 hpow2
  have hk32 : k < 32 := by
    rw [← two_pow_lt_iff, ← hk]
    exact hdec
  have hk9 : 9 ≤ k := by
    by_contra hlt
    have h8 : k ≤ 8 := by omega
    have : (2 : Nat) ^ k ≤ 2 ^ 8 := Nat.pow_le_pow_right (by norm_num) h8
    rw [hk] at hsz
    unfold GRUB_DISK_SECTOR_SIZE at hsz
    omega
  exact ⟨k, hk9, by omega, hk⟩


/-- A mount that returns a volume allocated it, read a header that passed the
validation, and got the volume from the tree stage. -/
theorem mount_some_inv {CatR ExtR AttrR : Type} (le : Bool)
    (disk : grub_disk CatR ExtR AttrR) (uninit : grub_hfsplus_file) (env env1 : grub_env)
    (data : grub_hfsplus_data CatR ExtR AttrR)
    (h : grub_hfsplus_mount le disk uninit env = (some data, env1)) :
    (grub_malloc env).1 = true ∧
    ∃ embedded_offset vh env0,
      mount_read_volheader le disk (grub_malloc env).2
        = Except.ok (embedded_offset, vh, env0) ∧
      mount_header_rejected le vh = false ∧
      mount_trees le disk uninit embedded_offset vh env0 = (some data, env1) := by
  have hfail : ∀ (e : grub_env),
      @mount_fail (grub_hfsplus_data CatR ExtR AttrR) e ≠ (some data, env1) := by
    intro e h1
    have := (@mount_fail_spec (grub_hfsplus_data CatR ExtR AttrR) e).1
    rw [h1] at this
    cases this
  by_cases hm : (grub_malloc env).1 = true
  · refine ⟨hm, ?_⟩
    rw [mount_of_alloc le disk uninit env hm] at h
    split at h
    · exact absurd h (hfail _)
    · rename_i embedded_offset vh env0 heq
      by_cases hr : mount_header_rejected le vh = true
      · rw [if_pos hr] at h
        exact absurd h (hfail _)
      · rw [if_neg hr] at h
        exact ⟨embedded_offset, vh, env0, heq, by simpa using hr, h⟩
  · unfold grub_hfsplus_mount at h
    dsimp only at h
    rw [if_neg hm] at h
    cases h

/-- The volume that the tree stage of the mount returns: its header, offset
and `log2blksize`, and its `case_sensitive` flag in terms of the catalog
header that was read. -/
theorem mount_trees_some_fields {CatR ExtR AttrR : Type} (le : Bool)
    (disk : grub_disk CatR ExtR AttrR) (uninit : grub_hfsplus_file) (embedded_offset : Nat)
    (vh : grub_hfsplus_volheader) (env env1 : grub_env)
    (data : grub_hfsplus_data CatR ExtR AttrR)
    (h : mount_trees le disk uninit embedded_offset vh env = (some data, env1)) :
    data.volheader = vh ∧ data.embedded_offset = embedded_offset ∧
    data.log2blksize = mount_log2blksize (grub_be_to_cpu32 le vh.blksize) 32 0 ∧
    data.catalog_tree.file
      = mount_tree_file le uninit GRUB_HFSPLUS_FILEID_CATALOG vh.catalog_file ∧
    ∃ cat_header,
      disk.read_btheader data.catalog_tree.file data.embedded_offset data.log2blksize
        = Except.ok cat_header ∧
      data.case_sensitive = decide (grub_be_to_cpu16 le vh.magic = GRUB_HFSPLUSX_MAGIC ∧
        cat_header.key_compare = GRUB_HFSPLUSX_BINARYCOMPARE) := by
  have hf : ∀ e : grub_env,
      @mount_fail (grub_hfsplus_data CatR ExtR AttrR) e ≠ (some data, env1) := by
    intro e h1
    have := (@mount_fail_spec (grub_hfsplus_data CatR ExtR AttrR) e).1
    rw [h1] at this
    cases this
  unfold mount_trees at h
  dsimp only at h
  split at h
  · exact absurd h (hf _)
  · rename_i cat_header hcat
    split at h
    · exact absurd h (hf _)
    · split at h
      · exact absurd h (hf _)
      · simp only [Prod.mk.injEq, Option.some.injEq] at h
        rw [← h.1]
        exact ⟨rfl, rfl, rfl, rfl, cat_header, hcat, rfl⟩

/-- **C31.** For a volume header whose `blksize` field (a 32-bit value)
passes the validation of `grub_hfsplus_mount`, there is `L` with
`2 ^ L` = the decoded block size and `9 <= L <= 31` such that
* the loop `for (log2blksize = 0; (1U << log2blksize) < blksize; log2blksize++)`
  ends by its condition with `log2blksize = L`, whatever the number of
  iterations allowed from 32 on;
* the shift counts it evaluates are `0, 1, ..., L`, all below 32;
* `L - GRUB_DISK_SECTOR_BITS`, the value handed to the block reader, is not
  negative;
* a volume that `grub_hfsplus_mount` returns with this header has
  `log2blksize = L`. -/
theorem mount_log2blksize_exact {CatR ExtR AttrR : Type} (le : Bool)
    (vh : grub_hfsplus_volheader)
    (hb : vh.blksize < 4294967296) (hacc : mount_header_rejected le vh = false) :
    ∃ L, 2 ^ L = grub_be_to_cpu32 le vh.blksize ∧ 9 ≤ L ∧ L ≤ 31 ∧
      (∀ fuel, 32 ≤ fuel →
        mount_log2blksize (grub_be_to_cpu32 le vh.blksize) fuel 0 = L ∧
        mount_log2blksize_shifts (grub_be_to_cpu32 le vh.blksize) fuel 0
          = List.range (L + 1) ∧
        ∀ s, s ∈ mount_log2blksize_shifts (grub_be_to_cpu32 le vh.blksize) fuel 0 →
          s < 32) ∧
      GRUB_DISK_SECTOR_BITS ≤ L ∧
      ((L : Int) - (GRUB_DISK_SECTOR_BITS : Int) = ((L - GRUB_DISK_SECTOR_BITS : Nat) : Int)) ∧
      ∀ (disk : grub_disk CatR ExtR AttrR) (uninit : grub_hfsplus_file) (env env1 : grub_env)
        (data : grub_hfsplus_data CatR ExtR AttrR),
        grub_hfsplus_mount le disk uninit env = (some data, env1) →
        data.volheader = vh → data.log2blksize = L := by
  obtain ⟨k, hk9, hk31, hk⟩ := mount_accepted_blksize le vh hb hacc
  have hloop : ∀ fuel, 32 ≤ fuel →
      mount_log2blksize (grub_be_to_cpu32 le vh.blksize) fuel 0 = k ∧
      mount_log2blksize_shifts (grub_be_to_cpu32 le vh.blksize) fuel 0
        = List.range (k + 1) := by
    intro fuel hf
    obtain ⟨h1, h2⟩ := mount_log2blksize_two_pow k hk31 fuel 0 (by omega) (by omega)
    rw [hk]
    refine ⟨h1, ?_⟩
    rw [h2, List.range_eq_range']
    rfl
  have h9 : GRUB_DISK_SECTOR_BITS ≤ k := hk9
  refine ⟨k, hk.symm, hk9, hk31, ?_, h9, ?_, ?_⟩
  · intro fuel hf
    obtain ⟨h1, h2⟩ := hloop fuel hf
    refine ⟨h1, h2, ?_⟩
    intro s hs
    rw [h2] at hs
    have := List.mem_range.1 hs
    omega
  · omega
  · intro disk uninit env env1 data hmount hvh
    obtain ⟨_, off, vh1, env0, _, _, htrees⟩ := mount_some_inv le disk uninit env env1 data hmount
    obtain ⟨e1, _, e3, _⟩ := mount_trees_some_fields le disk uninit off vh1 env0 env1 data htrees
    rw [e3, ← e1, hvh]
    exact (hloop 32 (by omega)).1


/-- Instance of C31 on `ex_volheader` (little-endian host): the raw field
`0x00100000` decodes to 4096, the loop ends with `log2blksize = 12`, and the
volume mounted from `ex_disk` carries 12. -/
theorem mount_log2blksize_exact_witness :
    mount_log2blksize (grub_be_to_cpu32 true ex_volheader.blksize) 32 0 = 12 ∧
    (grub_hfsplus_mount true (ex_disk grub_err_t.GRUB_ERR_NONE true) (ex_file 0) ex_env).1.map
      (fun d => d.log2blksize) = some 12 ∧
    ∃ L, 2 ^ L = grub_be_to_cpu32 true ex_volheader.blksize ∧ 9 ≤ L ∧ L ≤ 31 ∧
      (∀ fuel, 32 ≤ fuel →
        mount_log2blksize (grub_be_to_cpu32 true ex_volheader.blksize) fuel 0 = L ∧
        mount_log2blksize_shifts (grub_be_to_cpu32 true ex_volheader.blksize) fuel 0
          = List.range (L + 1) ∧
        ∀ s, s ∈ mount_log2blksize_shifts (grub_be_to_cpu32 true ex_volheader.blksize) fuel 0 →
          s < 32) ∧
      GRUB_DISK_SECTOR_BITS ≤ L ∧
      ((L : Int) - (GRUB_DISK_SECTOR_BITS : Int) = ((L - GRUB_DISK_SECTOR_BITS : Nat) : Int)) ∧
      ∀ (disk : grub_disk Nat Nat Nat) (uninit : grub_hfsplus_file) (env env1 : grub_env)
        (data : grub_hfsplus_data Nat Nat Nat),
        grub_hfsplus_mount true disk uninit env = (some data, env1) →
        data.volheader = ex_volheader → data.log2blksize = L :=
  ⟨by decide, by decide,
    mount_log2blksize_exact true ex_volheader (by decide) (by decide)⟩

/-! ## Mounting: the case-sensitivity flag -/

/-- **C32.** Every volume that `grub_hfsplus_mount` returns was set up from a
catalog B-tree header that was read, and its `case_sensitive` flag is true if
and only if the decoded magic of its volume header is `GRUB_HFSPLUSX_MAGIC`
and the key-compare byte of that catalog header is
`GRUB_HFSPLUSX_BINARYCOMPARE` (0xBC).  So a volume with the magic
`GRUB_HFSPLUS_MAGIC` is not case-sensitive whatever the byte, and an HFSX
volume with the byte `GRUB_HFSPLUSX_CASEFOLDING` (0xCF) is not
case-sensitive. -/
theorem mount_case_sensitive {CatR ExtR AttrR : Type} (le : Bool)
    (disk : grub_disk CatR ExtR AttrR) (uninit : grub_hfsplus_file) (env env1 : grub_env)
    (data : grub_hfsplus_data CatR ExtR AttrR)
    (h : grub_hfsplus_mount le disk uninit env = (some data, env1)) :
    ∃ cat_header,
      disk.read_btheader data.catalog_tree.file data.embedded_offset data.log2blksize
        = Except.ok cat_header ∧
      data.catalog_tree.file.fileid = GRUB_HFSPLUS_FILEID_CATALOG ∧
      (data.case_sensitive = true ↔
        (grub_be_to_cpu16 le data.volheader.magic = GRUB_HFSPLUSX_MAGIC ∧
          cat_header.key_compare = 0xBC)) ∧
      (grub_be_to_cpu16 le data.volheader.magic = GRUB_HFSPLUS_MAGIC →
        data.case_sensitive = false) ∧
      (grub_be_to_cpu16 le data.volheader.magic = GRUB_HFSPLUSX_MAGIC →
        cat_header.key_compare = 0xCF → data.case_sensitive = false) := by
  obtain ⟨_, off, vh, env0, _, _, htrees⟩ := mount_some_inv le disk uninit env env1 data h
  obtain ⟨e1, _, _, e4, cat_header, hcat, hcs⟩ :=
    mount_trees_some_fields le disk uninit off vh env0 env1 data htrees
  have hiff : data.case_sensitive = true ↔
      (grub_be_to_cpu16 le data.volheader.magic = GRUB_HFSPLUSX_MAGIC ∧
        cat_header.key_compare = 0xBC) := by
    rw [hcs, e1, decide_eq_true_iff]
    rfl
  refine ⟨cat_header, hcat, by rw [e4]; rfl, hiff, ?_, ?_⟩
  · intro hmagic
    cases hc : data.case_sensitive
    · rfl
    · have := (hiff.1 hc).1
      rw [hmagic] at this
      exact absurd this (by decide)
  · intro _ hcf
    cases hc : data.case_sensitive
    · rfl
    · have := (hiff.1 hc).2
      rw [hcf] at this
      exact absurd this (by decide)

/-- Instance of C32 (little-endian host): the HFSX volume with key-compare
byte 0xBC mounts as `ex_hfsx_data`, case-sensitive; the one with 0xCF does not
mount case-sensitive, and neither does the HFS+ volume of `ex_disk`. -/
theorem mount_case_sensitive_witness :
    (grub_hfsplus_mount true (ex_hfsx_disk 0xCF) (ex_file 0) ex_env).1.map
      (fun d => d.case_sensitive) = some false ∧
    (grub_hfsplus_mount true (ex_disk grub_err_t.GRUB_ERR_NONE true) (ex_file 0) ex_env).1.map
      (fun d => d.case_sensitive) = some false ∧
    ex_hfsx_data.case_sensitive = true ∧
    ∃ cat_header,
      (ex_hfsx_disk 0xBC).read_btheader ex_hfsx_data.catalog_tree.file
          ex_hfsx_data.embedded_offset ex_hfsx_data.log2blksize
        = Except.ok cat_header ∧
      ex_hfsx_data.catalog_tree.file.fileid = GRUB_HFSPLUS_FILEID_CATALOG ∧
      (ex_hfsx_data.case_sensitive = true ↔
        (grub_be_to_cpu16 true ex_hfsx_data.volheader.magic = GRUB_HFSPLUSX_MAGIC ∧
          cat_header.key_compare = 0xBC)) ∧
      (grub_be_to_cpu16 true ex_hfsx_data.volheader.magic = GRUB_HFSPLUS_MAGIC →
        ex_hfsx_data.case_sensitive = false) ∧
      (grub_be_to_cpu16 true ex_hfsx_data.volheader.magic = GRUB_HFSPLUSX_MAGIC →
        cat_header.key_compare = 0xCF → ex_hfsx_data.case_sensitive = false) :=
  ⟨rfl, rfl, rfl,
    mount_case_sensitive true (ex_hfsx_disk 0xBC) (ex_file 0) ex_env _ ex_hfsx_data rfl⟩


/-! ## Mounting: an HFS wrapper without an embedded volume -/

/-- **C39.** The volume allocated and the boot-block read leaving no error:
if the boot block carries the HFS wrapper magic and its embedded signature
does not decode to `GRUB_HFSPLUS_MAGIC`, then, whatever else the boot block
and the device hold, `grub_hfsplus_mount` returns no volume and leaves
`GRUB_ERR_BAD_FS` ("not a HFS+ filesystem"), and the only disk read of the
call is the one of the boot block: no volume header is read again. -/
theorem mount_wrapper_without_hfsplus {CatR ExtR AttrR : Type} (le : Bool)
    (disk : grub_disk CatR ExtR AttrR) (uninit : grub_hfsplus_file) (env env1 : grub_env)
    (hm : (grub_malloc env).1 = true)
    (he1 : env1 = read_failed
      (trace_event (grub_malloc env).2 (grub_event.disk_read GRUB_HFSPLUS_SBLOCK))
      (disk.read_volheader GRUB_HFSPLUS_SBLOCK).1)
    (hboot : env1.grub_errno = grub_err_t.GRUB_ERR_NONE)
    (hmagic : grub_be_to_cpu16 le (disk.read_volheader GRUB_HFSPLUS_SBLOCK).2.hfs.magic
      = GRUB_HFS_MAGIC)
    (hsig : grub_be_to_cpu16 le (disk.read_volheader GRUB_HFSPLUS_SBLOCK).2.hfs.embed_sig
      ≠ GRUB_HFSPLUS_MAGIC) :
    ∃ env2, grub_hfsplus_mount le disk uninit env = (none, env2) ∧
      env2.grub_errno = grub_err_t.GRUB_ERR_BAD_FS ∧
      env2.grub_errmsg = grub_errmsg.not_hfsplus ∧
      env2.trace = (grub_malloc env).2.trace ++ [grub_event.disk_read GRUB_HFSPLUS_SBLOCK] := by
  have hmount : grub_hfsplus_mount le disk uninit env
      = mount_fail (grub_error env1 grub_err_t.GRUB_ERR_BAD_FS grub_errmsg.not_hfsplus).2 := by
    rw [mount_of_alloc le disk uninit env hm]
    unfold mount_read_volheader
    dsimp only
    rw [← he1, if_neg (not_not.2 hboot), if_pos hmagic, if_pos hsig]
  have hne : (grub_error env1 grub_err_t.GRUB_ERR_BAD_FS grub_errmsg.not_hfsplus).2.grub_errno
      ≠ grub_err_t.GRUB_ERR_OUT_OF_RANGE := by
    show grub_err_t.GRUB_ERR_BAD_FS ≠ grub_err_t.GRUB_ERR_OUT_OF_RANGE
    decide
  refine ⟨(grub_error env1 grub_err_t.GRUB_ERR_BAD_FS grub_errmsg.not_hfsplus).2, ?_,
    rfl, rfl, ?_⟩
  · rw [hmount]
    unfold mount_fail
    rw [if_neg hne]
  · rw [he1]
    rfl

/-- Instance of C39 on `ex_plain_hfs_disk` (little-endian host): the mount
fails with `GRUB_ERR_BAD_FS` after the one read of sector 2, although the
boot block read as an HFS+ header would validate. -/
theorem mount_wrapper_without_hfsplus_witness :
    grub_hfsplus_mount true ex_plain_hfs_disk (ex_file 0) ex_env
      = (none, ⟨grub_err_t.GRUB_ERR_BAD_FS, grub_errmsg.not_hfsplus, [],
          [grub_event.malloc true, grub_event.disk_read 2]⟩) ∧
    mount_header_rejected true (ex_plain_hfs_disk.read_volheader 2).2.hfsplus = false ∧
    ∃ env2, grub_hfsplus_mount true ex_plain_hfs_disk (ex_file 0) ex_env = (none, env2) ∧
      env2.grub_errno = grub_err_t.GRUB_ERR_BAD_FS ∧
      env2.grub_errmsg = grub_errmsg.not_hfsplus ∧
      env2.trace = (grub_malloc ex_env).2.trace ++ [grub_event.disk_read GRUB_HFSPLUS_SBLOCK] :=
  ⟨rfl, by decide,
    mount_wrapper_without_hfsplus true ex_plain_hfs_disk (ex_file 0) ex_env _ rfl rfl rfl
      (by decide) (by decide)⟩


/-! ## The scan of one extent list: hits and the not-found value -/

/-- **C38.** For every array of 8 extents and every block number `b`:
* if the scan hits in extent `i` (the first index whose running total of
  decoded counts exceeds `b`), `grub_hfsplus_find_block` returns
  `start_i + remaining` with `remaining` = `b` less the counts before `i`;
  `start_i` and `remaining` are below 2^32, so the result is below 2^33 and
  is not `0xffffffffffffffff`;
* the function returns `0xffffffffffffffff` only on a miss (the 8 counts
  total at most `b`);
* each count was subtracted from a value not below it: on a miss the value
  written back plus the 8 counts is exactly `b`, and in every case the value
  of `*fileblock` afterwards is at most `b`. -/
theorem find_block_hit_not_sentinel (le : Bool) (extent : grub_hfsplus_extents) (b : Nat) :
    (∀ (i : Nat) (e : grub_hfsplus_extent), extent.toList[i]? = some e →
      b < extent_list_total le (extent.toList.take (i + 1)) →
      (∀ j, j < i → extent_list_total le (extent.toList.take (j + 1)) ≤ b) →
      grub_be_to_cpu32 le e.start < 2 ^ 32 ∧
      extent_list_total le (extent.toList.take i) ≤ b ∧
      b - extent_list_total le (extent.toList.take i) < grub_be_to_cpu32 le e.count ∧
      b - extent_list_total le (extent.toList.take i) < 2 ^ 32 ∧
      (grub_hfsplus_find_block le extent b).1
        = grub_be_to_cpu32 le e.start + (b - extent_list_total le (extent.toList.take i)) ∧
      (grub_hfsplus_find_block le extent b).1 < 2 ^ 33 ∧
      (grub_hfsplus_find_block le extent b).1 ≠ 0xffffffffffffffff) ∧
    ((grub_hfsplus_find_block le extent b).1 = 0xffffffffffffffff ↔
      extents_total le extent ≤ b) ∧
    (extents_total le extent ≤ b →
      (grub_hfsplus_find_block le extent b).2 + extents_total le extent = b) ∧
    (grub_hfsplus_find_block le extent b).2 ≤ b := by
  obtain ⟨hhit, hmiss⟩ := grub_hfsplus_find_block_spec le extent b
  refine ⟨?_, ?_, ?_, ?_⟩
  · intro i e hi hlt hmin
    have h := find_block_loop_index le extent.toList b i e hi hlt hmin
    have hs := grub_be_to_cpu32_lt le e.start
    have hc := grub_be_to_cpu32_lt le e.count
    have htake : extent_list_total le (extent.toList.take (i + 1))
        = extent_list_total le (extent.toList.take i) + grub_be_to_cpu32 le e.count := by
      rw [List.take_succ, hi]
      simp [extent_list_total]
    have hprev : extent_list_total le (extent.toList.take i) ≤ b := by
      rcases Nat.eq_zero_or_pos i with h0 | hpos
      · subst h0
        simp [extent_list_total]
      · have := hmin (i - 1) (by omega)
        have e1 : i - 1 + 1 = i := by omega
        rw [e1] at this
        exact this
    have hval : (grub_hfsplus_find_block le extent b).1
        = grub_be_to_cpu32 le e.start + (b - extent_list_total le (extent.toList.take i)) := by
      unfold grub_hfsplus_find_block
      rw [h]
    refine ⟨by omega, hprev, by omega, by omega, hval, ?_, ?_⟩
    · rw [hval]; omega
    · rw [hval]; omega
  · constructor
    · intro hs
      by_contra hlt
      obtain ⟨blk, e1, _, e3⟩ := hhit (not_le.1 hlt)
      rw [e1] at hs
      exact e3 hs
    · intro hle
      rw [hmiss hle]
  · intro hle
    rw [hmiss hle]
    show b - extents_total le extent + extents_total le extent = b
    omega
  · by_cases hle : extents_total le extent ≤ b
    · rw [hmiss hle]
      show b - extents_total le extent ≤ b
      omega
    · obtain ⟨blk, e1, _, _⟩ := hhit (not_le.1 hle)
      rw [e1]

/-- Instance of C38 on `ex_two_extents`, the extents (100, 4), (200, 3),
(0, 0), ... of a big-endian host: block 5 hits in extent 1 with 1 block
remaining and resolves to 201; block 9 misses and leaves 2. -/
theorem find_block_hit_not_sentinel_witness :
    grub_hfsplus_find_block false ex_two_extents 9 = (0xffffffffffffffff, 2) ∧
    grub_hfsplus_find_block false ex_two_extents 5 = (201, 5) ∧
    (grub_be_to_cpu32 false 200 < 2 ^ 32 ∧
      extent_list_total false (ex_two_extents.toList.take 1) ≤ 5 ∧
      5 - extent_list_total false (ex_two_extents.toList.take 1) < grub_be_to_cpu32 false 3 ∧
      5 - extent_list_total false (ex_two_extents.toList.take 1) < 2 ^ 32 ∧
      (grub_hfsplus_find_block false ex_two_extents 5).1
        = grub_be_to_cpu32 false 200
          + (5 - extent_list_total false (ex_two_extents.toList.take 1)) ∧
      (grub_hfsplus_find_block false ex_two_extents 5).1 < 2 ^ 33 ∧
      (grub_hfsplus_find_block false ex_two_extents 5).1 ≠ 0xffffffffffffffff) :=
  ⟨by decide, by decide,
    (find_block_hit_not_sentinel false ex_two_extents 5).1
      1 ⟨200, 3⟩ rfl (by decide) (by
        intro j hj
        have h0 : j = 0 := by omega
        subst h0
        decide)⟩


/-! ## The code units handed to the UTF-8 conversion -/

/-- When the first name loop of `list_nodes` runs to its end, the sequence of
cells then handed to the conversion to UTF-8 is as long as the on-disk name,
holds neither `/` nor NUL, and holds at every position the decoded on-disk
unit, `:` standing for `/`. -/
theorem list_nodes_swap_name_clean (le : Bool) (k : grub_hfsplus_catkey)
    (h : (list_nodes_swap_name le k.name (grub_be_to_cpu16 le k.namelen) 0).2 = false) :
    ((List.range (grub_be_to_cpu16 le k.namelen)).map
        (list_nodes_swap_name le k.name (grub_be_to_cpu16 le k.namelen) 0).1).length
      = grub_be_to_cpu16 le k.namelen ∧
    (∀ u, u ∈ (List.range (grub_be_to_cpu16 le k.namelen)).map
        (list_nodes_swap_name le k.name (grub_be_to_cpu16 le k.namelen) 0).1 →
      u ≠ 47 ∧ u ≠ 0) ∧
    ∀ i, i < grub_be_to_cpu16 le k.namelen →
      ((List.range (grub_be_to_cpu16 le k.namelen)).map
        (list_nodes_swap_name le k.name (grub_be_to_cpu16 le k.namelen) 0).1)[i]?
        = some (if grub_be_to_cpu16 le (k.name i) = 47 then 58
            else grub_be_to_cpu16 le (k.name i)) := by
  have hnul : ¬ catkey_has_nul le k := by
    intro hn
    rw [(list_nodes_swap_name_nul le k).2 hn] at h
    cases h
  have hcell : ∀ i, i < grub_be_to_cpu16 le k.namelen →
      (list_nodes_swap_name le k.name (grub_be_to_cpu16 le k.namelen) 0).1 i
        = (if grub_be_to_cpu16 le (k.name i) = 47 then 58
            else grub_be_to_cpu16 le (k.name i)) := by
    intro i hi
    have e : 0 ≤ i ∧ i < 0 + grub_be_to_cpu16 le k.namelen := by omega
    rw [list_nodes_swap_name_cells le _ _ _ h i, if_pos e]
  refine ⟨by simp, ?_, ?_⟩
  · intro u hu
    obtain ⟨i, hi, rfl⟩ := List.mem_map.1 hu
    have hi2 := List.mem_range.1 hi
    rw [hcell i hi2]
    have h0 : grub_be_to_cpu16 le (k.name i) ≠ 0 := fun h0 => hnul ⟨i, hi2, h0⟩
    by_cases h47 : grub_be_to_cpu16 le (k.name i) = 47
    · rw [if_pos h47]
      exact ⟨by decide, by decide⟩
    · rw [if_neg h47]
      exact ⟨h47, h0⟩
  · intro i hi
    rw [List.getElem?_map, List.getElem?_range hi, Option.map_some', hcell i hi]

/-- Every visitor call of the entry part of `list_nodes` passes the name that
`utf8` makes of the cells left by the first name loop, which ran to its end. -/
theorem list_nodes_entry_trace_units {τ : Type} (le : Bool) (case_sensitive : Bool)
    (utf8 : List Nat → List Nat) (uninit : grub_hfsplus_file)
    (hook : List Nat → Nat → grub_hfsplus_file → τ → Int × τ)
    (catkey : grub_hfsplus_catkey) (fileinfo : (Nat → Nat) → grub_hfsplus_catfile) (type : Nat)
    (ctx : list_nodes_ctx τ) (env : grub_env) :
    trace_ext
      (fun ev => ∀ (filename : List Nat) (filetype : Nat) (node : grub_hfsplus_file),
        ev = grub_event.hook filename filetype node →
        (list_nodes_swap_name le catkey.name (grub_be_to_cpu16 le catkey.namelen) 0).2 = false ∧
        filename = utf8 ((List.range (grub_be_to_cpu16 le catkey.namelen)).map
          (list_nodes_swap_name le catkey.name (grub_be_to_cpu16 le catkey.namelen) 0).1))
      env
      (list_nodes_entry le case_sensitive utf8 uninit hook catkey fileinfo type ctx env).2.2 := by
  by_cases hnul : catkey_has_nul le catkey
  · rw [list_nodes_entry_nul le case_sensitive utf8 uninit hook catkey fileinfo type ctx env
      hnul]
    exact trace_ext_malloc _ env (fun _ _ _ _ h => by cases h)
  · have hs : (list_nodes_swap_name le catkey.name
        (grub_be_to_cpu16 le catkey.namelen) 0).2 = false := by
      cases h : (list_nodes_swap_name le catkey.name (grub_be_to_cpu16 le catkey.namelen) 0).2
      · rfl
      · exact absurd ((list_nodes_swap_name_nul le catkey).1 h) hnul
    refine trace_ext_mono _ _ _ _ ?_
      (list_nodes_entry_trace le case_sensitive utf8 uninit hook catkey fileinfo type ctx env)
    intro ev hev filename filetype node he
    have h1 := hev (by rw [he]; rfl)
    rw [he] at h1
    injection h1 with hname _ _
    refine ⟨hs, ?_⟩
    rw [hname, list_nodes_swap_name_units le catkey hs]

/-- **C37.** In every visitor call that `list_nodes` makes for a file or
directory record (any record that is not a folder thread), the name passed
is the conversion to UTF-8 of a sequence of code units, the name cells of
the record as the first name loop left them, that
* has the length of the on-disk name (its decoded `namelen`);
* holds no unit `/` (0x002F) and no unit 0x0000;
* holds at every position the on-disk unit decoded from big-endian, except
  that `:` (0x003A) stands where the on-disk unit is `/`. -/
theorem list_nodes_units_clean {τ : Type} (le : Bool) (case_sensitive : Bool)
    (utf8 : List Nat → List Nat) (uninit dir : grub_hfsplus_file)
    (hook : List Nat → Nat → grub_hfsplus_file → τ → Int × τ)
    (record : grub_hfsplus_catrecord) (ctx : list_nodes_ctx τ) (env : grub_env)
    (hthread : grub_be_to_cpu16 le (catrecord_fileinfo le record).type
      ≠ GRUB_HFSPLUS_FILETYPE_DIR_THREAD) :
    trace_ext
      (fun ev => ∀ (filename : List Nat) (filetype : Nat) (node : grub_hfsplus_file),
        ev = grub_event.hook filename filetype node →
        ∃ units : List Nat,
          units = (List.range (grub_be_to_cpu16 le record.catkey.namelen)).map
            (list_nodes_swap_name le record.catkey.name
              (grub_be_to_cpu16 le record.catkey.namelen) 0).1 ∧
          filename = utf8 units ∧
          units.length = grub_be_to_cpu16 le record.catkey.namelen ∧
          (∀ u, u ∈ units → u ≠ 47 ∧ u ≠ 0) ∧
          ∀ i, i < grub_be_to_cpu16 le record.catkey.namelen →
            units[i]? = some (if grub_be_to_cpu16 le (record.catkey.name i) = 47 then 58
              else grub_be_to_cpu16 le (record.catkey.name i)))
      env (list_nodes le case_sensitive utf8 uninit dir hook record ctx env).2.2 := by
  by_cases hpar : grub_be_to_cpu32 le record.catkey.parent = dir.fileid
  · rw [list_nodes_of_parent le case_sensitive utf8 uninit dir hook record ctx env hpar,
      if_neg hthread]
    by_cases hu : list_nodes_filetype le (catrecord_fileinfo le record) = GRUB_FSHELP_UNKNOWN
    · rw [if_pos hu]
      exact trace_ext_refl _ _
    · rw [if_neg hu]
      refine trace_ext_mono _ _ _ _ ?_
        (list_nodes_entry_trace_units le case_sensitive utf8 uninit hook record.catkey
          (catrecord_body le record) _ ctx env)
      intro ev hev filename filetype node he
      obtain ⟨hs, hname⟩ := hev filename filetype node he
      obtain ⟨c1, c2, c3⟩ := list_nodes_swap_name_clean le record.catkey hs
      exact ⟨_, rfl, hname, c1, c2, c3⟩
  · rw [list_nodes_other_parent le case_sensitive utf8 uninit dir hook record ctx env hpar]
    exact trace_ext_refl _ _


/-- Instance of C37 on the file record named "a/b" of the root folder
(big-endian host): the units handed to the conversion are those of "a:b". -/
theorem list_nodes_units_clean_witness :
    (list_nodes false true (fun l => l) (ex_file 0) (ex_file 2) ex_dir_hook
        (ex_catrecord 2 [97, 47, 98] GRUB_HFSPLUS_FILETYPE_REG) ⟨0, 0⟩ ex_env).2.2.trace
      = [grub_event.malloc true, grub_event.malloc true,
          grub_event.hook [97, 58, 98] GRUB_FSHELP_REG
            (list_nodes_node false (ex_file 0) (ex_catfile GRUB_HFSPLUS_FILETYPE_REG))] ∧
    trace_ext
      (fun ev => ∀ (filename : List Nat) (filetype : Nat) (node : grub_hfsplus_file),
        ev = grub_event.hook filename filetype node →
        ∃ units : List Nat,
          units = (List.range (grub_be_to_cpu16 false
              (ex_catrecord 2 [97, 47, 98] GRUB_HFSPLUS_FILETYPE_REG).catkey.namelen)).map
            (list_nodes_swap_name false
              (ex_catrecord 2 [97, 47, 98] GRUB_HFSPLUS_FILETYPE_REG).catkey.name
              (grub_be_to_cpu16 false
                (ex_catrecord 2 [97, 47, 98] GRUB_HFSPLUS_FILETYPE_REG).catkey.namelen) 0).1 ∧
          filename = (fun l => l) units ∧
          units.length = grub_be_to_cpu16 false
            (ex_catrecord 2 [97, 47, 98] GRUB_HFSPLUS_FILETYPE_REG).catkey.namelen ∧
          (∀ u, u ∈ units → u ≠ 47 ∧ u ≠ 0) ∧
          ∀ i, i < grub_be_to_cpu16 false
              (ex_catrecord 2 [97, 47, 98] GRUB_HFSPLUS_FILETYPE_REG).catkey.namelen →
            units[i]? = some
              (if grub_be_to_cpu16 false
                  ((ex_catrecord 2 [97, 47, 98] GRUB_HFSPLUS_FILETYPE_REG).catkey.name i) = 47
                then 58
                else grub_be_to_cpu16 false
                  ((ex_catrecord 2 [97, 47, 98] GRUB_HFSPLUS_FILETYPE_REG).catkey.name i)))
      ex_env
      (list_nodes false true (fun l => l) (ex_file 0) (ex_file 2) ex_dir_hook
        (ex_catrecord 2 [97, 47, 98] GRUB_HFSPLUS_FILETYPE_REG) ⟨0, 0⟩ ex_env).2.2 :=
  ⟨rfl,
    list_nodes_units_clean false true (fun l => l) (ex_file 0) (ex_file 2) ex_dir_hook
      (ex_catrecord 2 [97, 47, 98] GRUB_HFSPLUS_FILETYPE_REG) ⟨0, 0⟩ ex_env (by decide)⟩


/-! ## The name cells after a skipped record -/

/-- The first name loop of `list_nodes` when it returns early, at the first
cell `j0` that decodes to NUL: the cells from `i` to `j0` hold their converted
values, the others are as they were. -/
theorem list_nodes_swap_name_early_cells (le : Bool) :
    ∀ (todo : Nat) (name : Nat → Nat) (i j0 : Nat),
      i ≤ j0 → j0 < i + todo →
      grub_be_to_cpu16 le (name j0) = 0 →
      (∀ j, i ≤ j → j < j0 → grub_be_to_cpu16 le (name j) ≠ 0) →
      list_nodes_swap_name le name todo i =
        (fun j => if i ≤ j ∧ j ≤ j0 then
            (if grub_be_to_cpu16 le (name j) = 47 then 58 else grub_be_to_cpu16 le (name j))
          else name j, true) := by
  intro todo
  induction todo with
  | zero => intro name i j0 h1 h2; omega
  | succ n ih =>
    intro name i j0 h1 h2 hz hnz
    rw [list_nodes_swap_name_succ]
    by_cases hi : i = j0
    · subst hi
      have e0 : (if grub_be_to_cpu16 le (name i) = 47 then 58
          else grub_be_to_cpu16 le (name i)) = 0 := by
        rw [hz]; rfl
      rw [if_pos e0]
      congr 1
      funext j
      by_cases hj : j = i
      · subst hj
        have e : j ≤ j ∧ j ≤ j := ⟨le_refl _, le_refl _⟩
        rw [Function.update_same, if_pos e]
      · have e : ¬ (i ≤ j ∧ j ≤ i) := by omega
        rw [Function.update_noteq hj, if_neg e]
    · have hlt : i < j0 := by omega
      have hni := hnz i (le_refl _) hlt
      have e0 : ¬ (if grub_be_to_cpu16 le (name i) = 47 then 58
          else grub_be_to_cpu16 le (name i)) = 0 := by
        by_cases h47 : grub_be_to_cpu16 le (name i) = 47
        · rw [if_pos h47]; decide
        · rw [if_neg h47]; exact hni
      rw [if_neg e0]
      have hup : ∀ j, i + 1 ≤ j →
          Function.update name i (if grub_be_to_cpu16 le (name i) = 47 then 58
            else grub_be_to_cpu16 le (name i)) j = name j := by
        intro j hj
        exact Function.update_noteq (by omega) _ _
      rw [ih _ (i + 1) j0 (by omega) (by omega) (by rw [hup j0 (by omega)]; exact hz)
        (fun j hj1 hj2 => by rw [hup j hj1]; exact hnz j (by omega) hj2)]
      congr 1
      funext j
      by_cases hj : j = i
      · subst hj
        have e1 : ¬ (j + 1 ≤ j ∧ j ≤ j0) := by omega
        have e2 : j ≤ j ∧ j ≤ j0 := by omega
        rw [if_neg e1, if_pos e2, Function.update_same]
      · by_cases hr : i + 1 ≤ j ∧ j ≤ j0
        · have e2 : i ≤ j ∧ j ≤ j0 := by omega
          rw [if_pos hr, if_pos e2, hup j hr.1]
        · have e2 : ¬ (i ≤ j ∧ j ≤ j0) := by omega
          rw [if_neg hr, if_neg e2, Function.update_noteq hj]

/-- The name cells of a file or directory record of the directory after
`list_nodes` skipped it for a NUL unit (the name buffer was allocated): the
first NUL being at index `j0`, the cells before it are left converted
(decoded, with `:` for `/`), not restored. -/
theorem list_nodes_name_after_skip (le : Bool) (dir : grub_hfsplus_file)
    (record : grub_hfsplus_catrecord) (env : grub_env) (j0 : Nat)
    (hpar : grub_be_to_cpu32 le record.catkey.parent = dir.fileid)
    (hthread : grub_be_to_cpu16 le (catrecord_fileinfo le record).type
      ≠ GRUB_HFSPLUS_FILETYPE_DIR_THREAD)
    (hknown : list_nodes_filetype le (catrecord_fileinfo le record) ≠ GRUB_FSHELP_UNKNOWN)
    (hm : (grub_malloc env).1 = true)
    (hj0 : j0 < grub_be_to_cpu16 le record.catkey.namelen)
    (hz : grub_be_to_cpu16 le (record.catkey.name j0) = 0)
    (hnz : ∀ j, j < j0 → grub_be_to_cpu16 le (record.catkey.name j) ≠ 0) :
    ∀ j, list_nodes_name le dir record env j =
      if j ≤ j0 then
        (if grub_be_to_cpu16 le (record.catkey.name j) = 47 then 58
          else grub_be_to_cpu16 le (record.catkey.name j))
      else record.catkey.name j := by
  intro j
  have hs := list_nodes_swap_name_early_cells le (grub_be_to_cpu16 le record.catkey.namelen)
    record.catkey.name 0 j0 (by omega) (by omega) hz (fun j _ h => hnz j h)
  have htype : ¬ grub_be_to_cpu16 le (record.fileinfo record.catkey.name
      (grub_be_to_cpu16 le record.catkey.keylen + 2
        + grub_be_to_cpu16 le record.catkey.keylen % 2)).type
      = GRUB_HFSPLUS_FILETYPE_DIR_THREAD := hthread
  have hk : ¬ list_nodes_filetype le (record.fileinfo record.catkey.name
      (grub_be_to_cpu16 le record.catkey.keylen + 2
        + grub_be_to_cpu16 le record.catkey.keylen % 2)) = GRUB_FSHELP_UNKNOWN := hknown
  unfold list_nodes_name
  dsimp only
  rw [if_neg (not_not.2 hpar), if_neg htype, if_neg hk, if_pos hm, hs]
  dsimp only
  rw [if_pos rfl]
  by_cases hj : j ≤ j0
  · have e : 0 ≤ j ∧ j ≤ j0 := by omega
    rw [if_pos e, if_pos hj]
  · have e : ¬ (0 ≤ j ∧ j ≤ j0) := by omega
    rw [if_neg e, if_neg hj]

/-- **C33.** Evaluation of `list_nodes` on file records of the listed folder
whose name holds a NUL unit.  On a little-endian host, the record named "A",
NUL (`ex_nul_catrecord`): the call takes the skip path (returns 0 after the
allocation of the name buffer, no visitor call), and the first name cell,
`0x4100` before the call, holds `0x0041` after it.  On a big-endian host,
the record named "/", NUL: the first name cell, `0x002F` before the call,
holds `0x003A` after it.  The cells are not swapped back on this path. -/
theorem list_nodes_skip_leaves_name_converted :
    list_nodes true true (fun l => l) (ex_file 0) (ex_file 2) ex_dir_hook
        ex_nul_catrecord ⟨0, 0⟩ ex_env
      = (0, ⟨0, 0⟩,
          ⟨grub_err_t.GRUB_ERR_NONE, grub_errmsg.no_message, [], [grub_event.malloc true]⟩) ∧
    ex_nul_catrecord.catkey.name 0 = 0x4100 ∧
    list_nodes_name true (ex_file 2) ex_nul_catrecord ex_env 0 = 0x0041 ∧
    list_nodes false true (fun l => l) (ex_file 0) (ex_file 2) ex_dir_hook
        (ex_catrecord 2 [47, 0] GRUB_HFSPLUS_FILETYPE_REG) ⟨0, 0⟩ ex_env
      = (0, ⟨0, 0⟩,
          ⟨grub_err_t.GRUB_ERR_NONE, grub_errmsg.no_message, [], [grub_event.malloc true]⟩) ∧
    (ex_catrecord 2 [47, 0] GRUB_HFSPLUS_FILETYPE_REG).catkey.name 0 = 0x002F ∧
    list_nodes_name false (ex_file 2) (ex_catrecord 2 [47, 0] GRUB_HFSPLUS_FILETYPE_REG)
      ex_env 0 = 0x003A := by
  refine ⟨rfl, rfl, rfl, rfl, rfl, rfl⟩


/-! ## The loop guards on walks that repeat no node -/

/-- The states before a reached state of a loop are reached too. -/
theorem loop_state_earlier {A S : Type} (body : S → loop_ctl A S) :
    ∀ (k : Nat) (s st : S), loop_state body k s = some st →
      ∀ j, j ≤ k → ∃ stj, loop_state body j s = some stj := by
  intro k
  induction k with
  | zero =>
    intro s st h j hj
    have : j = 0 := by omega
    subst this
    exact ⟨st, h⟩
  | succ n ih =>
    intro s st h j hj
    by_cases hjn : j = n + 1
    · subst hjn
      exact ⟨st, h⟩
    · obtain ⟨s1, h1, _⟩ := loop_state_pred body n s st h
      exact ih s s1 h1 j (by omega)

/-- A loop that returns within `K` passes reaches no state after `K` passes
or more. -/
theorem loop_state_lt_of_returns {A S : Type} (body : S → loop_ctl A S) (K : Nat) (s : S)
    (a : A) (hret : while_loop body K s = some a) (k : Nat) (st : S)
    (h : loop_state body k s = some st) : k < K := by
  obtain ⟨k0, hk0, s1, h1, hb⟩ := (while_loop_eq_some_iff body K s a).1 hret
  by_contra hge
  obtain ⟨s2, h2⟩ := loop_state_earlier body k s st h (k0 + 1) (by omega)
  rw [loop_state_succ_right body k0 s s1 h1, hb] at h2
  cases h2

/-- From the first step on, the checkpoint variable holds a value the walk
had at an earlier step. -/
theorem brent_saved_earlier (c : Nat → Nat) (init : Nat) :
    ∀ k, 0 < k → ∃ j, j < k ∧ brent_saved c init k = c j := by
  intro k
  induction k with
  | zero => intro h; omega
  | succ n ih =>
    intro _
    show ∃ j, j < n + 1 ∧ (if checkpoint_due n then c n else brent_saved c init n) = c j
    by_cases hd : checkpoint_due n = true
    · exact ⟨n, by omega, by rw [if_pos hd]⟩
    · have hn : 0 < n := by
        rcases Nat.eq_zero_or_pos n with h0 | hpos
        · subst h0
          exact absurd checkpoint_due_zero hd
        · exact hpos
      obtain ⟨j, hj, he⟩ := ih hn
      exact ⟨j, by omega, by rw [if_neg hd, he]⟩

/-- On a descent that visits no node id twice, the loop test of the search
fails at every pass. -/
theorem btree_search_guard_quiet {R KI : Type} (le : Bool) (mem : grub_hfsplus_key_mem R)
    (btree : grub_hfsplus_btree R) (key : KI) (compare_keys : R → KI → Int) (env : grub_env)
    (hdist : ∀ i j a, i < j →
      descent_path le mem btree key compare_keys i = some a →
      descent_path le mem btree key compare_keys j ≠ some a) :
    ∀ (k : Nat) (st : btree_search_state),
      loop_state (btree_search_body le mem btree key compare_keys) k
        (btree_search_init btree env) = some st →
      st.save_node ≠ st.currnode := by
  intro k st h
  obtain ⟨a, ha⟩ := btree_search_loop_terminates le mem btree key compare_keys env
  have hk := loop_state_lt_of_returns _ _ _ a ha k st h
  obtain ⟨i1, i2, _, i4⟩ := btree_search_state_inv le mem btree key compare_keys env k st
    (by omega) h
  rcases Nat.eq_zero_or_pos k with h0 | hpos
  · subst h0
    rw [i4, i1]
    show (btree.root + (2 ^ 64 - 1)) % 2 ^ 64 ≠ btree.root
    omega
  · obtain ⟨j, hj, he⟩ := brent_saved_earlier
      (descent_seq le mem btree key compare_keys) ((btree.root + (2 ^ 64 - 1)) % 2 ^ 64) k hpos
    obtain ⟨stj, hstj⟩ := loop_state_earlier _ k _ st h j (by omega)
    obtain ⟨j1, j2, _, _⟩ := btree_search_state_inv le mem btree key compare_keys env j stj
      (by omega) hstj
    intro heq
    rw [i4, he, ← j1] at heq
    rw [heq] at j2
    exact hdist j k st.currnode hj j2 i2

/-- On a chain walk that follows no node id twice, the loop test of the
iteration fails at every pass that comes to it. -/
theorem btree_iterate_guard_quiet {R σ : Type} (le : Bool) (btree : grub_hfsplus_btree R)
    (hook : R → σ → grub_env → Int × σ × grub_env) (first_node : grub_hfsplus_btnode R)
    (first_rec : Nat) (hook_arg : σ) (env : grub_env)
    (hdist : ∀ i j a, i < j →
      chain_id le btree first_node i = some a →
      chain_id le btree first_node j ≠ some a) :
    ∀ (k : Nat) (st : btree_iterate_state R σ),
      loop_state (btree_iterate_body le btree hook) k
        ⟨first_node, first_rec, 2 ^ 64 - 1, 0, hook_arg, env⟩ = some st →
      st.first_node.next ≠ 0 →
      ¬ (st.node_count ≠ 0 ∧ st.first_node.next = st.saved_node) := by
  intro k st h hnext
  obtain ⟨a, ha⟩ := btree_iterate_loop_terminates le btree hook first_node first_rec
    hook_arg env
  have hk := loop_state_lt_of_returns _ _ _ a ha k st h
  obtain ⟨i1, i2, i3, i4⟩ := btree_iterate_state_inv le btree hook first_node first_rec
    hook_arg env k st (by omega) h
  rintro ⟨hc, heq⟩
  have hpos : 0 < k := by omega
  obtain ⟨j, hj, he⟩ := brent_saved_earlier (next_seq le btree first_node) (2 ^ 64 - 1) k hpos
  obtain ⟨stj, hstj⟩ := loop_state_earlier _ k _ st h j (by omega)
  obtain ⟨j1, j2, _, _⟩ := btree_iterate_state_inv le btree hook first_node first_rec
    hook_arg env j stj (by omega) hstj
  have hraw : stj.first_node.next = st.first_node.next := by
    rw [j1, ← he, ← i4, heq]
  have hidk : chain_id le btree first_node k
      = some (grub_be_to_cpu32 le st.first_node.next) := by
    unfold chain_id
    rw [i2]
    exact if_neg hnext
  have hidj : chain_id le btree first_node j
      = some (grub_be_to_cpu32 le st.first_node.next) := by
    unfold chain_id
    rw [j2, ← hraw]
    exact if_neg (by rw [hraw]; exact hnext)
  exact hdist j k _ hj hidj hidk

/-- **C36.** The loop tests report no loop where there is none.
* Search: if the node ids on the descent for the key are pairwise distinct
  (whatever the root id, 0 included), then at every pass of the loop of
  `grub_hfsplus_btree_search` the test `save_node == currnode` fails, and a
  search that returns `GRUB_ERR_BAD_FS` does so for a failed node read, with
  the message "couldn't read i-node", never "HFS+ btree loop".
* Iteration: if the node ids that the walk of
  `grub_hfsplus_btree_iterate_node` follows through `next` are pairwise
  distinct, then at every pass with `next` non-zero the test
  `node_count && first_node->next == saved_node` fails, and the function
  returns with the state the last hook call left, or, after a failed node
  read, with that state and the read's error: it raises no error of its
  own. -/
theorem btree_loop_guard_no_false_positive {R KI σ : Type} (le : Bool)
    (mem : grub_hfsplus_key_mem R) (btree : grub_hfsplus_btree R) (key : KI)
    (compare_keys : R → KI → Int) (hook : R → σ → grub_env → Int × σ × grub_env)
    (first_node : grub_hfsplus_btnode R) (first_rec : Nat) (hook_arg : σ) (env : grub_env) :
    ((∀ i j a, i < j →
        descent_path le mem btree key compare_keys i = some a →
        descent_path le mem btree key compare_keys j ≠ some a) →
      (∀ (env0 : grub_env) (k : Nat) (st : btree_search_state),
        loop_state (btree_search_body le mem btree key compare_keys) k
          (btree_search_init btree env0) = some st →
        st.save_node ≠ st.currnode) ∧
      ∀ (fuel : Nat) (r : grub_hfsplus_search_result R) (env1 : grub_env),
        grub_hfsplus_btree_search le mem fuel btree key compare_keys env = some (r, env1) →
        r.err = grub_err_t.GRUB_ERR_BAD_FS →
        env1.grub_errmsg = grub_errmsg.couldnt_read_inode ∧
        env1.grub_errmsg ≠ grub_errmsg.btree_loop ∧
        ∃ k st e,
          loop_state (btree_search_body le mem btree key compare_keys) k
            (btree_search_init btree (grub_malloc env).2) = some st ∧
          btree.read_node st.currnode = Except.error e) ∧
    ((∀ i j a, i < j →
        chain_id le btree first_node i = some a →
        chain_id le btree first_node j ≠ some a) →
      (∀ (k : Nat) (st : btree_iterate_state R σ),
        loop_state (btree_iterate_body le btree hook) k
          ⟨first_node, first_rec, 2 ^ 64 - 1, 0, hook_arg, env⟩ = some st →
        st.first_node.next ≠ 0 →
        ¬ (st.node_count ≠ 0 ∧ st.first_node.next = st.saved_node)) ∧
      ∀ (fuel : Nat) (res : btree_iterate_result σ),
        grub_hfsplus_btree_iterate_node le fuel btree first_node first_rec hook hook_arg env
          = some res →
        ∃ k st,
          loop_state (btree_iterate_body le btree hook) k
            ⟨first_node, first_rec, 2 ^ 64 - 1, 0, hook_arg, env⟩ = some st ∧
          btree_iterate_body le btree hook st = loop_ctl.ret res ∧
          res.env.grub_errmsg = (btree_iterate_visit le hook st).2.2.grub_errmsg ∧
          (res.env = (btree_iterate_visit le hook st).2.2 ∨
            (res.ret = 1 ∧ ∃ e,
              btree.read_node (grub_be_to_cpu32 le st.first_node.next) = Except.error e ∧
              res.env = read_failed (trace_event (btree_iterate_visit le hook st).2.2
                (grub_event.read_node btree.file.fileid
                  (grub_be_to_cpu32 le st.first_node.next) false)) e))) := by
  constructor
  · intro hdist
    have hquiet := fun env0 =>
      btree_search_guard_quiet le mem btree key compare_keys env0 hdist
    refine ⟨hquiet, ?_⟩
    intro fuel r env1 h herr
    unfold grub_hfsplus_btree_search at h
    by_cases hz : btree.nodesize = 0
    · rw [if_pos hz] at h
      cases h
      cases herr
    · rw [if_neg hz] at h
      dsimp only at h
      by_cases hm : (grub_malloc env).1 = true
      · rw [if_pos hm] at h
        obtain ⟨k, _, st, hst, hb⟩ := (while_loop_eq_some_iff _ fuel _ _).1 h
        have hg := hquiet (grub_malloc env).2 k st hst
        rcases btree_search_body_cases le mem btree key compare_keys st with
          ⟨hc, _⟩ | ⟨_, e, hread, _, hc⟩ | ⟨_, _, _, _, _, _, hc⟩ | ⟨_, _, _, _, _, _, hc⟩ |
          ⟨_, _, _, _, _, _, _, hc⟩
        · exact absurd hc hg
        · rw [hc] at hb
          cases hb
          refine ⟨rfl, ?_, k, st, e, hst, hread⟩
          show grub_errmsg.couldnt_read_inode ≠ grub_errmsg.btree_loop
          decide
        · rw [hc] at hb
          cases hb
          cases herr
        · rw [hc] at hb
          cases hb
          cases herr
        · rw [hc] at hb
          cases hb
      · rw [if_neg hm] at h
        cases h
        have hoom := grub_malloc_false env (by simpa using hm)
        rw [hoom] at herr
        cases herr
  · intro hdist
    have hquiet := btree_iterate_guard_quiet le btree hook first_node first_rec hook_arg env
      hdist
    refine ⟨hquiet, ?_⟩
    intro fuel res h
    unfold grub_hfsplus_btree_iterate_node at h
    obtain ⟨k, _, st, hst, hb⟩ := (while_loop_eq_some_iff _ fuel _ _).1 h
    refine ⟨k, st, hst, hb, ?_⟩
    rcases btree_iterate_body_cases le btree hook st with
      ⟨_, hc⟩ | ⟨_, _, hc⟩ | ⟨_, hn, hg, _⟩ | ⟨_, _, _, e, hread, hc⟩ | ⟨_, _, _, _, _, hc⟩
    · rw [hc] at hb
      cases hb
      exact ⟨rfl, Or.inl rfl⟩
    · rw [hc] at hb
      cases hb
      exact ⟨rfl, Or.inl rfl⟩
    · exact absurd hg (hquiet k st hst hn)
    · rw [hc] at hb
      cases hb
      exact ⟨rfl, Or.inr ⟨rfl, e, hread, rfl⟩⟩
    · rw [hc] at hb
      cases hb


/-- Instance of C36: the search for 5 in `ex_root_zero_tree` descends from
node 0 to node 2 and finds the record, and the walk of the chain of
`ex_chain_a` reads nodes 2 and 3 and returns 0 with no error raised. -/
theorem btree_loop_guard_no_false_positive_witness :
    grub_hfsplus_btree_search false ex_mem 2 ex_root_zero_tree 5 ex_cmp ex_env
      = some (⟨grub_err_t.GRUB_ERR_NONE, some (some ex_leaf_node), some 1⟩,
          ⟨grub_err_t.GRUB_ERR_NONE, grub_errmsg.no_message, [],
            [grub_event.malloc true, grub_event.read_node 4 0 true,
              grub_event.read_node 4 2 true]⟩) ∧
    grub_hfsplus_btree_iterate_node false 3 ex_chain_tree ex_chain_a 0 ex_count_hook 0 ex_env
      = some ⟨0, 5,
          ⟨grub_err_t.GRUB_ERR_NONE, grub_errmsg.no_message, [],
            [grub_event.read_node 4 2 true, grub_event.read_node 4 3 true]⟩⟩ ∧
    (∀ (env0 : grub_env) (k : Nat) (st : btree_search_state),
      loop_state (btree_search_body false ex_mem ex_root_zero_tree 5 ex_cmp) k
        (btree_search_init ex_root_zero_tree env0) = some st →
      st.save_node ≠ st.currnode) ∧
    (∀ (k : Nat) (st : btree_iterate_state Nat Nat),
      loop_state (btree_iterate_body false ex_chain_tree ex_count_hook) k
        ⟨ex_chain_a, 0, 2 ^ 64 - 1, 0, 0, ex_env⟩ = some st →
      st.first_node.next ≠ 0 →
      ¬ (st.node_count ≠ 0 ∧ st.first_node.next = st.saved_node)) := by
  have hnone : ∀ {α : Type} (f : α → Option α) (x : α) (j : Nat),
      opt_iterate f x 2 = none → 2 ≤ j → opt_iterate f x j = none := by
    intro α f x j h hj
    have := opt_iterate_none_add f x 2 (j - 2) h
    have e : 2 + (j - 2) = j := by omega
    rwa [e] at this
  refine ⟨rfl, rfl,
    ((btree_loop_guard_no_false_positive false ex_mem ex_root_zero_tree 5 ex_cmp
      ex_count_hook ex_chain_a 0 0 ex_env).1 ?_).1,
    ((btree_loop_guard_no_false_positive false ex_mem ex_chain_tree 5 ex_cmp
      ex_count_hook ex_chain_a 0 0 ex_env).2 ?_).1⟩
  · intro i j a hij hi hj
    by_cases h2 : 2 ≤ j
    · have e := hnone (descent_next false ex_mem ex_root_zero_tree 5 ex_cmp)
        ex_root_zero_tree.root j (by decide) h2
      unfold descent_path at hj
      rw [e] at hj
      cases hj
    · have hj1 : j = 1 := by omega
      have hi0 : i = 0 := by omega
      subst hj1 hi0
      have e0 : descent_path false ex_mem ex_root_zero_tree 5 ex_cmp 0 = some 0 := by decide
      have e1 : descent_path false ex_mem ex_root_zero_tree 5 ex_cmp 1 = some 2 := by decide
      rw [e0] at hi
      rw [e1] at hj
      cases hi
      cases hj
  · intro i j a hij hi hj
    by_cases h2 : 2 ≤ j
    · have e : chain_id false ex_chain_tree ex_chain_a j = none := by
        rcases Nat.lt_or_ge j 3 with h3 | h3
        · have : j = 2 := by omega
          subst this
          rfl
        · unfold chain_id chain_node
          have e3 : opt_iterate (chain_step false ex_chain_tree) ex_chain_a j = none := by
            have := opt_iterate_none_add (chain_step false ex_chain_tree) ex_chain_a 3 (j - 3)
              rfl
            have e : 3 + (j - 3) = j := by omega
            rwa [e] at this
          rw [e3]
          rfl
      rw [e] at hj
      cases hj
    · have hj1 : j = 1 := by omega
      have hi0 : i = 0 := by omega
      subst hj1 hi0
      have e0 : chain_id false ex_chain_tree ex_chain_a 0 = some 2 := rfl
      have e1 : chain_id false ex_chain_tree ex_chain_a 1 = some 3 := rfl
      rw [e0] at hi
      rw [e1] at hj
      cases hi
      cases hj


/-! ## Termination of the block lookup -/

/-- A pass of the loop of `grub_hfsplus_read_block` on a file other than the
extents-overflow file, the list in hand not covering the block: the pass
searches the extents-overflow tree with the start block
`read_block_search_start`, held in the key's 32-bit field. -/
theorem read_block_body_miss {CatR AttrR : Type} (le : Bool) (sfuel : Nat)
    (data : grub_hfsplus_data CatR grub_hfsplus_extrecord AttrR) (node : grub_hfsplus_file)
    (fileblock : Nat) (s : read_block_state)
    (hid : node.fileid ≠ GRUB_HFSPLUS_FILEID_OVERFLOW)
    (hb : extents_total le s.extents ≤ s.blksleft) :
    read_block_body le sfuel data node fileblock s =
      match grub_hfsplus_btree_search le extrecord_mem sfuel data.extoverflow_tree
          (⟨node.fileid, read_block_search_start le fileblock s % 2 ^ 32,
            if node.compressed then 0xff else 0⟩ : grub_hfsplus_extkey_internal)
          (grub_hfsplus_cmp_extkey le)
          (trace_event s.env (grub_event.search data.extoverflow_tree.file.fileid
            (grub_hfsplus_key_internal.extkey
              ⟨node.fileid, read_block_search_start le fileblock s % 2 ^ 32,
                if node.compressed then 0xff else 0⟩))) with
      | none => loop_ctl.ret none
      | some (r, env2) =>
        match (if r.err ≠ grub_err_t.GRUB_ERR_NONE then none else r.matchnode.join) with
        | none =>
          loop_ctl.ret (some (0xffffffffffffffff,
            (grub_error env2 grub_err_t.GRUB_ERR_READ_ERROR grub_errmsg.no_block_found).2))
        | some nnode =>
          loop_ctl.again ⟨(nnode.recptr (r.keyoffset.getD 0)).extents,
            s.blksleft - extents_total le s.extents, env2⟩ := by
  have hm := (grub_hfsplus_find_block_spec le s.extents s.blksleft).2 hb
  unfold read_block_body read_block_search_start
  simp only [hm, ne_eq, not_true_eq_false, if_false, if_neg hid]

/-- Below a bound there is a first index with a property, or none has it. -/
theorem first_index_with (P : Nat → Prop) :
    ∀ N, ∃ j, j ≤ N ∧ (∀ i, i < j → ¬ P i) ∧ (j < N → P j) := by
  intro N
  induction N with
  | zero => exact ⟨0, le_refl _, fun i hi => by omega, fun h => by omega⟩
  | succ n ih =>
    obtain ⟨j, hj, h1, h2⟩ := ih
    by_cases hjn : j < n
    · exact ⟨j, by omega, h1, fun _ => h2 hjn⟩
    · have hje : j = n := by omega
      subst hje
      by_cases hp : P j
      · exact ⟨j, by omega, h1, fun _ => hp⟩
      · refine ⟨j + 1, le_refl _, ?_, fun h => by omega⟩
        intro i hi
        by_cases hij : i = j
        · subst hij; exact hp
        · exact h1 i (by omega)

theorem opt_iterate_succ_left {α : Type} (f : α → Option α) (x : α) :
    ∀ k, opt_iterate f x (k + 1) = (f x).bind (fun y => opt_iterate f y k) := by
  intro k
  induction k with
  | zero =>
    show (some x).bind f = (f x).bind (fun y => some y)
    rw [Option.some_bind]
    cases f x <;> rfl
  | succ n ih =>
    show (opt_iterate f x (n + 1)).bind f = (f x).bind (fun y => (opt_iterate f y n).bind f)
    rw [ih]
    cases f x <;> rfl

/-- The record loop on a leaf that holds a record comparing equal returns the
first such record. -/
theorem btree_search_records_leaf_hit {R KI : Type} (le : Bool)
    (mem : grub_hfsplus_key_mem R) (n : grub_hfsplus_btnode R) (key : KI)
    (compare_keys : R → KI → Int) (hleaf : n.type = GRUB_HFSPLUS_BTNODE_TYPE_LEAF)
    (todo rec currnode : Nat) (matched : Bool) (i : Nat)
    (h1 : rec ≤ i) (h2 : i < rec + todo) (h0 : compare_keys (n.recptr i) key = 0) :
    ∃ i1, btree_search_records le mem n key compare_keys todo rec currnode matched
        = grub_hfsplus_scan.found i1 ∧
      i1 < rec + todo ∧ compare_keys (n.recptr i1) key = 0 := by
  cases h : btree_search_records le mem n key compare_keys todo rec currnode matched with
  | found i1 =>
    obtain ⟨_, _, a3, a4, _⟩ := btree_search_records_found le mem n key compare_keys
      todo rec currnode matched i1 h
    exact ⟨i1, rfl, a3, a4⟩
  | done c m =>
    exact absurd h0 (btree_search_records_leaf_done le mem n key compare_keys hleaf
      todo rec currnode matched c m h i h1 h2)

/-- One pass of the search loop on a leaf that holds a record comparing
equal: the search returns that leaf and the first such record. -/
theorem btree_search_body_leaf_hit {R KI : Type} (le : Bool) (mem : grub_hfsplus_key_mem R)
    (btree : grub_hfsplus_btree R) (key : KI) (compare_keys : R → KI → Int)
    (s : btree_search_state) (n : grub_hfsplus_btnode R) (i : Nat)
    (hguard : s.save_node ≠ s.currnode)
    (hread : btree.read_node s.currnode = Except.ok n)
    (hleaf : n.type = GRUB_HFSPLUS_BTNODE_TYPE_LEAF)
    (hi : i < grub_be_to_cpu16 le n.count) (h0 : compare_keys (n.recptr i) key = 0) :
    ∃ i1, btree_search_body le mem btree key compare_keys s =
        loop_ctl.ret (⟨grub_err_t.GRUB_ERR_NONE, some (some n), some i1⟩,
          trace_event s.env (grub_event.read_node btree.file.fileid s.currnode true)) ∧
      i1 < grub_be_to_cpu16 le n.count ∧ compare_keys (n.recptr i1) key = 0 ∧
      descent_next le mem btree key compare_keys s.currnode = none := by
  obtain ⟨i1, hrec, a1, a2⟩ := btree_search_records_leaf_hit le mem n key compare_keys hleaf
    (grub_be_to_cpu16 le n.count) 0 s.currnode false i (by omega) (by omega) h0
  refine ⟨i1, ?_, by omega, a2, ?_⟩
  · unfold btree_search_body
    rw [if_neg hguard]
    simp only [hread, hrec]
  · unfold descent_next
    simp only [hread, hrec]

/-- One pass of the search loop on an index node whose first `j >= 1` records
compare not greater than the key and whose next record, if any, compares
greater: the search goes on in the child of record `j - 1`. -/
theorem btree_search_body_index_step {R KI : Type} (le : Bool)
    (mem : grub_hfsplus_key_mem R) (btree : grub_hfsplus_btree R) (key : KI)
    (compare_keys : R → KI → Int) (s : btree_search_state) (n : grub_hfsplus_btnode R)
    (j : Nat)
    (hguard : s.save_node ≠ s.currnode)
    (hread : btree.read_node s.currnode = Except.ok n)
    (hidx : n.type = GRUB_HFSPLUS_BTNODE_TYPE_INDEX)
    (hj : j ≤ grub_be_to_cpu16 le n.count) (hj0 : j ≠ 0)
    (hle : ∀ i, i < j → ¬ compare_keys (n.recptr i) key > 0)
    (hgt : j < grub_be_to_cpu16 le n.count → compare_keys (n.recptr j) key > 0) :
    btree_search_body le mem btree key compare_keys s =
      loop_ctl.again
        ⟨index_child le mem n (j - 1),
          if checkpoint_due s.node_count then s.currnode else s.save_node,
          (s.node_count + 1) % 2 ^ 64,
          trace_event s.env (grub_event.read_node btree.file.fileid s.currnode true)⟩ ∧
    descent_next le mem btree key compare_keys s.currnode
      = some (index_child le mem n (j - 1)) := by
  have hrec := btree_search_records_index le mem n key compare_keys hidx
    (grub_be_to_cpu16 le n.count) 0 s.currnode false j hj
    (fun i hi => by rw [Nat.zero_add]; exact hle i hi)
    (fun h => by rw [Nat.zero_add]; exact hgt h)
  rw [if_neg hj0, if_neg hj0, Nat.zero_add] at hrec
  constructor
  · unfold btree_search_body
    rw [if_neg hguard]
    simp only [hread, hrec]
    rfl
  · unfold descent_next
    simp only [hread, hrec]
    rfl

/-- On a well-formed index node whose subtree holds a leaf record comparing
equal to the key: the first `j` records compare not greater than the key,
`j >= 1`, the next record if any compares greater, and the subtree of the
child of record `j - 1` is well formed and holds a leaf record comparing
equal. -/
theorem subtree_wf_index_step {R KI K : Type} [LinearOrder K] (le : Bool)
    (mem : grub_hfsplus_key_mem R) (btree : grub_hfsplus_btree R) (key : KI)
    (compare_keys : R → KI → Int) (kr : R → K) (kk : K)
    (hcmp : ∀ r, (compare_keys r key < 0 ↔ kr r < kk) ∧ (compare_keys r key = 0 ↔ kr r = kk))
    (e id : Nat) (n : grub_hfsplus_btnode R)
    (hread : btree.read_node id = Except.ok n)
    (hidx : n.type = GRUB_HFSPLUS_BTNODE_TYPE_INDEX)
    (hwf : subtree_wf le mem btree kr (e + 1) id)
    (hhit : ∃ r, subtree_record le mem btree (e + 1) id r ∧ compare_keys r key = 0) :
    ∃ j, j ≤ grub_be_to_cpu16 le n.count ∧ j ≠ 0 ∧
      (∀ i, i < j → ¬ compare_keys (n.recptr i) key > 0) ∧
      (j < grub_be_to_cpu16 le n.count → compare_keys (n.recptr j) key > 0) ∧
      subtree_wf le mem btree kr e (index_child le mem n (j - 1)) ∧
      ∃ r, subtree_record le mem btree e (index_child le mem n (j - 1)) r ∧
        compare_keys r key = 0 := by
  have hgt : ∀ r, compare_keys r key > 0 ↔ kk < kr r := by
    intro r
    obtain ⟨h1, h2⟩ := hcmp r
    constructor
    · intro h
      rcases lt_trichotomy (kr r) kk with hlt | heq | hgt
      · have := h1.2 hlt
        omega
      · have := h2.2 heq
        omega
      · exact hgt
    · intro h
      rcases lt_trichotomy (compare_keys r key) 0 with hlt | heq | hgt
      · exact absurd (h1.1 hlt) (not_lt.2 (le_of_lt h))
      · exact absurd (h2.1 heq) (ne_of_gt h)
      · exact hgt
  obtain ⟨n1, hr1, _, hsorted, hindex⟩ := hwf
  rw [hread] at hr1
  cases hr1
  obtain ⟨hchild, hasc⟩ := hindex hidx
  obtain ⟨r, ⟨n2, hr2, hsub⟩, hr0⟩ := hhit
  rw [hread] at hr2
  cases hr2
  rcases hsub with ⟨hleaf, _⟩ | ⟨_, i0, hi0, hsub0⟩
  · rw [hidx] at hleaf
    exact absurd hleaf (by decide)
  have hall : ∀ g i, i + g + 1 < grub_be_to_cpu16 le n.count →
      ∀ r r1, subtree_record le mem btree e (index_child le mem n i) r →
        subtree_record le mem btree e (index_child le mem n (i + g + 1)) r1 →
        kr r ≤ kr r1 := by
    intro g
    induction g with
    | zero => intro i hi r r1 h1 h2; exact hasc i hi r r1 h1 h2
    | succ g ih =>
      intro i hi r r1 h1 h2
      obtain ⟨_, _, rm, hm, _⟩ := hchild (i + g + 1) (by omega)
      exact le_trans (ih i (by omega) r rm h1 hm)
        (hasc (i + g + 1) (by omega) rm r1 hm h2)
  have hkr : kr r = kk := (hcmp r).2.1 hr0
  obtain ⟨j, hj, hle, hgtj⟩ := first_index_with (fun i => compare_keys (n.recptr i) key > 0)
    (grub_be_to_cpu16 le n.count)
  have hi0j : i0 < j := by
    by_contra hge
    have hjc : j < grub_be_to_cpu16 le n.count := by omega
    have h1 := (hgt _).1 (hgtj hjc)
    have h2 := hsorted j i0 (by omega) hi0
    have h3 := (hchild i0 hi0).2.1 r hsub0
    rw [hkr] at h3
    exact absurd (lt_of_lt_of_le h1 (le_trans h2 h3)) (lt_irrefl _)
  have hjc : j - 1 < grub_be_to_cpu16 le n.count := by omega
  obtain ⟨hwfc, hlow, rm, hrm, hrmk⟩ := hchild (j - 1) hjc
  refine ⟨j, hj, by omega, hle, hgtj, hwfc, ?_⟩
  by_cases hij : i0 = j - 1
  · rw [← hij]
    exact ⟨r, hsub0, hr0⟩
  · refine ⟨rm, hrm, (hcmp rm).2.2 ?_⟩
    have hnot : ¬ kk < kr (n.recptr (j - 1)) := fun h => hle (j - 1) (by omega) ((hgt _).2 h)
    have h1 : kr rm ≤ kk := by rw [hrmk]; exact not_lt.1 hnot
    have e1 : i0 + (j - 1 - i0 - 1) + 1 = j - 1 := by omega
    have h2 := hall (j - 1 - i0 - 1) i0 (by omega) r rm hsub0 (by rw [e1]; exact hrm)
    rw [hkr] at h2
    exact le_antisymm h1 h2

/-- On a well-formed subtree that holds a leaf record comparing equal to the
key, the descent ends within as many steps as the subtree is deep. -/
theorem subtree_wf_descent_ends {R KI K : Type} [LinearOrder K] (le : Bool)
    (mem : grub_hfsplus_key_mem R) (btree : grub_hfsplus_btree R) (key : KI)
    (compare_keys : R → KI → Int) (kr : R → K) (kk : K)
    (hcmp : ∀ r, (compare_keys r key < 0 ↔ kr r < kk) ∧ (compare_keys r key = 0 ↔ kr r = kk)) :
    ∀ (e id : Nat), subtree_wf le mem btree kr e id →
      (∃ r, subtree_record le mem btree e id r ∧ compare_keys r key = 0) →
      ∃ m, m < e ∧
        opt_iterate (descent_next le mem btree key compare_keys) id (m + 1) = none := by
  intro e
  induction e with
  | zero => intro id h _; exact False.elim h
  | succ e ih =>
    intro id hwf hhit
    have hwf2 := hwf
    obtain ⟨n, hread, htype, _, _⟩ := hwf2
    have hg : (⟨id, id + 1, 0, ⟨grub_err_t.GRUB_ERR_NONE, grub_errmsg.no_message, [], []⟩⟩ :
        btree_search_state).save_node ≠ id := by
      show id + 1 ≠ id
      omega
    rcases htype with hleaf | hidx
    · obtain ⟨r, ⟨n2, hr2, hsub⟩, hr0⟩ := hhit
      rw [hread] at hr2
      cases hr2
      rcases hsub with ⟨_, i, hi, hrec⟩ | ⟨hx, _⟩
      · obtain ⟨_, _, _, _, hd⟩ := btree_search_body_leaf_hit le mem btree key compare_keys
          ⟨id, id + 1, 0, ⟨grub_err_t.GRUB_ERR_NONE, grub_errmsg.no_message, [], []⟩⟩ n i
          hg hread hleaf hi (by rw [hrec]; exact hr0)
        refine ⟨0, by omega, ?_⟩
        rw [opt_iterate_succ_left]
        have hd2 : descent_next le mem btree key compare_keys id = none := hd
        rw [hd2]
        rfl
      · rw [hleaf] at hx
        exact absurd hx (by decide)
    · obtain ⟨j, hj, hj0, hle, hgt, hwfc, hhitc⟩ := subtree_wf_index_step le mem btree key
        compare_keys kr kk hcmp e id n hread hidx hwf hhit
      obtain ⟨_, hd⟩ := btree_search_body_index_step le mem btree key compare_keys
        ⟨id, id + 1, 0, ⟨grub_err_t.GRUB_ERR_NONE, grub_errmsg.no_message, [], []⟩⟩ n j
        hg hread hidx hj hj0 hle hgt
      obtain ⟨m, hm, hnone⟩ := ih _ hwfc hhitc
      refine ⟨m + 1, by omega, ?_⟩
      rw [opt_iterate_succ_left]
      have hd2 : descent_next le mem btree key compare_keys id
          = some (index_child le mem n (j - 1)) := hd
      rw [hd2]
      exact hnone

/-- From a state of the search loop whose current node heads a well-formed
subtree holding a leaf record that compares equal to the key, the loop test
failing at every pass: the loop returns a leaf of the subtree and a record of
it comparing equal, within as many passes as the subtree is deep, raising no
error and allocating nothing. -/
theorem btree_search_loop_complete {R KI K : Type} [LinearOrder K] (le : Bool)
    (mem : grub_hfsplus_key_mem R) (btree : grub_hfsplus_btree R) (key : KI)
    (compare_keys : R → KI → Int) (kr : R → K) (kk : K) (env0 : grub_env)
    (hcmp : ∀ r, (compare_keys r key < 0 ↔ kr r < kk) ∧ (compare_keys r key = 0 ↔ kr r = kk))
    (hq : ∀ (k : Nat) (st : btree_search_state),
      loop_state (btree_search_body le mem btree key compare_keys) k
        (btree_search_init btree env0) = some st →
      st.save_node ≠ st.currnode) :
    ∀ (e k : Nat) (st : btree_search_state),
      loop_state (btree_search_body le mem btree key compare_keys) k
        (btree_search_init btree env0) = some st →
      subtree_wf le mem btree kr e st.currnode →
      (∃ r, subtree_record le mem btree e st.currnode r ∧ compare_keys r key = 0) →
      ∃ n i env1,
        while_loop (btree_search_body le mem btree key compare_keys) e st
          = some (⟨grub_err_t.GRUB_ERR_NONE, some (some n), some i⟩, env1) ∧
        n.type = GRUB_HFSPLUS_BTNODE_TYPE_LEAF ∧
        i < grub_be_to_cpu16 le n.count ∧
        compare_keys (n.recptr i) key = 0 ∧
        env1.grub_errno = st.env.grub_errno ∧ env1.grub_errmsg = st.env.grub_errmsg ∧
        subtree_leaf le mem btree e st.currnode n ∧ env1.mm = st.env.mm := by
  intro e
  induction e with
  | zero => intro k st _ h _; exact False.elim h
  | succ e ih =>
    intro k st hst hwf hhit
    have hg := hq k st hst
    have hwf2 := hwf
    obtain ⟨n, hread, htype, _, _⟩ := hwf2
    rcases htype with hleaf | hidx
    · obtain ⟨r, ⟨n2, hr2, hsub⟩, hr0⟩ := hhit
      rw [hread] at hr2
      cases hr2
      rcases hsub with ⟨_, i, hi, hrec⟩ | ⟨hx, _⟩
      · obtain ⟨i1, hb, a1, a2, _⟩ := btree_search_body_leaf_hit le mem btree key compare_keys
          st n i hg hread hleaf hi (by rw [hrec]; exact hr0)
        refine ⟨n, i1, trace_event st.env
          (grub_event.read_node btree.file.fileid st.currnode true), ?_, hleaf, a1, a2, rfl, rfl,
          ⟨n, hread, Or.inl ⟨hleaf, rfl⟩⟩, rfl⟩
        rw [while_loop_succ, hb]
      · rw [hleaf] at hx
        exact absurd hx (by decide)
    · obtain ⟨j, hj, hj0, hle, hgt, hwfc, hhitc⟩ := subtree_wf_index_step le mem btree key
        compare_keys kr kk hcmp e st.currnode n hread hidx hwf hhit
      obtain ⟨hb, _⟩ := btree_search_body_index_step le mem btree key compare_keys
        st n j hg hread hidx hj hj0 hle hgt
      have hnext := loop_state_succ_right _ k _ st hst
      rw [hb] at hnext
      obtain ⟨n1, i1, env1, hw, b1, b2, b3, b4, b5, b6, b7⟩ :=
        ih (k + 1) _ hnext hwfc hhitc
      refine ⟨n1, i1, env1, ?_, b1, b2, b3, b4, b5,
        ⟨n, hread, Or.inr ⟨hidx, j - 1, by omega, b6⟩⟩, b7⟩
      rw [while_loop_succ, hb]
      exact hw

/-- **C35.** Let the keys of the records be ordered by a linear order through
`kr`, the comparator comparing a record with the search key as `kr` of the
record compares with `kk`.  If the tree image below the root is well formed
for that order (`subtree_wf`: no path longer than `d` nodes, hence no cycle;
every node an index node or a leaf; records of a node in non-decreasing key
order; the key of each index record the smallest key of the subtree of its
child; keys of consecutive subtrees ascending) and some leaf record of the
tree compares equal to the search key, then `grub_hfsplus_btree_search` (on
a tree with a node size, its buffer allocated) returns within `d` passes,
with no error, a leaf node and a record index of it whose key compares
equal to the search key: never "not found". -/
theorem btree_search_complete {R KI K : Type} [LinearOrder K] (le : Bool)
    (mem : grub_hfsplus_key_mem R) (btree : grub_hfsplus_btree R) (key : KI)
    (compare_keys : R → KI → Int) (kr : R → K) (kk : K) (d : Nat) (env : grub_env)
    (hcmp : ∀ r, (compare_keys r key < 0 ↔ kr r < kk) ∧ (compare_keys r key = 0 ↔ kr r = kk))
    (hsize : btree.nodesize ≠ 0) (hm : (grub_malloc env).1 = true)
    (hwf : subtree_wf le mem btree kr d btree.root)
    (hhit : ∃ r, subtree_record le mem btree d btree.root r ∧ compare_keys r key = 0) :
    ∃ n i env1,
      (∀ fuel, d ≤ fuel →
        grub_hfsplus_btree_search le mem fuel btree key compare_keys env
          = some (⟨grub_err_t.GRUB_ERR_NONE, some (some n), some i⟩, env1)) ∧
      n.type = GRUB_HFSPLUS_BTNODE_TYPE_LEAF ∧
      i < grub_be_to_cpu16 le n.count ∧
      compare_keys (n.recptr i) key = 0 ∧
      env1.grub_errno = (grub_malloc env).2.grub_errno ∧
      env1.grub_errmsg = (grub_malloc env).2.grub_errmsg := by
  obtain ⟨m, _, hend⟩ := subtree_wf_descent_ends le mem btree key compare_keys kr kk hcmp
    d btree.root hwf hhit
  have hdist : ∀ i j a, i < j →
      descent_path le mem btree key compare_keys i = some a →
      descent_path le mem btree key compare_keys j ≠ some a := by
    intro i j a hij hi hj
    exact opt_iterate_cycle_forever _ _ i j a hij hi hj (m + 1) hend
  have hq := btree_search_guard_quiet le mem btree key compare_keys (grub_malloc env).2 hdist
  obtain ⟨n, i, env1, hw, b1, b2, b3, b4, b5, _, _⟩ := btree_search_loop_complete le mem
    btree key compare_keys kr kk (grub_malloc env).2 hcmp hq d 0
    (btree_search_init btree (grub_malloc env).2) rfl hwf hhit
  refine ⟨n, i, env1, ?_, b1, b2, b3, b4, b5⟩
  intro fuel hf
  unfold grub_hfsplus_btree_search
  rw [if_neg hsize]
  dsimp only
  rw [if_pos hm]
  exact while_loop_mono_le _ d fuel _ _ hf hw

/-- Instance of C35 on `ex_sorted_tree` with the records ordered as numbers:
the search for 5 descends from the root through the record 3 into node 3 and
returns record 1 of that leaf, the first record equal to 5. -/
theorem btree_search_complete_witness :
    grub_hfsplus_btree_search false ex_mem 2 ex_sorted_tree 5 ex_cmp ex_env
      = some (⟨grub_err_t.GRUB_ERR_NONE, some (some ex_leaf_node), some 1⟩,
          ⟨grub_err_t.GRUB_ERR_NONE, grub_errmsg.no_message, [],
            [grub_event.malloc true, grub_event.read_node 4 1 true,
              grub_event.read_node 4 3 true]⟩) ∧
    ∃ n i env1,
      (∀ fuel, 2 ≤ fuel →
        grub_hfsplus_btree_search false ex_mem fuel ex_sorted_tree 5 ex_cmp ex_env
          = some (⟨grub_err_t.GRUB_ERR_NONE, some (some n), some i⟩, env1)) ∧
      n.type = GRUB_HFSPLUS_BTNODE_TYPE_LEAF ∧
      i < grub_be_to_cpu16 false n.count ∧
      ex_cmp (n.recptr i) 5 = 0 ∧
      env1.grub_errno = (grub_malloc ex_env).2.grub_errno ∧
      env1.grub_errmsg = (grub_malloc ex_env).2.grub_errmsg := by
  have hleafrec : ∀ r, subtree_record false ex_mem ex_sorted_tree 1 3 r → 3 ≤ r := by
    rintro r ⟨n, hn, hsub⟩
    have hn2 : n = ex_leaf_node := by
      have : (Except.ok ex_leaf_node : Except grub_err_t (grub_hfsplus_btnode Nat))
          = Except.ok n := hn
      injection this with h
      exact h.symm
    subst hn2
    rcases hsub with ⟨_, i, _, hrec⟩ | ⟨_, _, _, h0⟩
    · rw [← hrec]
      show 3 ≤ (if i = 0 then 3 else 5)
      split_ifs <;> omega
    · exact False.elim h0
  refine ⟨rfl,
    btree_search_complete false ex_mem ex_sorted_tree 5 ex_cmp (fun r : Nat => r) 5 2 ex_env
      ?_ (by decide) rfl ?_ ?_⟩
  · intro r
    unfold ex_cmp
    dsimp only
    constructor <;> constructor <;> intro h <;> omega
  · refine ⟨ex_index_three, rfl, Or.inr rfl, fun i j _ _ => le_refl _, fun _ => ⟨?_, ?_⟩⟩
    · intro i _
      refine ⟨⟨ex_leaf_node, rfl, Or.inl rfl, ?_, fun h => absurd h (by decide)⟩,
        hleafrec, ⟨3, ⟨ex_leaf_node, rfl, Or.inl ⟨rfl, 0, by decide, rfl⟩⟩, rfl⟩⟩
      intro a b _ _
      show (if a = 0 then 3 else 5) ≤ (if b = 0 then 3 else 5)
      split_ifs <;> omega
    · intro i hi
      have h1 : i + 1 < 1 := hi
      omega
  · exact ⟨5, ⟨ex_index_three, rfl, Or.inr ⟨rfl, 0, by decide,
      ⟨ex_leaf_node, rfl, Or.inl ⟨rfl, 1, by decide, rfl⟩⟩⟩⟩, by decide⟩


/-! ## The catalog search for a folder and the iteration from its position -/

/-- Against the key of folder `p` with an empty name: a record compares below
the key exactly when its parent id is below `p`, and equal exactly when its
parent id is `p` and its name is empty. -/
theorem cmp_catkey_empty_cases (le : Bool) (keya : grub_hfsplus_catrecord) (p : Nat) :
    (grub_hfsplus_cmp_catkey le keya ⟨p, [], 0⟩ < 0
      ↔ grub_be_to_cpu32 le keya.catkey.parent < p) ∧
    (grub_hfsplus_cmp_catkey le keya ⟨p, [], 0⟩ = 0
      ↔ grub_be_to_cpu32 le keya.catkey.parent = p ∧
        grub_be_to_cpu16 le keya.catkey.namelen = 0) := by
  by_cases h1 : grub_be_to_cpu32 le keya.catkey.parent > p
  · have e : grub_hfsplus_cmp_catkey le keya ⟨p, [], 0⟩ = 1 := by
      unfold grub_hfsplus_cmp_catkey
      dsimp only
      rw [if_pos h1]
    rw [e]
    constructor
    · constructor
      · intro h; exact absurd h (by decide)
      · intro h; omega
    · constructor
      · intro h; exact absurd h (by decide)
      · intro h; omega
  · by_cases h2 : grub_be_to_cpu32 le keya.catkey.parent < p
    · have e : grub_hfsplus_cmp_catkey le keya ⟨p, [], 0⟩ = -1 := by
        unfold grub_hfsplus_cmp_catkey
        dsimp only
        rw [if_neg h1, if_pos h2]
      rw [e]
      constructor
      · constructor
        · intro _; exact h2
        · intro _; decide
      · constructor
        · intro h; exact absurd h (by decide)
        · intro h; omega
    · have hp : grub_be_to_cpu32 le keya.catkey.parent = p := by omega
      rw [cmp_catkey_empty le keya ⟨p, [], 0⟩ hp rfl]
      constructor
      · constructor
        · intro h
          have := Int.natCast_nonneg (grub_be_to_cpu16 le keya.catkey.namelen)
          omega
        · intro h; omega
      · constructor
        · intro h; exact ⟨hp, Int.natCast_eq_zero.1 h⟩
        · intro h; exact Int.natCast_eq_zero.2 h.2

/-- The two ways a position has a successor in the leaf chain. -/
theorem chain_next_pos_cases {R : Type} (le : Bool) (btree : grub_hfsplus_btree R)
    (n n1 : grub_hfsplus_btnode R) (i i1 : Nat)
    (h : chain_next_pos le btree n i = some (n1, i1)) :
    (i + 1 < grub_be_to_cpu16 le n.count ∧ n1 = n ∧ i1 = i + 1) ∨
    (¬ i + 1 < grub_be_to_cpu16 le n.count ∧ n.next ≠ 0 ∧
      btree.read_node (grub_be_to_cpu32 le n.next) = Except.ok n1 ∧
      0 < grub_be_to_cpu16 le n1.count ∧ i1 = 0) := by
  unfold chain_next_pos at h
  by_cases h1 : i + 1 < grub_be_to_cpu16 le n.count
  · rw [if_pos h1] at h
    injection h with h
    injection h with ha hb
    exact Or.inl ⟨h1, ha.symm, hb.symm⟩
  · rw [if_neg h1] at h
    by_cases hz : n.next = 0
    · rw [if_pos hz] at h
      cases h
    · rw [if_neg hz] at h
      cases hr : btree.read_node (grub_be_to_cpu32 le n.next) with
      | error e =>
        rw [hr] at h
        cases h
      | ok m =>
        rw [hr] at h
        dsimp only at h
        by_cases hc : 0 < grub_be_to_cpu16 le m.count
        · rw [if_pos hc] at h
          injection h with h
          injection h with ha hb
          subst ha
          exact Or.inr ⟨h1, hz, rfl, hc, hb.symm⟩
        · rw [if_neg hc] at h
          cases h

/-- A pass of the iteration loop whose record loop starts at a record on
which the hook returns 0 goes as the pass that starts at the next record,
with what the hook left. -/
theorem btree_iterate_body_consume {R σ : Type} (le : Bool) (btree : grub_hfsplus_btree R)
    (hook : R → σ → grub_env → Int × σ × grub_env) (n : grub_hfsplus_btnode R)
    (i sv nc : Nat) (ctx : σ) (e : grub_env)
    (hi : i < grub_be_to_cpu16 le n.count) (h0 : (hook (n.recptr i) ctx e).1 = 0) :
    btree_iterate_body le btree hook ⟨n, i, sv, nc, ctx, e⟩ =
      btree_iterate_body le btree hook
        ⟨n, i + 1, sv, nc, (hook (n.recptr i) ctx e).2.1, (hook (n.recptr i) ctx e).2.2⟩ := by
  have hv : btree_iterate_visit le hook ⟨n, i, sv, nc, ctx, e⟩ =
      btree_iterate_visit le hook
        ⟨n, i + 1, sv, nc, (hook (n.recptr i) ctx e).2.1, (hook (n.recptr i) ctx e).2.2⟩ := by
    unfold btree_iterate_visit
    dsimp only
    obtain ⟨c, hc⟩ : ∃ c, grub_be_to_cpu16 le n.count - i = c + 1 :=
      ⟨grub_be_to_cpu16 le n.count - i - 1, by omega⟩
    have hc2 : grub_be_to_cpu16 le n.count - (i + 1) = c := by omega
    rw [hc, hc2, btree_iterate_records_succ, if_neg (not_not.2 h0)]
  unfold btree_iterate_body
  dsimp only
  rw [hv]

/-- A pass of the iteration loop whose record loop starts at a record on
which the hook returns non-zero returns 1 with what the hook left. -/
theorem btree_iterate_body_stop_at {R σ : Type} (le : Bool) (btree : grub_hfsplus_btree R)
    (hook : R → σ → grub_env → Int × σ × grub_env) (n : grub_hfsplus_btnode R)
    (i sv nc : Nat) (ctx : σ) (e : grub_env)
    (hi : i < grub_be_to_cpu16 le n.count) (h1 : (hook (n.recptr i) ctx e).1 ≠ 0) :
    btree_iterate_body le btree hook ⟨n, i, sv, nc, ctx, e⟩ =
      loop_ctl.ret ⟨1, (hook (n.recptr i) ctx e).2.1, (hook (n.recptr i) ctx e).2.2⟩ := by
  have hv : btree_iterate_visit le hook ⟨n, i, sv, nc, ctx, e⟩ =
      (true, (hook (n.recptr i) ctx e).2.1, (hook (n.recptr i) ctx e).2.2) := by
    unfold btree_iterate_visit
    dsimp only
    obtain ⟨c, hc⟩ : ∃ c, grub_be_to_cpu16 le n.count - i = c + 1 :=
      ⟨grub_be_to_cpu16 le n.count - i - 1, by omega⟩
    rw [hc, btree_iterate_records_succ, if_pos h1]
  rw [btree_iterate_body_stop le btree hook _ (by rw [hv]), hv]

/-- A pass of the iteration loop that starts behind the last record of the
node, the node having a successor that reads well and the loop test failing:
the loop goes on at record 0 of the successor. -/
theorem btree_iterate_body_hop {R σ : Type} (le : Bool) (btree : grub_hfsplus_btree R)
    (hook : R → σ → grub_env → Int × σ × grub_env) (n m : grub_hfsplus_btnode R)
    (i sv nc : Nat) (ctx : σ) (e : grub_env)
    (hi : grub_be_to_cpu16 le n.count ≤ i) (hz : n.next ≠ 0)
    (hg : ¬ (nc ≠ 0 ∧ n.next = sv))
    (hr : btree.read_node (grub_be_to_cpu32 le n.next) = Except.ok m) :
    btree_iterate_body le btree hook ⟨n, i, sv, nc, ctx, e⟩ =
      loop_ctl.again ⟨m, 0, if checkpoint_due nc then n.next else sv, (nc + 1) % 2 ^ 64, ctx,
        trace_event e (grub_event.read_node btree.file.fileid (grub_be_to_cpu32 le n.next)
          true)⟩ := by
  have hv : btree_iterate_visit le hook ⟨n, i, sv, nc, ctx, e⟩ = (false, ctx, e) := by
    unfold btree_iterate_visit
    dsimp only
    have hc : grub_be_to_cpu16 le n.count - i = 0 := by omega
    rw [hc]
    rfl
  unfold btree_iterate_body
  dsimp only
  rw [hv]
  dsimp only
  rw [if_neg (by decide), if_neg hz, if_neg hg, hr]

/-- From a position on whose record the hook returns 0, the position having a
successor in the leaf chain and the loop test failing if a node is to be
read: the iteration loop goes on from the successor, with what the hook left,
after at most one more pass, having at most read the next node. -/
theorem btree_iterate_advance {R σ : Type} (le : Bool) (btree : grub_hfsplus_btree R)
    (hook : R → σ → grub_env → Int × σ × grub_env) (n n1 : grub_hfsplus_btnode R)
    (i i1 sv nc : Nat) (ctx : σ) (e : grub_env)
    (hi : i < grub_be_to_cpu16 le n.count) (h0 : (hook (n.recptr i) ctx e).1 = 0)
    (hnext : chain_next_pos le btree n i = some (n1, i1))
    (hguard : ¬ i + 1 < grub_be_to_cpu16 le n.count → ¬ (nc ≠ 0 ∧ n.next = sv)) :
    ∃ (sv1 nc1 c : Nat) (e1 : grub_env),
      i1 < grub_be_to_cpu16 le n1.count ∧ c ≤ 1 ∧
      e1.mm = (hook (n.recptr i) ctx e).2.2.mm ∧
      trace_ext (fun ev => ev.is_hook = false) (hook (n.recptr i) ctx e).2.2 e1 ∧
      ((n1 = n ∧ nc1 = nc ∧ sv1 = sv) ∨
        (¬ i + 1 < grub_be_to_cpu16 le n.count ∧ i1 = 0 ∧
          btree.read_node (grub_be_to_cpu32 le n.next) = Except.ok n1 ∧
          nc1 = (nc + 1) % 2 ^ 64 ∧ sv1 = if checkpoint_due nc then n.next else sv)) ∧
      ∀ fuel, while_loop (btree_iterate_body le btree hook) (fuel + 1 + c)
          ⟨n, i, sv, nc, ctx, e⟩
        = while_loop (btree_iterate_body le btree hook) (fuel + 1)
          ⟨n1, i1, sv1, nc1, (hook (n.recptr i) ctx e).2.1, e1⟩ := by
  rcases chain_next_pos_cases le btree n n1 i i1 hnext with
    ⟨h1, hn, hi1⟩ | ⟨h1, hz, hr, hc, hi1⟩
  · subst hn
    subst hi1
    refine ⟨sv, nc, 0, (hook (n1.recptr i) ctx e).2.2, h1, by omega, rfl,
      trace_ext_refl _ _, Or.inl ⟨rfl, rfl, rfl⟩, ?_⟩
    intro fuel
    rw [Nat.add_zero, while_loop_succ, while_loop_succ,
      btree_iterate_body_consume le btree hook n1 i sv nc ctx e hi h0]
  · subst hi1
    refine ⟨if checkpoint_due nc then n.next else sv, (nc + 1) % 2 ^ 64, 1,
      trace_event (hook (n.recptr i) ctx e).2.2
        (grub_event.read_node btree.file.fileid (grub_be_to_cpu32 le n.next) true),
      hc, le_refl _, rfl, trace_ext_event _ _ _ rfl, Or.inr ⟨h1, rfl, hr, rfl, rfl⟩, ?_⟩
    intro fuel
    rw [while_loop_succ, btree_iterate_body_consume le btree hook n i sv nc ctx e hi h0,
      btree_iterate_body_hop le btree hook n n1 (i + 1) sv nc _ _ (by omega) hz (hguard h1) hr]

/-- **C24.** On a well-formed catalog tree (a leaf root or index levels above
the leaves, `subtree_wf` for a key order with which the comparator agrees on
the search key) that holds the thread record of the root directory (parent id
2, empty name), where the position after a record keyed (2, empty name)
holds the one child of the root directory, a regular file named "A", and
the position after that a record with another parent id (the three in one
leaf or in leaves linked by `next`): with no allocation failing and a visitor
that does not stop on "A",
* `grub_hfsplus_btree_search` for the key {parent id 2, empty name} under
  `grub_hfsplus_cmp_catkey` returns a position (leaf node, record index),
  the record there keyed (2, empty name);
* from that position `grub_hfsplus_btree_iterate_node` with the record
  handler `list_nodes` makes exactly one visitor call, for the file entry
  named "A", and returns 1 because the handler stops at the record with the
  other parent id. -/
theorem catalog_search_then_iterate {τ K : Type} [LinearOrder K] (le : Bool)
    (case_sensitive : Bool) (btree : grub_hfsplus_btree grub_hfsplus_catrecord)
    (kr : grub_hfsplus_catrecord → K) (kk : K) (d : Nat)
    (utf8 : List Nat → List Nat) (uninit dir : grub_hfsplus_file)
    (hook : List Nat → Nat → grub_hfsplus_file → τ → Int × τ) (hook_data : τ)
    (env : grub_env)
    (hdir : dir.fileid = 2)
    (hmm : env.mm = []) (hsize : btree.nodesize ≠ 0)
    (hcmp : ∀ r,
      (grub_hfsplus_cmp_catkey le r ⟨2, [], 0⟩ < 0 ↔ kr r < kk) ∧
      (grub_hfsplus_cmp_catkey le r ⟨2, [], 0⟩ = 0 ↔ kr r = kk))
    (hwf : subtree_wf le catrecord_mem btree kr d btree.root)
    (hthread : ∃ r, subtree_record le catrecord_mem btree d btree.root r ∧
      grub_be_to_cpu32 le r.catkey.parent = 2 ∧ grub_be_to_cpu16 le r.catkey.namelen = 0)
    (hchild : ∀ n i, subtree_leaf le catrecord_mem btree d btree.root n →
      i < grub_be_to_cpu16 le n.count →
      grub_be_to_cpu32 le (n.recptr i).catkey.parent = 2 →
      grub_be_to_cpu16 le (n.recptr i).catkey.namelen = 0 →
      grub_be_to_cpu16 le (catrecord_fileinfo le (n.recptr i)).type
        = GRUB_HFSPLUS_FILETYPE_DIR_THREAD ∧
      ∃ n1 i1 n2 i2,
        chain_next_pos le btree n i = some (n1, i1) ∧
        chain_next_pos le btree n1 i1 = some (n2, i2) ∧
        grub_be_to_cpu32 le (n1.recptr i1).catkey.parent = 2 ∧
        catkey_display_units le (n1.recptr i1).catkey = [65] ∧
        grub_be_to_cpu16 le (catrecord_fileinfo le (n1.recptr i1)).type
          = GRUB_HFSPLUS_FILETYPE_REG ∧
        grub_be_to_cpu16 le (catrecord_fileinfo le (n1.recptr i1)).mode &&& 0o170000
          = 0o100000 ∧
        grub_be_to_cpu32 le (n2.recptr i2).catkey.parent ≠ 2)
    (hgo : ∀ node, (hook (utf8 [65])
        (if case_sensitive then GRUB_FSHELP_REG
          else GRUB_FSHELP_REG ||| GRUB_FSHELP_CASE_INSENSITIVE) node hook_data).1 = 0) :
    ∃ (n : grub_hfsplus_btnode grub_hfsplus_catrecord) (i : Nat) (env1 : grub_env)
      (n1 : grub_hfsplus_btnode grub_hfsplus_catrecord) (i1 : Nat) (env2 : grub_env)
      (evs : List grub_event),
      (∀ sfuel, d ≤ sfuel →
        grub_hfsplus_btree_search le catrecord_mem sfuel btree
          (⟨2, [], 0⟩ : grub_hfsplus_catkey_internal) (grub_hfsplus_cmp_catkey le) env
        = some (⟨grub_err_t.GRUB_ERR_NONE, some (some n), some i⟩, env1)) ∧
      n.type = GRUB_HFSPLUS_BTNODE_TYPE_LEAF ∧
      i < grub_be_to_cpu16 le n.count ∧
      grub_be_to_cpu32 le (n.recptr i).catkey.parent = 2 ∧
      grub_be_to_cpu16 le (n.recptr i).catkey.namelen = 0 ∧
      chain_next_pos le btree n i = some (n1, i1) ∧
      catkey_display_units le (n1.recptr i1).catkey = [65] ∧
      (∀ fuel, 3 ≤ fuel →
        grub_hfsplus_btree_iterate_node le fuel btree n i
          (list_nodes le case_sensitive utf8 uninit dir hook) ⟨0, hook_data⟩ env1
        = some ⟨1,
            ⟨0, (hook (utf8 [65])
              (if case_sensitive then GRUB_FSHELP_REG
                else GRUB_FSHELP_REG ||| GRUB_FSHELP_CASE_INSENSITIVE)
              (list_nodes_node le uninit (catrecord_fileinfo_restored le (n1.recptr i1)))
              hook_data).2⟩,
            env2⟩) ∧
      env2.trace = env1.trace ++ evs ∧
      evs.filter (fun ev => ev.is_hook)
        = [grub_event.hook (utf8 [65])
            (if case_sensitive then GRUB_FSHELP_REG
              else GRUB_FSHELP_REG ||| GRUB_FSHELP_CASE_INSENSITIVE)
            (list_nodes_node le uninit (catrecord_fileinfo_restored le (n1.recptr i1)))] := by
  -- the search
  have hhit : ∃ r, subtree_record le catrecord_mem btree d btree.root r ∧
      grub_hfsplus_cmp_catkey le r ⟨2, [], 0⟩ = 0 := by
    obtain ⟨r, hr, hp, hn⟩ := hthread
    exact ⟨r, hr, (cmp_catkey_empty_cases le r 2).2.2 ⟨hp, hn⟩⟩
  have hmal := grub_malloc_nil env hmm
  obtain ⟨m, _, hend⟩ := subtree_wf_descent_ends le catrecord_mem btree
    (⟨2, [], 0⟩ : grub_hfsplus_catkey_internal) (grub_hfsplus_cmp_catkey le) kr kk hcmp
    d btree.root hwf hhit
  have hdist : ∀ i j a, i < j →
      descent_path le catrecord_mem btree (⟨2, [], 0⟩ : grub_hfsplus_catkey_internal)
        (grub_hfsplus_cmp_catkey le) i = some a →
      descent_path le catrecord_mem btree (⟨2, [], 0⟩ : grub_hfsplus_catkey_internal)
        (grub_hfsplus_cmp_catkey le) j ≠ some a := by
    intro i j a hij hi hj
    exact opt_iterate_cycle_forever _ _ i j a hij hi hj (m + 1) hend
  have hq := btree_search_guard_quiet le catrecord_mem btree
    (⟨2, [], 0⟩ : grub_hfsplus_catkey_internal) (grub_hfsplus_cmp_catkey le)
    (trace_event env (grub_event.malloc true)) hdist
  obtain ⟨n, i, env1, hw, hleaf, hi, hc0, _, _, hsub, hmm1⟩ := btree_search_loop_complete le
    catrecord_mem btree (⟨2, [], 0⟩ : grub_hfsplus_catkey_internal)
    (grub_hfsplus_cmp_catkey le) kr kk (trace_event env (grub_event.malloc true)) hcmp hq d 0
    (btree_search_init btree (trace_event env (grub_event.malloc true))) rfl hwf hhit
  have hmm1 : env1.mm = [] := by
    rw [hmm1]
    exact hmm
  obtain ⟨hpar0, hname0⟩ := (cmp_catkey_empty_cases le (n.recptr i) 2).2.1 hc0
  obtain ⟨htype0, n1, i1, n2, i2, hp1, hp2, hpar1, hname1, htype1, hmode1, hpar2⟩ :=
    hchild n i hsub hi hpar0 hname0
  -- the three records
  have h0 : ∀ (ctx : list_nodes_ctx τ) (e : grub_env),
      list_nodes le case_sensitive utf8 uninit dir hook (n.recptr i) ctx e = (0, ctx, e) := by
    intro ctx e
    rw [list_nodes_of_parent le case_sensitive utf8 uninit dir hook (n.recptr i) ctx e
      (by rw [hpar0, hdir]), if_pos htype0]
    unfold list_nodes_thread
    rw [if_pos hdir]
  have hnul : ¬ catkey_has_nul le (n1.recptr i1).catkey := by
    rintro ⟨j, hj, hz⟩
    have hmem : grub_be_to_cpu16 le ((n1.recptr i1).catkey.name j)
        ∈ catkey_units le (n1.recptr i1).catkey := by
      unfold catkey_units
      exact List.mem_map.2 ⟨j, List.mem_range.2 hj, rfl⟩
    have hmem2 : (fun c => if c = 47 then 58 else c)
        (grub_be_to_cpu16 le ((n1.recptr i1).catkey.name j))
        ∈ catkey_display_units le (n1.recptr i1).catkey :=
      List.mem_map.2 ⟨_, hmem, rfl⟩
    rw [hname1, hz] at hmem2
    simp at hmem2
  have hk : list_nodes_filetype le (catrecord_fileinfo le (n1.recptr i1)) = GRUB_FSHELP_REG := by
    unfold list_nodes_filetype
    rw [if_pos htype1]
    exact if_pos hmode1
  have h1 : ∀ (e : grub_env), e.mm = [] →
      list_nodes le case_sensitive utf8 uninit dir hook (n1.recptr i1) ⟨0, hook_data⟩ e
        = (0,
          ⟨0, (hook (utf8 [65])
            (if case_sensitive then GRUB_FSHELP_REG
              else GRUB_FSHELP_REG ||| GRUB_FSHELP_CASE_INSENSITIVE)
            (list_nodes_node le uninit (catrecord_fileinfo_restored le (n1.recptr i1)))
            hook_data).2⟩,
          trace_event (trace_event (trace_event e (grub_event.malloc true))
            (grub_event.malloc true))
            (grub_event.hook (utf8 [65])
              (if case_sensitive then GRUB_FSHELP_REG
                else GRUB_FSHELP_REG ||| GRUB_FSHELP_CASE_INSENSITIVE)
              (list_nodes_node le uninit
                (catrecord_fileinfo_restored le (n1.recptr i1))))) := by
    intro e he
    have hm1 := grub_malloc_nil e he
    have hm2 := grub_malloc_nil (trace_event e (grub_event.malloc true)) he
    rw [list_nodes_of_parent le case_sensitive utf8 uninit dir hook (n1.recptr i1) _ e
      (by rw [hpar1, hdir]), if_neg (by rw [htype1]; decide), hk, if_neg (by decide),
      list_nodes_entry_dispatch le case_sensitive utf8 uninit hook (n1.recptr i1).catkey
        (catrecord_body le (n1.recptr i1)) GRUB_FSHELP_REG _ e hnul
        (by rw [hm1]) (by rw [hm1, hm2]),
      hname1, hm1, hm2]
    show (_, _, _) = (_, _, _)
    unfold catrecord_fileinfo_restored
    rw [hgo]
  have h2 : ∀ (ctx : list_nodes_ctx τ) (e : grub_env),
      list_nodes le case_sensitive utf8 uninit dir hook (n2.recptr i2) ctx e = (1, ctx, e) :=
    fun ctx e => list_nodes_other_parent le case_sensitive utf8 uninit dir hook (n2.recptr i2)
      ctx e (by rw [hdir]; exact hpar2)
  -- the walk
  have hwalk : ∀ sv0 : Nat, ∃ (env2 : grub_env) (evs : List grub_event),
      while_loop (btree_iterate_body le btree
          (list_nodes le case_sensitive utf8 uninit dir hook)) 3
          ⟨n, i, sv0, 0, ⟨0, hook_data⟩, env1⟩
        = some ⟨1,
            ⟨0, (hook (utf8 [65])
              (if case_sensitive then GRUB_FSHELP_REG
                else GRUB_FSHELP_REG ||| GRUB_FSHELP_CASE_INSENSITIVE)
              (list_nodes_node le uninit (catrecord_fileinfo_restored le (n1.recptr i1)))
              hook_data).2⟩,
            env2⟩ ∧
      env2.trace = env1.trace ++ evs ∧
      evs.filter (fun ev => ev.is_hook)
        = [grub_event.hook (utf8 [65])
            (if case_sensitive then GRUB_FSHELP_REG
              else GRUB_FSHELP_REG ||| GRUB_FSHELP_CASE_INSENSITIVE)
            (list_nodes_node le uninit (catrecord_fileinfo_restored le (n1.recptr i1)))] := by
    intro sv0
    obtain ⟨sv1, nc1, c1, e1, hi1, hc1, hm1, ⟨pre1, ht1, hq1⟩, hst1, hw1⟩ :=
      btree_iterate_advance le btree (list_nodes le case_sensitive utf8 uninit dir hook)
        n n1 i i1 sv0 0 ⟨0, hook_data⟩ env1 hi (by rw [h0]) hp1 (fun _ h => h.1 rfl)
    rw [h0] at hm1 ht1 hw1
    dsimp only at hm1 ht1 hw1
    have he1 : e1.mm = [] := by rw [hm1]; exact hmm1
    have hguard2 : ¬ i1 + 1 < grub_be_to_cpu16 le n1.count →
        ¬ (nc1 ≠ 0 ∧ n1.next = sv1) := by
      intro hlast hg
      rcases hst1 with ⟨_, hnc, _⟩ | ⟨_, hi10, hr1, _, hsv⟩
      · exact hg.1 hnc
      · rcases chain_next_pos_cases le btree n1 n2 i1 i2 hp2 with
          ⟨h, _, _⟩ | ⟨_, _, hr2, _, hi20⟩
        · exact hlast h
        · have hsv2 : sv1 = n.next := by
            rw [hsv]
            exact if_pos (by decide)
          rw [hg.2, hsv2, hr1] at hr2
          injection hr2 with hr2
          apply hpar2
          rw [← hr2, hi20, ← hi10]
          exact hpar1
    obtain ⟨sv2, nc2, c2, e2, hi2, hc2, hm2, ⟨pre2, ht2, hq2⟩, _, hw2⟩ :=
      btree_iterate_advance le btree (list_nodes le case_sensitive utf8 uninit dir hook)
        n1 n2 i1 i2 sv1 nc1 ⟨0, hook_data⟩ e1 hi1 (by rw [h1 e1 he1]) hp2 hguard2
    rw [h1 e1 he1] at hm2 ht2 hw2
    dsimp only at hm2 ht2 hw2
    refine ⟨e2, pre1 ++ [grub_event.malloc true, grub_event.malloc true,
      grub_event.hook (utf8 [65])
        (if case_sensitive then GRUB_FSHELP_REG
          else GRUB_FSHELP_REG ||| GRUB_FSHELP_CASE_INSENSITIVE)
        (list_nodes_node le uninit (catrecord_fileinfo_restored le (n1.recptr i1)))] ++ pre2,
      ?_, ?_, ?_⟩
    · have hlast : while_loop (btree_iterate_body le btree
          (list_nodes le case_sensitive utf8 uninit dir hook)) (c2 + 1 + c1)
          ⟨n, i, sv0, 0, ⟨0, hook_data⟩, env1⟩ = some ⟨1,
            ⟨0, (hook (utf8 [65])
              (if case_sensitive then GRUB_FSHELP_REG
                else GRUB_FSHELP_REG ||| GRUB_FSHELP_CASE_INSENSITIVE)
              (list_nodes_node le uninit (catrecord_fileinfo_restored le (n1.recptr i1)))
              hook_data).2⟩,
            e2⟩ := by
        have e : c2 + 1 = 0 + 1 + c2 := by omega
        rw [hw1 c2, e, hw2 0, Nat.zero_add, while_loop_succ,
          btree_iterate_body_stop_at le btree _ n2 i2 sv2 nc2 _ e2 hi2
            (by rw [h2]; exact one_ne_zero),
          h2]
      exact while_loop_mono_le _ (c2 + 1 + c1) 3 _ _ (by omega) hlast
    · rw [ht2]
      simp only [trace_event, ht1, List.append_assoc, List.singleton_append,
        List.cons_append, List.nil_append]
    · have f1 : pre1.filter (fun ev => ev.is_hook) = [] :=
        List.filter_eq_nil_iff.2 (fun ev hev => by rw [hq1 ev hev]; decide)
      have f2 : pre2.filter (fun ev => ev.is_hook) = [] :=
        List.filter_eq_nil_iff.2 (fun ev hev => by rw [hq2 ev hev]; decide)
      rw [List.filter_append, List.filter_append, f1, f2]
      rfl
  obtain ⟨env2, evs, hit, htr, hfil⟩ := hwalk (2 ^ 64 - 1)
  refine ⟨n, i, env1, n1, i1, env2, evs, ?_, hleaf, hi, hpar0, hname0, hp1, hname1, ?_,
    htr, hfil⟩
  · intro sfuel hf
    unfold grub_hfsplus_btree_search
    rw [if_neg hsize, hmal]
    dsimp only
    rw [if_pos rfl]
    exact while_loop_mono_le _ d sfuel _ _ hf hw
  · intro fuel hf
    unfold grub_hfsplus_btree_iterate_node
    exact while_loop_mono_le _ 3 fuel _ _ hf hit

/-- Instance of C24 on the two-level catalog `ex_catalog_tree` (big-endian
host), whose first leaf starts with the record of the root folder (parent id
1): the search keyed {2, ""} goes through the index root into the first leaf
and returns its record 1, the thread record; iterating from there reads the
second leaf and calls the visitor once, for the regular file "A", before the
thread record of the file (parent id 20) ends the iteration. -/
theorem catalog_search_then_iterate_witness :
    grub_hfsplus_btree_search false catrecord_mem 2 ex_catalog_tree
        (⟨2, [], 0⟩ : grub_hfsplus_catkey_internal) (grub_hfsplus_cmp_catkey false) ex_env
      = some (⟨grub_err_t.GRUB_ERR_NONE, some (some ex_catalog_leaf_a), some 1⟩,
          ⟨grub_err_t.GRUB_ERR_NONE, grub_errmsg.no_message, [],
            [grub_event.malloc true, grub_event.read_node 4 1 true,
              grub_event.read_node 4 2 true]⟩) ∧
    grub_hfsplus_btree_iterate_node false 3 ex_catalog_tree ex_catalog_leaf_a 1
        (list_nodes false true (fun l => l) (ex_file 0) (ex_file 2) ex_dir_hook) ⟨0, 0⟩ ex_env
      = some ⟨1, ⟨0, 1⟩,
          ⟨grub_err_t.GRUB_ERR_NONE, grub_errmsg.no_message, [],
            [grub_event.read_node 4 3 true, grub_event.malloc true, grub_event.malloc true,
              grub_event.hook [65] GRUB_FSHELP_REG
                (list_nodes_node false (ex_file 0)
                  (ex_catfile GRUB_HFSPLUS_FILETYPE_REG))]⟩⟩ ∧
    ∃ (n : grub_hfsplus_btnode grub_hfsplus_catrecord) (i : Nat) (env1 : grub_env)
      (n1 : grub_hfsplus_btnode grub_hfsplus_catrecord) (i1 : Nat) (env2 : grub_env)
      (evs : List grub_event),
      (∀ sfuel, 2 ≤ sfuel →
        grub_hfsplus_btree_search false catrecord_mem sfuel ex_catalog_tree
          (⟨2, [], 0⟩ : grub_hfsplus_catkey_internal) (grub_hfsplus_cmp_catkey false) ex_env
        = some (⟨grub_err_t.GRUB_ERR_NONE, some (some n), some i⟩, env1)) ∧
      n.type = GRUB_HFSPLUS_BTNODE_TYPE_LEAF ∧
      i < grub_be_to_cpu16 false n.count ∧
      grub_be_to_cpu32 false (n.recptr i).catkey.parent = 2 ∧
      grub_be_to_cpu16 false (n.recptr i).catkey.namelen = 0 ∧
      chain_next_pos false ex_catalog_tree n i = some (n1, i1) ∧
      catkey_display_units false (n1.recptr i1).catkey = [65] ∧
      (∀ fuel, 3 ≤ fuel →
        grub_hfsplus_btree_iterate_node false fuel ex_catalog_tree n i
          (list_nodes false true (fun l => l) (ex_file 0) (ex_file 2) ex_dir_hook)
          ⟨0, 0⟩ env1
        = some ⟨1,
            ⟨0, (ex_dir_hook [65] (if true then GRUB_FSHELP_REG
                else GRUB_FSHELP_REG ||| GRUB_FSHELP_CASE_INSENSITIVE)
              (list_nodes_node false (ex_file 0)
                (catrecord_fileinfo_restored false (n1.recptr i1))) 0).2⟩,
            env2⟩) ∧
      env2.trace = env1.trace ++ evs ∧
      evs.filter (fun ev => ev.is_hook)
        = [grub_event.hook [65] (if true then GRUB_FSHELP_REG
              else GRUB_FSHELP_REG ||| GRUB_FSHELP_CASE_INSENSITIVE)
            (list_nodes_node false (ex_file 0)
              (catrecord_fileinfo_restored false (n1.recptr i1)))] := by
  have hrec_a : ∀ r, subtree_record false catrecord_mem ex_catalog_tree 1 2 r →
      r = ex_catalog_leaf_a.recptr 0 ∨ r = ex_catalog_leaf_a.recptr 1 := by
    rintro r ⟨n, hn, hsub⟩
    have hn2 : n = ex_catalog_leaf_a := by
      have : (Except.ok ex_catalog_leaf_a :
          Except grub_err_t (grub_hfsplus_btnode grub_hfsplus_catrecord)) = Except.ok n := hn
      injection this with h
      exact h.symm
    subst hn2
    rcases hsub with ⟨_, i, hi, hrec⟩ | ⟨_, _, _, h0⟩
    · have hi2 : i < 2 := hi
      rw [← hrec]
      interval_cases i
      · exact Or.inl rfl
      · exact Or.inr rfl
    · exact False.elim h0
  have hrec_b : ∀ r, subtree_record false catrecord_mem ex_catalog_tree 1 3 r →
      r = ex_catalog_leaf_b.recptr 0 ∨ r = ex_catalog_leaf_b.recptr 1 := by
    rintro r ⟨n, hn, hsub⟩
    have hn2 : n = ex_catalog_leaf_b := by
      have : (Except.ok ex_catalog_leaf_b :
          Except grub_err_t (grub_hfsplus_btnode grub_hfsplus_catrecord)) = Except.ok n := hn
      injection this with h
      exact h.symm
    subst hn2
    rcases hsub with ⟨_, i, hi, hrec⟩ | ⟨_, _, _, h0⟩
    · have hi2 : i < 2 := hi
      rw [← hrec]
      interval_cases i
      · exact Or.inl rfl
      · exact Or.inr rfl
    · exact False.elim h0
  have hwf_a : subtree_wf false catrecord_mem ex_catalog_tree ex_catalog_order 1 2 := by
    refine ⟨ex_catalog_leaf_a, rfl, Or.inl rfl, ?_, fun h => absurd h (by decide)⟩
    intro a b hab hb
    have hb2 : b < 2 := hb
    interval_cases b <;> interval_cases a <;> decide
  have hwf_b : subtree_wf false catrecord_mem ex_catalog_tree ex_catalog_order 1 3 := by
    refine ⟨ex_catalog_leaf_b, rfl, Or.inl rfl, ?_, fun h => absurd h (by decide)⟩
    intro a b hab hb
    have hb2 : b < 2 := hb
    interval_cases b <;> interval_cases a <;> decide
  refine ⟨rfl, rfl,
    catalog_search_then_iterate false true ex_catalog_tree ex_catalog_order 131072 2
      (fun l => l) (ex_file 0) (ex_file 2) ex_dir_hook 0 ex_env rfl rfl (by decide)
      ?_ ?_ ?_ ?_ (fun _ => rfl)⟩
  · intro r
    obtain ⟨a, b⟩ := cmp_catkey_empty_cases false r 2
    have hl := grub_be_to_cpu16_lt false r.catkey.namelen
    rw [a, b]
    unfold ex_catalog_order
    constructor <;> constructor <;> intro h <;> omega
  · refine ⟨ex_catalog_index, rfl, Or.inr rfl, ?_, fun _ => ⟨?_, ?_⟩⟩
    · intro a b hab hb
      have hb2 : b < 2 := hb
      interval_cases b <;> interval_cases a <;> decide
    · intro i hi
      have hi2 : i < 2 := hi
      interval_cases i
      · refine ⟨hwf_a, ?_, ⟨ex_catalog_leaf_a.recptr 0,
          ⟨ex_catalog_leaf_a, rfl, Or.inl ⟨rfl, 0, by decide, rfl⟩⟩, by decide⟩⟩
        intro r hr
        rcases hrec_a r hr with h | h <;> rw [h] <;> decide
      · refine ⟨hwf_b, ?_, ⟨ex_catalog_leaf_b.recptr 0,
          ⟨ex_catalog_leaf_b, rfl, Or.inl ⟨rfl, 0, by decide, rfl⟩⟩, by decide⟩⟩
        intro r hr
        rcases hrec_b r hr with h | h <;> rw [h] <;> decide
    · intro i hi r r1 hr hr1
      have hi2 : i + 1 < 2 := hi
      have hi0 : i = 0 := by omega
      subst hi0
      rcases hrec_a r hr with h | h <;> rcases hrec_b r1 hr1 with h1 | h1 <;>
        rw [h, h1] <;> decide
  · exact ⟨ex_catalog_leaf_a.recptr 1,
      ⟨ex_catalog_index, rfl, Or.inr ⟨rfl, 0, by decide,
        ⟨ex_catalog_leaf_a, rfl, Or.inl ⟨rfl, 1, by decide, rfl⟩⟩⟩⟩, rfl, rfl⟩
  · rintro n i ⟨n0, hn0, hsub⟩ hi hp hl
    have hn2 : n0 = ex_catalog_index := by
      have : (Except.ok ex_catalog_index :
          Except grub_err_t (grub_hfsplus_btnode grub_hfsplus_catrecord)) = Except.ok n0 := hn0
      injection this with h
      exact h.symm
    subst hn2
    rcases hsub with ⟨ht, _⟩ | ⟨_, j, hj, n1, hn1, hsub1⟩
    · exact absurd ht (by decide)
    · have hj2 : j < 2 := hj
      rcases hsub1 with ⟨_, hnn⟩ | ⟨_, _, _, h0⟩
      · subst hnn
        interval_cases j
        · have e : n1 = ex_catalog_leaf_a := by
            have : (Except.ok ex_catalog_leaf_a :
                Except grub_err_t (grub_hfsplus_btnode grub_hfsplus_catrecord))
                = Except.ok n1 := hn1
            injection this with h
            exact h.symm
          subst e
          have hi2 : i < 2 := hi
          interval_cases i
          · exact absurd hp (by decide)
          · exact ⟨rfl, ex_catalog_leaf_b, 0, ex_catalog_leaf_b, 1, rfl, rfl, rfl, rfl, rfl,
              rfl, by decide⟩
        · have e : n1 = ex_catalog_leaf_b := by
            have : (Except.ok ex_catalog_leaf_b :
                Except grub_err_t (grub_hfsplus_btnode grub_hfsplus_catrecord))
                = Except.ok n1 := hn1
            injection this with h
            exact h.symm
          subst e
          have hi2 : i < 2 := hi
          interval_cases i
          · exact absurd hl (by decide)
          · exact absurd hp (by decide)
      · exact False.elim h0

/-! ## Overflow lookups on a well-formed extents-overflow tree -/

/-- The extent-key comparator agrees with the lexicographic order of the
decoded keys (file id, fork type, start block). -/
theorem cmp_extkey_lex (le : Bool) (r : grub_hfsplus_extrecord)
    (key : grub_hfsplus_extkey_internal) :
    (grub_hfsplus_cmp_extkey le r key < 0
      ↔ extrecord_key le r < toLex (key.fileid, toLex (key.type, key.start))) ∧
    (grub_hfsplus_cmp_extkey le r key = 0
      ↔ extrecord_key le r = toLex (key.fileid, toLex (key.type, key.start))) ∧
    (grub_hfsplus_cmp_extkey le r key = 0 ↔ extkey_decoded le r.extkey = key) := by
  have hlt : grub_hfsplus_cmp_extkey le r key < 0 ↔
      (grub_be_to_cpu32 le r.extkey.fileid < key.fileid ∨
        (grub_be_to_cpu32 le r.extkey.fileid = key.fileid ∧
          (r.extkey.type < key.type ∨
            (r.extkey.type = key.type ∧ grub_be_to_cpu32 le r.extkey.start < key.start)))) := by
    unfold grub_hfsplus_cmp_extkey
    dsimp only
    split_ifs <;> omega
  have heq : grub_hfsplus_cmp_extkey le r key = 0 ↔
      (grub_be_to_cpu32 le r.extkey.fileid = key.fileid ∧ r.extkey.type = key.type ∧
        grub_be_to_cpu32 le r.extkey.start = key.start) := by
    clear hlt
    unfold grub_hfsplus_cmp_extkey
    dsimp only
    split_ifs <;> constructor <;> intro h <;> first | omega | exact absurd h (by decide)
  refine ⟨?_, ?_, ?_⟩
  · rw [hlt]
    unfold extrecord_key
    rw [Prod.Lex.lt_iff]
    dsimp only
    rw [Prod.Lex.lt_iff]
  · rw [heq]
    unfold extrecord_key
    constructor
    · rintro ⟨h1, h2, h3⟩
      rw [h1, h2, h3]
    · intro h
      have h1 := congrArg (fun p : Lex (Nat × Lex (Nat × Nat)) => (ofLex p).1) h
      have h2 := congrArg (fun p : Lex (Nat × Lex (Nat × Nat)) => (ofLex (ofLex p).2).1) h
      have h3 := congrArg (fun p : Lex (Nat × Lex (Nat × Nat)) => (ofLex (ofLex p).2).2) h
      exact ⟨h1, h2, h3⟩
  · rw [heq]
    unfold extkey_decoded
    obtain ⟨kf, ks, kt⟩ := key
    constructor
    · rintro ⟨h1, h2, h3⟩
      dsimp only at h1 h2 h3
      rw [h1, h2, h3]
    · intro h
      injection h with h1 h2 h3
      exact ⟨h1, h3, h2⟩

/-- A record of a leaf of a subtree is a leaf record of the subtree. -/
theorem subtree_leaf_record {R : Type} (le : Bool) (mem : grub_hfsplus_key_mem R)
    (btree : grub_hfsplus_btree R) :
    ∀ (d id : Nat) (n : grub_hfsplus_btnode R) (i : Nat),
      subtree_leaf le mem btree d id n → i < grub_be_to_cpu16 le n.count →
      subtree_record le mem btree d id (n.recptr i) := by
  intro d
  induction d with
  | zero => intro id n i h _; exact False.elim h
  | succ d ih =>
    rintro id n i ⟨n0, hread, hsub⟩ hi
    rcases hsub with ⟨hleaf, hn⟩ | ⟨hidx, j, hj, hrest⟩
    · subst hn
      exact ⟨n0, hread, Or.inl ⟨hleaf, i, hi, rfl⟩⟩
    · exact ⟨n0, hread, Or.inr ⟨hidx, j, hj, ih _ n i hrest hi⟩⟩

/-- On a tree with a node size that is well formed for a key order with which
the comparator agrees on the search key, and that holds a leaf record
comparing equal to the key, the search, no allocation failing, returns a leaf
record of the tree that compares equal to the key. -/
theorem btree_search_finds {R KI K : Type} [LinearOrder K] (le : Bool)
    (mem : grub_hfsplus_key_mem R) (btree : grub_hfsplus_btree R) (key : KI)
    (compare_keys : R → KI → Int) (kr : R → K) (kk : K) (d : Nat) (env : grub_env)
    (hcmp : ∀ r, (compare_keys r key < 0 ↔ kr r < kk) ∧ (compare_keys r key = 0 ↔ kr r = kk))
    (hsize : btree.nodesize ≠ 0) (hmm : env.mm = [])
    (hwf : subtree_wf le mem btree kr d btree.root)
    (hhit : ∃ r, subtree_record le mem btree d btree.root r ∧ compare_keys r key = 0) :
    ∃ n i env1,
      (∀ fuel, d ≤ fuel →
        grub_hfsplus_btree_search le mem fuel btree key compare_keys env
          = some (⟨grub_err_t.GRUB_ERR_NONE, some (some n), some i⟩, env1)) ∧
      i < grub_be_to_cpu16 le n.count ∧
      compare_keys (n.recptr i) key = 0 ∧
      subtree_record le mem btree d btree.root (n.recptr i) ∧
      env1.mm = [] := by
  have hmal := grub_malloc_nil env hmm
  obtain ⟨m, _, hend⟩ := subtree_wf_descent_ends le mem btree key compare_keys kr kk hcmp
    d btree.root hwf hhit
  have hdist : ∀ i j a, i < j →
      descent_path le mem btree key compare_keys i = some a →
      descent_path le mem btree key compare_keys j ≠ some a := by
    intro i j a hij hi hj
    exact opt_iterate_cycle_forever _ _ i j a hij hi hj (m + 1) hend
  have hq := btree_search_guard_quiet le mem btree key compare_keys
    (trace_event env (grub_event.malloc true)) hdist
  obtain ⟨n, i, env1, hw, _, hi, hc0, _, _, hsub, hmm1⟩ := btree_search_loop_complete le
    mem btree key compare_keys kr kk (trace_event env (grub_event.malloc true)) hcmp hq d 0
    (btree_search_init btree (trace_event env (grub_event.malloc true))) rfl hwf hhit
  refine ⟨n, i, env1, ?_, hi, hc0, subtree_leaf_record le mem btree d _ n i hsub hi, ?_⟩
  · intro fuel hf
    unfold grub_hfsplus_btree_search
    rw [if_neg hsize, hmal]
    dsimp only
    rw [if_pos rfl]
    exact while_loop_mono_le _ d fuel _ _ hf hw
  · rw [hmm1]
    exact hmm

/-- **C1.** Let `node` be a file node other than the extents-overflow file,
`inline` its 8 inline extents (the resource fork's if it is compressed) and
`recs` the extent lists of its overflow records.  Let the extents-overflow
tree, if there are such records, have a node size and be well formed for the
order of the keys (file id, fork type, start block): no path longer than `d`
nodes, every node an index node or a leaf with its records in ascending key
order, the key of each index record the smallest key of the subtree of its
child, keys of consecutive subtrees ascending.  Let the tree hold, for every
`i`, a leaf record keyed (file id of the node, its fork type, start block
`overflow_start i` = total of the inline extents and of records `0 .. i-1`,
below `2 ^ 32`), the records so keyed holding the extents `recs[i]`.  Then
for every `fileblock` below the sum of all totals, `grub_hfsplus_read_block`
returns (no allocation failing, each search given `d` passes of fuel and the
loop one pass per extent list) the `fileblock`-th element of the block
sequence obtained by expanding the inline extents and then the records'
extents, in order, into individual physical blocks. -/
theorem read_block_resolves {CatR AttrR : Type} (le : Bool) (sfuel d : Nat)
    (data : grub_hfsplus_data CatR grub_hfsplus_extrecord AttrR) (node : grub_hfsplus_file)
    (recs : List grub_hfsplus_extents) (fileblock : Nat) (env : grub_env)
    (hid : node.fileid ≠ GRUB_HFSPLUS_FILEID_OVERFLOW)
    (hmm : env.mm = [])
    (hsf : d ≤ sfuel)
    (htree : recs ≠ [] →
      data.extoverflow_tree.nodesize ≠ 0 ∧
      subtree_wf le extrecord_mem data.extoverflow_tree (extrecord_key le) d
        data.extoverflow_tree.root)
    (hrecs : ∀ i e1, recs[i]? = some e1 →
      overflow_start le (read_block_inline node) recs i < 2 ^ 32 ∧
      (∃ r, subtree_record le extrecord_mem data.extoverflow_tree d
          data.extoverflow_tree.root r ∧
        extkey_decoded le r.extkey
          = ⟨node.fileid, overflow_start le (read_block_inline node) recs i,
              if node.compressed then 0xff else 0⟩) ∧
      ∀ r, subtree_record le extrecord_mem data.extoverflow_tree d
          data.extoverflow_tree.root r →
        extkey_decoded le r.extkey
          = ⟨node.fileid, overflow_start le (read_block_inline node) recs i,
              if node.compressed then 0xff else 0⟩ →
        r.extents = e1)
    (hb : fileblock <
      extents_total le (read_block_inline node) + (recs.map (extents_total le)).sum) :
    ∃ blk env1,
      (∀ fuel, recs.length + 1 ≤ fuel →
        grub_hfsplus_read_block le fuel sfuel data node fileblock env = some (blk, env1)) ∧
      (file_blocks le (read_block_inline node) recs)[fileblock]? = some blk := by
  have hfind : ∀ i e1, recs[i]? = some e1 →
      overflow_start le (read_block_inline node) recs i < 2 ^ 32 ∧
      ∀ env0 : grub_env, env0.mm = [] →
        ∃ nd off env1,
          grub_hfsplus_btree_search le extrecord_mem sfuel data.extoverflow_tree
            (⟨node.fileid, overflow_start le (read_block_inline node) recs i,
              if node.compressed then 0xff else 0⟩ : grub_hfsplus_extkey_internal)
            (grub_hfsplus_cmp_extkey le) env0
            = some (⟨grub_err_t.GRUB_ERR_NONE, some (some nd), some off⟩, env1) ∧
          env1.mm = [] ∧ (nd.recptr off).extents = e1 := by
    intro i e1 hi
    obtain ⟨hstart, ⟨r, hr, hkey⟩, hall⟩ := hrecs i e1 hi
    refine ⟨hstart, ?_⟩
    intro env0 h0
    have hne : recs ≠ [] := by
      intro h
      rw [h] at hi
      simp at hi
    obtain ⟨hsize, hwf⟩ := htree hne
    obtain ⟨nd, off, env1, hs, _, hc0, hsub, hmm1⟩ := btree_search_finds le extrecord_mem
      data.extoverflow_tree
      (⟨node.fileid, overflow_start le (read_block_inline node) recs i,
        if node.compressed then 0xff else 0⟩ : grub_hfsplus_extkey_internal)
      (grub_hfsplus_cmp_extkey le) (extrecord_key le) _ d env0
      (fun r1 => ⟨(cmp_extkey_lex le r1 _).1, (cmp_extkey_lex le r1 _).2.1⟩)
      hsize h0 hwf ⟨r, hr, (cmp_extkey_lex le r _).2.2.2 hkey⟩
    exact ⟨nd, off, env1, hs sfuel hsf, hmm1,
      hall _ hsub ((cmp_extkey_lex le _ _).2.2.1 hc0)⟩
  obtain ⟨blk, env1, hw, _, hblk⟩ := read_block_loop_spec le sfuel data node fileblock hid
    recs (read_block_inline node) 0 fileblock env hmm (by omega)
    (by
      intro i e1 hi
      obtain ⟨a1, a2⟩ := hfind i e1 hi
      unfold overflow_start at a1 a2
      refine ⟨by omega, ?_⟩
      intro env0 h0
      obtain ⟨nd1, off1, env3, b1, b2, b3⟩ := a2 env0 h0
      refine ⟨nd1, off1, env3, ?_, b2, b3⟩
      rw [← b1]
      congr 2
      omega)
    hb
  refine ⟨blk, env1, ?_, hblk⟩
  intro fuel hf
  unfold grub_hfsplus_read_block
  have := while_loop_mono_le _ _ fuel _ _ hf hw
  unfold read_block_inline at this
  rw [this]
  rfl

/-- Instance of C1 on `ex_fragmented_file` in `ex_data`, whose overflow tree is
one leaf with its two records in key order: logical block 16 lies in the
second overflow record (blocks 15..17, physical 700..702), and two overflow
searches, keyed at start blocks 10 and 15, lead to physical block 701. -/
theorem read_block_resolves_witness :
    grub_hfsplus_read_block false 3 1 ex_data ex_fragmented_file 16 ex_env =
      some (701,
        ⟨grub_err_t.GRUB_ERR_NONE, grub_errmsg.no_message, [],
          [grub_event.search 3 (grub_hfsplus_key_internal.extkey ⟨100, 10, 0⟩),
            grub_event.malloc true, grub_event.read_node 3 1 true,
            grub_event.search 3 (grub_hfsplus_key_internal.extkey ⟨100, 15, 0⟩),
            grub_event.malloc true, grub_event.read_node 3 1 true]⟩) ∧
    ∃ blk env1,
      (∀ fuel, [ex_one_extent 500 5, ex_one_extent 700 3].length + 1 ≤ fuel →
        grub_hfsplus_read_block false fuel 1 ex_data ex_fragmented_file 16 ex_env
          = some (blk, env1)) ∧
      (file_blocks false (read_block_inline ex_fragmented_file)
        [ex_one_extent 500 5, ex_one_extent 700 3])[16]? = some blk := by
  have hrec : ∀ r, subtree_record false extrecord_mem ex_data.extoverflow_tree 1
      ex_data.extoverflow_tree.root r →
      r = ex_overflow_leaf.recptr 0 ∨ r = ex_overflow_leaf.recptr 1 := by
    rintro r ⟨n, hn, hsub⟩
    have hn2 : n = ex_overflow_leaf := by
      have : (Except.ok ex_overflow_leaf :
          Except grub_err_t (grub_hfsplus_btnode grub_hfsplus_extrecord)) = Except.ok n := hn
      injection this with h
      exact h.symm
    subst hn2
    rcases hsub with ⟨_, i, hi, hrec⟩ | ⟨_, _, _, h0⟩
    · have hi2 : i < 2 := hi
      rw [← hrec]
      interval_cases i
      · exact Or.inl rfl
      · exact Or.inr rfl
    · exact False.elim h0
  refine ⟨rfl,
    read_block_resolves false 1 1 ex_data ex_fragmented_file
      [ex_one_extent 500 5, ex_one_extent 700 3] 16 ex_env (by decide) rfl (le_refl _)
      (fun _ => ⟨by decide, ex_overflow_leaf, rfl, Or.inl rfl, ?_,
        fun h => absurd h (by decide)⟩)
      ?_ (by decide)⟩
  · intro a b hab hb
    have hb2 : b < 2 := hb
    interval_cases b <;> interval_cases a <;> decide
  · intro i e1 hi
    rcases i with _ | _ | i
    · simp only [List.getElem?_cons_zero, Option.some.injEq] at hi
      subst hi
      refine ⟨by decide, ⟨ex_overflow_leaf.recptr 0,
        ⟨ex_overflow_leaf, rfl, Or.inl ⟨rfl, 0, by decide, rfl⟩⟩, rfl⟩, ?_⟩
      intro r hr hk
      rcases hrec r hr with h | h
      · rw [h]
        rfl
      · rw [h] at hk
        exact absurd hk (by decide)
    · simp only [List.getElem?_cons_succ, List.getElem?_cons_zero,
        Option.some.injEq] at hi
      subst hi
      refine ⟨by decide, ⟨ex_overflow_leaf.recptr 1,
        ⟨ex_overflow_leaf, rfl, Or.inl ⟨rfl, 1, by decide, rfl⟩⟩, rfl⟩, ?_⟩
      intro r hr hk
      rcases hrec r hr with h | h
      · rw [h] at hk
        exact absurd hk (by decide)
      · rw [h]
        rfl
    · simp at hi

/-- Counterexample to C1 as stated: the extents-overflow tree of
`ex_misfiled_data` holds, for file 100 and the data fork, the records keyed
at start blocks 10 and 15 that continue the inline extents of
`ex_fragmented_file` (10 blocks, then 5 and 3), so that logical block 12 is
physical block 502; but the index record above their leaf is keyed (file
200, data fork, start 0), the search for (file 100, start 10) breaks off at
that record and reports no match, and `grub_hfsplus_read_block` returns -1
with `GRUB_ERR_READ_ERROR`. -/
theorem read_block_misfiled_record :
    (∃ r, subtree_record false extrecord_mem ex_misfiled_data.extoverflow_tree 2
        ex_misfiled_data.extoverflow_tree.root r ∧
      extkey_decoded false r.extkey = ⟨100, 10, 0⟩ ∧ r.extents = ex_one_extent 500 5) ∧
    (∃ r, subtree_record false extrecord_mem ex_misfiled_data.extoverflow_tree 2
        ex_misfiled_data.extoverflow_tree.root r ∧
      extkey_decoded false r.extkey = ⟨100, 15, 0⟩ ∧ r.extents = ex_one_extent 700 3) ∧
    (file_blocks false (read_block_inline ex_fragmented_file)
      [ex_one_extent 500 5, ex_one_extent 700 3])[12]? = some 502 ∧
    grub_hfsplus_read_block false 3 2 ex_misfiled_data ex_fragmented_file 12 ex_env =
      some (0xffffffffffffffff,
        ⟨grub_err_t.GRUB_ERR_READ_ERROR, grub_errmsg.no_block_found, [],
          [grub_event.search 3 (grub_hfsplus_key_internal.extkey ⟨100, 10, 0⟩),
            grub_event.malloc true, grub_event.read_node 3 1 true]⟩) :=
  ⟨⟨ex_overflow_leaf.recptr 0,
      ⟨ex_misfiled_index, rfl, Or.inr ⟨rfl, 0, by decide,
        ⟨ex_overflow_leaf, rfl, Or.inl ⟨rfl, 0, by decide, rfl⟩⟩⟩⟩, rfl, rfl⟩,
    ⟨ex_overflow_leaf.recptr 1,
      ⟨ex_misfiled_index, rfl, Or.inr ⟨rfl, 0, by decide,
        ⟨ex_overflow_leaf, rfl, Or.inl ⟨rfl, 1, by decide, rfl⟩⟩⟩⟩, rfl, rfl⟩,
    by decide, rfl⟩

end Hfsplus
